import Mathlib

/-!
# The Fortran binding of libCEED and QFunctions of its examples

A shallow embedding of the integer-handle tables of the Fortran binding
(`interface/ceed-fortran.c`) and of its entry points, and of the QFunctions of
`bp2.h` and `mixed-linear-elasticity-3d.h`, followed by the properties
established about them.

Conventions of the embedding.

* A C `int` is an `Int`.  Signed overflow is undefined behaviour in C, so the
  embedding describes the executions in which no counter leaves the `int`
  range; division is C division (`Int.tdiv`, rounding toward zero).
* A Fortran argument `int *x` that the wrapper dereferences is passed as the
  value `*x` held on entry; the values the wrapper leaves behind are returned.
  An argument that the wrapper only forwards as a pointer is passed as its
  address.
* The library proper (`ceed.h`, `ceed-backend.h`) is not part of the sources.
  Every call into it is answered by an oracle (`Oracle`) chosen freely by the
  environment, and is recorded, with the arguments it receives, in a call
  trace.
-/

set_option linter.unusedVariables false
set_option linter.unusedTactic false
set_option linter.unreachableTactic false
set_option linter.unnecessarySeqFocus false

namespace LibCeed

/-! ## Sentinels (`ceed-fortran.c`, lines 25-33) -/

def FORTRAN_REQUEST_IMMEDIATE : Int := -1
def FORTRAN_REQUEST_ORDERED : Int := -2
def FORTRAN_NULL : Int := -3
def FORTRAN_STRIDES_BACKEND : Int := -4
def FORTRAN_VECTOR_ACTIVE : Int := -5
def FORTRAN_VECTOR_NONE : Int := -6
def FORTRAN_ELEMRESTRICTION_NONE : Int := -7
def FORTRAN_BASIS_COLLOCATED : Int := -8
def FORTRAN_QFUNCTION_NONE : Int := -9

/-- The nine sentinel values, in the order of their definition. -/
def sentinels : List Int :=
  [FORTRAN_REQUEST_IMMEDIATE, FORTRAN_REQUEST_ORDERED, FORTRAN_NULL,
   FORTRAN_STRIDES_BACKEND, FORTRAN_VECTOR_ACTIVE, FORTRAN_VECTOR_NONE,
   FORTRAN_ELEMRESTRICTION_NONE, FORTRAN_BASIS_COLLOCATED, FORTRAN_QFUNCTION_NONE]

/-- `CEED_SYCL_NUMBER_FIELDS` of `sycl-types.h`. -/
def CEED_SYCL_NUMBER_FIELDS : Nat := 16

/-! ## Values exchanged with the library -/

/-- The named constants of `ceed.h` that the binding hands to the library.
They are kept symbolic: the header is not part of the sources. -/
inductive CConst
  | CEED_REQUEST_IMMEDIATE
  | CEED_REQUEST_ORDERED
  | CEED_STRIDES_BACKEND
  | CEED_VECTOR_ACTIVE
  | CEED_VECTOR_NONE
  | CEED_ELEMRESTRICTION_NONE
  | CEED_BASIS_COLLOCATED
  | CEED_QFUNCTION_NONE
  | CEED_MEM_HOST
  | CEED_OWN_POINTER
  | stdout
  /-- The type `CeedScalar`, as the operand of `sizeof`. -/
  | CeedScalar
  /-- The structure behind `CeedFortranContext`, as the operand of `sizeof`. -/
  | CeedFortranContext_private
  deriving DecidableEq, Repr

/-- An object pointer (`Ceed`, `CeedVector`, ...): `NULL`, an object of the
library, a named constant, or `wild`, the indeterminate value read from a
slot that was never written or lies outside its table. -/
inductive Obj
  | NULL
  | ref (id : Nat)
  | const (c : CConst)
  | wild
  deriving DecidableEq, Repr

/-- The eight handle tables of the binding. -/
inductive Tbl
  | Ceed
  | CeedVector
  | CeedElemRestriction
  | CeedRequest
  | CeedBasis
  | CeedQFunctionContext
  | CeedQFunction
  | CeedOperator
  deriving DecidableEq, Repr

/-- One argument of a library call. -/
inductive Arg
  /-- An integer or enumeration value passed by value. -/
  | int (v : Int)
  /-- An object pointer passed by value. -/
  | obj (o : Obj)
  /-- The address `&X_dict[i]` of a table slot. -/
  | slot (t : Tbl) (i : Int)
  /-- The address `&X_dict` of the array pointer of a table. -/
  | dict (t : Tbl)
  /-- The address of caller memory (a Fortran variable or array element). -/
  | addr (a : Int)
  /-- A NUL-terminated character buffer. -/
  | str (s : List Nat)
  /-- The address of a local variable of the wrapper. -/
  | loc
  /-- A list of object pointers (a local array). -/
  | objs (os : List Obj)
  /-- A user function pointer. -/
  | fn (f : Nat)
  /-- The address of `CeedQFunctionFortranStub`. -/
  | stub
  /-- The byte count `((size_t) n) * sizeof(T)`, for the type named `T`. -/
  | size (n : Int) (T : CConst)
  deriving DecidableEq, Repr

/-- The functions called by the binding.  The last three are not library
functions: `fctx_f` is the user callback stored in the Fortran context, and
`store_f`, `store_innerctx` stand for the assignments to the fields `f` and
`innerctx` of a Fortran context. -/
inductive Ext
  | CeedInit | CeedIsDeterministic | CeedGetPreferredMemType | CeedView | CeedDestroy
  | CeedVectorCreate | CeedVectorSetArray | CeedVectorTakeArray | CeedVectorSyncArray
  | CeedVectorSetValue | CeedVectorGetArray | CeedVectorGetArrayRead
  | CeedVectorRestoreArray | CeedVectorRestoreArrayRead | CeedVectorNorm
  | CeedVectorReciprocal | CeedVectorView | CeedVectorDestroy
  | CeedElemRestrictionCreate | CeedElemRestrictionCreateStrided
  | CeedElemRestrictionCreateBlocked | CeedElemRestrictionCreateBlockedStrided
  | CeedElemRestrictionApply | CeedElemRestrictionApplyBlock
  | CeedElemRestrictionGetMultiplicity | CeedElemRestrictionGetELayout
  | CeedElemRestrictionView | CeedElemRestrictionDestroy
  | CeedBasisCreateTensorH1Lagrange | CeedBasisCreateTensorH1 | CeedBasisCreateH1
  | CeedBasisView | CeedQRFactorization | CeedSymmetricSchurDecomposition
  | CeedSimultaneousDiagonalization | CeedBasisGetCollocatedGrad | CeedBasisApply
  | CeedBasisGetNumNodes | CeedBasisGetNumQuadraturePoints | CeedBasisGetInterp1D
  | CeedBasisDestroy | CeedGaussQuadrature | CeedLobattoQuadrature
  | CeedQFunctionContextCreate | CeedQFunctionContextSetData
  | CeedQFunctionContextGetData | CeedQFunctionContextRestoreData
  | CeedQFunctionContextView | CeedQFunctionContextDestroy
  | CeedQFunctionCreateInterior | CeedQFunctionCreateInteriorByName
  | CeedQFunctionCreateIdentity | CeedQFunctionAddInput | CeedQFunctionAddOutput
  | CeedQFunctionSetContext | CeedQFunctionGetContext | CeedQFunctionSetFortranStatus
  | CeedQFunctionView | CeedQFunctionApply | CeedQFunctionDestroy
  | CeedOperatorCreate | CeedCompositeOperatorCreate | CeedOperatorSetField
  | CeedCompositeOperatorAddSub | CeedOperatorLinearAssembleQFunction
  | CeedOperatorLinearAssembleDiagonal | CeedOperatorMultigridLevelCreate
  | CeedOperatorMultigridLevelCreateTensorH1 | CeedOperatorMultigridLevelCreateH1
  | CeedOperatorView | CeedOperatorCreateFDMElementInverse | CeedOperatorApply
  | CeedOperatorApplyAdd | CeedOperatorDestroy
  | CeedCalloc | CeedFree
  | fctx_f | store_f | store_innerctx
  deriving DecidableEq, Repr

/-- One recorded call: the function and the arguments, in the order of the
C call. -/
structure Call where
  fn : Ext
  args : List Arg
  deriving DecidableEq, Repr

/-- The answer of the environment to one call: the return code, the object
pointers it stored through the output pointers of the call (in argument
order; `none` when it stored nothing there) and the integers or addresses it
stored through the remaining output pointers. -/
structure Resp where
  ierr : Int
  objs : List (Option Obj)
  ints : List Int
  deriving DecidableEq, Repr

/-- The environment: `lib f k` answers the `k`-th call (counted from 0) that
one invocation of a wrapper makes to the function `f`. -/
abbrev Oracle := Ext → Nat → Resp

/-- The object the call stored through its `i`-th output pointer, if any. -/
def Resp.stored (r : Resp) (i : Nat) : Option Obj := (r.objs.getD i none)

/-- The content of a local object variable after the call: what the call
stored through its `i`-th output pointer, otherwise indeterminate. -/
def Resp.outObj (r : Resp) (i : Nat) : Obj := (r.stored i).getD Obj.wild

/-- The integer or address found, after the call, in the variable behind the
`i`-th of its remaining output pointers. -/
def Resp.outInt (r : Resp) (i : Nat) : Int := r.ints.getD i 0

/-! ## Handle tables -/

/-- One handle table: the four file-scope variables `X_dict`, `X_count`,
`X_n`, `X_count_max`.  The array `X_dict` is the list of its slots; the
`NULL` array has no slot. -/
structure Table where
  dict : List Obj
  count : Int
  n : Int
  count_max : Int
  deriving DecidableEq, Repr

/-- The initial content of the four variables: `NULL, 0, 0, 0`. -/
def Table.init : Table := { dict := [], count := 0, n := 0, count_max := 0 }

/-- Modelled from the spec: `CeedRealloc` is a macro of `ceed-backend.h`, which
is not among the sources, and the spec only names the "integer-handle
tables" that it resizes.  It is given the behaviour of C `realloc` on an array
of pointers: the array gets `m` slots, the old slots keep their content and
the new ones are indeterminate.  The wrappers discard its return code. -/
def CeedRealloc (m : Int) (dict : List Obj) : List Obj :=
  (dict ++ List.replicate (m.toNat - dict.length) Obj.wild).take m.toNat

/-- Modelled from the spec: `CeedFree` is a macro of `ceed-backend.h`, which is
not among the sources.  It is given the behaviour the wrappers rely on: the
array is released and the pointer reset to `NULL`. -/
def CeedFree (_dict : List Obj) : List Obj := []

/-- The read `X_dict[i]`. -/
def Table.get (t : Table) (i : Int) : Obj :=
  if 0 ≤ i then t.dict.getD i.toNat Obj.wild else Obj.wild

/-- The write `X_dict[i] = o` (no slot is written when `i` is out of range). -/
def Table.put (t : Table) (i : Int) (o : Obj) : Table :=
  if 0 ≤ i then { t with dict := t.dict.set i.toNat o } else t

/-- The effect on slot `i` of a call that received `&X_dict[i]` as an output
pointer: the slot holds what the call stored, and is unchanged if the call
stored nothing. -/
def Table.libStore (t : Table) (i : Int) (o : Option Obj) : Table :=
  match o with
  | some v => t.put i v
  | none => t

/-- The block that opens every create wrapper:
`if (X_count == X_count_max) { X_count_max += X_count_max/2 + 1;
CeedRealloc(X_count_max, &X_dict); }`. -/
def Table.grow (t : Table) : Table :=
  if t.count = t.count_max then
    let m := t.count_max + (t.count_max.tdiv 2 + 1)
    { t with count_max := m, dict := CeedRealloc m t.dict }
  else t

/-- The statements `*h = X_count++; X_n++;` as far as the table is concerned
(the handle issued is the count before the increment). -/
def Table.issue (t : Table) : Table :=
  { t with count := t.count + 1, n := t.n + 1 }

/-- The statements that close a successful destroy:
`X_n--; if (X_n == 0) { CeedFree(&X_dict); X_count = 0; X_count_max = 0; }`. -/
def Table.release (t : Table) : Table :=
  let t1 : Table := { t with n := t.n - 1 }
  if t1.n = 0 then { t1 with dict := CeedFree t1.dict, count := 0, count_max := 0 }
  else t1

/-- The file-scope state of the binding: its eight tables. -/
structure State where
  Ceed : Table
  CeedVector : Table
  CeedElemRestriction : Table
  CeedRequest : Table
  CeedBasis : Table
  CeedQFunctionContext : Table
  CeedQFunction : Table
  CeedOperator : Table
  deriving DecidableEq, Repr

/-- The state at program start. -/
def State.init : State :=
  { Ceed := Table.init, CeedVector := Table.init, CeedElemRestriction := Table.init,
    CeedRequest := Table.init, CeedBasis := Table.init,
    CeedQFunctionContext := Table.init, CeedQFunction := Table.init,
    CeedOperator := Table.init }

/-- What a wrapper leaves behind: the tables, the value of `*err`, the values
of the other integer arguments it may write (listed in the comment of each
wrapper) and the calls it made, in order. -/
structure Ret where
  st : State
  err : Int
  out : List Int
  calls : List Call
  deriving DecidableEq, Repr

/-! ## Fortran strings -/

/-- The effect of `strncpy(dst, src, len)` on `dst[0..len-1]` for a source of
exactly `len` characters: the characters before the first NUL, then NULs. -/
def strncpy (src : List Nat) : List Nat :=
  let head := src.takeWhile (fun c => c != 0)
  head ++ List.replicate (src.length - head.length) 0

/-- The macro `FIX_STRING`: the content of `stringname_c[0..len]` after the
copy and the terminator write.  A length above 1023 raises
`CeedError(NULL, 1, ...)`; no result is produced for it (`none`): either the
error handler ends the program, or the copy that follows leaves the buffer
(see `FIX_STRING.trace`). -/
def FIX_STRING (stringname : List Nat) : Option (List Nat) :=
  if stringname.length > 1023 then none
  else some (strncpy stringname ++ [0])

/-- What the call `CeedError(NULL, 1, ...)` of `FIX_STRING` does with the
control flow.  `ceed.h` and the error handlers of the library are not among
the sources, so both behaviours are kept: the call comes back to the macro
with its error code (`returns`), or the handler ends the program (`aborts`). -/
inductive CeedErrorOutcome
  | returns
  | aborts
  deriving DecidableEq, Repr

/-- One expansion of `FIX_STRING` as seen from the buffer `stringname_c[1024]`:
the error codes passed to `CeedError` and the writes `(index, byte)` into the
buffer, in the order in which they happen. -/
structure FixStringTrace where
  raised : List Int
  writes : List (Nat × Nat)
  deriving DecidableEq, Repr

/-- The macro `FIX_STRING`, statement by statement, for a Fortran string whose
length argument is `stringname.length`: the test `stringname_len > 1023` with
its call of `CeedError`, then, unless that call ended the program,
`strncpy(stringname_c, stringname, stringname_len)`, which writes the indices
`0 .. stringname_len - 1`, and `stringname_c[stringname_len] = 0`.  The macro
has no `return` and no `else` after the test. -/
def FIX_STRING.trace (onError : CeedErrorOutcome) (stringname : List Nat) : FixStringTrace :=
  let stringname_len := stringname.length
  let raised : List Int := if stringname_len > 1023 then [1] else []
  if stringname_len > 1023 ∧ onError = .aborts then { raised := raised, writes := [] }
  else { raised := raised, writes := (strncpy stringname).enum ++ [(stringname_len, 0)] }

/-! ## Entry points: Ceed -/

/-- A wrapper whose body is the single statement `*err = F(args);`. -/
def forward (lib : Oracle) (s : State) (f : Ext) (args : List Arg) : Ret :=
  { st := s, err := (lib f 0).ierr, out := [], calls := [⟨f, args⟩] }

/-- `fCeedInit(resource, ceed, err, resource_len)`; `out = [*ceed]`. -/
def fCeedInit (lib : Oracle) (s : State) (resource : List Nat) (ceed err : Int) :
    Option Ret :=
  match FIX_STRING resource with
  | none => none
  | some resource_c =>
    let t := s.Ceed.grow
    let r := lib .CeedInit 0
    let c : Call := ⟨.CeedInit, [.str resource_c, .slot .Ceed t.count]⟩
    let t := t.libStore t.count (r.stored 0)
    if r.ierr = 0 then
      some { st := { s with Ceed := t.issue }, err := r.ierr, out := [t.count], calls := [c] }
    else
      some { st := { s with Ceed := t }, err := r.ierr, out := [ceed], calls := [c] }

/-- `fCeedIsDeterministic(ceed, isDeterministic, err)`. -/
def fCeedIsDeterministic (lib : Oracle) (s : State) (ceed isDeterministic err : Int) : Ret :=
  forward lib s .CeedIsDeterministic [.obj (s.Ceed.get ceed), .addr isDeterministic]

/-- `fCeedGetPreferredMemType(ceed, type, err)`. -/
def fCeedGetPreferredMemType (lib : Oracle) (s : State) (ceed type err : Int) : Ret :=
  forward lib s .CeedGetPreferredMemType [.obj (s.Ceed.get ceed), .addr type]

/-- `fCeedView(ceed, err)`. -/
def fCeedView (lib : Oracle) (s : State) (ceed err : Int) : Ret :=
  forward lib s .CeedView [.obj (s.Ceed.get ceed), .obj (.const .stdout)]

/-- `fCeedDestroy(ceed, err)`; `out = [*ceed]`. -/
def fCeedDestroy (lib : Oracle) (s : State) (ceed err : Int) : Ret :=
  if ceed = FORTRAN_NULL then { st := s, err := err, out := [ceed], calls := [] }
  else
    let r := lib .CeedDestroy 0
    let c : Call := ⟨.CeedDestroy, [.slot .Ceed ceed]⟩
    let t := s.Ceed.libStore ceed (r.stored 0)
    if r.ierr = 0 then
      { st := { s with Ceed := t.release }, err := r.ierr, out := [FORTRAN_NULL], calls := [c] }
    else
      { st := { s with Ceed := t }, err := r.ierr, out := [ceed], calls := [c] }

/-! ## Entry points: CeedVector -/

/-- `fCeedVectorCreate(ceed, length, vec, err)`; `out = [*vec]`. -/
def fCeedVectorCreate (lib : Oracle) (s : State) (ceed length vec err : Int) : Ret :=
  let t := s.CeedVector.grow
  let r := lib .CeedVectorCreate 0
  let c : Call := ⟨.CeedVectorCreate,
    [.obj (s.Ceed.get ceed), .int length, .slot .CeedVector t.count]⟩
  let t := t.libStore t.count (r.stored 0)
  if r.ierr = 0 then
    { st := { s with CeedVector := t.issue }, err := r.ierr, out := [t.count], calls := [c] }
  else
    { st := { s with CeedVector := t }, err := r.ierr, out := [vec], calls := [c] }

/-- `fCeedVectorSetArray(vec, memtype, copymode, array, offset, err)`; `array`
is the address of the Fortran array, `offset` the value of `*offset`. -/
def fCeedVectorSetArray (lib : Oracle) (s : State)
    (vec memtype copymode array offset err : Int) : Ret :=
  forward lib s .CeedVectorSetArray
    [.obj (s.CeedVector.get vec), .int memtype, .int copymode, .addr (array + offset)]

/-- `fCeedVectorTakeArray(vec, memtype, array, offset, err)`; `out = [*offset]`. -/
def fCeedVectorTakeArray (lib : Oracle) (s : State)
    (vec memtype array offset err : Int) : Ret :=
  let vec_ := s.CeedVector.get vec
  let r := lib .CeedVectorTakeArray 0
  let b := r.outInt 0
  { st := s, err := r.ierr, out := [b - array],
    calls := [⟨.CeedVectorTakeArray, [.obj vec_, .int memtype, .loc]⟩] }

/-- `fCeedVectorSyncArray(vec, memtype, err)`. -/
def fCeedVectorSyncArray (lib : Oracle) (s : State) (vec memtype err : Int) : Ret :=
  forward lib s .CeedVectorSyncArray [.obj (s.CeedVector.get vec), .int memtype]

/-- `fCeedVectorSetValue(vec, value, err)`; `value` is the address of the
scalar, whose content is the argument of the call. -/
def fCeedVectorSetValue (lib : Oracle) (s : State) (vec value err : Int) : Ret :=
  forward lib s .CeedVectorSetValue [.obj (s.CeedVector.get vec), .addr value]

/-- `fCeedVectorGetArray(vec, memtype, array, offset, err)`; `out = [*offset]`. -/
def fCeedVectorGetArray (lib : Oracle) (s : State)
    (vec memtype array offset err : Int) : Ret :=
  let vec_ := s.CeedVector.get vec
  let r := lib .CeedVectorGetArray 0
  let b := r.outInt 0
  { st := s, err := r.ierr, out := [b - array],
    calls := [⟨.CeedVectorGetArray, [.obj vec_, .int memtype, .loc]⟩] }

/-- `fCeedVectorGetArrayRead(vec, memtype, array, offset, err)`;
`out = [*offset]`. -/
def fCeedVectorGetArrayRead (lib : Oracle) (s : State)
    (vec memtype array offset err : Int) : Ret :=
  let vec_ := s.CeedVector.get vec
  let r := lib .CeedVectorGetArrayRead 0
  let b := r.outInt 0
  { st := s, err := r.ierr, out := [b - array],
    calls := [⟨.CeedVectorGetArrayRead, [.obj vec_, .int memtype, .loc]⟩] }

/-- `fCeedVectorRestoreArray(vec, array, offset, err)`; `out = [*offset]`. -/
def fCeedVectorRestoreArray (lib : Oracle) (s : State) (vec array offset err : Int) : Ret :=
  { st := s, err := (lib .CeedVectorRestoreArray 0).ierr, out := [0],
    calls := [⟨.CeedVectorRestoreArray, [.obj (s.CeedVector.get vec), .loc]⟩] }

/-- `fCeedVectorRestoreArrayRead(vec, array, offset, err)`; `out = [*offset]`. -/
def fCeedVectorRestoreArrayRead (lib : Oracle) (s : State)
    (vec array offset err : Int) : Ret :=
  { st := s, err := (lib .CeedVectorRestoreArrayRead 0).ierr, out := [0],
    calls := [⟨.CeedVectorRestoreArrayRead, [.obj (s.CeedVector.get vec), .loc]⟩] }

/-- `fCeedVectorNorm(vec, type, norm, err)`. -/
def fCeedVectorNorm (lib : Oracle) (s : State) (vec type norm err : Int) : Ret :=
  forward lib s .CeedVectorNorm [.obj (s.CeedVector.get vec), .int type, .addr norm]

/-- `fCeedVectorReciprocal(vec, err)`. -/
def fCeedVectorReciprocal (lib : Oracle) (s : State) (vec err : Int) : Ret :=
  forward lib s .CeedVectorReciprocal [.obj (s.CeedVector.get vec)]

/-- `fCeedVectorView(vec, err)`; the format string is "%12.8f". -/
def fCeedVectorView (lib : Oracle) (s : State) (vec err : Int) : Ret :=
  forward lib s .CeedVectorView
    [.obj (s.CeedVector.get vec), .str [37, 49, 50, 46, 56, 102, 0], .obj (.const .stdout)]

/-- `fCeedVectorDestroy(vec, err)`; `out = [*vec]`. -/
def fCeedVectorDestroy (lib : Oracle) (s : State) (vec err : Int) : Ret :=
  if vec = FORTRAN_NULL then { st := s, err := err, out := [vec], calls := [] }
  else
    let r := lib .CeedVectorDestroy 0
    let c : Call := ⟨.CeedVectorDestroy, [.slot .CeedVector vec]⟩
    let t := s.CeedVector.libStore vec (r.stored 0)
    if r.ierr = 0 then
      { st := { s with CeedVector := t.release }, err := r.ierr, out := [FORTRAN_NULL],
        calls := [c] }
    else
      { st := { s with CeedVector := t }, err := r.ierr, out := [vec], calls := [c] }

/-! ## Entry points: CeedElemRestriction and CeedRequest -/

/-- `fCeedElemRestrictionCreate(ceed, nelements, esize, ncomp, compstride, lsize,
memtype, copymode, offsets, elemrestriction, err)`; `offsets` is the address of
the offset array; `out = [*elemrestriction]`. -/
def fCeedElemRestrictionCreate (lib : Oracle) (s : State)
    (ceed nelements esize ncomp compstride lsize memtype copymode offsets
      elemrestriction err : Int) : Ret :=
  let t := s.CeedElemRestriction.grow
  let offsets_ := offsets
  let r := lib .CeedElemRestrictionCreate 0
  let c : Call := ⟨.CeedElemRestrictionCreate,
    [.obj (s.Ceed.get ceed), .int nelements, .int esize, .int ncomp, .int compstride,
     .int lsize, .int memtype, .int copymode, .addr offsets_,
     .slot .CeedElemRestriction t.count]⟩
  let t := t.libStore t.count (r.stored 0)
  if r.ierr = 0 then
    { st := { s with CeedElemRestriction := t.issue }, err := r.ierr, out := [t.count],
      calls := [c] }
  else
    { st := { s with CeedElemRestriction := t }, err := r.ierr, out := [elemrestriction],
      calls := [c] }

/-- `fCeedElemRestrictionCreateStrided(ceed, nelements, esize, ncomp, lsize,
strides, elemrestriction, err)`; `strides` is the address of the stride array
and `strides_0` its first element `*strides`; `out = [*elemrestriction]`. -/
def fCeedElemRestrictionCreateStrided (lib : Oracle) (s : State)
    (ceed nelements esize ncomp lsize strides strides_0 elemrestriction err : Int) : Ret :=
  let t := s.CeedElemRestriction.grow
  let r := lib .CeedElemRestrictionCreateStrided 0
  let c : Call := ⟨.CeedElemRestrictionCreateStrided,
    [.obj (s.Ceed.get ceed), .int nelements, .int esize, .int ncomp, .int lsize,
     (if strides_0 = FORTRAN_STRIDES_BACKEND then .obj (.const .CEED_STRIDES_BACKEND)
      else .addr strides),
     .slot .CeedElemRestriction t.count]⟩
  let t := t.libStore t.count (r.stored 0)
  if r.ierr = 0 then
    { st := { s with CeedElemRestriction := t.issue }, err := r.ierr, out := [t.count],
      calls := [c] }
  else
    { st := { s with CeedElemRestriction := t }, err := r.ierr, out := [elemrestriction],
      calls := [c] }

/-- `fCeedElemRestrictionCreateBlocked(ceed, nelements, esize, blocksize, ncomp,
compstride, lsize, mtype, cmode, blkindices, elemrestriction, err)`;
`out = [*elemrestriction]`. -/
def fCeedElemRestrictionCreateBlocked (lib : Oracle) (s : State)
    (ceed nelements esize blocksize ncomp compstride lsize mtype cmode blkindices
      elemrestriction err : Int) : Ret :=
  let t := s.CeedElemRestriction.grow
  let r := lib .CeedElemRestrictionCreateBlocked 0
  let c : Call := ⟨.CeedElemRestrictionCreateBlocked,
    [.obj (s.Ceed.get ceed), .int nelements, .int esize, .int blocksize, .int ncomp,
     .int compstride, .int lsize, .int mtype, .int cmode, .addr blkindices,
     .slot .CeedElemRestriction t.count]⟩
  let t := t.libStore t.count (r.stored 0)
  if r.ierr = 0 then
    { st := { s with CeedElemRestriction := t.issue }, err := r.ierr, out := [t.count],
      calls := [c] }
  else
    { st := { s with CeedElemRestriction := t }, err := r.ierr, out := [elemrestriction],
      calls := [c] }

/-- `fCeedElemRestrictionCreateBlockedStrided(ceed, nelements, esize, blksize,
ncomp, lsize, strides, elemrestriction, err)`; `out = [*elemrestriction]`. -/
def fCeedElemRestrictionCreateBlockedStrided (lib : Oracle) (s : State)
    (ceed nelements esize blksize ncomp lsize strides elemrestriction err : Int) : Ret :=
  let t := s.CeedElemRestriction.grow
  let r := lib .CeedElemRestrictionCreateBlockedStrided 0
  let c : Call := ⟨.CeedElemRestrictionCreateBlockedStrided,
    [.obj (s.Ceed.get ceed), .int nelements, .int esize, .int blksize, .int ncomp,
     .int lsize, .addr strides, .slot .CeedElemRestriction t.count]⟩
  let t := t.libStore t.count (r.stored 0)
  if r.ierr = 0 then
    { st := { s with CeedElemRestriction := t.issue }, err := r.ierr, out := [t.count],
      calls := [c] }
  else
    { st := { s with CeedElemRestriction := t }, err := r.ierr, out := [elemrestriction],
      calls := [c] }

/-- The flag `createRequest` of the wrappers that take a request: 0 exactly
when `*rqst` is `FORTRAN_REQUEST_IMMEDIATE` (-1) or `FORTRAN_REQUEST_ORDERED`
(-2). -/
def createRequest (rqst : Int) : Bool :=
  !(rqst = FORTRAN_REQUEST_IMMEDIATE || rqst = FORTRAN_REQUEST_ORDERED)

/-- The block `if (createRequest && CeedRequest_count == CeedRequest_count_max)
{ ... }` of the wrappers that take a request. -/
def growRequest (rqst : Int) (t : Table) : Table :=
  if createRequest rqst then t.grow else t

/-- The request pointer `rqst_` handed to the library, for the request table
`t` as it stands after `growRequest`. -/
def rqst_ (rqst : Int) (t : Table) : Arg :=
  if rqst = FORTRAN_REQUEST_IMMEDIATE then .obj (.const .CEED_REQUEST_IMMEDIATE)
  else if rqst = FORTRAN_REQUEST_ORDERED then .obj (.const .CEED_REQUEST_ORDERED)
  else .slot .CeedRequest t.count

/-- The effect on the request table of a call that received `rqst_`: only a
slot address lets the call store into the table. -/
def storeRequest (rqst : Int) (t : Table) (o : Option Obj) : Table :=
  if createRequest rqst then t.libStore t.count o else t

/-- `fCeedElemRestrictionApply(elemr, tmode, uvec, ruvec, rqst, err)`;
`out = [*rqst]`. -/
def fCeedElemRestrictionApply (lib : Oracle) (s : State)
    (elemr tmode uvec ruvec rqst err : Int) : Ret :=
  let tq := growRequest rqst s.CeedRequest
  let r := lib .CeedElemRestrictionApply 0
  let c : Call := ⟨.CeedElemRestrictionApply,
    [.obj (s.CeedElemRestriction.get elemr), .int tmode, .obj (s.CeedVector.get uvec),
     .obj (s.CeedVector.get ruvec), rqst_ rqst tq]⟩
  let tq := storeRequest rqst tq (r.stored 0)
  if r.ierr = 0 ∧ createRequest rqst then
    { st := { s with CeedRequest := tq.issue }, err := r.ierr, out := [tq.count],
      calls := [c] }
  else
    { st := { s with CeedRequest := tq }, err := r.ierr, out := [rqst], calls := [c] }

/-- `fCeedElemRestrictionApplyBlock(elemr, block, tmode, uvec, ruvec, rqst,
err)`; `out = [*rqst]`. -/
def fCeedElemRestrictionApplyBlock (lib : Oracle) (s : State)
    (elemr block tmode uvec ruvec rqst err : Int) : Ret :=
  let tq := growRequest rqst s.CeedRequest
  let r := lib .CeedElemRestrictionApplyBlock 0
  let c : Call := ⟨.CeedElemRestrictionApplyBlock,
    [.obj (s.CeedElemRestriction.get elemr), .int block, .int tmode,
     .obj (s.CeedVector.get uvec), .obj (s.CeedVector.get ruvec), rqst_ rqst tq]⟩
  let tq := storeRequest rqst tq (r.stored 0)
  if r.ierr = 0 ∧ createRequest rqst then
    { st := { s with CeedRequest := tq.issue }, err := r.ierr, out := [tq.count],
      calls := [c] }
  else
    { st := { s with CeedRequest := tq }, err := r.ierr, out := [rqst], calls := [c] }

/-- `fCeedElemRestrictionGetMultiplicity(elemr, mult, err)`. -/
def fCeedElemRestrictionGetMultiplicity (lib : Oracle) (s : State)
    (elemr mult err : Int) : Ret :=
  forward lib s .CeedElemRestrictionGetMultiplicity
    [.obj (s.CeedElemRestriction.get elemr), .obj (s.CeedVector.get mult)]

/-- `fCeedElemRestrictionGetELayout(elemr, layout, err)`;
`out = [layout[0], layout[1], layout[2]]`. -/
def fCeedElemRestrictionGetELayout (lib : Oracle) (s : State)
    (elemr layout err : Int) : Ret :=
  let r := lib .CeedElemRestrictionGetELayout 0
  let layout_c : List Int := [r.outInt 0, r.outInt 1, r.outInt 2]
  { st := s, err := r.ierr,
    out := (List.range 3).map (fun i => layout_c.getD i 0),
    calls := [⟨.CeedElemRestrictionGetELayout,
      [.obj (s.CeedElemRestriction.get elemr), .loc]⟩] }

/-- `fCeedElemRestrictionView(elemr, err)`. -/
def fCeedElemRestrictionView (lib : Oracle) (s : State) (elemr err : Int) : Ret :=
  forward lib s .CeedElemRestrictionView
    [.obj (s.CeedElemRestriction.get elemr), .obj (.const .stdout)]

/-- `fCeedRequestWait(rqst, err)`.  The call of `CeedRequestWait` is commented
out in the source, so `*err` is only read; `out = []`. -/
def fCeedRequestWait (lib : Oracle) (s : State) (rqst err : Int) : Ret :=
  if err = 0 then
    { st := { s with CeedRequest := s.CeedRequest.release }, err := err, out := [],
      calls := [] }
  else
    { st := s, err := err, out := [], calls := [] }

/-- `fCeedElemRestrictionDestroy(elem, err)`; `out = [*elem]`. -/
def fCeedElemRestrictionDestroy (lib : Oracle) (s : State) (elem err : Int) : Ret :=
  if elem = FORTRAN_NULL then { st := s, err := err, out := [elem], calls := [] }
  else
    let r := lib .CeedElemRestrictionDestroy 0
    let c : Call := ⟨.CeedElemRestrictionDestroy, [.slot .CeedElemRestriction elem]⟩
    let t := s.CeedElemRestriction.libStore elem (r.stored 0)
    if r.ierr = 0 then
      { st := { s with CeedElemRestriction := t.release }, err := r.ierr,
        out := [FORTRAN_NULL], calls := [c] }
    else
      { st := { s with CeedElemRestriction := t }, err := r.ierr, out := [elem],
        calls := [c] }

/-! ## Entry points: CeedBasis -/

/-- `fCeedBasisCreateTensorH1Lagrange(ceed, dim, ncomp, P, Q, quadmode, basis,
err)`; `out = [*basis]`. -/
def fCeedBasisCreateTensorH1Lagrange (lib : Oracle) (s : State)
    (ceed dim ncomp P Q quadmode basis err : Int) : Ret :=
  let t := s.CeedBasis.grow
  let r := lib .CeedBasisCreateTensorH1Lagrange 0
  let c : Call := ⟨.CeedBasisCreateTensorH1Lagrange,
    [.obj (s.Ceed.get ceed), .int dim, .int ncomp, .int P, .int Q, .int quadmode,
     .slot .CeedBasis t.count]⟩
  let t := t.libStore t.count (r.stored 0)
  if r.ierr = 0 then
    { st := { s with CeedBasis := t.issue }, err := r.ierr, out := [t.count], calls := [c] }
  else
    { st := { s with CeedBasis := t }, err := r.ierr, out := [basis], calls := [c] }

/-- `fCeedBasisCreateTensorH1(ceed, dim, ncomp, P1d, Q1d, interp1d, grad1d,
qref1d, qweight1d, basis, err)`; `out = [*basis]`. -/
def fCeedBasisCreateTensorH1 (lib : Oracle) (s : State)
    (ceed dim ncomp P1d Q1d interp1d grad1d qref1d qweight1d basis err : Int) : Ret :=
  let t := s.CeedBasis.grow
  let r := lib .CeedBasisCreateTensorH1 0
  let c : Call := ⟨.CeedBasisCreateTensorH1,
    [.obj (s.Ceed.get ceed), .int dim, .int ncomp, .int P1d, .int Q1d, .addr interp1d,
     .addr grad1d, .addr qref1d, .addr qweight1d, .slot .CeedBasis t.count]⟩
  let t := t.libStore t.count (r.stored 0)
  if r.ierr = 0 then
    { st := { s with CeedBasis := t.issue }, err := r.ierr, out := [t.count], calls := [c] }
  else
    { st := { s with CeedBasis := t }, err := r.ierr, out := [basis], calls := [c] }

/-- `fCeedBasisCreateH1(ceed, topo, ncomp, nnodes, nqpts, interp, grad, qref,
qweight, basis, err)`; `out = [*basis]`. -/
def fCeedBasisCreateH1 (lib : Oracle) (s : State)
    (ceed topo ncomp nnodes nqpts interp grad qref qweight basis err : Int) : Ret :=
  let t := s.CeedBasis.grow
  let r := lib .CeedBasisCreateH1 0
  let c : Call := ⟨.CeedBasisCreateH1,
    [.obj (s.Ceed.get ceed), .int topo, .int ncomp, .int nnodes, .int nqpts, .addr interp,
     .addr grad, .addr qref, .addr qweight, .slot .CeedBasis t.count]⟩
  let t := t.libStore t.count (r.stored 0)
  if r.ierr = 0 then
    { st := { s with CeedBasis := t.issue }, err := r.ierr, out := [t.count], calls := [c] }
  else
    { st := { s with CeedBasis := t }, err := r.ierr, out := [basis], calls := [c] }

/-- `fCeedBasisView(basis, err)`. -/
def fCeedBasisView (lib : Oracle) (s : State) (basis err : Int) : Ret :=
  forward lib s .CeedBasisView [.obj (s.CeedBasis.get basis), .obj (.const .stdout)]

/-- `fCeedQRFactorization(ceed, mat, tau, m, n, err)`. -/
def fCeedQRFactorization (lib : Oracle) (s : State) (ceed mat tau m n err : Int) : Ret :=
  forward lib s .CeedQRFactorization
    [.obj (s.Ceed.get ceed), .addr mat, .addr tau, .int m, .int n]

/-- `fCeedSymmetricSchurDecomposition(ceed, mat, lambda, n, err)`. -/
def fCeedSymmetricSchurDecomposition (lib : Oracle) (s : State)
    (ceed mat lambda n err : Int) : Ret :=
  forward lib s .CeedSymmetricSchurDecomposition
    [.obj (s.Ceed.get ceed), .addr mat, .addr lambda, .int n]

/-- `fCeedSimultaneousDiagonalization(ceed, matA, matB, x, lambda, n, err)`. -/
def fCeedSimultaneousDiagonalization (lib : Oracle) (s : State)
    (ceed matA matB x lambda n err : Int) : Ret :=
  forward lib s .CeedSimultaneousDiagonalization
    [.obj (s.Ceed.get ceed), .addr matA, .addr matB, .addr x, .addr lambda, .int n]

/-- `fCeedBasisGetCollocatedGrad(basis, colograd1d, err)`. -/
def fCeedBasisGetCollocatedGrad (lib : Oracle) (s : State)
    (basis colograd1d err : Int) : Ret :=
  forward lib s .CeedBasisGetCollocatedGrad [.obj (s.CeedBasis.get basis), .addr colograd1d]

/-- `fCeedBasisApply(basis, nelem, tmode, emode, u, v, err)`. -/
def fCeedBasisApply (lib : Oracle) (s : State)
    (basis nelem tmode emode u v err : Int) : Ret :=
  forward lib s .CeedBasisApply
    [.obj (s.CeedBasis.get basis), .int nelem, .int tmode, .int emode,
     .obj (if u = FORTRAN_VECTOR_NONE then .const .CEED_VECTOR_NONE else s.CeedVector.get u),
     .obj (s.CeedVector.get v)]

/-- `fCeedBasisGetNumNodes(basis, P, err)`. -/
def fCeedBasisGetNumNodes (lib : Oracle) (s : State) (basis P err : Int) : Ret :=
  forward lib s .CeedBasisGetNumNodes [.obj (s.CeedBasis.get basis), .addr P]

/-- `fCeedBasisGetNumQuadraturePoints(basis, Q, err)`. -/
def fCeedBasisGetNumQuadraturePoints (lib : Oracle) (s : State)
    (basis Q err : Int) : Ret :=
  forward lib s .CeedBasisGetNumQuadraturePoints [.obj (s.CeedBasis.get basis), .addr Q]

/-- `fCeedBasisGetInterp1D(basis, interp1d, offset, err)`; `out = [*offset]`. -/
def fCeedBasisGetInterp1D (lib : Oracle) (s : State)
    (basis interp1d offset err : Int) : Ret :=
  let basis_ := s.CeedBasis.get basis
  let r := lib .CeedBasisGetInterp1D 0
  let interp1d_ := r.outInt 0
  { st := s, err := r.ierr, out := [interp1d_ - interp1d],
    calls := [⟨.CeedBasisGetInterp1D, [.obj basis_, .loc]⟩] }

/-- `fCeedBasisDestroy(basis, err)`; `out = [*basis]`. -/
def fCeedBasisDestroy (lib : Oracle) (s : State) (basis err : Int) : Ret :=
  if basis = FORTRAN_NULL then { st := s, err := err, out := [basis], calls := [] }
  else
    let r := lib .CeedBasisDestroy 0
    let c : Call := ⟨.CeedBasisDestroy, [.slot .CeedBasis basis]⟩
    let t := s.CeedBasis.libStore basis (r.stored 0)
    if r.ierr = 0 then
      { st := { s with CeedBasis := t.release }, err := r.ierr, out := [FORTRAN_NULL],
        calls := [c] }
    else
      { st := { s with CeedBasis := t }, err := r.ierr, out := [basis], calls := [c] }

/-- `fCeedGaussQuadrature(Q, qref1d, qweight1d, err)`. -/
def fCeedGaussQuadrature (lib : Oracle) (s : State) (Q qref1d qweight1d err : Int) : Ret :=
  forward lib s .CeedGaussQuadrature [.int Q, .addr qref1d, .addr qweight1d]

/-- `fCeedLobattoQuadrature(Q, qref1d, qweight1d, err)`. -/
def fCeedLobattoQuadrature (lib : Oracle) (s : State)
    (Q qref1d qweight1d err : Int) : Ret :=
  forward lib s .CeedLobattoQuadrature [.int Q, .addr qref1d, .addr qweight1d]

/-! ## Entry points: CeedQFunctionContext -/

/-- `fCeedQFunctionContextCreate(ceed, ctx, err)`; `out = [*ctx]`. -/
def fCeedQFunctionContextCreate (lib : Oracle) (s : State) (ceed ctx err : Int) : Ret :=
  let t := s.CeedQFunctionContext.grow
  let r := lib .CeedQFunctionContextCreate 0
  let c : Call := ⟨.CeedQFunctionContextCreate,
    [.obj (s.Ceed.get ceed), .slot .CeedQFunctionContext t.count]⟩
  let t := t.libStore t.count (r.stored 0)
  if r.ierr ≠ 0 then
    { st := { s with CeedQFunctionContext := t }, err := r.ierr, out := [ctx], calls := [c] }
  else
    { st := { s with CeedQFunctionContext := t.issue }, err := r.ierr, out := [t.count],
      calls := [c] }

/-- `fCeedQFunctionContextSetData(ctx, memtype, copymode, n, data, offset, err)`;
`data` is the address of the Fortran array. -/
def fCeedQFunctionContextSetData (lib : Oracle) (s : State)
    (ctx memtype copymode n data offset err : Int) : Ret :=
  forward lib s .CeedQFunctionContextSetData
    [.obj (s.CeedQFunctionContext.get ctx), .int memtype, .int copymode,
     .size n .CeedScalar, .addr (data + offset)]

/-- `fCeedQFunctionContextGetData(ctx, memtype, data, offset, err)`;
`out = [*offset]`. -/
def fCeedQFunctionContextGetData (lib : Oracle) (s : State)
    (ctx memtype data offset err : Int) : Ret :=
  let ctx_ := s.CeedQFunctionContext.get ctx
  let r := lib .CeedQFunctionContextGetData 0
  let b := r.outInt 0
  { st := s, err := r.ierr, out := [b - data],
    calls := [⟨.CeedQFunctionContextGetData, [.obj ctx_, .int memtype, .loc]⟩] }

/-- `fCeedQFunctionContextRestoreData(ctx, data, offset, err)`;
`out = [*offset]`. -/
def fCeedQFunctionContextRestoreData (lib : Oracle) (s : State)
    (ctx data offset err : Int) : Ret :=
  { st := s, err := (lib .CeedQFunctionContextRestoreData 0).ierr, out := [0],
    calls := [⟨.CeedQFunctionContextRestoreData,
      [.obj (s.CeedQFunctionContext.get ctx), .loc]⟩] }

/-- `fCeedQFunctionContextView(ctx, err)`. -/
def fCeedQFunctionContextView (lib : Oracle) (s : State) (ctx err : Int) : Ret :=
  forward lib s .CeedQFunctionContextView
    [.obj (s.CeedQFunctionContext.get ctx), .obj (.const .stdout)]

/-- `fCeedQFunctionContextDestroy(ctx, err)`; `out = [*ctx]`. -/
def fCeedQFunctionContextDestroy (lib : Oracle) (s : State) (ctx err : Int) : Ret :=
  if ctx = FORTRAN_NULL then { st := s, err := err, out := [ctx], calls := [] }
  else
    let r := lib .CeedQFunctionContextDestroy 0
    let c : Call := ⟨.CeedQFunctionContextDestroy, [.slot .CeedQFunctionContext ctx]⟩
    let t := s.CeedQFunctionContext.libStore ctx (r.stored 0)
    if r.ierr = 0 then
      { st := { s with CeedQFunctionContext := t.release }, err := r.ierr,
        out := [FORTRAN_NULL], calls := [c] }
    else
      { st := { s with CeedQFunctionContext := t }, err := r.ierr, out := [ctx],
        calls := [c] }

/-! ## Entry points: CeedQFunction -/

/-- The Fortran context `*fctx` read by the stub: the user callback `f` and the
inner context `innerctx`. -/
structure CeedFortranContext where
  f : Nat
  innerctx : Obj
  deriving DecidableEq, Repr

/-- What the stub leaves behind: its return value and the calls it made. -/
structure StubRet where
  ret : Int
  calls : List Call
  deriving DecidableEq, Repr

/-- The call `fctx->f((void *)ctx_, &nq, u[0], ..., u[15], v[0], ..., v[15],
&ierr)`: the callee, then the arguments in the order of the call. -/
def callback (fctx : CeedFortranContext) (ctx_ nq : Int) (u v : Nat → Int) : Call :=
  ⟨.fctx_f,
   [.fn fctx.f, .addr ctx_, .int nq,
    .addr (u 0), .addr (u 1), .addr (u 2), .addr (u 3), .addr (u 4), .addr (u 5),
    .addr (u 6), .addr (u 7), .addr (u 8), .addr (u 9), .addr (u 10), .addr (u 11),
    .addr (u 12), .addr (u 13), .addr (u 14), .addr (u 15),
    .addr (v 0), .addr (v 1), .addr (v 2), .addr (v 3), .addr (v 4), .addr (v 5),
    .addr (v 6), .addr (v 7), .addr (v 8), .addr (v 9), .addr (v 10), .addr (v 11),
    .addr (v 12), .addr (v 13), .addr (v 14), .addr (v 15), .loc]⟩

/-- The value of the local `ierr` after the callback returned: what the
callback stored through its last argument (the head of `ints` in its answer),
and the previous value if it stored nothing. -/
def afterCallback (r : Resp) (ierr : Int) : Int := r.ints.headD ierr

/-- `CeedQFunctionFortranStub(ctx, nq, u, v)`.  `fctx` is the content of
`*ctx`, `u` and `v` give the pointers `u[i]` and `v[i]`, and `ierr0` is the
indeterminate initial value of the local `ierr`.  `CeedChk(ierr)` is
`if (ierr) return ierr;`. -/
def CeedQFunctionFortranStub (lib : Oracle) (fctx : CeedFortranContext) (nq : Int)
    (u v : Nat → Int) (ierr0 : Int) : StubRet :=
  let innerctx := fctx.innerctx
  let ctx_0 : Int := 0
  if innerctx ≠ Obj.NULL then
    let g := lib .CeedQFunctionContextGetData 0
    let cg : Call := ⟨.CeedQFunctionContextGetData,
      [.obj innerctx, .obj (.const .CEED_MEM_HOST), .loc]⟩
    if g.ierr ≠ 0 then { ret := g.ierr, calls := [cg] }
    else
      let ctx_ := g.outInt 0
      let cf := callback fctx ctx_ nq u v
      let ierr := afterCallback (lib .fctx_f 0) g.ierr
      let rs := lib .CeedQFunctionContextRestoreData 0
      let cr : Call := ⟨.CeedQFunctionContextRestoreData, [.obj innerctx, .loc]⟩
      let ierr := rs.ierr
      if ierr ≠ 0 then { ret := ierr, calls := [cg, cf, cr] }
      else { ret := ierr, calls := [cg, cf, cr] }
  else
    let cf := callback fctx ctx_0 nq u v
    let ierr := afterCallback (lib .fctx_f 0) ierr0
    { ret := ierr, calls := [cf] }

/-- `fCeedQFunctionCreateInterior(ceed, vlength, f, source, qf, err,
source_len)`; `out = [*qf]`. -/
def fCeedQFunctionCreateInterior (lib : Oracle) (s : State) (ceed vlength : Int) (f : Nat)
    (source : List Nat) (qf err : Int) : Option Ret :=
  match FIX_STRING source with
  | none => none
  | some source_c =>
    let t := s.CeedQFunction.grow
    let qf_ := t.count
    let r := lib .CeedQFunctionCreateInterior 0
    let c1 : Call := ⟨.CeedQFunctionCreateInterior,
      [.obj (s.Ceed.get ceed), .int vlength, .stub, .str source_c, .slot .CeedQFunction qf_]⟩
    let t := t.libStore qf_ (r.stored 0)
    let err := r.ierr
    let qf := if err = 0 then t.count else qf
    let t := if err = 0 then t.issue else t
    let st : State := { s with CeedQFunction := t }
    let k := lib .CeedCalloc 0
    let c2 : Call := ⟨.CeedCalloc, [.int 1, .loc]⟩
    let fctxdata := k.outInt 0
    let err := k.ierr
    if err ≠ 0 then some { st := st, err := err, out := [qf], calls := [c1, c2] }
    else
      let w1 : Call := ⟨.store_f, [.addr fctxdata, .fn f]⟩
      let w2 : Call := ⟨.store_innerctx, [.addr fctxdata, .obj .NULL]⟩
      let cc := lib .CeedQFunctionContextCreate 0
      let c3 : Call := ⟨.CeedQFunctionContextCreate, [.obj (s.Ceed.get ceed), .loc]⟩
      let fctx := cc.outObj 0
      let err := cc.ierr
      if err ≠ 0 then
        some { st := st, err := err, out := [qf], calls := [c1, c2, w1, w2, c3] }
      else
        let sd := lib .CeedQFunctionContextSetData 0
        let c4 : Call := ⟨.CeedQFunctionContextSetData,
          [.obj fctx, .obj (.const .CEED_MEM_HOST), .obj (.const .CEED_OWN_POINTER),
           .size 1 .CeedFortranContext_private, .addr fctxdata]⟩
        let err := sd.ierr
        if err ≠ 0 then
          some { st := st, err := err, out := [qf], calls := [c1, c2, w1, w2, c3, c4] }
        else
          let sc := lib .CeedQFunctionSetContext 0
          let c5 : Call := ⟨.CeedQFunctionSetContext, [.obj (t.get qf_), .obj fctx]⟩
          let err := sc.ierr
          if err ≠ 0 then
            some { st := st, err := err, out := [qf], calls := [c1, c2, w1, w2, c3, c4, c5] }
          else
            let c6 : Call := ⟨.CeedQFunctionContextDestroy, [.loc]⟩
            if err ≠ 0 then
              some { st := st, err := err, out := [qf],
                     calls := [c1, c2, w1, w2, c3, c4, c5, c6] }
            else
              let fs := lib .CeedQFunctionSetFortranStatus 0
              let c7 : Call := ⟨.CeedQFunctionSetFortranStatus, [.obj (t.get qf_), .int 1]⟩
              some { st := st, err := fs.ierr, out := [qf],
                     calls := [c1, c2, w1, w2, c3, c4, c5, c6, c7] }

/-- `fCeedQFunctionCreateInteriorByName(ceed, name, qf, err, name_len)`;
`out = [*qf]`. -/
def fCeedQFunctionCreateInteriorByName (lib : Oracle) (s : State) (ceed : Int)
    (name : List Nat) (qf err : Int) : Option Ret :=
  match FIX_STRING name with
  | none => none
  | some name_c =>
    let t := s.CeedQFunction.grow
    let r := lib .CeedQFunctionCreateInteriorByName 0
    let c : Call := ⟨.CeedQFunctionCreateInteriorByName,
      [.obj (s.Ceed.get ceed), .str name_c, .slot .CeedQFunction t.count]⟩
    let t := t.libStore t.count (r.stored 0)
    if r.ierr = 0 then
      some { st := { s with CeedQFunction := t.issue }, err := r.ierr, out := [t.count],
             calls := [c] }
    else
      some { st := { s with CeedQFunction := t }, err := r.ierr, out := [qf], calls := [c] }

/-- `fCeedQFunctionCreateIdentity(ceed, size, inmode, outmode, qf, err)`;
`out = [*qf]`. -/
def fCeedQFunctionCreateIdentity (lib : Oracle) (s : State)
    (ceed size inmode outmode qf err : Int) : Ret :=
  let t := s.CeedQFunction.grow
  let r := lib .CeedQFunctionCreateIdentity 0
  let c : Call := ⟨.CeedQFunctionCreateIdentity,
    [.obj (s.Ceed.get ceed), .int size, .int inmode, .int outmode,
     .slot .CeedQFunction t.count]⟩
  let t := t.libStore t.count (r.stored 0)
  if r.ierr = 0 then
    { st := { s with CeedQFunction := t.issue }, err := r.ierr, out := [t.count],
      calls := [c] }
  else
    { st := { s with CeedQFunction := t }, err := r.ierr, out := [qf], calls := [c] }

/-- `fCeedQFunctionAddInput(qf, fieldname, ncomp, emode, err, fieldname_len)`;
`ncomp` and `emode` are the values `*ncomp` and `*emode`. -/
def fCeedQFunctionAddInput (lib : Oracle) (s : State) (qf : Int) (fieldname : List Nat)
    (ncomp emode err : Int) : Option Ret :=
  match FIX_STRING fieldname with
  | none => none
  | some fieldname_c =>
    let qf_ := s.CeedQFunction.get qf
    some (forward lib s .CeedQFunctionAddInput
      [.obj qf_, .str fieldname_c, .int ncomp, .int emode])

/-- `fCeedQFunctionAddOutput(qf, fieldname, ncomp, emode, err, fieldname_len)`. -/
def fCeedQFunctionAddOutput (lib : Oracle) (s : State) (qf : Int) (fieldname : List Nat)
    (ncomp emode err : Int) : Option Ret :=
  match FIX_STRING fieldname with
  | none => none
  | some fieldname_c =>
    let qf_ := s.CeedQFunction.get qf
    some (forward lib s .CeedQFunctionAddOutput
      [.obj qf_, .str fieldname_c, .int ncomp, .int emode])

/-- `fCeedQFunctionSetContext(qf, ctx, err)`. -/
def fCeedQFunctionSetContext (lib : Oracle) (s : State) (qf ctx err : Int) : Ret :=
  let qf_ := s.CeedQFunction.get qf
  let ctx_ := s.CeedQFunctionContext.get ctx
  let g := lib .CeedQFunctionGetContext 0
  let c1 : Call := ⟨.CeedQFunctionGetContext, [.obj qf_, .loc]⟩
  let fctx := g.outObj 0
  let err := g.ierr
  if err ≠ 0 then { st := s, err := err, out := [], calls := [c1] }
  else
    let d := lib .CeedQFunctionContextGetData 0
    let c2 : Call := ⟨.CeedQFunctionContextGetData,
      [.obj fctx, .obj (.const .CEED_MEM_HOST), .loc]⟩
    let fctxdata := d.outInt 0
    let err := d.ierr
    if err ≠ 0 then { st := s, err := err, out := [], calls := [c1, c2] }
    else
      let w : Call := ⟨.store_innerctx, [.addr fctxdata, .obj ctx_]⟩
      let rs := lib .CeedQFunctionContextRestoreData 0
      let c3 : Call := ⟨.CeedQFunctionContextRestoreData, [.obj fctx, .loc]⟩
      { st := s, err := rs.ierr, out := [], calls := [c1, c2, w, c3] }

/-- `fCeedQFunctionView(qf, err)`. -/
def fCeedQFunctionView (lib : Oracle) (s : State) (qf err : Int) : Ret :=
  let qf_ := s.CeedQFunction.get qf
  forward lib s .CeedQFunctionView [.obj qf_, .obj (.const .stdout)]

/-- The entry `in[k]` (or `out[k]`) built by `fCeedQFunctionApply` from the
handle `*uk`. -/
def vecOrNull (s : State) (h : Int) : Obj :=
  if h = FORTRAN_NULL then Obj.NULL else s.CeedVector.get h

/-- `fCeedQFunctionApply(qf, Q, u, ..., u15, v, ..., v15, err)`; `u k` and `v k`
are the values of the handle arguments `*uk` and `*vk` for `k < 16`. -/
def fCeedQFunctionApply (lib : Oracle) (s : State) (qf Q : Int) (u v : Nat → Int)
    (err : Int) : Ret :=
  let qf_ := s.CeedQFunction.get qf
  let k1 := lib .CeedCalloc 0
  let c1 : Call := ⟨.CeedCalloc, [.int 16, .loc]⟩
  if k1.ierr ≠ 0 then { st := s, err := k1.ierr, out := [], calls := [c1] }
  else
    let in_ := (List.range 16).map (fun k => vecOrNull s (u k))
    let k2 := lib .CeedCalloc 1
    let c2 : Call := ⟨.CeedCalloc, [.int 16, .loc]⟩
    if k2.ierr ≠ 0 then { st := s, err := k2.ierr, out := [], calls := [c1, c2] }
    else
      let out := (List.range 16).map (fun k => vecOrNull s (v k))
      let a := lib .CeedQFunctionApply 0
      let c3 : Call := ⟨.CeedQFunctionApply, [.obj qf_, .int Q, .objs in_, .objs out]⟩
      if a.ierr ≠ 0 then { st := s, err := a.ierr, out := [], calls := [c1, c2, c3] }
      else
        let f1 := lib .CeedFree 0
        let c4 : Call := ⟨.CeedFree, [.loc]⟩
        if f1.ierr ≠ 0 then { st := s, err := f1.ierr, out := [], calls := [c1, c2, c3, c4] }
        else
          let f2 := lib .CeedFree 1
          let c5 : Call := ⟨.CeedFree, [.loc]⟩
          { st := s, err := f2.ierr, out := [], calls := [c1, c2, c3, c4, c5] }

/-- `fCeedQFunctionDestroy(qf, err)`; `out = [*qf]`.  Here the return code of
`CeedFree` is assigned to `*err`. -/
def fCeedQFunctionDestroy (lib : Oracle) (s : State) (qf err : Int) : Ret :=
  if qf = FORTRAN_NULL then { st := s, err := err, out := [qf], calls := [] }
  else
    let r := lib .CeedQFunctionDestroy 0
    let c : Call := ⟨.CeedQFunctionDestroy, [.slot .CeedQFunction qf]⟩
    let t := s.CeedQFunction.libStore qf (r.stored 0)
    if r.ierr = 0 then
      let t1 : Table := { t with n := t.n - 1 }
      if t1.n = 0 then
        { st := { s with CeedQFunction :=
                    { t1 with dict := CeedFree t1.dict, count := 0, count_max := 0 } },
          err := (lib .CeedFree 0).ierr, out := [FORTRAN_NULL],
          calls := [c, ⟨.CeedFree, [.dict .CeedQFunction]⟩] }
      else
        { st := { s with CeedQFunction := t1 }, err := r.ierr, out := [FORTRAN_NULL],
          calls := [c] }
    else
      { st := { s with CeedQFunction := t }, err := r.ierr, out := [qf], calls := [c] }

/-! ## Entry points: CeedOperator -/

/-- The translation of the handles `*dqf` and `*dqfT` by `fCeedOperatorCreate`. -/
def qfOrNone (s : State) (h : Int) : Obj :=
  if h ≠ FORTRAN_QFUNCTION_NONE then s.CeedQFunction.get h
  else .const .CEED_QFUNCTION_NONE

/-- `fCeedOperatorCreate(ceed, qf, dqf, dqfT, op, err)`; `out = [*op]`. -/
def fCeedOperatorCreate (lib : Oracle) (s : State) (ceed qf dqf dqfT op err : Int) : Ret :=
  let t := s.CeedOperator.grow
  let dqf_ := qfOrNone s dqf
  let dqfT_ := qfOrNone s dqfT
  let r := lib .CeedOperatorCreate 0
  let c : Call := ⟨.CeedOperatorCreate,
    [.obj (s.Ceed.get ceed), .obj (s.CeedQFunction.get qf), .obj dqf_, .obj dqfT_,
     .slot .CeedOperator t.count]⟩
  let t := t.libStore t.count (r.stored 0)
  if r.ierr ≠ 0 then
    { st := { s with CeedOperator := t }, err := r.ierr, out := [op], calls := [c] }
  else
    { st := { s with CeedOperator := t.issue }, err := r.ierr, out := [t.count],
      calls := [c] }

/-- `fCeedCompositeOperatorCreate(ceed, op, err)`; `out = [*op]`. -/
def fCeedCompositeOperatorCreate (lib : Oracle) (s : State) (ceed op err : Int) : Ret :=
  let t := s.CeedOperator.grow
  let r := lib .CeedCompositeOperatorCreate 0
  let c : Call := ⟨.CeedCompositeOperatorCreate,
    [.obj (s.Ceed.get ceed), .slot .CeedOperator t.count]⟩
  let t := t.libStore t.count (r.stored 0)
  if r.ierr ≠ 0 then
    { st := { s with CeedOperator := t }, err := r.ierr, out := [op], calls := [c] }
  else
    { st := { s with CeedOperator := t.issue }, err := r.ierr, out := [t.count],
      calls := [c] }

/-- `fCeedOperatorSetField(op, fieldname, r, b, v, err, fieldname_len)`. -/
def fCeedOperatorSetField (lib : Oracle) (s : State) (op : Int) (fieldname : List Nat)
    (r b v err : Int) : Option Ret :=
  match FIX_STRING fieldname with
  | none => none
  | some fieldname_c =>
    let op_ := s.CeedOperator.get op
    let r_ : Obj :=
      if r = FORTRAN_NULL then .NULL
      else if r = FORTRAN_ELEMRESTRICTION_NONE then .const .CEED_ELEMRESTRICTION_NONE
      else s.CeedElemRestriction.get r
    let b_ : Obj :=
      if b = FORTRAN_NULL then .NULL
      else if b = FORTRAN_BASIS_COLLOCATED then .const .CEED_BASIS_COLLOCATED
      else s.CeedBasis.get b
    let v_ : Obj :=
      if v = FORTRAN_NULL then .NULL
      else if v = FORTRAN_VECTOR_ACTIVE then .const .CEED_VECTOR_ACTIVE
      else if v = FORTRAN_VECTOR_NONE then .const .CEED_VECTOR_NONE
      else s.CeedVector.get v
    some (forward lib s .CeedOperatorSetField
      [.obj op_, .str fieldname_c, .obj r_, .obj b_, .obj v_])

/-- `fCeedCompositeOperatorAddSub(compositeop, subop, err)`. -/
def fCeedCompositeOperatorAddSub (lib : Oracle) (s : State)
    (compositeop subop err : Int) : Ret :=
  let compositeop_ := s.CeedOperator.get compositeop
  let subop_ := s.CeedOperator.get subop
  forward lib s .CeedCompositeOperatorAddSub [.obj compositeop_, .obj subop_]

/-- `fCeedOperatorLinearAssembleQFunction(op, assembledvec, assembledrstr, rqst,
err)`; `out = [*assembledvec, *assembledrstr, *rqst]`. -/
def fCeedOperatorLinearAssembleQFunction (lib : Oracle) (s : State)
    (op assembledvec assembledrstr rqst err : Int) : Ret :=
  let tv := s.CeedVector.grow
  let tr := s.CeedElemRestriction.grow
  let tq := growRequest rqst s.CeedRequest
  let r := lib .CeedOperatorLinearAssembleQFunction 0
  let c : Call := ⟨.CeedOperatorLinearAssembleQFunction,
    [.obj (s.CeedOperator.get op), .slot .CeedVector tv.count,
     .slot .CeedElemRestriction tr.count, rqst_ rqst tq]⟩
  let tv := tv.libStore tv.count (r.stored 0)
  let tr := tr.libStore tr.count (r.stored 1)
  let tq := storeRequest rqst tq (r.stored 2)
  if r.ierr ≠ 0 then
    { st := { s with CeedVector := tv, CeedElemRestriction := tr, CeedRequest := tq },
      err := r.ierr, out := [assembledvec, assembledrstr, rqst], calls := [c] }
  else
    let rqst1 := if createRequest rqst then tq.count else rqst
    let tq1 := if createRequest rqst then tq.issue else tq
    if r.ierr = 0 then
      { st := { s with CeedVector := tv.issue, CeedElemRestriction := tr.issue,
                       CeedRequest := tq1 },
        err := r.ierr, out := [tv.count, tr.count, rqst1], calls := [c] }
    else
      { st := { s with CeedVector := tv, CeedElemRestriction := tr, CeedRequest := tq1 },
        err := r.ierr, out := [assembledvec, assembledrstr, rqst1], calls := [c] }

/-- `fCeedOperatorLinearAssembleDiagonal(op, assembledvec, rqst, err)`;
`out = [*rqst]`. -/
def fCeedOperatorLinearAssembleDiagonal (lib : Oracle) (s : State)
    (op assembledvec rqst err : Int) : Ret :=
  let tq := growRequest rqst s.CeedRequest
  let r := lib .CeedOperatorLinearAssembleDiagonal 0
  let c : Call := ⟨.CeedOperatorLinearAssembleDiagonal,
    [.obj (s.CeedOperator.get op), .obj (s.CeedVector.get assembledvec), rqst_ rqst tq]⟩
  let tq := storeRequest rqst tq (r.stored 0)
  if r.ierr ≠ 0 then
    { st := { s with CeedRequest := tq }, err := r.ierr, out := [rqst], calls := [c] }
  else if createRequest rqst then
    { st := { s with CeedRequest := tq.issue }, err := r.ierr, out := [tq.count],
      calls := [c] }
  else
    { st := { s with CeedRequest := tq }, err := r.ierr, out := [rqst], calls := [c] }

/-- The loop `while (count + 2 >= count_max) count_max += count_max/2 + 1;` of
the multigrid wrappers, run for at most `fuel` tests of its condition: the
final `count_max`, or `none` if the loop has not ended by then. -/
def growLoop : Nat → Int → Int → Option Int
  | 0, _, _ => none
  | fuel + 1, count, count_max =>
    if count + 2 ≥ count_max then
      growLoop fuel count (count_max + (count_max.tdiv 2 + 1))
    else some count_max

/-- The table statements of a multigrid wrapper after a successful call: the
growth loop, `CeedRealloc`, the three slot writes and handle assignments, and
`CeedOperator_n += 3`.  The fuel `count + 4 - count_max` covers every table
with `count_max >= 0`, where each round adds at least one. -/
def registerThree (t : Table) (opCoarse_ opProlong_ opRestrict_ : Obj) : Option Table :=
  match growLoop ((t.count + 4 - t.count_max).toNat + 1) t.count t.count_max with
  | none => none
  | some m =>
    let t : Table := { t with count_max := m, dict := CeedRealloc m t.dict }
    let t := t.put t.count opCoarse_
    let t : Table := { t with count := t.count + 1 }
    let t := t.put t.count opProlong_
    let t : Table := { t with count := t.count + 1 }
    let t := t.put t.count opRestrict_
    let t : Table := { t with count := t.count + 1 }
    some { t with n := t.n + 3 }

/-- `fCeedOperatorMultigridLevelCreate(opFine, pMultFine, rstrCoarse,
basisCoarse, opCoarse, opProlong, opRestrict, err)`;
`out = [*opCoarse, *opProlong, *opRestrict]`. -/
def fCeedOperatorMultigridLevelCreate (lib : Oracle) (s : State)
    (opFine pMultFine rstrCoarse basisCoarse opCoarse opProlong opRestrict err : Int) :
    Option Ret :=
  let r := lib .CeedOperatorMultigridLevelCreate 0
  let c : Call := ⟨.CeedOperatorMultigridLevelCreate,
    [.obj (s.CeedOperator.get opFine), .obj (s.CeedVector.get pMultFine),
     .obj (s.CeedElemRestriction.get rstrCoarse), .obj (s.CeedBasis.get basisCoarse),
     .loc, .loc, .loc]⟩
  if r.ierr ≠ 0 then
    some { st := s, err := r.ierr, out := [opCoarse, opProlong, opRestrict], calls := [c] }
  else
    let k := s.CeedOperator.count
    (registerThree s.CeedOperator (r.outObj 0) (r.outObj 1) (r.outObj 2)).map
      (fun t => { st := { s with CeedOperator := t }, err := r.ierr,
                  out := [k, k + 1, k + 2], calls := [c] })

/-- `fCeedOperatorMultigridLevelCreateTensorH1(opFine, pMultFine, rstrCoarse,
basisCoarse, interpCtoF, opCoarse, opProlong, opRestrict, err)`;
`out = [*opCoarse, *opProlong, *opRestrict]`. -/
def fCeedOperatorMultigridLevelCreateTensorH1 (lib : Oracle) (s : State)
    (opFine pMultFine rstrCoarse basisCoarse interpCtoF opCoarse opProlong opRestrict
      err : Int) : Option Ret :=
  let r := lib .CeedOperatorMultigridLevelCreateTensorH1 0
  let c : Call := ⟨.CeedOperatorMultigridLevelCreateTensorH1,
    [.obj (s.CeedOperator.get opFine), .obj (s.CeedVector.get pMultFine),
     .obj (s.CeedElemRestriction.get rstrCoarse), .obj (s.CeedBasis.get basisCoarse),
     .addr interpCtoF, .loc, .loc, .loc]⟩
  if r.ierr ≠ 0 then
    some { st := s, err := r.ierr, out := [opCoarse, opProlong, opRestrict], calls := [c] }
  else
    let k := s.CeedOperator.count
    (registerThree s.CeedOperator (r.outObj 0) (r.outObj 1) (r.outObj 2)).map
      (fun t => { st := { s with CeedOperator := t }, err := r.ierr,
                  out := [k, k + 1, k + 2], calls := [c] })

/-- `fCeedOperatorMultigridLevelCreateH1(opFine, pMultFine, rstrCoarse,
basisCoarse, interpCtoF, opCoarse, opProlong, opRestrict, err)`;
`out = [*opCoarse, *opProlong, *opRestrict]`. -/
def fCeedOperatorMultigridLevelCreateH1 (lib : Oracle) (s : State)
    (opFine pMultFine rstrCoarse basisCoarse interpCtoF opCoarse opProlong opRestrict
      err : Int) : Option Ret :=
  let r := lib .CeedOperatorMultigridLevelCreateH1 0
  let c : Call := ⟨.CeedOperatorMultigridLevelCreateH1,
    [.obj (s.CeedOperator.get opFine), .obj (s.CeedVector.get pMultFine),
     .obj (s.CeedElemRestriction.get rstrCoarse), .obj (s.CeedBasis.get basisCoarse),
     .addr interpCtoF, .loc, .loc, .loc]⟩
  if r.ierr ≠ 0 then
    some { st := s, err := r.ierr, out := [opCoarse, opProlong, opRestrict], calls := [c] }
  else
    let k := s.CeedOperator.count
    (registerThree s.CeedOperator (r.outObj 0) (r.outObj 1) (r.outObj 2)).map
      (fun t => { st := { s with CeedOperator := t }, err := r.ierr,
                  out := [k, k + 1, k + 2], calls := [c] })

/-- `fCeedOperatorView(op, err)`. -/
def fCeedOperatorView (lib : Oracle) (s : State) (op err : Int) : Ret :=
  let op_ := s.CeedOperator.get op
  forward lib s .CeedOperatorView [.obj op_, .obj (.const .stdout)]

/-- `fCeedOperatorCreateFDMElementInverse(op, fdminv, rqst, err)`;
`out = [*fdminv, *rqst]`. -/
def fCeedOperatorCreateFDMElementInverse (lib : Oracle) (s : State)
    (op fdminv rqst err : Int) : Ret :=
  let t := s.CeedOperator.grow
  let tq := growRequest rqst s.CeedRequest
  let r := lib .CeedOperatorCreateFDMElementInverse 0
  let c : Call := ⟨.CeedOperatorCreateFDMElementInverse,
    [.obj (t.get op), .slot .CeedOperator t.count, rqst_ rqst tq]⟩
  let t := t.libStore t.count (r.stored 0)
  let tq := storeRequest rqst tq (r.stored 1)
  if r.ierr ≠ 0 then
    { st := { s with CeedOperator := t, CeedRequest := tq }, err := r.ierr,
      out := [fdminv, rqst], calls := [c] }
  else
    let rqst1 := if createRequest rqst then tq.count else rqst
    let tq1 := if createRequest rqst then tq.issue else tq
    if r.ierr = 0 then
      { st := { s with CeedOperator := t.issue, CeedRequest := tq1 }, err := r.ierr,
        out := [t.count, rqst1], calls := [c] }
    else
      { st := { s with CeedOperator := t, CeedRequest := tq1 }, err := r.ierr,
        out := [fdminv, rqst1], calls := [c] }

/-- The translation of the vector handles by `fCeedOperatorApply`. -/
def vecNullOrNone (s : State) (h : Int) : Obj :=
  if h = FORTRAN_NULL then .NULL
  else if h = FORTRAN_VECTOR_NONE then .const .CEED_VECTOR_NONE
  else s.CeedVector.get h

/-- `fCeedOperatorApply(op, ustatevec, resvec, rqst, err)`; `out = [*rqst]`. -/
def fCeedOperatorApply (lib : Oracle) (s : State)
    (op ustatevec resvec rqst err : Int) : Ret :=
  let ustatevec_ := vecNullOrNone s ustatevec
  let resvec_ := vecNullOrNone s resvec
  let tq := growRequest rqst s.CeedRequest
  let r := lib .CeedOperatorApply 0
  let c : Call := ⟨.CeedOperatorApply,
    [.obj (s.CeedOperator.get op), .obj ustatevec_, .obj resvec_, rqst_ rqst tq]⟩
  let tq := storeRequest rqst tq (r.stored 0)
  if r.ierr ≠ 0 then
    { st := { s with CeedRequest := tq }, err := r.ierr, out := [rqst], calls := [c] }
  else if createRequest rqst then
    { st := { s with CeedRequest := tq.issue }, err := r.ierr, out := [tq.count],
      calls := [c] }
  else
    { st := { s with CeedRequest := tq }, err := r.ierr, out := [rqst], calls := [c] }

/-- `fCeedOperatorApplyAdd(op, ustatevec, resvec, rqst, err)`; `out = [*rqst]`. -/
def fCeedOperatorApplyAdd (lib : Oracle) (s : State)
    (op ustatevec resvec rqst err : Int) : Ret :=
  let ustatevec_ := vecOrNull s ustatevec
  let resvec_ := vecOrNull s resvec
  let tq := growRequest rqst s.CeedRequest
  let r := lib .CeedOperatorApplyAdd 0
  let c : Call := ⟨.CeedOperatorApplyAdd,
    [.obj (s.CeedOperator.get op), .obj ustatevec_, .obj resvec_, rqst_ rqst tq]⟩
  let tq := storeRequest rqst tq (r.stored 0)
  if r.ierr ≠ 0 then
    { st := { s with CeedRequest := tq }, err := r.ierr, out := [rqst], calls := [c] }
  else if createRequest rqst then
    { st := { s with CeedRequest := tq.issue }, err := r.ierr, out := [tq.count],
      calls := [c] }
  else
    { st := { s with CeedRequest := tq }, err := r.ierr, out := [rqst], calls := [c] }

/-- `fCeedOperatorApplyJacobian(op, qdatavec, ustatevec, dustatevec, dresvec,
rqst, err)`: the body is commented out in the source. -/
def fCeedOperatorApplyJacobian (lib : Oracle) (s : State)
    (op qdatavec ustatevec dustatevec dresvec rqst err : Int) : Ret :=
  { st := s, err := err, out := [], calls := [] }

/-- `fCeedOperatorDestroy(op, err)`; `out = [*op]`.  Here the return code of
`CeedFree` is assigned to `*err`. -/
def fCeedOperatorDestroy (lib : Oracle) (s : State) (op err : Int) : Ret :=
  if op = FORTRAN_NULL then { st := s, err := err, out := [op], calls := [] }
  else
    let r := lib .CeedOperatorDestroy 0
    let c : Call := ⟨.CeedOperatorDestroy, [.slot .CeedOperator op]⟩
    let t := s.CeedOperator.libStore op (r.stored 0)
    if r.ierr = 0 then
      let t1 : Table := { t with n := t.n - 1 }
      if t1.n = 0 then
        { st := { s with CeedOperator :=
                    { t1 with dict := CeedFree t1.dict, count := 0, count_max := 0 } },
          err := (lib .CeedFree 0).ierr, out := [FORTRAN_NULL],
          calls := [c, ⟨.CeedFree, [.dict .CeedOperator]⟩] }
      else
        { st := { s with CeedOperator := t1 }, err := r.ierr, out := [FORTRAN_NULL],
          calls := [c] }
    else
      { st := { s with CeedOperator := t }, err := r.ierr, out := [op], calls := [c] }

/-! ## Sequences of calls -/

/-- One call of an entry point of the binding: the entry point and the values
of its arguments other than `err`, in the order of the parameters of the
definitions above. -/
inductive Entry
  | fCeedInit (resource : List Nat) (ceed : Int)
  | fCeedIsDeterministic (ceed isDeterministic : Int)
  | fCeedGetPreferredMemType (ceed type : Int)
  | fCeedView (ceed : Int)
  | fCeedDestroy (ceed : Int)
  | fCeedVectorCreate (ceed length vec : Int)
  | fCeedVectorSetArray (vec memtype copymode array offset : Int)
  | fCeedVectorTakeArray (vec memtype array offset : Int)
  | fCeedVectorSyncArray (vec memtype : Int)
  | fCeedVectorSetValue (vec value : Int)
  | fCeedVectorGetArray (vec memtype array offset : Int)
  | fCeedVectorGetArrayRead (vec memtype array offset : Int)
  | fCeedVectorRestoreArray (vec array offset : Int)
  | fCeedVectorRestoreArrayRead (vec array offset : Int)
  | fCeedVectorNorm (vec type norm : Int)
  | fCeedVectorReciprocal (vec : Int)
  | fCeedVectorView (vec : Int)
  | fCeedVectorDestroy (vec : Int)
  | fCeedElemRestrictionCreate (ceed nelements esize ncomp compstride lsize memtype copymode
      offsets elemrestriction : Int)
  | fCeedElemRestrictionCreateStrided (ceed nelements esize ncomp lsize strides strides_0
      elemrestriction : Int)
  | fCeedElemRestrictionCreateBlocked (ceed nelements esize blocksize ncomp compstride lsize mtype
      cmode blkindices elemrestriction : Int)
  | fCeedElemRestrictionCreateBlockedStrided (ceed nelements esize blksize ncomp lsize strides
      elemrestriction : Int)
  | fCeedElemRestrictionApply (elemr tmode uvec ruvec rqst : Int)
  | fCeedElemRestrictionApplyBlock (elemr block tmode uvec ruvec rqst : Int)
  | fCeedElemRestrictionGetMultiplicity (elemr mult : Int)
  | fCeedElemRestrictionGetELayout (elemr layout : Int)
  | fCeedElemRestrictionView (elemr : Int)
  | fCeedRequestWait (rqst : Int)
  | fCeedElemRestrictionDestroy (elem : Int)
  | fCeedBasisCreateTensorH1Lagrange (ceed dim ncomp P Q quadmode basis : Int)
  | fCeedBasisCreateTensorH1 (ceed dim ncomp P1d Q1d interp1d grad1d qref1d qweight1d basis : Int)
  | fCeedBasisCreateH1 (ceed topo ncomp nnodes nqpts interp grad qref qweight basis : Int)
  | fCeedBasisView (basis : Int)
  | fCeedQRFactorization (ceed mat tau m n : Int)
  | fCeedSymmetricSchurDecomposition (ceed mat lambda n : Int)
  | fCeedSimultaneousDiagonalization (ceed matA matB x lambda n : Int)
  | fCeedBasisGetCollocatedGrad (basis colograd1d : Int)
  | fCeedBasisApply (basis nelem tmode emode u v : Int)
  | fCeedBasisGetNumNodes (basis P : Int)
  | fCeedBasisGetNumQuadraturePoints (basis Q : Int)
  | fCeedBasisGetInterp1D (basis interp1d offset : Int)
  | fCeedBasisDestroy (basis : Int)
  | fCeedGaussQuadrature (Q qref1d qweight1d : Int)
  | fCeedLobattoQuadrature (Q qref1d qweight1d : Int)
  | fCeedQFunctionContextCreate (ceed ctx : Int)
  | fCeedQFunctionContextSetData (ctx memtype copymode n data offset : Int)
  | fCeedQFunctionContextGetData (ctx memtype data offset : Int)
  | fCeedQFunctionContextRestoreData (ctx data offset : Int)
  | fCeedQFunctionContextView (ctx : Int)
  | fCeedQFunctionContextDestroy (ctx : Int)
  | fCeedQFunctionCreateInterior (ceed vlength : Int) (f : Nat) (source : List Nat) (qf : Int)
  | fCeedQFunctionCreateInteriorByName (ceed : Int) (name : List Nat) (qf : Int)
  | fCeedQFunctionCreateIdentity (ceed size inmode outmode qf : Int)
  | fCeedQFunctionAddInput (qf : Int) (fieldname : List Nat) (ncomp emode : Int)
  | fCeedQFunctionAddOutput (qf : Int) (fieldname : List Nat) (ncomp emode : Int)
  | fCeedQFunctionSetContext (qf ctx : Int)
  | fCeedQFunctionView (qf : Int)
  | fCeedQFunctionApply (qf Q : Int) (u v : Nat → Int)
  | fCeedQFunctionDestroy (qf : Int)
  | fCeedOperatorCreate (ceed qf dqf dqfT op : Int)
  | fCeedCompositeOperatorCreate (ceed op : Int)
  | fCeedOperatorSetField (op : Int) (fieldname : List Nat) (r b v : Int)
  | fCeedCompositeOperatorAddSub (compositeop subop : Int)
  | fCeedOperatorLinearAssembleQFunction (op assembledvec assembledrstr rqst : Int)
  | fCeedOperatorLinearAssembleDiagonal (op assembledvec rqst : Int)
  | fCeedOperatorMultigridLevelCreate (opFine pMultFine rstrCoarse basisCoarse opCoarse opProlong
      opRestrict : Int)
  | fCeedOperatorMultigridLevelCreateTensorH1 (opFine pMultFine rstrCoarse basisCoarse interpCtoF
      opCoarse opProlong opRestrict : Int)
  | fCeedOperatorMultigridLevelCreateH1 (opFine pMultFine rstrCoarse basisCoarse interpCtoF
      opCoarse opProlong opRestrict : Int)
  | fCeedOperatorView (op : Int)
  | fCeedOperatorCreateFDMElementInverse (op fdminv rqst : Int)
  | fCeedOperatorApply (op ustatevec resvec rqst : Int)
  | fCeedOperatorApplyAdd (op ustatevec resvec rqst : Int)
  | fCeedOperatorApplyJacobian (op qdatavec ustatevec dustatevec dresvec rqst : Int)
  | fCeedOperatorDestroy (op : Int)

/-- The call `e`, made in state `s` with `*err = err` on entry, against the
environment `lib`; `none` when the call produces no result. -/
def exec (e : Entry) (lib : Oracle) (s : State) (err : Int) : Option Ret :=
  match e with
  | .fCeedInit resource ceed => LibCeed.fCeedInit lib s resource ceed err
  | .fCeedIsDeterministic ceed isDeterministic => some (LibCeed.fCeedIsDeterministic lib s ceed
      isDeterministic err)
  | .fCeedGetPreferredMemType ceed type => some (LibCeed.fCeedGetPreferredMemType lib s ceed type
      err)
  | .fCeedView ceed => some (LibCeed.fCeedView lib s ceed err)
  | .fCeedDestroy ceed => some (LibCeed.fCeedDestroy lib s ceed err)
  | .fCeedVectorCreate ceed length vec => some (LibCeed.fCeedVectorCreate lib s ceed length vec
      err)
  | .fCeedVectorSetArray vec memtype copymode array offset => some (LibCeed.fCeedVectorSetArray
      lib s vec memtype copymode array offset err)
  | .fCeedVectorTakeArray vec memtype array offset => some (LibCeed.fCeedVectorTakeArray lib s vec
      memtype array offset err)
  | .fCeedVectorSyncArray vec memtype => some (LibCeed.fCeedVectorSyncArray lib s vec memtype err)
  | .fCeedVectorSetValue vec value => some (LibCeed.fCeedVectorSetValue lib s vec value err)
  | .fCeedVectorGetArray vec memtype array offset => some (LibCeed.fCeedVectorGetArray lib s vec
      memtype array offset err)
  | .fCeedVectorGetArrayRead vec memtype array offset => some (LibCeed.fCeedVectorGetArrayRead lib
      s vec memtype array offset err)
  | .fCeedVectorRestoreArray vec array offset => some (LibCeed.fCeedVectorRestoreArray lib s vec
      array offset err)
  | .fCeedVectorRestoreArrayRead vec array offset => some (LibCeed.fCeedVectorRestoreArrayRead lib
      s vec array offset err)
  | .fCeedVectorNorm vec type norm => some (LibCeed.fCeedVectorNorm lib s vec type norm err)
  | .fCeedVectorReciprocal vec => some (LibCeed.fCeedVectorReciprocal lib s vec err)
  | .fCeedVectorView vec => some (LibCeed.fCeedVectorView lib s vec err)
  | .fCeedVectorDestroy vec => some (LibCeed.fCeedVectorDestroy lib s vec err)
  | .fCeedElemRestrictionCreate ceed nelements esize ncomp compstride lsize memtype copymode
      offsets elemrestriction => some (LibCeed.fCeedElemRestrictionCreate lib s ceed nelements
      esize ncomp compstride lsize memtype copymode offsets elemrestriction err)
  | .fCeedElemRestrictionCreateStrided ceed nelements esize ncomp lsize strides strides_0
      elemrestriction => some (LibCeed.fCeedElemRestrictionCreateStrided lib s ceed nelements
      esize ncomp lsize strides strides_0 elemrestriction err)
  | .fCeedElemRestrictionCreateBlocked ceed nelements esize blocksize ncomp compstride lsize mtype
      cmode blkindices elemrestriction => some (LibCeed.fCeedElemRestrictionCreateBlocked lib s
      ceed nelements esize blocksize ncomp compstride lsize mtype cmode blkindices
      elemrestriction err)
  | .fCeedElemRestrictionCreateBlockedStrided ceed nelements esize blksize ncomp lsize strides
      elemrestriction => some (LibCeed.fCeedElemRestrictionCreateBlockedStrided lib s ceed
      nelements esize blksize ncomp lsize strides elemrestriction err)
  | .fCeedElemRestrictionApply elemr tmode uvec ruvec rqst => some
      (LibCeed.fCeedElemRestrictionApply lib s elemr tmode uvec ruvec rqst err)
  | .fCeedElemRestrictionApplyBlock elemr block tmode uvec ruvec rqst => some
      (LibCeed.fCeedElemRestrictionApplyBlock lib s elemr block tmode uvec ruvec rqst err)
  | .fCeedElemRestrictionGetMultiplicity elemr mult => some
      (LibCeed.fCeedElemRestrictionGetMultiplicity lib s elemr mult err)
  | .fCeedElemRestrictionGetELayout elemr layout => some (LibCeed.fCeedElemRestrictionGetELayout
      lib s elemr layout err)
  | .fCeedElemRestrictionView elemr => some (LibCeed.fCeedElemRestrictionView lib s elemr err)
  | .fCeedRequestWait rqst => some (LibCeed.fCeedRequestWait lib s rqst err)
  | .fCeedElemRestrictionDestroy elem => some (LibCeed.fCeedElemRestrictionDestroy lib s elem err)
  | .fCeedBasisCreateTensorH1Lagrange ceed dim ncomp P Q quadmode basis => some
      (LibCeed.fCeedBasisCreateTensorH1Lagrange lib s ceed dim ncomp P Q quadmode basis err)
  | .fCeedBasisCreateTensorH1 ceed dim ncomp P1d Q1d interp1d grad1d qref1d qweight1d basis =>
      some (LibCeed.fCeedBasisCreateTensorH1 lib s ceed dim ncomp P1d Q1d interp1d grad1d qref1d
      qweight1d basis err)
  | .fCeedBasisCreateH1 ceed topo ncomp nnodes nqpts interp grad qref qweight basis => some
      (LibCeed.fCeedBasisCreateH1 lib s ceed topo ncomp nnodes nqpts interp grad qref qweight
      basis err)
  | .fCeedBasisView basis => some (LibCeed.fCeedBasisView lib s basis err)
  | .fCeedQRFactorization ceed mat tau m n => some (LibCeed.fCeedQRFactorization lib s ceed mat
      tau m n err)
  | .fCeedSymmetricSchurDecomposition ceed mat lambda n => some
      (LibCeed.fCeedSymmetricSchurDecomposition lib s ceed mat lambda n err)
  | .fCeedSimultaneousDiagonalization ceed matA matB x lambda n => some
      (LibCeed.fCeedSimultaneousDiagonalization lib s ceed matA matB x lambda n err)
  | .fCeedBasisGetCollocatedGrad basis colograd1d => some (LibCeed.fCeedBasisGetCollocatedGrad lib
      s basis colograd1d err)
  | .fCeedBasisApply basis nelem tmode emode u v => some (LibCeed.fCeedBasisApply lib s basis
      nelem tmode emode u v err)
  | .fCeedBasisGetNumNodes basis P => some (LibCeed.fCeedBasisGetNumNodes lib s basis P err)
  | .fCeedBasisGetNumQuadraturePoints basis Q => some (LibCeed.fCeedBasisGetNumQuadraturePoints
      lib s basis Q err)
  | .fCeedBasisGetInterp1D basis interp1d offset => some (LibCeed.fCeedBasisGetInterp1D lib s
      basis interp1d offset err)
  | .fCeedBasisDestroy basis => some (LibCeed.fCeedBasisDestroy lib s basis err)
  | .fCeedGaussQuadrature Q qref1d qweight1d => some (LibCeed.fCeedGaussQuadrature lib s Q qref1d
      qweight1d err)
  | .fCeedLobattoQuadrature Q qref1d qweight1d => some (LibCeed.fCeedLobattoQuadrature lib s Q
      qref1d qweight1d err)
  | .fCeedQFunctionContextCreate ceed ctx => some (LibCeed.fCeedQFunctionContextCreate lib s ceed
      ctx err)
  | .fCeedQFunctionContextSetData ctx memtype copymode n data offset => some
      (LibCeed.fCeedQFunctionContextSetData lib s ctx memtype copymode n data offset err)
  | .fCeedQFunctionContextGetData ctx memtype data offset => some
      (LibCeed.fCeedQFunctionContextGetData lib s ctx memtype data offset err)
  | .fCeedQFunctionContextRestoreData ctx data offset => some
      (LibCeed.fCeedQFunctionContextRestoreData lib s ctx data offset err)
  | .fCeedQFunctionContextView ctx => some (LibCeed.fCeedQFunctionContextView lib s ctx err)
  | .fCeedQFunctionContextDestroy ctx => some (LibCeed.fCeedQFunctionContextDestroy lib s ctx err)
  | .fCeedQFunctionCreateInterior ceed vlength f source qf => LibCeed.fCeedQFunctionCreateInterior
      lib s ceed vlength f source qf err
  | .fCeedQFunctionCreateInteriorByName ceed name qf => LibCeed.fCeedQFunctionCreateInteriorByName
      lib s ceed name qf err
  | .fCeedQFunctionCreateIdentity ceed size inmode outmode qf => some
      (LibCeed.fCeedQFunctionCreateIdentity lib s ceed size inmode outmode qf err)
  | .fCeedQFunctionAddInput qf fieldname ncomp emode => LibCeed.fCeedQFunctionAddInput lib s qf
      fieldname ncomp emode err
  | .fCeedQFunctionAddOutput qf fieldname ncomp emode => LibCeed.fCeedQFunctionAddOutput lib s qf
      fieldname ncomp emode err
  | .fCeedQFunctionSetContext qf ctx => some (LibCeed.fCeedQFunctionSetContext lib s qf ctx err)
  | .fCeedQFunctionView qf => some (LibCeed.fCeedQFunctionView lib s qf err)
  | .fCeedQFunctionApply qf Q u v => some (LibCeed.fCeedQFunctionApply lib s qf Q u v err)
  | .fCeedQFunctionDestroy qf => some (LibCeed.fCeedQFunctionDestroy lib s qf err)
  | .fCeedOperatorCreate ceed qf dqf dqfT op => some (LibCeed.fCeedOperatorCreate lib s ceed qf
      dqf dqfT op err)
  | .fCeedCompositeOperatorCreate ceed op => some (LibCeed.fCeedCompositeOperatorCreate lib s ceed
      op err)
  | .fCeedOperatorSetField op fieldname r b v => LibCeed.fCeedOperatorSetField lib s op fieldname
      r b v err
  | .fCeedCompositeOperatorAddSub compositeop subop => some (LibCeed.fCeedCompositeOperatorAddSub
      lib s compositeop subop err)
  | .fCeedOperatorLinearAssembleQFunction op assembledvec assembledrstr rqst => some
      (LibCeed.fCeedOperatorLinearAssembleQFunction lib s op assembledvec assembledrstr rqst
      err)
  | .fCeedOperatorLinearAssembleDiagonal op assembledvec rqst => some
      (LibCeed.fCeedOperatorLinearAssembleDiagonal lib s op assembledvec rqst err)
  | .fCeedOperatorMultigridLevelCreate opFine pMultFine rstrCoarse basisCoarse opCoarse opProlong
      opRestrict => LibCeed.fCeedOperatorMultigridLevelCreate lib s opFine pMultFine rstrCoarse
      basisCoarse opCoarse opProlong opRestrict err
  | .fCeedOperatorMultigridLevelCreateTensorH1 opFine pMultFine rstrCoarse basisCoarse interpCtoF
      opCoarse opProlong opRestrict => LibCeed.fCeedOperatorMultigridLevelCreateTensorH1 lib s
      opFine pMultFine rstrCoarse basisCoarse interpCtoF opCoarse opProlong opRestrict err
  | .fCeedOperatorMultigridLevelCreateH1 opFine pMultFine rstrCoarse basisCoarse interpCtoF
      opCoarse opProlong opRestrict => LibCeed.fCeedOperatorMultigridLevelCreateH1 lib s opFine
      pMultFine rstrCoarse basisCoarse interpCtoF opCoarse opProlong opRestrict err
  | .fCeedOperatorView op => some (LibCeed.fCeedOperatorView lib s op err)
  | .fCeedOperatorCreateFDMElementInverse op fdminv rqst => some
      (LibCeed.fCeedOperatorCreateFDMElementInverse lib s op fdminv rqst err)
  | .fCeedOperatorApply op ustatevec resvec rqst => some (LibCeed.fCeedOperatorApply lib s op
      ustatevec resvec rqst err)
  | .fCeedOperatorApplyAdd op ustatevec resvec rqst => some (LibCeed.fCeedOperatorApplyAdd lib s
      op ustatevec resvec rqst err)
  | .fCeedOperatorApplyJacobian op qdatavec ustatevec dustatevec dresvec rqst => some
      (LibCeed.fCeedOperatorApplyJacobian lib s op qdatavec ustatevec dustatevec dresvec rqst
      err)
  | .fCeedOperatorDestroy op => some (LibCeed.fCeedOperatorDestroy lib s op err)

/-- One step of a program: a call, the environment that answers it and the
value that `*err` holds on entry. -/
structure Step where
  entry : Entry
  lib : Oracle
  err : Int

/-- The state after the calls `steps`, made one after the other from `s`;
`none` if one of them produces no result. -/
def run (s : State) : List Step → Option State
  | [] => some s
  | p :: rest =>
    match exec p.entry p.lib s p.err with
    | none => none
    | some r => run r.st rest

/-- The table named `T`. -/
def State.table (s : State) : Tbl → Table
  | .Ceed => s.Ceed
  | .CeedVector => s.CeedVector
  | .CeedElemRestriction => s.CeedElemRestriction
  | .CeedRequest => s.CeedRequest
  | .CeedBasis => s.CeedBasis
  | .CeedQFunctionContext => s.CeedQFunctionContext
  | .CeedQFunction => s.CeedQFunction
  | .CeedOperator => s.CeedOperator

/-! # QFunctions of the examples

`CeedScalar` is a type parameter `α` of the embedding.  `Mass3` only
multiplies, so it is stated over any type with a multiplication; the other
QFunctions are stated over a field, and their properties are proved in exact
real arithmetic (`α := ℝ`).  A `CeedInt` is an `Int`.

## Arrays and loops -/

/-- The assignment `a[i] = x` through a pointer `a` to `CeedScalar`; the
indices are those of C pointer arithmetic, so every index is a location. -/
def store {α : Type} (a : Int → α) (i : Int) (x : α) : Int → α :=
  fun j => if j = i then x else a j

/-- The assignment `a[r][i] = x` through a pointer to rows,
`CeedScalar (*a)[CEED_Q_VLA]`. -/
def storeRow {α : Type} (a : Nat → Int → α) (r : Nat) (i : Int) (x : α) : Nat → Int → α :=
  fun k => if k = r then store (a k) i x else a k

/-- The loop `for (CeedInt i = 0; i < Q; i++) body`, on the state `σ` of the
arrays that the body writes. -/
def forQ {σ : Type} (Q : Int) (body : Int → σ → σ) (init : σ) : σ :=
  (List.range Q.toNat).foldl (fun st (i : Nat) => body (i : Int) st) init

/-! ## `bp2.h` -/

/-- `SetupMassRhs3(ctx, Q, in, out)`: the arrays `out` after the call and the
return code.  `in k` and `out k` are the arrays `in[k]` and `out[k]`; `sqrt`
is the function of `math.h`. -/
def SetupMassRhs3 {α γ : Type} [Field α] (sqrt : α → α) (ctx : γ) (Q : Int)
    (in_ out : Nat → Int → α) : (Nat → Int → α) × Int :=
  let x := in_ 0
  let w := in_ 1
  let true_soln := out 0
  let rhs := out 1
  let r := forQ Q (fun i (st : (Int → α) × (Int → α)) =>
    let true_soln := st.1
    let rhs := st.2
    let true_soln := store true_soln (i + 0 * Q)
      (sqrt (x i * x i + x (i + Q) * x (i + Q) + x (i + 2 * Q) * x (i + 2 * Q)))
    let true_soln := store true_soln (i + 1 * Q) (2 * true_soln (i + 0 * Q))
    let true_soln := store true_soln (i + 2 * Q) (3 * true_soln (i + 0 * Q))
    let rhs := store rhs (i + 0 * Q) (w i * true_soln (i + 0 * Q))
    let rhs := store rhs (i + 1 * Q) (2 * rhs (i + 0 * Q))
    let rhs := store rhs (i + 2 * Q) (3 * rhs (i + 0 * Q))
    (true_soln, rhs)) (true_soln, rhs)
  (fun k => if k = 0 then r.1 else if k = 1 then r.2 else out k, 0)

/-- `Mass3(ctx, Q, in, out)`: the arrays `out` after the call and the return
code. -/
def Mass3 {α γ : Type} [Mul α] (ctx : γ) (Q : Int) (in_ out : Nat → Int → α) :
    (Nat → Int → α) × Int :=
  let u := in_ 0
  let q_data := in_ 1
  let v := out 0
  let v := forQ Q (fun i v =>
    let v := store v (i + 0 * Q) (q_data i * u (i + 0 * Q))
    let v := store v (i + 1 * Q) (q_data i * u (i + 1 * Q))
    store v (i + 2 * Q) (q_data i * u (i + 2 * Q))) v
  (fun k => if k = 0 then v else out k, 0)

/-! ## `mixed-linear-elasticity-3d.h` -/

/-- The structure `LINEARContext_`. -/
structure LINEARContext_ (α : Type) where
  E : α
  nu : α

/-- Modelled from the spec: `Trace3` is a helper of `utils.h`, which is not
among the sources, and the spec leaves the physics kernels to their sources.
It is given the meaning that the comment at its call states,
`div(u) = trace(grad(u))`: the sum of the diagonal. -/
def Trace3 {α : Type} [Add α] (A : Fin 3 → Fin 3 → α) : α :=
  A 0 0 + A 1 1 + A 2 2

/-- Modelled from the spec: `AlphaMatMatMult3(alpha, A, B, C)` is a helper of
`utils.h`, which is not among the sources, and the spec leaves the physics
kernels to their sources.  It is given the meaning that its name and the
comment at its call state (`grad_u = dX/dx * du/dX`): `C = alpha * A * B`. -/
def AlphaMatMatMult3 {α : Type} [Add α] [Mul α] (alpha : α) (A B : Fin 3 → Fin 3 → α) :
    Fin 3 → Fin 3 → α :=
  fun j k => alpha * (A j 0 * B 0 k + A j 1 * B 1 k + A j 2 * B 2 k)

/-- Modelled from the spec: `AlphaMatTransposeMatMultAtQuadrature3(Q, i, alpha,
A, B, C)` is a helper of `utils.h`, which is not among the sources, and the
spec leaves the physics kernels to their sources.  It is given the meaning
that its name and the comment at its call state
(`dX/dx^T * sigma * wdetJ`): `C[j][k][i] = alpha * (A^T * B)[j][k]`. -/
def AlphaMatTransposeMatMultAtQuadrature3 {α : Type} [Add α] [Mul α] (Q i : Int) (alpha : α)
    (A B : Fin 3 → Fin 3 → α) (C : Fin 3 → Fin 3 → Int → α) : Fin 3 → Fin 3 → Int → α :=
  fun j k => store (C j k) i (alpha * (A 0 j * B 0 k + A 1 j * B 1 k + A 2 j * B 2 k))

/-- The strain `e` of `SetupMixedLinear3D` (lines 148-152), from `grad_u`. -/
def SetupMixedLinear3D.e {α : Type} [Field α] (grad_u : Fin 3 → Fin 3 → α) :
    Fin 3 → Fin 3 → α :=
  ![![(grad_u 0 0 + grad_u 0 0) / 2, (grad_u 0 1 + grad_u 1 0) / 2,
      (grad_u 0 2 + grad_u 2 0) / 2],
    ![(grad_u 1 0 + grad_u 0 1) / 2, (grad_u 1 1 + grad_u 1 1) / 2,
      (grad_u 1 2 + grad_u 2 1) / 2],
    ![(grad_u 2 0 + grad_u 0 2) / 2, (grad_u 2 1 + grad_u 1 2) / 2,
      (grad_u 2 2 + grad_u 2 2) / 2]]

/-- The deviatoric strain `ed` of `SetupMixedLinear3D` (lines 156-160), from
`e` and `e_kk`. -/
def SetupMixedLinear3D.ed {α : Type} [Field α] (e : Fin 3 → Fin 3 → α) (e_kk : α) :
    Fin 3 → Fin 3 → α :=
  ![![e 0 0 - (1 / 3) * e_kk, e 0 1, e 0 2],
    ![e 1 0, e 1 1 - (1 / 3) * e_kk, e 1 2],
    ![e 2 0, e 2 1, e 2 2 - (1 / 3) * e_kk]]

/-- The stress `sigma` of `SetupMixedLinear3D` (lines 162-166), from the
pressure `p[0][i]`, `mu` and `ed`. -/
def SetupMixedLinear3D.sigma {α : Type} [Field α] (p mu : α) (ed : Fin 3 → Fin 3 → α) :
    Fin 3 → Fin 3 → α :=
  ![![p + 2 * mu * ed 0 0, 2 * mu * ed 0 1, 2 * mu * ed 0 2],
    ![2 * mu * ed 1 0, p + 2 * mu * ed 1 1, 2 * mu * ed 1 2],
    ![2 * mu * ed 2 0, 2 * mu * ed 2 1, p + 2 * mu * ed 2 2]]

/-- `SetupMixedLinear3D(ctx, Q, in, out)`: the arrays `dvdX = out[0]` and
`q = out[1]` after the call and the return code.  The arrays are passed as
the views to which the function casts them: `ug = in[0]` with
`ug[a][b][i]`, `q_data = in[1]` with `q_data[j][i]`, `p = in[2]` with
`p[j][i]`, `dvdX[a][b][i]` and `q[j][i]`; the row length `CEED_Q_VLA` is a
macro of `ceed.h`, which is not among the sources.
`VoigtUnpackNonSymmetric3`, a helper of `utils.h`, is a parameter: the order
in which it unpacks nine numbers into a 3x3 matrix is not in the sources. -/
def SetupMixedLinear3D {α : Type} [Field α]
    (VoigtUnpackNonSymmetric3 : (Fin 9 → α) → Fin 3 → Fin 3 → α)
    (ctx : LINEARContext_ α) (Q : Int)
    (ug : Fin 3 → Fin 3 → Int → α) (q_data p : Nat → Int → α)
    (dvdX : Fin 3 → Fin 3 → Int → α) (q : Nat → Int → α) :
    (Fin 3 → Fin 3 → Int → α) × (Nat → Int → α) × Int :=
  let E := ctx.E
  let nu := ctx.nu
  let mu := E / (2 * (1 + nu))
  let kappa := E / (3 * (1 - 2 * nu))
  let r := forQ Q (fun i (st : (Fin 3 → Fin 3 → Int → α) × (Nat → Int → α)) =>
    let dvdX := st.1
    let q := st.2
    let dudX : Fin 3 → Fin 3 → α :=
      ![![ug 0 0 i, ug 0 1 i, ug 0 2 i],
        ![ug 1 0 i, ug 1 1 i, ug 1 2 i],
        ![ug 2 0 i, ug 2 1 i, ug 2 2 i]]
    let dXdx_voigt : Fin 9 → α := fun j => q_data (j.val + 1) i
    let dXdx := VoigtUnpackNonSymmetric3 dXdx_voigt
    let grad_u := AlphaMatMatMult3 1 dXdx dudX
    let e := SetupMixedLinear3D.e grad_u
    let e_kk := Trace3 e
    let ed := SetupMixedLinear3D.ed e e_kk
    let sigma := SetupMixedLinear3D.sigma (p 0 i) mu ed
    let dvdX := AlphaMatTransposeMatMultAtQuadrature3 Q i (q_data 0 i) dXdx sigma dvdX
    let div_u := Trace3 grad_u
    let q := storeRow q 0 i ((div_u - p 0 i / kappa) * q_data 0 i)
    (dvdX, q)) (dvdX, q)
  (r.1, r.2, 0)

/-- The body of the quadrature point loop of `SetupMixedLinearRhs3D`, run at
the point `i` on the arrays `st = (true_soln, rhs_u, rhs_p)`; `mu` and `kappa`
are the constants computed before the loop. -/
def SetupMixedLinearRhs3D.loop {α : Type} [Field α] (sin cos : α → α) (PI_DOUBLE : α)
    (mu kappa : α) (Q : Int) (coords : Int → α) (q_data : Nat → Int → α) (i : Int)
    (st : (Nat → Int → α) × (Nat → Int → α) × (Nat → Int → α)) :
    (Nat → Int → α) × (Nat → Int → α) × (Nat → Int → α) :=
  let true_soln := st.1
  let rhs_u := st.2.1
  let rhs_p := st.2.2
  let x := coords (i + 0 * Q)
  let y := coords (i + 1 * Q)
  let z := coords (i + 2 * Q)
  let u1 := sin (PI_DOUBLE * x) * sin (PI_DOUBLE * y) * sin (PI_DOUBLE * z)
  let u2 := 2 * u1
  let u3 := 3 * u1
  let u1_1 := PI_DOUBLE * cos (PI_DOUBLE * x) * sin (PI_DOUBLE * y) * sin (PI_DOUBLE * z)
  let u2_2 := 2 * PI_DOUBLE * sin (PI_DOUBLE * x) * cos (PI_DOUBLE * y) *
    sin (PI_DOUBLE * z)
  let u3_3 := 3 * PI_DOUBLE * sin (PI_DOUBLE * x) * sin (PI_DOUBLE * y) *
    cos (PI_DOUBLE * z)
  let true_soln := storeRow true_soln 0 i u1
  let true_soln := storeRow true_soln 1 i u2
  let true_soln := storeRow true_soln 2 i u3
  let true_soln := storeRow true_soln 3 i (kappa * (u1_1 + u2_2 + u3_3))
  let u1_11 := (-PI_DOUBLE) * PI_DOUBLE * u1
  let u1_22 := (-PI_DOUBLE) * PI_DOUBLE * u1
  let u1_33 := (-PI_DOUBLE) * PI_DOUBLE * u1
  let u2_21 := 2 * PI_DOUBLE * PI_DOUBLE * cos (PI_DOUBLE * x) * cos (PI_DOUBLE * y) *
    sin (PI_DOUBLE * z)
  let u3_31 := 3 * PI_DOUBLE * PI_DOUBLE * cos (PI_DOUBLE * x) * sin (PI_DOUBLE * y) *
    cos (PI_DOUBLE * z)
  let f1 := (-mu) * (u1_11 + u1_22 + u1_33) - ((1 / 3) * mu + kappa) * (u1_11 + u2_21 + u3_31)
  let rhs_u := storeRow rhs_u 0 i (q_data 0 i * f1)
  let u2_11 := (-2) * PI_DOUBLE * PI_DOUBLE * u1
  let u2_22 := (-2) * PI_DOUBLE * PI_DOUBLE * u1
  let u2_33 := (-2) * PI_DOUBLE * PI_DOUBLE * u1
  let u1_12 := PI_DOUBLE * PI_DOUBLE * cos (PI_DOUBLE * x) * cos (PI_DOUBLE * y) *
    sin (PI_DOUBLE * z)
  let u3_32 := 3 * PI_DOUBLE * PI_DOUBLE * sin (PI_DOUBLE * x) * cos (PI_DOUBLE * y) *
    cos (PI_DOUBLE * z)
  let f2 := (-mu) * (u2_11 + u2_22 + u2_33) - ((1 / 3) * mu + kappa) * (u1_12 + u2_22 + u3_32)
  let rhs_u := storeRow rhs_u 1 i (q_data 0 i * f2)
  let u3_11 := (-3) * PI_DOUBLE * PI_DOUBLE * u1
  let u3_22 := (-3) * PI_DOUBLE * PI_DOUBLE * u1
  let u3_33 := (-3) * PI_DOUBLE * PI_DOUBLE * u1
  let u1_13 := PI_DOUBLE * PI_DOUBLE * cos (PI_DOUBLE * x) * sin (PI_DOUBLE * y) *
    cos (PI_DOUBLE * z)
  let u2_23 := 2 * PI_DOUBLE * PI_DOUBLE * sin (PI_DOUBLE * x) * cos (PI_DOUBLE * y) *
    cos (PI_DOUBLE * z)
  let f3 := (-mu) * (u3_11 + u3_22 + u3_33) - ((1 / 3) * mu + kappa) * (u1_13 + u2_23 + u3_33)
  let rhs_u := storeRow rhs_u 2 i (q_data 0 i * f3)
  let rhs_p := storeRow rhs_p 0 i 0
  (true_soln, rhs_u, rhs_p)

/-- `SetupMixedLinearRhs3D(ctx, Q, in, out)`: the arrays `true_soln = out[0]`,
`rhs_u = out[1]` and `rhs_p = out[2]` after the call and the return code.
`coords = in[0]` is indexed as in the source (`coords[i + c*Q]`); `q_data`,
`true_soln`, `rhs_u` and `rhs_p` are passed as the views to which the function
casts them (`q_data[j][i]`, ...).  `sin` and `cos` are the functions of
`math.h`, and `PI_DOUBLE` is a macro of `utils.h`, which is not among the
sources: the three are parameters.  The body of the loop is
`SetupMixedLinearRhs3D.loop`. -/
def SetupMixedLinearRhs3D {α : Type} [Field α] (sin cos : α → α) (PI_DOUBLE : α)
    (ctx : LINEARContext_ α) (Q : Int) (coords : Int → α) (q_data : Nat → Int → α)
    (true_soln rhs_u rhs_p : Nat → Int → α) :
    (Nat → Int → α) × (Nat → Int → α) × (Nat → Int → α) × Int :=
  let E := ctx.E
  let nu := ctx.nu
  let mu := E / (2 * (1 + nu))
  let kappa := E / (3 * (1 - 2 * nu))
  let r := forQ Q (SetupMixedLinearRhs3D.loop sin cos PI_DOUBLE mu kappa Q coords q_data)
    (true_soln, rhs_u, rhs_p)
  (r.1, r.2.1, r.2.2, 0)

/-! # Notions used in the statements -/

/-- The counters of a table after at most `k` calls of entry points: the
count lies in `[0, 3k]`, the capacity in `[0, 2 * count + 4]` and the live
count in `[-k, 3k]`. -/
def Table.Bounded (k : Int) (t : Table) : Prop :=
  0 ≤ t.count ∧ t.count ≤ 3 * k ∧ 0 ≤ t.count_max ∧ t.count_max ≤ 2 * t.count + 4 ∧
  -k ≤ t.n ∧ t.n ≤ 3 * k

/-- The counters of all eight tables are bounded as after at most `k` calls. -/
def Inv (k : Int) (s : State) : Prop :=
  s.Ceed.Bounded k ∧ s.CeedVector.Bounded k ∧ s.CeedElemRestriction.Bounded k ∧
  s.CeedRequest.Bounded k ∧ s.CeedBasis.Bounded k ∧ s.CeedQFunctionContext.Bounded k ∧
  s.CeedQFunction.Bounded k ∧ s.CeedOperator.Bounded k

/-- The character arguments of the call have at most 1023 characters, the
lengths that `FIX_STRING` accepts. -/
def Entry.stringsOk : Entry → Bool
  | .fCeedInit resource _ => resource.length ≤ 1023
  | .fCeedQFunctionCreateInterior _ _ _ source _ => source.length ≤ 1023
  | .fCeedQFunctionCreateInteriorByName _ name _ => name.length ≤ 1023
  | .fCeedQFunctionAddInput _ fieldname _ _ => fieldname.length ≤ 1023
  | .fCeedQFunctionAddOutput _ fieldname _ _ => fieldname.length ≤ 1023
  | .fCeedOperatorSetField _ fieldname _ _ _ => fieldname.length ≤ 1023
  | _ => true

/-- The value `o` left in a handle argument that held `i` on entry is either
that same value (the wrapper wrote nothing) or a handle that is non-negative
and is none of the sentinels. -/
def Fresh (o i : Int) : Prop := o = i ∨ (0 ≤ o ∧ o ∉ sentinels)

/-- For the entry points that write handles they issue (the create wrappers
and the wrappers that take a request), the values held on entry by the handle
arguments, in the order of `Ret.out`; `none` for the other entry points. -/
def Entry.handleArgs : Entry → Option (List Int)
  | .fCeedInit _ ceed => some [ceed]
  | .fCeedVectorCreate _ _ vec => some [vec]
  | .fCeedElemRestrictionCreate _ _ _ _ _ _ _ _ _ elemrestriction => some [elemrestriction]
  | .fCeedElemRestrictionCreateStrided _ _ _ _ _ _ _ elemrestriction => some [elemrestriction]
  | .fCeedElemRestrictionCreateBlocked _ _ _ _ _ _ _ _ _ _ elemrestriction => some [elemrestriction]
  | .fCeedElemRestrictionCreateBlockedStrided _ _ _ _ _ _ _ elemrestriction => some [elemrestriction]
  | .fCeedElemRestrictionApply _ _ _ _ rqst => some [rqst]
  | .fCeedElemRestrictionApplyBlock _ _ _ _ _ rqst => some [rqst]
  | .fCeedBasisCreateTensorH1Lagrange _ _ _ _ _ _ basis => some [basis]
  | .fCeedBasisCreateTensorH1 _ _ _ _ _ _ _ _ _ basis => some [basis]
  | .fCeedBasisCreateH1 _ _ _ _ _ _ _ _ _ basis => some [basis]
  | .fCeedQFunctionContextCreate _ ctx => some [ctx]
  | .fCeedQFunctionCreateInterior _ _ _ _ qf => some [qf]
  | .fCeedQFunctionCreateInteriorByName _ _ qf => some [qf]
  | .fCeedQFunctionCreateIdentity _ _ _ _ qf => some [qf]
  | .fCeedOperatorCreate _ _ _ _ op => some [op]
  | .fCeedCompositeOperatorCreate _ op => some [op]
  | .fCeedOperatorLinearAssembleQFunction _ assembledvec assembledrstr rqst => some [assembledvec, assembledrstr, rqst]
  | .fCeedOperatorLinearAssembleDiagonal _ _ rqst => some [rqst]
  | .fCeedOperatorMultigridLevelCreate _ _ _ _ opCoarse opProlong opRestrict => some [opCoarse, opProlong, opRestrict]
  | .fCeedOperatorMultigridLevelCreateTensorH1 _ _ _ _ _ opCoarse opProlong opRestrict => some [opCoarse, opProlong, opRestrict]
  | .fCeedOperatorMultigridLevelCreateH1 _ _ _ _ _ opCoarse opProlong opRestrict => some [opCoarse, opProlong, opRestrict]
  | .fCeedOperatorCreateFDMElementInverse _ fdminv rqst => some [fdminv, rqst]
  | .fCeedOperatorApply _ _ _ rqst => some [rqst]
  | .fCeedOperatorApplyAdd _ _ _ rqst => some [rqst]
  | _ => none

/-- The request contract of a wrapper that takes a request, for the value
`rqst` of `*rqst` on entry and the return code `ierr` of the underlying call:
a request is produced exactly when `rqst` is neither sentinel and `ierr` is 0,
and then `*rqst` (the last entry of `out`) is the previous count and the
count and live count of the request table grow by one; otherwise `*rqst`, the
count and the live count are unchanged.  For the sentinels -1 and -2 the
request pointer handed to the library (the last argument of the single call)
is `CEED_REQUEST_IMMEDIATE` and `CEED_REQUEST_ORDERED`. -/
def RequestContract (s : State) (rqst ierr : Int) (ret : Ret) : Prop :=
  (if rqst ≠ FORTRAN_REQUEST_IMMEDIATE ∧ rqst ≠ FORTRAN_REQUEST_ORDERED ∧ ierr = 0 then
      ret.out.getLast? = some s.CeedRequest.count ∧
      ret.st.CeedRequest.count = s.CeedRequest.count + 1 ∧
      ret.st.CeedRequest.n = s.CeedRequest.n + 1
    else
      ret.out.getLast? = some rqst ∧
      ret.st.CeedRequest.count = s.CeedRequest.count ∧
      ret.st.CeedRequest.n = s.CeedRequest.n) ∧
  (rqst = FORTRAN_REQUEST_IMMEDIATE →
    ret.calls.map (fun c => c.args.getLast?) =
      [some (Arg.obj (Obj.const CConst.CEED_REQUEST_IMMEDIATE))]) ∧
  (rqst = FORTRAN_REQUEST_ORDERED →
    ret.calls.map (fun c => c.args.getLast?) =
      [some (Arg.obj (Obj.const CConst.CEED_REQUEST_ORDERED))])

/-- The entry points that return without assigning `*err`: a destroy wrapper
called with `FORTRAN_NULL`, `fCeedRequestWait` and
`fCeedOperatorApplyJacobian`. -/
def Entry.keepsErr : Entry → Bool
  | .fCeedDestroy ceed => ceed = FORTRAN_NULL
  | .fCeedVectorDestroy vec => vec = FORTRAN_NULL
  | .fCeedElemRestrictionDestroy elem => elem = FORTRAN_NULL
  | .fCeedBasisDestroy basis => basis = FORTRAN_NULL
  | .fCeedQFunctionContextDestroy ctx => ctx = FORTRAN_NULL
  | .fCeedQFunctionDestroy qf => qf = FORTRAN_NULL
  | .fCeedOperatorDestroy op => op = FORTRAN_NULL
  | .fCeedRequestWait _ => true
  | .fCeedOperatorApplyJacobian _ _ _ _ _ _ => true
  | _ => false

/-- The contract of a create wrapper on the table `t`, for the value `h` of
the handle argument on entry and the return code `ierr` of the underlying
create call; `t1` is the table after the call.  On failure `*err` is `ierr`
and the handle, the count and the live count are unchanged; on success the
handle is the old count and the count and the live count grow by one. -/
def AtomicCreate (t : Table) (h ierr : Int) (ret : Ret) (t1 : Table) : Prop :=
  if ierr ≠ 0 then
    ret.err = ierr ∧ ret.out = [h] ∧ t1.count = t.count ∧ t1.n = t.n
  else
    ret.err = 0 ∧ ret.out = [t.count] ∧ t1.count = t.count + 1 ∧ t1.n = t.n + 1

/-- The contexts that are checked out after the calls `cs`, given those
`held` before them: a `CeedQFunctionContextGetData` on `x` checks `x` out if it
succeeded (`ok`, the outcome of the one such call a wrapper makes), and a
`CeedQFunctionContextRestoreData` on `x` returns it.  `none` if a context is
restored that is not checked out. -/
def checkout (ok : Bool) : List Call → List Obj → Option (List Obj)
  | [], held => some held
  | c :: cs, held =>
    match c.fn, c.args.head? with
    | .CeedQFunctionContextGetData, some (.obj x) =>
      checkout ok cs (if ok then x :: held else held)
    | .CeedQFunctionContextRestoreData, some (.obj x) =>
      if x ∈ held then checkout ok cs (held.erase x) else none
    | _, _ => checkout ok cs held

/-- The calls of `cs` that get or restore the data of a context. -/
def accesses (cs : List Call) : List Call :=
  cs.filter (fun c => c.fn = Ext.CeedQFunctionContextGetData ∨
    c.fn = Ext.CeedQFunctionContextRestoreData)

/-- The contract of a multigrid wrapper on the operator table, for the answer
`r` of the underlying call and the values `h` held on entry by the three
output handles; `ret` is what the wrapper leaves behind.  On success the
handles are the old count `c`, `c + 1` and `c + 2`, the slots `c`, `c + 1`,
`c + 2` hold the coarse, prolongation and restriction operators that the call
returned, the count is `c + 3` and the live count has grown by 3.  On failure
the handles and all tables are unchanged. -/
def ThreeHandles (s : State) (r : Resp) (h : List Int) (ret : Option Ret) : Prop :=
  if r.ierr = 0 then
    ∃ x, ret = some x ∧ x.err = 0 ∧
      x.out = [s.CeedOperator.count, s.CeedOperator.count + 1, s.CeedOperator.count + 2] ∧
      x.st.CeedOperator.get s.CeedOperator.count = r.outObj 0 ∧
      x.st.CeedOperator.get (s.CeedOperator.count + 1) = r.outObj 1 ∧
      x.st.CeedOperator.get (s.CeedOperator.count + 2) = r.outObj 2 ∧
      x.st.CeedOperator.count = s.CeedOperator.count + 3 ∧
      x.st.CeedOperator.n = s.CeedOperator.n + 3
  else
    ∃ x, ret = some x ∧ x.err = r.ierr ∧ x.out = h ∧ x.st = s

/-- The function `s(x, y, z) = sin(pi x) sin(pi y) sin(pi z)` of the
manufactured solution `u = (s, 2 s, 3 s)`. -/
def sinProduct {α : Type} [Mul α] (sin : α → α) (PI_DOUBLE : α) (x y z : α) : α :=
  sin (PI_DOUBLE * x) * sin (PI_DOUBLE * y) * sin (PI_DOUBLE * z)

/-- The function `d` is the divergence of the field `(u1, u2, u3)`:
`d = du1/dx + du2/dy + du3/dz` at every point. -/
def IsDivergence (u1 u2 u3 d : ℝ → ℝ → ℝ → ℝ) : Prop :=
  ∀ x y z, d x y z =
    deriv (fun t => u1 t y z) x + deriv (fun t => u2 x t z) y + deriv (fun t => u3 x y t) z

/-- The function `l` is the Laplacian of `u`: the sum of its three second
partial derivatives at every point. -/
def IsLaplacian (u l : ℝ → ℝ → ℝ → ℝ) : Prop :=
  ∀ x y z, l x y z =
    deriv (fun t => deriv (fun r => u r y z) t) x +
    deriv (fun t => deriv (fun r => u x r z) t) y +
    deriv (fun t => deriv (fun r => u x y r) t) z

/-- The point `(x, y, z)` lies on the boundary of the unit cube as the claim
describes it: one of its coordinates is 0 or 1. -/
def OnBoundary (x y z : ℝ) : Prop :=
  x = 0 ∨ x = 1 ∨ y = 0 ∨ y = 1 ∨ z = 0 ∨ z = 1

/-- The point `(x, y, z)` lies on an edge or at a corner of the unit cube: two
of its coordinates are 0 or 1. -/
def OnEdge (x y z : ℝ) : Prop :=
  ((x = 0 ∨ x = 1) ∧ (y = 0 ∨ y = 1)) ∨ ((x = 0 ∨ x = 1) ∧ (z = 0 ∨ z = 1)) ∨
  ((y = 0 ∨ y = 1) ∧ (z = 0 ∨ z = 1))

/-- The table and the handle of a destroy call; `none` for the other entry
points. -/
def Entry.destroys : Entry → Option (Tbl × Int)
  | .fCeedDestroy ceed => some (.Ceed, ceed)
  | .fCeedVectorDestroy vec => some (.CeedVector, vec)
  | .fCeedElemRestrictionDestroy elem => some (.CeedElemRestriction, elem)
  | .fCeedBasisDestroy basis => some (.CeedBasis, basis)
  | .fCeedQFunctionContextDestroy ctx => some (.CeedQFunctionContext, ctx)
  | .fCeedQFunctionDestroy qf => some (.CeedQFunction, qf)
  | .fCeedOperatorDestroy op => some (.CeedOperator, op)
  | _ => none

/-- The handles that a table issues while its count goes from `c0` to `c1`:
`c0, c0 + 1, ..., c1 - 1` (a create wrapper returns the count and increments
it). -/
def issued (c0 c1 : Int) : List Int :=
  (List.range (c1 - c0).toNat).map (fun (k : Nat) => c0 + (k : Int))

/-- The live handles of each table: those issued and not yet destroyed. -/
abbrev Live := Tbl → List Int

/-- The live handles after the call `e`, made in state `s` with the live
handles `live` and leaving `ret` behind.  A destroy call is admitted only on a
live handle, and removes it if the wrapper reset the handle to `FORTRAN_NULL`
(which it does exactly when the library destroyed the object).  After any
other call the handles issued by the call are live as well. -/
def liveAfter (e : Entry) (s : State) (ret : Ret) (live : Live) : Option Live :=
  match e.destroys with
  | some (T, h) =>
    if h ∈ live T then
      some (if ret.out = [FORTRAN_NULL] then
        fun U => if U = T then (live T).erase h else live U
      else live)
    else none
  | none => some (fun T => live T ++ issued (s.table T).count (ret.st.table T).count)

/-- The state and the live handles after the calls `steps`, made one after the
other from `s` with the live handles `live`; `none` if one of the calls
produces no result or is a destroy of a handle that is not live. -/
def runLive (s : State) (live : Live) : List Step → Option (State × Live)
  | [] => some (s, live)
  | p :: rest =>
    match exec p.entry p.lib s p.err with
    | none => none
    | some ret =>
      match liveAfter p.entry s ret live with
      | none => none
      | some live1 => runLive ret.st live1 rest

/-- The table `t` is consistent with the list `l` of its live handles:
`0 <= n <= count <= count_max`, the array has `count_max` slots, the live
handles are distinct and lie in `[0, count)`, and `n` is their number. -/
def Table.Good (t : Table) (l : List Int) : Prop :=
  0 ≤ t.n ∧ t.n ≤ t.count ∧ t.count ≤ t.count_max ∧ t.dict.length = t.count_max.toNat ∧
  l.Nodup ∧ (∀ h ∈ l, 0 ≤ h ∧ h < t.count) ∧ t.n = l.length

/-- Every entity table (all tables but the request table) is consistent with
its live handles. -/
def LiveInv (s : State) (live : Live) : Prop :=
  ∀ T : Tbl, T ≠ .CeedRequest → (s.table T).Good (live T)

/-! # Concrete inputs -/

/-- A library in which every call succeeds: a destroy resets the slot it is
given to `NULL`; every other call stores the objects 7, 8, 9 through its
object output pointers and the address 64 through its first other output
pointer. -/
def libOk : Oracle := fun f _ =>
  match f with
  | .CeedDestroy | .CeedVectorDestroy | .CeedElemRestrictionDestroy | .CeedBasisDestroy
  | .CeedQFunctionContextDestroy | .CeedQFunctionDestroy | .CeedOperatorDestroy =>
    { ierr := 0, objs := [some Obj.NULL], ints := [] }
  | _ =>
    { ierr := 0, objs := [some (Obj.ref 7), some (Obj.ref 8), some (Obj.ref 9)], ints := [64] }

/-- A library in which every call fails with code 5 and stores nothing. -/
def libFail : Oracle := fun _ _ => { ierr := 5, objs := [], ints := [] }

/-- The library `libOk`, except that `CeedQFunctionCreateInterior` fails with
code 1 and stores nothing. -/
def libCreateFails : Oracle := fun f k =>
  if f = Ext.CeedQFunctionCreateInterior then { ierr := 1, objs := [], ints := [] }
  else libOk f k

/-- The library `libOk`, except that `CeedCalloc` fails with code 1. -/
def libCallocFails : Oracle := fun f k =>
  if f = Ext.CeedCalloc then { ierr := 1, objs := [], ints := [] }
  else libOk f k

/-- The library `libOk`, with a user callback that stores 1 in its error
argument. -/
def libCallbackFails : Oracle := fun f k =>
  if f = Ext.fctx_f then { ierr := 0, objs := [], ints := [1] }
  else libOk f k

/-- A program prefix: `fCeedInit("/cpu")`, a QFunction created by the name
"Mass", an operator on it, and two vectors of length 5.  Every handle variable
holds `FORTRAN_NULL` before its create call. -/
def setup : List Step :=
  [⟨.fCeedInit [47, 99, 112, 117] (-3), libOk, 0⟩,
   ⟨.fCeedQFunctionCreateInteriorByName 0 [77, 97, 115, 115] (-3), libOk, 0⟩,
   ⟨.fCeedOperatorCreate 0 0 (-9) (-9) (-3), libOk, 0⟩,
   ⟨.fCeedVectorCreate 0 5 (-3), libOk, 0⟩,
   ⟨.fCeedVectorCreate 0 5 (-3), libOk, 0⟩]

/-- The state after `setup`: context 0, QFunction 0, operator 0 and the
vectors 0 and 1. -/
def ready : State :=
  { State.init with
    Ceed := { dict := [Obj.ref 7], count := 1, n := 1, count_max := 1 }
    CeedQFunction := { dict := [Obj.ref 7], count := 1, n := 1, count_max := 1 }
    CeedOperator := { dict := [Obj.ref 7], count := 1, n := 1, count_max := 1 }
    CeedVector := { dict := [Obj.ref 7, Obj.ref 7], count := 2, n := 2, count_max := 2 } }

/-- The prefix `setup`, then vector 0 is destroyed. -/
def demoSteps : List Step := setup ++ [⟨.fCeedVectorDestroy 0, libOk, 0⟩]

/-- The state after `demoSteps`. -/
def demoState : State :=
  { ready with
    CeedVector := { dict := [Obj.NULL, Obj.ref 7], count := 2, n := 1, count_max := 2 } }

/-- The prefix `setup`, then operator 0 is applied twice to the vectors 0 and 1,
each time with a request variable that holds 0. -/
def twoApplies : List Step :=
  setup ++ [⟨.fCeedOperatorApply 0 0 1 0, libOk, 0⟩, ⟨.fCeedOperatorApply 0 0 1 0, libOk, 0⟩]

/-- A wait on request 0, entered with `*err = 0`. -/
def waitStep : Step := ⟨.fCeedRequestWait 0, libOk, 0⟩

/-- A Fortran context with the inner context `ref 1` attached. -/
def fctxInner : CeedFortranContext := { f := 3, innerctx := Obj.ref 1 }

/-- A Fortran context without inner context. -/
def fctxBare : CeedFortranContext := { f := 3, innerctx := Obj.NULL }

/-- The pointer arrays of a batch: `u[i] = 100 + i`, `v[i] = 200 + i`. -/
def uPtrs : Nat → Int := fun i => 100 + i

/-- See `uPtrs`. -/
def vPtrs : Nat → Int := fun i => 200 + i

/-- The prefix `setup`, then the coarse grid of a multigrid level: a strided
restriction (3 elements of 2 nodes, backend strides) and a tensor Lagrange
basis (1 dimension, 1 component, P = Q = 2). -/
def coarseSetup : List Step :=
  setup ++ [⟨.fCeedElemRestrictionCreateStrided 0 3 2 1 6 0 (-4) (-3), libOk, 0⟩,
            ⟨.fCeedBasisCreateTensorH1Lagrange 0 1 1 2 2 0 (-3), libOk, 0⟩]

/-- The state after `coarseSetup`: the state `ready` with restriction 0 and
basis 0. -/
def coarseState : State :=
  { ready with
    CeedElemRestriction := { dict := [Obj.ref 7], count := 1, n := 1, count_max := 1 }
    CeedBasis := { dict := [Obj.ref 7], count := 1, n := 1, count_max := 1 } }

/-- A Fortran string of 1024 characters `A`, one more than `FIX_STRING`
accepts. -/
def longName : List Nat := List.replicate 1024 65

/-- The coordinates of one quadrature point (`Q = 1`) in the middle of the face
`x = 0` of the unit cube: `(0, 1/2, 1/2)`. -/
def faceCoords {α : Type} [Field α] : Int → α :=
  fun j => if j = 0 then 0 else 1 / 2

/-- The context `E = 1`, `nu = 0`, for which `mu = 1/2` and `kappa = 1/3`. -/
def unitContext {α : Type} [Field α] : LINEARContext_ α := { E := 1, nu := 0 }

/-! # Properties

## Counters of the tables -/

theorem Fresh.same (i : Int) : Fresh i i := Or.inl rfl

theorem Fresh.of_nonneg {o : Int} (i : Int) (h : 0 ≤ o) : Fresh o i := by
  refine Or.inr ⟨h, ?_⟩
  simp only [sentinels, FORTRAN_REQUEST_IMMEDIATE, FORTRAN_REQUEST_ORDERED, FORTRAN_NULL,
    FORTRAN_STRIDES_BACKEND, FORTRAN_VECTOR_ACTIVE, FORTRAN_VECTOR_NONE,
    FORTRAN_ELEMRESTRICTION_NONE, FORTRAN_BASIS_COLLOCATED, FORTRAN_QFUNCTION_NONE,
    List.mem_cons, List.mem_singleton, List.not_mem_nil, or_false, not_or]
  omega

@[simp] theorem Table.put_count (t : Table) (i : Int) (o : Obj) :
    (t.put i o).count = t.count := by
  unfold Table.put; split <;> rfl

@[simp] theorem Table.libStore_count (t : Table) (i : Int) (o : Option Obj) :
    (t.libStore i o).count = t.count := by
  cases o <;> simp [Table.libStore]

@[simp] theorem Table.grow_count (t : Table) : t.grow.count = t.count := by
  unfold Table.grow; split <;> rfl

@[simp] theorem Table.issue_count (t : Table) : t.issue.count = t.count + 1 := rfl

@[simp] theorem growRequest_count (q : Int) (t : Table) :
    (growRequest q t).count = t.count := by
  unfold growRequest; split <;> simp

@[simp] theorem storeRequest_count (q : Int) (t : Table) (o : Option Obj) :
    (storeRequest q t o).count = t.count := by
  unfold storeRequest; split <;> simp

@[simp] theorem Table.put_count_max (t : Table) (i : Int) (o : Obj) :
    (t.put i o).count_max = t.count_max := by
  unfold Table.put; split <;> rfl

@[simp] theorem Table.libStore_count_max (t : Table) (i : Int) (o : Option Obj) :
    (t.libStore i o).count_max = t.count_max := by
  cases o <;> simp [Table.libStore]

@[simp] theorem Table.issue_count_max (t : Table) : t.issue.count_max = t.count_max := rfl

@[simp] theorem Table.put_n (t : Table) (i : Int) (o : Obj) : (t.put i o).n = t.n := by
  unfold Table.put; split <;> rfl

@[simp] theorem Table.libStore_n (t : Table) (i : Int) (o : Option Obj) :
    (t.libStore i o).n = t.n := by
  cases o <;> simp [Table.libStore]

@[simp] theorem Table.grow_n (t : Table) : t.grow.n = t.n := by
  unfold Table.grow; split <;> rfl

@[simp] theorem Table.issue_n (t : Table) : t.issue.n = t.n + 1 := rfl

@[simp] theorem growRequest_n (q : Int) (t : Table) : (growRequest q t).n = t.n := by
  unfold growRequest; split <;> simp

@[simp] theorem storeRequest_n (q : Int) (t : Table) (o : Option Obj) :
    (storeRequest q t o).n = t.n := by
  unfold storeRequest; split <;> simp

/-- C division by 2 keeps a non-negative number non-negative. -/
theorem tdiv_two_nonneg {a : Int} (h : 0 ≤ a) : 0 ≤ a.tdiv 2 :=
  Int.tdiv_nonneg h (by decide)

@[simp] theorem storeRequest_count_max (q : Int) (t : Table) (o : Option Obj) :
    (storeRequest q t o).count_max = t.count_max := by
  unfold storeRequest; split <;> simp

theorem Table.release_count_eq (t : Table) :
    t.release.count = if t.n - 1 = 0 then 0 else t.count := by
  unfold Table.release; dsimp only; split <;> rfl

theorem Table.release_count_max_eq (t : Table) :
    t.release.count_max = if t.n - 1 = 0 then 0 else t.count_max := by
  unfold Table.release; dsimp only; split <;> rfl

theorem Table.release_n (t : Table) : t.release.n = t.n - 1 := by
  unfold Table.release; dsimp only; split <;> rfl

theorem Table.Bounded.mono {k : Int} {t : Table} (h : t.Bounded k) : t.Bounded (k + 1) := by
  unfold Table.Bounded at *
  omega

theorem Table.Bounded.put {k : Int} {t : Table} (h : t.Bounded k) (i : Int) (o : Obj) :
    (t.put i o).Bounded k := by
  unfold Table.put
  split
  · exact h
  · exact h

theorem Table.Bounded.libStore {k : Int} {t : Table} (h : t.Bounded k) (i : Int)
    (o : Option Obj) : (t.libStore i o).Bounded k := by
  cases o
  · exact h
  · exact h.put i _

/-- The growth block keeps the capacity within `[0, 2 * count + 4]`. -/
theorem Table.Bounded.grow {k : Int} {t : Table} (h : t.Bounded k) : t.grow.Bounded k := by
  unfold Table.grow
  split
  · unfold Table.Bounded at *
    dsimp only
    have hd : 0 ≤ t.count_max.tdiv 2 := tdiv_two_nonneg h.2.2.1
    have hd2 : t.count_max.tdiv 2 ≤ t.count_max := by
      rw [Int.tdiv_eq_ediv h.2.2.1 (by decide)]
      omega
    omega
  · exact h

theorem Table.Bounded.issue {k : Int} {t : Table} (h : t.Bounded k) :
    t.issue.Bounded (k + 1) := by
  unfold Table.issue Table.Bounded at *
  dsimp only
  omega

theorem Table.Bounded.dec {k : Int} {t : Table} (h : t.Bounded k) :
    ({ t with n := t.n - 1 } : Table).Bounded (k + 1) := by
  unfold Table.Bounded at *
  dsimp only
  omega

theorem Table.Bounded.reset {k : Int} {t : Table} (h : t.Bounded k) (d : List Obj) :
    ({ dict := d, count := 0, n := t.n - 1, count_max := 0 } : Table).Bounded (k + 1) := by
  unfold Table.Bounded at *
  dsimp only
  omega

theorem Table.Bounded.release {k : Int} {t : Table} (h : t.Bounded k) :
    t.release.Bounded (k + 1) := by
  unfold Table.release
  dsimp only
  split
  · exact h.reset _
  · exact h.dec

theorem growRequest_bounded {k : Int} {t : Table} (h : t.Bounded k) (q : Int) :
    (growRequest q t).Bounded k := by
  unfold growRequest
  split
  · exact h.grow
  · exact h

theorem storeRequest_bounded {k : Int} {t : Table} (h : t.Bounded k) (q : Int)
    (o : Option Obj) : (storeRequest q t o).Bounded k := by
  unfold storeRequest
  split
  · exact h.libStore _ _
  · exact h

/-- With a non-negative capacity the growth loop of the multigrid wrappers ends
within the fuel it is given, above `count + 2` and not below the old capacity. -/
theorem growLoop_spec (fuel : Nat) (count count_max : Int) (h0 : 0 ≤ count_max)
    (hf : (count + 3 - count_max).toNat < fuel) :
    ∃ m, growLoop fuel count count_max = some m ∧ count + 2 < m ∧ count_max ≤ m := by
  induction fuel generalizing count_max with
  | zero => omega
  | succ k ih =>
    unfold growLoop
    by_cases hc : count + 2 ≥ count_max
    · rw [if_pos hc]
      have hd := tdiv_two_nonneg h0
      obtain ⟨m, hm, h1, h2⟩ := ih (count_max + (count_max.tdiv 2 + 1)) (by omega) (by omega)
      exact ⟨m, hm, h1, by omega⟩
    · rw [if_neg hc]
      exact ⟨count_max, rfl, by omega, le_refl _⟩

theorem registerThree_some (t : Table) (a b c : Obj) (hcap : 0 ≤ t.count_max) :
    ∃ t1, registerThree t a b c = some t1 := by
  obtain ⟨m, hm, _, _⟩ := growLoop_spec ((t.count + 4 - t.count_max).toNat + 1) t.count
    t.count_max hcap (by omega)
  unfold registerThree
  rw [hm]
  exact ⟨_, rfl⟩

/-- The growth loop of the multigrid wrappers ends at a capacity of at most
`2 * count + 10`. -/
theorem growLoop_le (fuel : Nat) (count count_max m : Int) (hc : 0 ≤ count)
    (h0 : 0 ≤ count_max) (h1 : count_max ≤ 2 * count + 10)
    (h : growLoop fuel count count_max = some m) : 0 ≤ m ∧ m ≤ 2 * count + 10 := by
  induction fuel generalizing count_max with
  | zero => simp [growLoop] at h
  | succ k ih =>
    unfold growLoop at h
    by_cases hge : count + 2 ≥ count_max
    · rw [if_pos hge] at h
      have hd : 0 ≤ count_max.tdiv 2 := tdiv_two_nonneg h0
      have hd2 : count_max.tdiv 2 ≤ count_max := by
        rw [Int.tdiv_eq_ediv h0 (by decide)]
        omega
      exact ih (count_max + (count_max.tdiv 2 + 1)) (by omega) (by omega) h
    · rw [if_neg hge] at h
      simp only [Option.some.injEq] at h
      subst h
      exact ⟨h0, h1⟩

/-- The table statements of a multigrid wrapper keep the counters bounded. -/
theorem registerThree_bounded (t t1 : Table) (a b c : Obj) (k : Int) (hb : t.Bounded k)
    (h : registerThree t a b c = some t1) :
    t1.Bounded (k + 1) ∧ t1.count = t.count + 3 := by
  unfold Table.Bounded at hb
  unfold registerThree at h
  split at h
  · simp at h
  · next m hm =>
    have hle := growLoop_le _ _ _ _ (by omega) (by omega) (by omega) hm
    simp only [Option.some.injEq] at h
    subst h
    unfold Table.Bounded
    simp only [Table.put_count, Table.put_count_max, Table.put_n]
    omega

theorem Inv.next {k : Int} {s : State} (h : Inv k s) : Inv (k + 1) s := by
  unfold Inv Table.Bounded at *
  omega

theorem Inv.init : Inv 0 State.init := by
  simp [Inv, Table.Bounded, State.init, Table.init]

/-! ## Counts and handles along a sequence of calls -/

theorem fCeedInit_inv (lib : Oracle) (s : State) (resource : List Nat) (ceed err : Int)
    (k : Int) (ret : Ret) (hs : Inv k s)
    (h : fCeedInit lib s resource ceed err = some ret) :
    Inv (k + 1) ret.st ∧ List.Forall₂ Fresh ret.out [ceed] := by
  obtain ⟨hb1, hb2, hb3, hb4, hb5, hb6, hb7, hb8⟩ := hs
  have hc1 := hb1.1
  have hc2 := hb2.1
  have hc3 := hb3.1
  have hc4 := hb4.1
  have hc5 := hb5.1
  have hc6 := hb6.1
  have hc7 := hb7.1
  have hc8 := hb8.1
  unfold fCeedInit at h
  try unfold forward at h
  try dsimp only at h
  repeat' split at h
  all_goals simp only [Option.some.injEq, reduceCtorEq] at h
  all_goals
    subst h
    try split_ifs
  all_goals
    refine ⟨?_, ?_⟩
    · unfold Inv
      refine ⟨?_, ?_, ?_, ?_, ?_, ?_, ?_, ?_⟩
      all_goals
        with_reducible repeat (first
          | assumption | apply Table.Bounded.issue | apply Table.Bounded.release
          | apply Table.Bounded.reset | apply Table.Bounded.dec | apply Table.Bounded.libStore
          | apply Table.Bounded.put | apply Table.Bounded.grow | apply storeRequest_bounded
          | apply growRequest_bounded | apply Table.Bounded.mono)
    · repeat' (first | exact List.Forall₂.nil | apply List.Forall₂.cons)
      all_goals first
        | exact Fresh.same _
        | (apply Fresh.of_nonneg
           simp only [Table.put_count, Table.libStore_count, Table.grow_count, Table.issue_count,
             growRequest_count, storeRequest_count]
           omega)

theorem fCeedDestroy_inv (lib : Oracle) (s : State) (ceed err : Int) (k : Int) (hs : Inv k s) :
    Inv (k + 1) (fCeedDestroy lib s ceed err).st := by
  obtain ⟨hb1, hb2, hb3, hb4, hb5, hb6, hb7, hb8⟩ := hs
  unfold fCeedDestroy
  try unfold forward
  try dsimp only
  try split_ifs
  all_goals
    unfold Inv
    refine ⟨?_, ?_, ?_, ?_, ?_, ?_, ?_, ?_⟩
    all_goals
      with_reducible repeat (first
        | assumption | apply Table.Bounded.issue | apply Table.Bounded.release
        | apply Table.Bounded.reset | apply Table.Bounded.dec | apply Table.Bounded.libStore
        | apply Table.Bounded.put | apply Table.Bounded.grow | apply storeRequest_bounded
        | apply growRequest_bounded | apply Table.Bounded.mono)

theorem fCeedVectorCreate_inv (lib : Oracle) (s : State) (ceed length vec err : Int) (k : Int)
    (hs : Inv k s) :
    Inv (k + 1) (fCeedVectorCreate lib s ceed length vec err).st ∧
      List.Forall₂ Fresh (fCeedVectorCreate lib s ceed length vec err).out [vec] := by
  obtain ⟨hb1, hb2, hb3, hb4, hb5, hb6, hb7, hb8⟩ := hs
  have hc1 := hb1.1
  have hc2 := hb2.1
  have hc3 := hb3.1
  have hc4 := hb4.1
  have hc5 := hb5.1
  have hc6 := hb6.1
  have hc7 := hb7.1
  have hc8 := hb8.1
  unfold fCeedVectorCreate
  try unfold forward
  try dsimp only
  try split_ifs
  all_goals
    refine ⟨?_, ?_⟩
    · unfold Inv
      refine ⟨?_, ?_, ?_, ?_, ?_, ?_, ?_, ?_⟩
      all_goals
        with_reducible repeat (first
          | assumption | apply Table.Bounded.issue | apply Table.Bounded.release
          | apply Table.Bounded.reset | apply Table.Bounded.dec | apply Table.Bounded.libStore
          | apply Table.Bounded.put | apply Table.Bounded.grow | apply storeRequest_bounded
          | apply growRequest_bounded | apply Table.Bounded.mono)
    · repeat' (first | exact List.Forall₂.nil | apply List.Forall₂.cons)
      all_goals first
        | exact Fresh.same _
        | (apply Fresh.of_nonneg
           simp only [Table.put_count, Table.libStore_count, Table.grow_count, Table.issue_count,
             growRequest_count, storeRequest_count]
           omega)

theorem fCeedVectorDestroy_inv (lib : Oracle) (s : State) (vec err : Int) (k : Int)
    (hs : Inv k s) :
    Inv (k + 1) (fCeedVectorDestroy lib s vec err).st := by
  obtain ⟨hb1, hb2, hb3, hb4, hb5, hb6, hb7, hb8⟩ := hs
  unfold fCeedVectorDestroy
  try unfold forward
  try dsimp only
  try split_ifs
  all_goals
    unfold Inv
    refine ⟨?_, ?_, ?_, ?_, ?_, ?_, ?_, ?_⟩
    all_goals
      with_reducible repeat (first
        | assumption | apply Table.Bounded.issue | apply Table.Bounded.release
        | apply Table.Bounded.reset | apply Table.Bounded.dec | apply Table.Bounded.libStore
        | apply Table.Bounded.put | apply Table.Bounded.grow | apply storeRequest_bounded
        | apply growRequest_bounded | apply Table.Bounded.mono)

theorem fCeedElemRestrictionCreate_inv (lib : Oracle) (s : State)
    (ceed nelements esize ncomp compstride lsize memtype copymode offsets elemrestriction err :
      Int) (k : Int) (hs : Inv k s) :
    Inv (k + 1) (fCeedElemRestrictionCreate lib s ceed nelements esize ncomp compstride lsize
      memtype copymode offsets elemrestriction err).st ∧
      List.Forall₂ Fresh (fCeedElemRestrictionCreate lib s ceed nelements esize ncomp compstride
        lsize memtype copymode offsets elemrestriction err).out [elemrestriction] := by
  obtain ⟨hb1, hb2, hb3, hb4, hb5, hb6, hb7, hb8⟩ := hs
  have hc1 := hb1.1
  have hc2 := hb2.1
  have hc3 := hb3.1
  have hc4 := hb4.1
  have hc5 := hb5.1
  have hc6 := hb6.1
  have hc7 := hb7.1
  have hc8 := hb8.1
  unfold fCeedElemRestrictionCreate
  try unfold forward
  try dsimp only
  try split_ifs
  all_goals
    refine ⟨?_, ?_⟩
    · unfold Inv
      refine ⟨?_, ?_, ?_, ?_, ?_, ?_, ?_, ?_⟩
      all_goals
        with_reducible repeat (first
          | assumption | apply Table.Bounded.issue | apply Table.Bounded.release
          | apply Table.Bounded.reset | apply Table.Bounded.dec | apply Table.Bounded.libStore
          | apply Table.Bounded.put | apply Table.Bounded.grow | apply storeRequest_bounded
          | apply growRequest_bounded | apply Table.Bounded.mono)
    · repeat' (first | exact List.Forall₂.nil | apply List.Forall₂.cons)
      all_goals first
        | exact Fresh.same _
        | (apply Fresh.of_nonneg
           simp only [Table.put_count, Table.libStore_count, Table.grow_count, Table.issue_count,
             growRequest_count, storeRequest_count]
           omega)

theorem fCeedElemRestrictionCreateStrided_inv (lib : Oracle) (s : State)
    (ceed nelements esize ncomp lsize strides strides_0 elemrestriction err : Int) (k : Int)
    (hs : Inv k s) :
    Inv (k + 1) (fCeedElemRestrictionCreateStrided lib s ceed nelements esize ncomp lsize
      strides strides_0 elemrestriction err).st ∧
      List.Forall₂ Fresh (fCeedElemRestrictionCreateStrided lib s ceed nelements esize ncomp
        lsize strides strides_0 elemrestriction err).out [elemrestriction] := by
  obtain ⟨hb1, hb2, hb3, hb4, hb5, hb6, hb7, hb8⟩ := hs
  have hc1 := hb1.1
  have hc2 := hb2.1
  have hc3 := hb3.1
  have hc4 := hb4.1
  have hc5 := hb5.1
  have hc6 := hb6.1
  have hc7 := hb7.1
  have hc8 := hb8.1
  unfold fCeedElemRestrictionCreateStrided
  try unfold forward
  try dsimp only
  try split_ifs
  all_goals
    refine ⟨?_, ?_⟩
    · unfold Inv
      refine ⟨?_, ?_, ?_, ?_, ?_, ?_, ?_, ?_⟩
      all_goals
        with_reducible repeat (first
          | assumption | apply Table.Bounded.issue | apply Table.Bounded.release
          | apply Table.Bounded.reset | apply Table.Bounded.dec | apply Table.Bounded.libStore
          | apply Table.Bounded.put | apply Table.Bounded.grow | apply storeRequest_bounded
          | apply growRequest_bounded | apply Table.Bounded.mono)
    · repeat' (first | exact List.Forall₂.nil | apply List.Forall₂.cons)
      all_goals first
        | exact Fresh.same _
        | (apply Fresh.of_nonneg
           simp only [Table.put_count, Table.libStore_count, Table.grow_count, Table.issue_count,
             growRequest_count, storeRequest_count]
           omega)

theorem fCeedElemRestrictionCreateBlocked_inv (lib : Oracle) (s : State)
    (ceed nelements esize blocksize ncomp compstride lsize mtype cmode blkindices
      elemrestriction err : Int) (k : Int) (hs : Inv k s) :
    Inv (k + 1) (fCeedElemRestrictionCreateBlocked lib s ceed nelements esize blocksize ncomp
      compstride lsize mtype cmode blkindices elemrestriction err).st ∧
      List.Forall₂ Fresh (fCeedElemRestrictionCreateBlocked lib s ceed nelements esize blocksize
        ncomp compstride lsize mtype cmode blkindices elemrestriction err).out [elemrestriction]
        := by
  obtain ⟨hb1, hb2, hb3, hb4, hb5, hb6, hb7, hb8⟩ := hs
  have hc1 := hb1.1
  have hc2 := hb2.1
  have hc3 := hb3.1
  have hc4 := hb4.1
  have hc5 := hb5.1
  have hc6 := hb6.1
  have hc7 := hb7.1
  have hc8 := hb8.1
  unfold fCeedElemRestrictionCreateBlocked
  try unfold forward
  try dsimp only
  try split_ifs
  all_goals
    refine ⟨?_, ?_⟩
    · unfold Inv
      refine ⟨?_, ?_, ?_, ?_, ?_, ?_, ?_, ?_⟩
      all_goals
        with_reducible repeat (first
          | assumption | apply Table.Bounded.issue | apply Table.Bounded.release
          | apply Table.Bounded.reset | apply Table.Bounded.dec | apply Table.Bounded.libStore
          | apply Table.Bounded.put | apply Table.Bounded.grow | apply storeRequest_bounded
          | apply growRequest_bounded | apply Table.Bounded.mono)
    · repeat' (first | exact List.Forall₂.nil | apply List.Forall₂.cons)
      all_goals first
        | exact Fresh.same _
        | (apply Fresh.of_nonneg
           simp only [Table.put_count, Table.libStore_count, Table.grow_count, Table.issue_count,
             growRequest_count, storeRequest_count]
           omega)

theorem fCeedElemRestrictionCreateBlockedStrided_inv (lib : Oracle) (s : State)
    (ceed nelements esize blksize ncomp lsize strides elemrestriction err : Int) (k : Int)
    (hs : Inv k s) :
    Inv (k + 1) (fCeedElemRestrictionCreateBlockedStrided lib s ceed nelements esize blksize
      ncomp lsize strides elemrestriction err).st ∧
      List.Forall₂ Fresh (fCeedElemRestrictionCreateBlockedStrided lib s ceed nelements esize
        blksize ncomp lsize strides elemrestriction err).out [elemrestriction] := by
  obtain ⟨hb1, hb2, hb3, hb4, hb5, hb6, hb7, hb8⟩ := hs
  have hc1 := hb1.1
  have hc2 := hb2.1
  have hc3 := hb3.1
  have hc4 := hb4.1
  have hc5 := hb5.1
  have hc6 := hb6.1
  have hc7 := hb7.1
  have hc8 := hb8.1
  unfold fCeedElemRestrictionCreateBlockedStrided
  try unfold forward
  try dsimp only
  try split_ifs
  all_goals
    refine ⟨?_, ?_⟩
    · unfold Inv
      refine ⟨?_, ?_, ?_, ?_, ?_, ?_, ?_, ?_⟩
      all_goals
        with_reducible repeat (first
          | assumption | apply Table.Bounded.issue | apply Table.Bounded.release
          | apply Table.Bounded.reset | apply Table.Bounded.dec | apply Table.Bounded.libStore
          | apply Table.Bounded.put | apply Table.Bounded.grow | apply storeRequest_bounded
          | apply growRequest_bounded | apply Table.Bounded.mono)
    · repeat' (first | exact List.Forall₂.nil | apply List.Forall₂.cons)
      all_goals first
        | exact Fresh.same _
        | (apply Fresh.of_nonneg
           simp only [Table.put_count, Table.libStore_count, Table.grow_count, Table.issue_count,
             growRequest_count, storeRequest_count]
           omega)

theorem fCeedElemRestrictionApply_inv (lib : Oracle) (s : State)
    (elemr tmode uvec ruvec rqst err : Int) (k : Int) (hs : Inv k s) :
    Inv (k + 1) (fCeedElemRestrictionApply lib s elemr tmode uvec ruvec rqst err).st ∧
      List.Forall₂ Fresh (fCeedElemRestrictionApply lib s elemr tmode uvec ruvec rqst err).out
        [rqst] := by
  obtain ⟨hb1, hb2, hb3, hb4, hb5, hb6, hb7, hb8⟩ := hs
  have hc1 := hb1.1
  have hc2 := hb2.1
  have hc3 := hb3.1
  have hc4 := hb4.1
  have hc5 := hb5.1
  have hc6 := hb6.1
  have hc7 := hb7.1
  have hc8 := hb8.1
  unfold fCeedElemRestrictionApply
  try unfold forward
  try dsimp only
  try split_ifs
  all_goals
    refine ⟨?_, ?_⟩
    · unfold Inv
      refine ⟨?_, ?_, ?_, ?_, ?_, ?_, ?_, ?_⟩
      all_goals
        with_reducible repeat (first
          | assumption | apply Table.Bounded.issue | apply Table.Bounded.release
          | apply Table.Bounded.reset | apply Table.Bounded.dec | apply Table.Bounded.libStore
          | apply Table.Bounded.put | apply Table.Bounded.grow | apply storeRequest_bounded
          | apply growRequest_bounded | apply Table.Bounded.mono)
    · repeat' (first | exact List.Forall₂.nil | apply List.Forall₂.cons)
      all_goals first
        | exact Fresh.same _
        | (apply Fresh.of_nonneg
           simp only [Table.put_count, Table.libStore_count, Table.grow_count, Table.issue_count,
             growRequest_count, storeRequest_count]
           omega)

theorem fCeedElemRestrictionApplyBlock_inv (lib : Oracle) (s : State)
    (elemr block tmode uvec ruvec rqst err : Int) (k : Int) (hs : Inv k s) :
    Inv (k + 1) (fCeedElemRestrictionApplyBlock lib s elemr block tmode uvec ruvec rqst err).st
      ∧
      List.Forall₂ Fresh (fCeedElemRestrictionApplyBlock lib s elemr block tmode uvec ruvec rqst
        err).out [rqst] := by
  obtain ⟨hb1, hb2, hb3, hb4, hb5, hb6, hb7, hb8⟩ := hs
  have hc1 := hb1.1
  have hc2 := hb2.1
  have hc3 := hb3.1
  have hc4 := hb4.1
  have hc5 := hb5.1
  have hc6 := hb6.1
  have hc7 := hb7.1
  have hc8 := hb8.1
  unfold fCeedElemRestrictionApplyBlock
  try unfold forward
  try dsimp only
  try split_ifs
  all_goals
    refine ⟨?_, ?_⟩
    · unfold Inv
      refine ⟨?_, ?_, ?_, ?_, ?_, ?_, ?_, ?_⟩
      all_goals
        with_reducible repeat (first
          | assumption | apply Table.Bounded.issue | apply Table.Bounded.release
          | apply Table.Bounded.reset | apply Table.Bounded.dec | apply Table.Bounded.libStore
          | apply Table.Bounded.put | apply Table.Bounded.grow | apply storeRequest_bounded
          | apply growRequest_bounded | apply Table.Bounded.mono)
    · repeat' (first | exact List.Forall₂.nil | apply List.Forall₂.cons)
      all_goals first
        | exact Fresh.same _
        | (apply Fresh.of_nonneg
           simp only [Table.put_count, Table.libStore_count, Table.grow_count, Table.issue_count,
             growRequest_count, storeRequest_count]
           omega)

theorem fCeedRequestWait_inv (lib : Oracle) (s : State) (rqst err : Int) (k : Int)
    (hs : Inv k s) :
    Inv (k + 1) (fCeedRequestWait lib s rqst err).st := by
  obtain ⟨hb1, hb2, hb3, hb4, hb5, hb6, hb7, hb8⟩ := hs
  unfold fCeedRequestWait
  try unfold forward
  try dsimp only
  try split_ifs
  all_goals
    unfold Inv
    refine ⟨?_, ?_, ?_, ?_, ?_, ?_, ?_, ?_⟩
    all_goals
      with_reducible repeat (first
        | assumption | apply Table.Bounded.issue | apply Table.Bounded.release
        | apply Table.Bounded.reset | apply Table.Bounded.dec | apply Table.Bounded.libStore
        | apply Table.Bounded.put | apply Table.Bounded.grow | apply storeRequest_bounded
        | apply growRequest_bounded | apply Table.Bounded.mono)

theorem fCeedElemRestrictionDestroy_inv (lib : Oracle) (s : State) (elem err : Int) (k : Int)
    (hs : Inv k s) :
    Inv (k + 1) (fCeedElemRestrictionDestroy lib s elem err).st := by
  obtain ⟨hb1, hb2, hb3, hb4, hb5, hb6, hb7, hb8⟩ := hs
  unfold fCeedElemRestrictionDestroy
  try unfold forward
  try dsimp only
  try split_ifs
  all_goals
    unfold Inv
    refine ⟨?_, ?_, ?_, ?_, ?_, ?_, ?_, ?_⟩
    all_goals
      with_reducible repeat (first
        | assumption | apply Table.Bounded.issue | apply Table.Bounded.release
        | apply Table.Bounded.reset | apply Table.Bounded.dec | apply Table.Bounded.libStore
        | apply Table.Bounded.put | apply Table.Bounded.grow | apply storeRequest_bounded
        | apply growRequest_bounded | apply Table.Bounded.mono)

theorem fCeedBasisCreateTensorH1Lagrange_inv (lib : Oracle) (s : State)
    (ceed dim ncomp P Q quadmode basis err : Int) (k : Int) (hs : Inv k s) :
    Inv (k + 1) (fCeedBasisCreateTensorH1Lagrange lib s ceed dim ncomp P Q quadmode basis
      err).st ∧
      List.Forall₂ Fresh (fCeedBasisCreateTensorH1Lagrange lib s ceed dim ncomp P Q quadmode
        basis err).out [basis] := by
  obtain ⟨hb1, hb2, hb3, hb4, hb5, hb6, hb7, hb8⟩ := hs
  have hc1 := hb1.1
  have hc2 := hb2.1
  have hc3 := hb3.1
  have hc4 := hb4.1
  have hc5 := hb5.1
  have hc6 := hb6.1
  have hc7 := hb7.1
  have hc8 := hb8.1
  unfold fCeedBasisCreateTensorH1Lagrange
  try unfold forward
  try dsimp only
  try split_ifs
  all_goals
    refine ⟨?_, ?_⟩
    · unfold Inv
      refine ⟨?_, ?_, ?_, ?_, ?_, ?_, ?_, ?_⟩
      all_goals
        with_reducible repeat (first
          | assumption | apply Table.Bounded.issue | apply Table.Bounded.release
          | apply Table.Bounded.reset | apply Table.Bounded.dec | apply Table.Bounded.libStore
          | apply Table.Bounded.put | apply Table.Bounded.grow | apply storeRequest_bounded
          | apply growRequest_bounded | apply Table.Bounded.mono)
    · repeat' (first | exact List.Forall₂.nil | apply List.Forall₂.cons)
      all_goals first
        | exact Fresh.same _
        | (apply Fresh.of_nonneg
           simp only [Table.put_count, Table.libStore_count, Table.grow_count, Table.issue_count,
             growRequest_count, storeRequest_count]
           omega)

theorem fCeedBasisCreateTensorH1_inv (lib : Oracle) (s : State)
    (ceed dim ncomp P1d Q1d interp1d grad1d qref1d qweight1d basis err : Int) (k : Int)
    (hs : Inv k s) :
    Inv (k + 1) (fCeedBasisCreateTensorH1 lib s ceed dim ncomp P1d Q1d interp1d grad1d qref1d
      qweight1d basis err).st ∧
      List.Forall₂ Fresh (fCeedBasisCreateTensorH1 lib s ceed dim ncomp P1d Q1d interp1d grad1d
        qref1d qweight1d basis err).out [basis] := by
  obtain ⟨hb1, hb2, hb3, hb4, hb5, hb6, hb7, hb8⟩ := hs
  have hc1 := hb1.1
  have hc2 := hb2.1
  have hc3 := hb3.1
  have hc4 := hb4.1
  have hc5 := hb5.1
  have hc6 := hb6.1
  have hc7 := hb7.1
  have hc8 := hb8.1
  unfold fCeedBasisCreateTensorH1
  try unfold forward
  try dsimp only
  try split_ifs
  all_goals
    refine ⟨?_, ?_⟩
    · unfold Inv
      refine ⟨?_, ?_, ?_, ?_, ?_, ?_, ?_, ?_⟩
      all_goals
        with_reducible repeat (first
          | assumption | apply Table.Bounded.issue | apply Table.Bounded.release
          | apply Table.Bounded.reset | apply Table.Bounded.dec | apply Table.Bounded.libStore
          | apply Table.Bounded.put | apply Table.Bounded.grow | apply storeRequest_bounded
          | apply growRequest_bounded | apply Table.Bounded.mono)
    · repeat' (first | exact List.Forall₂.nil | apply List.Forall₂.cons)
      all_goals first
        | exact Fresh.same _
        | (apply Fresh.of_nonneg
           simp only [Table.put_count, Table.libStore_count, Table.grow_count, Table.issue_count,
             growRequest_count, storeRequest_count]
           omega)

theorem fCeedBasisCreateH1_inv (lib : Oracle) (s : State)
    (ceed topo ncomp nnodes nqpts interp grad qref qweight basis err : Int) (k : Int)
    (hs : Inv k s) :
    Inv (k + 1) (fCeedBasisCreateH1 lib s ceed topo ncomp nnodes nqpts interp grad qref qweight
      basis err).st ∧
      List.Forall₂ Fresh (fCeedBasisCreateH1 lib s ceed topo ncomp nnodes nqpts interp grad qref
        qweight basis err).out [basis] := by
  obtain ⟨hb1, hb2, hb3, hb4, hb5, hb6, hb7, hb8⟩ := hs
  have hc1 := hb1.1
  have hc2 := hb2.1
  have hc3 := hb3.1
  have hc4 := hb4.1
  have hc5 := hb5.1
  have hc6 := hb6.1
  have hc7 := hb7.1
  have hc8 := hb8.1
  unfold fCeedBasisCreateH1
  try unfold forward
  try dsimp only
  try split_ifs
  all_goals
    refine ⟨?_, ?_⟩
    · unfold Inv
      refine ⟨?_, ?_, ?_, ?_, ?_, ?_, ?_, ?_⟩
      all_goals
        with_reducible repeat (first
          | assumption | apply Table.Bounded.issue | apply Table.Bounded.release
          | apply Table.Bounded.reset | apply Table.Bounded.dec | apply Table.Bounded.libStore
          | apply Table.Bounded.put | apply Table.Bounded.grow | apply storeRequest_bounded
          | apply growRequest_bounded | apply Table.Bounded.mono)
    · repeat' (first | exact List.Forall₂.nil | apply List.Forall₂.cons)
      all_goals first
        | exact Fresh.same _
        | (apply Fresh.of_nonneg
           simp only [Table.put_count, Table.libStore_count, Table.grow_count, Table.issue_count,
             growRequest_count, storeRequest_count]
           omega)

theorem fCeedBasisApply_inv (lib : Oracle) (s : State) (basis nelem tmode emode u v err : Int)
    (k : Int) (hs : Inv k s) :
    Inv (k + 1) (fCeedBasisApply lib s basis nelem tmode emode u v err).st := by
  obtain ⟨hb1, hb2, hb3, hb4, hb5, hb6, hb7, hb8⟩ := hs
  unfold fCeedBasisApply
  try unfold forward
  try dsimp only
  try split_ifs
  all_goals
    unfold Inv
    refine ⟨?_, ?_, ?_, ?_, ?_, ?_, ?_, ?_⟩
    all_goals
      with_reducible repeat (first
        | assumption | apply Table.Bounded.issue | apply Table.Bounded.release
        | apply Table.Bounded.reset | apply Table.Bounded.dec | apply Table.Bounded.libStore
        | apply Table.Bounded.put | apply Table.Bounded.grow | apply storeRequest_bounded
        | apply growRequest_bounded | apply Table.Bounded.mono)

theorem fCeedBasisDestroy_inv (lib : Oracle) (s : State) (basis err : Int) (k : Int)
    (hs : Inv k s) :
    Inv (k + 1) (fCeedBasisDestroy lib s basis err).st := by
  obtain ⟨hb1, hb2, hb3, hb4, hb5, hb6, hb7, hb8⟩ := hs
  unfold fCeedBasisDestroy
  try unfold forward
  try dsimp only
  try split_ifs
  all_goals
    unfold Inv
    refine ⟨?_, ?_, ?_, ?_, ?_, ?_, ?_, ?_⟩
    all_goals
      with_reducible repeat (first
        | assumption | apply Table.Bounded.issue | apply Table.Bounded.release
        | apply Table.Bounded.reset | apply Table.Bounded.dec | apply Table.Bounded.libStore
        | apply Table.Bounded.put | apply Table.Bounded.grow | apply storeRequest_bounded
        | apply growRequest_bounded | apply Table.Bounded.mono)

theorem fCeedQFunctionContextCreate_inv (lib : Oracle) (s : State) (ceed ctx err : Int)
    (k : Int) (hs : Inv k s) :
    Inv (k + 1) (fCeedQFunctionContextCreate lib s ceed ctx err).st ∧
      List.Forall₂ Fresh (fCeedQFunctionContextCreate lib s ceed ctx err).out [ctx] := by
  obtain ⟨hb1, hb2, hb3, hb4, hb5, hb6, hb7, hb8⟩ := hs
  have hc1 := hb1.1
  have hc2 := hb2.1
  have hc3 := hb3.1
  have hc4 := hb4.1
  have hc5 := hb5.1
  have hc6 := hb6.1
  have hc7 := hb7.1
  have hc8 := hb8.1
  unfold fCeedQFunctionContextCreate
  try unfold forward
  try dsimp only
  try split_ifs
  all_goals
    refine ⟨?_, ?_⟩
    · unfold Inv
      refine ⟨?_, ?_, ?_, ?_, ?_, ?_, ?_, ?_⟩
      all_goals
        with_reducible repeat (first
          | assumption | apply Table.Bounded.issue | apply Table.Bounded.release
          | apply Table.Bounded.reset | apply Table.Bounded.dec | apply Table.Bounded.libStore
          | apply Table.Bounded.put | apply Table.Bounded.grow | apply storeRequest_bounded
          | apply growRequest_bounded | apply Table.Bounded.mono)
    · repeat' (first | exact List.Forall₂.nil | apply List.Forall₂.cons)
      all_goals first
        | exact Fresh.same _
        | (apply Fresh.of_nonneg
           simp only [Table.put_count, Table.libStore_count, Table.grow_count, Table.issue_count,
             growRequest_count, storeRequest_count]
           omega)

theorem fCeedQFunctionContextDestroy_inv (lib : Oracle) (s : State) (ctx err : Int) (k : Int)
    (hs : Inv k s) :
    Inv (k + 1) (fCeedQFunctionContextDestroy lib s ctx err).st := by
  obtain ⟨hb1, hb2, hb3, hb4, hb5, hb6, hb7, hb8⟩ := hs
  unfold fCeedQFunctionContextDestroy
  try unfold forward
  try dsimp only
  try split_ifs
  all_goals
    unfold Inv
    refine ⟨?_, ?_, ?_, ?_, ?_, ?_, ?_, ?_⟩
    all_goals
      with_reducible repeat (first
        | assumption | apply Table.Bounded.issue | apply Table.Bounded.release
        | apply Table.Bounded.reset | apply Table.Bounded.dec | apply Table.Bounded.libStore
        | apply Table.Bounded.put | apply Table.Bounded.grow | apply storeRequest_bounded
        | apply growRequest_bounded | apply Table.Bounded.mono)

theorem fCeedQFunctionCreateInterior_inv (lib : Oracle) (s : State) (ceed vlength : Int)
    (f : Nat) (source : List Nat) (qf err : Int) (k : Int) (ret : Ret) (hs : Inv k s)
    (h : fCeedQFunctionCreateInterior lib s ceed vlength f source qf err = some ret) :
    Inv (k + 1) ret.st ∧ List.Forall₂ Fresh ret.out [qf] := by
  obtain ⟨hb1, hb2, hb3, hb4, hb5, hb6, hb7, hb8⟩ := hs
  have hc1 := hb1.1
  have hc2 := hb2.1
  have hc3 := hb3.1
  have hc4 := hb4.1
  have hc5 := hb5.1
  have hc6 := hb6.1
  have hc7 := hb7.1
  have hc8 := hb8.1
  unfold fCeedQFunctionCreateInterior at h
  try unfold forward at h
  try dsimp only at h
  repeat' split at h
  all_goals simp only [Option.some.injEq, reduceCtorEq] at h
  all_goals
    subst h
    try split_ifs
  all_goals
    refine ⟨?_, ?_⟩
    · unfold Inv
      refine ⟨?_, ?_, ?_, ?_, ?_, ?_, ?_, ?_⟩
      all_goals
        with_reducible repeat (first
          | assumption | apply Table.Bounded.issue | apply Table.Bounded.release
          | apply Table.Bounded.reset | apply Table.Bounded.dec | apply Table.Bounded.libStore
          | apply Table.Bounded.put | apply Table.Bounded.grow | apply storeRequest_bounded
          | apply growRequest_bounded | apply Table.Bounded.mono)
    · repeat' (first | exact List.Forall₂.nil | apply List.Forall₂.cons)
      all_goals first
        | exact Fresh.same _
        | (apply Fresh.of_nonneg
           simp only [Table.put_count, Table.libStore_count, Table.grow_count, Table.issue_count,
             growRequest_count, storeRequest_count]
           omega)

theorem fCeedQFunctionCreateInteriorByName_inv (lib : Oracle) (s : State) (ceed : Int)
    (name : List Nat) (qf err : Int) (k : Int) (ret : Ret) (hs : Inv k s)
    (h : fCeedQFunctionCreateInteriorByName lib s ceed name qf err = some ret) :
    Inv (k + 1) ret.st ∧ List.Forall₂ Fresh ret.out [qf] := by
  obtain ⟨hb1, hb2, hb3, hb4, hb5, hb6, hb7, hb8⟩ := hs
  have hc1 := hb1.1
  have hc2 := hb2.1
  have hc3 := hb3.1
  have hc4 := hb4.1
  have hc5 := hb5.1
  have hc6 := hb6.1
  have hc7 := hb7.1
  have hc8 := hb8.1
  unfold fCeedQFunctionCreateInteriorByName at h
  try unfold forward at h
  try dsimp only at h
  repeat' split at h
  all_goals simp only [Option.some.injEq, reduceCtorEq] at h
  all_goals
    subst h
    try split_ifs
  all_goals
    refine ⟨?_, ?_⟩
    · unfold Inv
      refine ⟨?_, ?_, ?_, ?_, ?_, ?_, ?_, ?_⟩
      all_goals
        with_reducible repeat (first
          | assumption | apply Table.Bounded.issue | apply Table.Bounded.release
          | apply Table.Bounded.reset | apply Table.Bounded.dec | apply Table.Bounded.libStore
          | apply Table.Bounded.put | apply Table.Bounded.grow | apply storeRequest_bounded
          | apply growRequest_bounded | apply Table.Bounded.mono)
    · repeat' (first | exact List.Forall₂.nil | apply List.Forall₂.cons)
      all_goals first
        | exact Fresh.same _
        | (apply Fresh.of_nonneg
           simp only [Table.put_count, Table.libStore_count, Table.grow_count, Table.issue_count,
             growRequest_count, storeRequest_count]
           omega)

theorem fCeedQFunctionCreateIdentity_inv (lib : Oracle) (s : State)
    (ceed size inmode outmode qf err : Int) (k : Int) (hs : Inv k s) :
    Inv (k + 1) (fCeedQFunctionCreateIdentity lib s ceed size inmode outmode qf err).st ∧
      List.Forall₂ Fresh (fCeedQFunctionCreateIdentity lib s ceed size inmode outmode qf
        err).out [qf] := by
  obtain ⟨hb1, hb2, hb3, hb4, hb5, hb6, hb7, hb8⟩ := hs
  have hc1 := hb1.1
  have hc2 := hb2.1
  have hc3 := hb3.1
  have hc4 := hb4.1
  have hc5 := hb5.1
  have hc6 := hb6.1
  have hc7 := hb7.1
  have hc8 := hb8.1
  unfold fCeedQFunctionCreateIdentity
  try unfold forward
  try dsimp only
  try split_ifs
  all_goals
    refine ⟨?_, ?_⟩
    · unfold Inv
      refine ⟨?_, ?_, ?_, ?_, ?_, ?_, ?_, ?_⟩
      all_goals
        with_reducible repeat (first
          | assumption | apply Table.Bounded.issue | apply Table.Bounded.release
          | apply Table.Bounded.reset | apply Table.Bounded.dec | apply Table.Bounded.libStore
          | apply Table.Bounded.put | apply Table.Bounded.grow | apply storeRequest_bounded
          | apply growRequest_bounded | apply Table.Bounded.mono)
    · repeat' (first | exact List.Forall₂.nil | apply List.Forall₂.cons)
      all_goals first
        | exact Fresh.same _
        | (apply Fresh.of_nonneg
           simp only [Table.put_count, Table.libStore_count, Table.grow_count, Table.issue_count,
             growRequest_count, storeRequest_count]
           omega)

theorem fCeedQFunctionAddInput_inv (lib : Oracle) (s : State) (qf : Int) (fieldname : List Nat)
    (ncomp emode err : Int) (k : Int) (ret : Ret) (hs : Inv k s)
    (h : fCeedQFunctionAddInput lib s qf fieldname ncomp emode err = some ret) :
    Inv (k + 1) ret.st := by
  obtain ⟨hb1, hb2, hb3, hb4, hb5, hb6, hb7, hb8⟩ := hs
  unfold fCeedQFunctionAddInput at h
  try unfold forward at h
  try dsimp only at h
  split at h
  all_goals simp only [Option.some.injEq, reduceCtorEq] at h
  all_goals
    subst h
    try split_ifs
  all_goals
    unfold Inv
    refine ⟨?_, ?_, ?_, ?_, ?_, ?_, ?_, ?_⟩
    all_goals
      with_reducible repeat (first
        | assumption | apply Table.Bounded.issue | apply Table.Bounded.release
        | apply Table.Bounded.reset | apply Table.Bounded.dec | apply Table.Bounded.libStore
        | apply Table.Bounded.put | apply Table.Bounded.grow | apply storeRequest_bounded
        | apply growRequest_bounded | apply Table.Bounded.mono)

theorem fCeedQFunctionAddOutput_inv (lib : Oracle) (s : State) (qf : Int) (fieldname : List Nat)
    (ncomp emode err : Int) (k : Int) (ret : Ret) (hs : Inv k s)
    (h : fCeedQFunctionAddOutput lib s qf fieldname ncomp emode err = some ret) :
    Inv (k + 1) ret.st := by
  obtain ⟨hb1, hb2, hb3, hb4, hb5, hb6, hb7, hb8⟩ := hs
  unfold fCeedQFunctionAddOutput at h
  try unfold forward at h
  try dsimp only at h
  split at h
  all_goals simp only [Option.some.injEq, reduceCtorEq] at h
  all_goals
    subst h
    try split_ifs
  all_goals
    unfold Inv
    refine ⟨?_, ?_, ?_, ?_, ?_, ?_, ?_, ?_⟩
    all_goals
      with_reducible repeat (first
        | assumption | apply Table.Bounded.issue | apply Table.Bounded.release
        | apply Table.Bounded.reset | apply Table.Bounded.dec | apply Table.Bounded.libStore
        | apply Table.Bounded.put | apply Table.Bounded.grow | apply storeRequest_bounded
        | apply growRequest_bounded | apply Table.Bounded.mono)

theorem fCeedQFunctionSetContext_inv (lib : Oracle) (s : State) (qf ctx err : Int) (k : Int)
    (hs : Inv k s) :
    Inv (k + 1) (fCeedQFunctionSetContext lib s qf ctx err).st := by
  obtain ⟨hb1, hb2, hb3, hb4, hb5, hb6, hb7, hb8⟩ := hs
  unfold fCeedQFunctionSetContext
  try unfold forward
  try dsimp only
  try split_ifs
  all_goals
    unfold Inv
    refine ⟨?_, ?_, ?_, ?_, ?_, ?_, ?_, ?_⟩
    all_goals
      with_reducible repeat (first
        | assumption | apply Table.Bounded.issue | apply Table.Bounded.release
        | apply Table.Bounded.reset | apply Table.Bounded.dec | apply Table.Bounded.libStore
        | apply Table.Bounded.put | apply Table.Bounded.grow | apply storeRequest_bounded
        | apply growRequest_bounded | apply Table.Bounded.mono)

theorem fCeedQFunctionApply_inv (lib : Oracle) (s : State) (qf Q : Int) (u v : Nat → Int)
    (err : Int) (k : Int) (hs : Inv k s) :
    Inv (k + 1) (fCeedQFunctionApply lib s qf Q u v err).st := by
  obtain ⟨hb1, hb2, hb3, hb4, hb5, hb6, hb7, hb8⟩ := hs
  unfold fCeedQFunctionApply
  try unfold forward
  try dsimp only
  try split_ifs
  all_goals
    unfold Inv
    refine ⟨?_, ?_, ?_, ?_, ?_, ?_, ?_, ?_⟩
    all_goals
      with_reducible repeat (first
        | assumption | apply Table.Bounded.issue | apply Table.Bounded.release
        | apply Table.Bounded.reset | apply Table.Bounded.dec | apply Table.Bounded.libStore
        | apply Table.Bounded.put | apply Table.Bounded.grow | apply storeRequest_bounded
        | apply growRequest_bounded | apply Table.Bounded.mono)

theorem fCeedQFunctionDestroy_inv (lib : Oracle) (s : State) (qf err : Int) (k : Int)
    (hs : Inv k s) :
    Inv (k + 1) (fCeedQFunctionDestroy lib s qf err).st := by
  obtain ⟨hb1, hb2, hb3, hb4, hb5, hb6, hb7, hb8⟩ := hs
  unfold fCeedQFunctionDestroy
  try unfold forward
  try dsimp only
  try split_ifs
  all_goals
    unfold Inv
    refine ⟨?_, ?_, ?_, ?_, ?_, ?_, ?_, ?_⟩
    all_goals
      with_reducible repeat (first
        | assumption | apply Table.Bounded.issue | apply Table.Bounded.release
        | apply Table.Bounded.reset | apply Table.Bounded.dec | apply Table.Bounded.libStore
        | apply Table.Bounded.put | apply Table.Bounded.grow | apply storeRequest_bounded
        | apply growRequest_bounded | apply Table.Bounded.mono)

theorem fCeedOperatorCreate_inv (lib : Oracle) (s : State) (ceed qf dqf dqfT op err : Int)
    (k : Int) (hs : Inv k s) :
    Inv (k + 1) (fCeedOperatorCreate lib s ceed qf dqf dqfT op err).st ∧
      List.Forall₂ Fresh (fCeedOperatorCreate lib s ceed qf dqf dqfT op err).out [op] := by
  obtain ⟨hb1, hb2, hb3, hb4, hb5, hb6, hb7, hb8⟩ := hs
  have hc1 := hb1.1
  have hc2 := hb2.1
  have hc3 := hb3.1
  have hc4 := hb4.1
  have hc5 := hb5.1
  have hc6 := hb6.1
  have hc7 := hb7.1
  have hc8 := hb8.1
  unfold fCeedOperatorCreate
  try unfold forward
  try dsimp only
  try split_ifs
  all_goals
    refine ⟨?_, ?_⟩
    · unfold Inv
      refine ⟨?_, ?_, ?_, ?_, ?_, ?_, ?_, ?_⟩
      all_goals
        with_reducible repeat (first
          | assumption | apply Table.Bounded.issue | apply Table.Bounded.release
          | apply Table.Bounded.reset | apply Table.Bounded.dec | apply Table.Bounded.libStore
          | apply Table.Bounded.put | apply Table.Bounded.grow | apply storeRequest_bounded
          | apply growRequest_bounded | apply Table.Bounded.mono)
    · repeat' (first | exact List.Forall₂.nil | apply List.Forall₂.cons)
      all_goals first
        | exact Fresh.same _
        | (apply Fresh.of_nonneg
           simp only [Table.put_count, Table.libStore_count, Table.grow_count, Table.issue_count,
             growRequest_count, storeRequest_count]
           omega)

theorem fCeedCompositeOperatorCreate_inv (lib : Oracle) (s : State) (ceed op err : Int)
    (k : Int) (hs : Inv k s) :
    Inv (k + 1) (fCeedCompositeOperatorCreate lib s ceed op err).st ∧
      List.Forall₂ Fresh (fCeedCompositeOperatorCreate lib s ceed op err).out [op] := by
  obtain ⟨hb1, hb2, hb3, hb4, hb5, hb6, hb7, hb8⟩ := hs
  have hc1 := hb1.1
  have hc2 := hb2.1
  have hc3 := hb3.1
  have hc4 := hb4.1
  have hc5 := hb5.1
  have hc6 := hb6.1
  have hc7 := hb7.1
  have hc8 := hb8.1
  unfold fCeedCompositeOperatorCreate
  try unfold forward
  try dsimp only
  try split_ifs
  all_goals
    refine ⟨?_, ?_⟩
    · unfold Inv
      refine ⟨?_, ?_, ?_, ?_, ?_, ?_, ?_, ?_⟩
      all_goals
        with_reducible repeat (first
          | assumption | apply Table.Bounded.issue | apply Table.Bounded.release
          | apply Table.Bounded.reset | apply Table.Bounded.dec | apply Table.Bounded.libStore
          | apply Table.Bounded.put | apply Table.Bounded.grow | apply storeRequest_bounded
          | apply growRequest_bounded | apply Table.Bounded.mono)
    · repeat' (first | exact List.Forall₂.nil | apply List.Forall₂.cons)
      all_goals first
        | exact Fresh.same _
        | (apply Fresh.of_nonneg
           simp only [Table.put_count, Table.libStore_count, Table.grow_count, Table.issue_count,
             growRequest_count, storeRequest_count]
           omega)

theorem fCeedOperatorSetField_inv (lib : Oracle) (s : State) (op : Int) (fieldname : List Nat)
    (r b v err : Int) (k : Int) (ret : Ret) (hs : Inv k s)
    (h : fCeedOperatorSetField lib s op fieldname r b v err = some ret) :
    Inv (k + 1) ret.st := by
  obtain ⟨hb1, hb2, hb3, hb4, hb5, hb6, hb7, hb8⟩ := hs
  unfold fCeedOperatorSetField at h
  try unfold forward at h
  try dsimp only at h
  split at h
  all_goals simp only [Option.some.injEq, reduceCtorEq] at h
  all_goals
    subst h
    try split_ifs
  all_goals
    unfold Inv
    refine ⟨?_, ?_, ?_, ?_, ?_, ?_, ?_, ?_⟩
    all_goals
      with_reducible repeat (first
        | assumption | apply Table.Bounded.issue | apply Table.Bounded.release
        | apply Table.Bounded.reset | apply Table.Bounded.dec | apply Table.Bounded.libStore
        | apply Table.Bounded.put | apply Table.Bounded.grow | apply storeRequest_bounded
        | apply growRequest_bounded | apply Table.Bounded.mono)

theorem fCeedOperatorLinearAssembleQFunction_inv (lib : Oracle) (s : State)
    (op assembledvec assembledrstr rqst err : Int) (k : Int) (hs : Inv k s) :
    Inv (k + 1) (fCeedOperatorLinearAssembleQFunction lib s op assembledvec assembledrstr rqst
      err).st ∧
      List.Forall₂ Fresh (fCeedOperatorLinearAssembleQFunction lib s op assembledvec
        assembledrstr rqst err).out [assembledvec, assembledrstr, rqst] := by
  obtain ⟨hb1, hb2, hb3, hb4, hb5, hb6, hb7, hb8⟩ := hs
  have hc1 := hb1.1
  have hc2 := hb2.1
  have hc3 := hb3.1
  have hc4 := hb4.1
  have hc5 := hb5.1
  have hc6 := hb6.1
  have hc7 := hb7.1
  have hc8 := hb8.1
  unfold fCeedOperatorLinearAssembleQFunction
  try unfold forward
  try dsimp only
  try split_ifs
  all_goals
    refine ⟨?_, ?_⟩
    · unfold Inv
      refine ⟨?_, ?_, ?_, ?_, ?_, ?_, ?_, ?_⟩
      all_goals
        with_reducible repeat (first
          | assumption | apply Table.Bounded.issue | apply Table.Bounded.release
          | apply Table.Bounded.reset | apply Table.Bounded.dec | apply Table.Bounded.libStore
          | apply Table.Bounded.put | apply Table.Bounded.grow | apply storeRequest_bounded
          | apply growRequest_bounded | apply Table.Bounded.mono)
    · repeat' (first | exact List.Forall₂.nil | apply List.Forall₂.cons)
      all_goals first
        | exact Fresh.same _
        | (apply Fresh.of_nonneg
           simp only [Table.put_count, Table.libStore_count, Table.grow_count, Table.issue_count,
             growRequest_count, storeRequest_count]
           omega)

theorem fCeedOperatorLinearAssembleDiagonal_inv (lib : Oracle) (s : State)
    (op assembledvec rqst err : Int) (k : Int) (hs : Inv k s) :
    Inv (k + 1) (fCeedOperatorLinearAssembleDiagonal lib s op assembledvec rqst err).st ∧
      List.Forall₂ Fresh (fCeedOperatorLinearAssembleDiagonal lib s op assembledvec rqst
        err).out [rqst] := by
  obtain ⟨hb1, hb2, hb3, hb4, hb5, hb6, hb7, hb8⟩ := hs
  have hc1 := hb1.1
  have hc2 := hb2.1
  have hc3 := hb3.1
  have hc4 := hb4.1
  have hc5 := hb5.1
  have hc6 := hb6.1
  have hc7 := hb7.1
  have hc8 := hb8.1
  unfold fCeedOperatorLinearAssembleDiagonal
  try unfold forward
  try dsimp only
  try split_ifs
  all_goals
    refine ⟨?_, ?_⟩
    · unfold Inv
      refine ⟨?_, ?_, ?_, ?_, ?_, ?_, ?_, ?_⟩
      all_goals
        with_reducible repeat (first
          | assumption | apply Table.Bounded.issue | apply Table.Bounded.release
          | apply Table.Bounded.reset | apply Table.Bounded.dec | apply Table.Bounded.libStore
          | apply Table.Bounded.put | apply Table.Bounded.grow | apply storeRequest_bounded
          | apply growRequest_bounded | apply Table.Bounded.mono)
    · repeat' (first | exact List.Forall₂.nil | apply List.Forall₂.cons)
      all_goals first
        | exact Fresh.same _
        | (apply Fresh.of_nonneg
           simp only [Table.put_count, Table.libStore_count, Table.grow_count, Table.issue_count,
             growRequest_count, storeRequest_count]
           omega)

theorem fCeedOperatorMultigridLevelCreate_inv (lib : Oracle) (s : State)
    (opFine pMultFine rstrCoarse basisCoarse opCoarse opProlong opRestrict err : Int) (k : Int)
    (ret : Ret) (hs : Inv k s)
    (h : fCeedOperatorMultigridLevelCreate lib s opFine pMultFine rstrCoarse basisCoarse
      opCoarse opProlong opRestrict err = some ret) :
    Inv (k + 1) ret.st ∧ List.Forall₂ Fresh ret.out [opCoarse, opProlong, opRestrict] := by
  unfold fCeedOperatorMultigridLevelCreate at h
  dsimp only at h
  split at h
  · simp only [Option.some.injEq] at h
    subst h
    exact ⟨hs.next, .cons (Fresh.same _) (.cons (Fresh.same _) (.cons (Fresh.same _) .nil))⟩
  · simp only [Option.map_eq_some'] at h
    obtain ⟨t, ht, rfl⟩ := h
    have hb := registerThree_bounded _ _ _ _ _ k hs.2.2.2.2.2.2.2 ht
    have hm := hs.next
    have hc : 0 ≤ s.CeedOperator.count := hs.2.2.2.2.2.2.2.1
    refine ⟨?_, ?_⟩
    · exact ⟨hm.1, hm.2.1, hm.2.2.1, hm.2.2.2.1, hm.2.2.2.2.1, hm.2.2.2.2.2.1,
        hm.2.2.2.2.2.2.1, hb.1⟩
    · refine .cons (Fresh.of_nonneg _ ?_) (.cons (Fresh.of_nonneg _ ?_)
        (.cons (Fresh.of_nonneg _ ?_) .nil)) <;> omega

theorem fCeedOperatorMultigridLevelCreateTensorH1_inv (lib : Oracle) (s : State)
    (opFine pMultFine rstrCoarse basisCoarse interpCtoF opCoarse opProlong opRestrict err : Int)
    (k : Int) (ret : Ret) (hs : Inv k s)
    (h : fCeedOperatorMultigridLevelCreateTensorH1 lib s opFine pMultFine rstrCoarse basisCoarse
      interpCtoF opCoarse opProlong opRestrict err = some ret) :
    Inv (k + 1) ret.st ∧ List.Forall₂ Fresh ret.out [opCoarse, opProlong, opRestrict] := by
  unfold fCeedOperatorMultigridLevelCreateTensorH1 at h
  dsimp only at h
  split at h
  · simp only [Option.some.injEq] at h
    subst h
    exact ⟨hs.next, .cons (Fresh.same _) (.cons (Fresh.same _) (.cons (Fresh.same _) .nil))⟩
  · simp only [Option.map_eq_some'] at h
    obtain ⟨t, ht, rfl⟩ := h
    have hb := registerThree_bounded _ _ _ _ _ k hs.2.2.2.2.2.2.2 ht
    have hm := hs.next
    have hc : 0 ≤ s.CeedOperator.count := hs.2.2.2.2.2.2.2.1
    refine ⟨?_, ?_⟩
    · exact ⟨hm.1, hm.2.1, hm.2.2.1, hm.2.2.2.1, hm.2.2.2.2.1, hm.2.2.2.2.2.1,
        hm.2.2.2.2.2.2.1, hb.1⟩
    · refine .cons (Fresh.of_nonneg _ ?_) (.cons (Fresh.of_nonneg _ ?_)
        (.cons (Fresh.of_nonneg _ ?_) .nil)) <;> omega

theorem fCeedOperatorMultigridLevelCreateH1_inv (lib : Oracle) (s : State)
    (opFine pMultFine rstrCoarse basisCoarse interpCtoF opCoarse opProlong opRestrict err : Int)
    (k : Int) (ret : Ret) (hs : Inv k s)
    (h : fCeedOperatorMultigridLevelCreateH1 lib s opFine pMultFine rstrCoarse basisCoarse
      interpCtoF opCoarse opProlong opRestrict err = some ret) :
    Inv (k + 1) ret.st ∧ List.Forall₂ Fresh ret.out [opCoarse, opProlong, opRestrict] := by
  unfold fCeedOperatorMultigridLevelCreateH1 at h
  dsimp only at h
  split at h
  · simp only [Option.some.injEq] at h
    subst h
    exact ⟨hs.next, .cons (Fresh.same _) (.cons (Fresh.same _) (.cons (Fresh.same _) .nil))⟩
  · simp only [Option.map_eq_some'] at h
    obtain ⟨t, ht, rfl⟩ := h
    have hb := registerThree_bounded _ _ _ _ _ k hs.2.2.2.2.2.2.2 ht
    have hm := hs.next
    have hc : 0 ≤ s.CeedOperator.count := hs.2.2.2.2.2.2.2.1
    refine ⟨?_, ?_⟩
    · exact ⟨hm.1, hm.2.1, hm.2.2.1, hm.2.2.2.1, hm.2.2.2.2.1, hm.2.2.2.2.2.1,
        hm.2.2.2.2.2.2.1, hb.1⟩
    · refine .cons (Fresh.of_nonneg _ ?_) (.cons (Fresh.of_nonneg _ ?_)
        (.cons (Fresh.of_nonneg _ ?_) .nil)) <;> omega

theorem fCeedOperatorCreateFDMElementInverse_inv (lib : Oracle) (s : State)
    (op fdminv rqst err : Int) (k : Int) (hs : Inv k s) :
    Inv (k + 1) (fCeedOperatorCreateFDMElementInverse lib s op fdminv rqst err).st ∧
      List.Forall₂ Fresh (fCeedOperatorCreateFDMElementInverse lib s op fdminv rqst err).out
        [fdminv, rqst] := by
  obtain ⟨hb1, hb2, hb3, hb4, hb5, hb6, hb7, hb8⟩ := hs
  have hc1 := hb1.1
  have hc2 := hb2.1
  have hc3 := hb3.1
  have hc4 := hb4.1
  have hc5 := hb5.1
  have hc6 := hb6.1
  have hc7 := hb7.1
  have hc8 := hb8.1
  unfold fCeedOperatorCreateFDMElementInverse
  try unfold forward
  try dsimp only
  try split_ifs
  all_goals
    refine ⟨?_, ?_⟩
    · unfold Inv
      refine ⟨?_, ?_, ?_, ?_, ?_, ?_, ?_, ?_⟩
      all_goals
        with_reducible repeat (first
          | assumption | apply Table.Bounded.issue | apply Table.Bounded.release
          | apply Table.Bounded.reset | apply Table.Bounded.dec | apply Table.Bounded.libStore
          | apply Table.Bounded.put | apply Table.Bounded.grow | apply storeRequest_bounded
          | apply growRequest_bounded | apply Table.Bounded.mono)
    · repeat' (first | exact List.Forall₂.nil | apply List.Forall₂.cons)
      all_goals first
        | exact Fresh.same _
        | (apply Fresh.of_nonneg
           simp only [Table.put_count, Table.libStore_count, Table.grow_count, Table.issue_count,
             growRequest_count, storeRequest_count]
           omega)

theorem fCeedOperatorApply_inv (lib : Oracle) (s : State) (op ustatevec resvec rqst err : Int)
    (k : Int) (hs : Inv k s) :
    Inv (k + 1) (fCeedOperatorApply lib s op ustatevec resvec rqst err).st ∧
      List.Forall₂ Fresh (fCeedOperatorApply lib s op ustatevec resvec rqst err).out [rqst] :=
        by
  obtain ⟨hb1, hb2, hb3, hb4, hb5, hb6, hb7, hb8⟩ := hs
  have hc1 := hb1.1
  have hc2 := hb2.1
  have hc3 := hb3.1
  have hc4 := hb4.1
  have hc5 := hb5.1
  have hc6 := hb6.1
  have hc7 := hb7.1
  have hc8 := hb8.1
  unfold fCeedOperatorApply
  try unfold forward
  try dsimp only
  try split_ifs
  all_goals
    refine ⟨?_, ?_⟩
    · unfold Inv
      refine ⟨?_, ?_, ?_, ?_, ?_, ?_, ?_, ?_⟩
      all_goals
        with_reducible repeat (first
          | assumption | apply Table.Bounded.issue | apply Table.Bounded.release
          | apply Table.Bounded.reset | apply Table.Bounded.dec | apply Table.Bounded.libStore
          | apply Table.Bounded.put | apply Table.Bounded.grow | apply storeRequest_bounded
          | apply growRequest_bounded | apply Table.Bounded.mono)
    · repeat' (first | exact List.Forall₂.nil | apply List.Forall₂.cons)
      all_goals first
        | exact Fresh.same _
        | (apply Fresh.of_nonneg
           simp only [Table.put_count, Table.libStore_count, Table.grow_count, Table.issue_count,
             growRequest_count, storeRequest_count]
           omega)

theorem fCeedOperatorApplyAdd_inv (lib : Oracle) (s : State)
    (op ustatevec resvec rqst err : Int) (k : Int) (hs : Inv k s) :
    Inv (k + 1) (fCeedOperatorApplyAdd lib s op ustatevec resvec rqst err).st ∧
      List.Forall₂ Fresh (fCeedOperatorApplyAdd lib s op ustatevec resvec rqst err).out [rqst]
        := by
  obtain ⟨hb1, hb2, hb3, hb4, hb5, hb6, hb7, hb8⟩ := hs
  have hc1 := hb1.1
  have hc2 := hb2.1
  have hc3 := hb3.1
  have hc4 := hb4.1
  have hc5 := hb5.1
  have hc6 := hb6.1
  have hc7 := hb7.1
  have hc8 := hb8.1
  unfold fCeedOperatorApplyAdd
  try unfold forward
  try dsimp only
  try split_ifs
  all_goals
    refine ⟨?_, ?_⟩
    · unfold Inv
      refine ⟨?_, ?_, ?_, ?_, ?_, ?_, ?_, ?_⟩
      all_goals
        with_reducible repeat (first
          | assumption | apply Table.Bounded.issue | apply Table.Bounded.release
          | apply Table.Bounded.reset | apply Table.Bounded.dec | apply Table.Bounded.libStore
          | apply Table.Bounded.put | apply Table.Bounded.grow | apply storeRequest_bounded
          | apply growRequest_bounded | apply Table.Bounded.mono)
    · repeat' (first | exact List.Forall₂.nil | apply List.Forall₂.cons)
      all_goals first
        | exact Fresh.same _
        | (apply Fresh.of_nonneg
           simp only [Table.put_count, Table.libStore_count, Table.grow_count, Table.issue_count,
             growRequest_count, storeRequest_count]
           omega)

theorem fCeedOperatorDestroy_inv (lib : Oracle) (s : State) (op err : Int) (k : Int)
    (hs : Inv k s) :
    Inv (k + 1) (fCeedOperatorDestroy lib s op err).st := by
  obtain ⟨hb1, hb2, hb3, hb4, hb5, hb6, hb7, hb8⟩ := hs
  unfold fCeedOperatorDestroy
  try unfold forward
  try dsimp only
  try split_ifs
  all_goals
    unfold Inv
    refine ⟨?_, ?_, ?_, ?_, ?_, ?_, ?_, ?_⟩
    all_goals
      with_reducible repeat (first
        | assumption | apply Table.Bounded.issue | apply Table.Bounded.release
        | apply Table.Bounded.reset | apply Table.Bounded.dec | apply Table.Bounded.libStore
        | apply Table.Bounded.put | apply Table.Bounded.grow | apply storeRequest_bounded
        | apply growRequest_bounded | apply Table.Bounded.mono)

/-- One call keeps the counters bounded, and every handle it writes is the
entry value or a non-negative non-sentinel value. -/
theorem exec_inv (e : Entry) (lib : Oracle) (s : State) (err : Int) (k : Int) (ret : Ret)
    (hs : Inv k s) (h : exec e lib s err = some ret) :
    Inv (k + 1) ret.st ∧
      ∀ ins, e.handleArgs = some ins → List.Forall₂ Fresh ret.out ins := by
  cases e <;> simp only [exec, Option.some.injEq] at h
  case fCeedInit resource ceed =>
    have hw := fCeedInit_inv lib s resource ceed err k ret hs h
    exact ⟨hw.1, by simp only [Entry.handleArgs, Option.some.injEq]; rintro ins rfl; exact hw.2⟩
  case fCeedDestroy ceed =>
    subst h
    exact ⟨fCeedDestroy_inv lib s ceed err k hs, by simp [Entry.handleArgs]⟩
  case fCeedVectorCreate ceed length vec =>
    subst h
    have hw := fCeedVectorCreate_inv lib s ceed length vec err k hs
    exact ⟨hw.1, by simp only [Entry.handleArgs, Option.some.injEq]; rintro ins rfl; exact hw.2⟩
  case fCeedVectorDestroy vec =>
    subst h
    exact ⟨fCeedVectorDestroy_inv lib s vec err k hs, by simp [Entry.handleArgs]⟩
  case fCeedElemRestrictionCreate ceed nelements esize ncomp compstride lsize memtype copymode
      offsets elemrestriction =>
    subst h
    have hw := fCeedElemRestrictionCreate_inv lib s ceed nelements esize ncomp compstride lsize
      memtype copymode offsets elemrestriction err k hs
    exact ⟨hw.1, by simp only [Entry.handleArgs, Option.some.injEq]; rintro ins rfl; exact hw.2⟩
  case fCeedElemRestrictionCreateStrided ceed nelements esize ncomp lsize strides strides_0
      elemrestriction =>
    subst h
    have hw := fCeedElemRestrictionCreateStrided_inv lib s ceed nelements esize ncomp lsize
      strides strides_0 elemrestriction err k hs
    exact ⟨hw.1, by simp only [Entry.handleArgs, Option.some.injEq]; rintro ins rfl; exact hw.2⟩
  case fCeedElemRestrictionCreateBlocked ceed nelements esize blocksize ncomp compstride lsize
      mtype cmode blkindices elemrestriction =>
    subst h
    have hw := fCeedElemRestrictionCreateBlocked_inv lib s ceed nelements esize blocksize ncomp
      compstride lsize mtype cmode blkindices elemrestriction err k hs
    exact ⟨hw.1, by simp only [Entry.handleArgs, Option.some.injEq]; rintro ins rfl; exact hw.2⟩
  case fCeedElemRestrictionCreateBlockedStrided ceed nelements esize blksize ncomp lsize strides
      elemrestriction =>
    subst h
    have hw := fCeedElemRestrictionCreateBlockedStrided_inv lib s ceed nelements esize blksize
      ncomp lsize strides elemrestriction err k hs
    exact ⟨hw.1, by simp only [Entry.handleArgs, Option.some.injEq]; rintro ins rfl; exact hw.2⟩
  case fCeedElemRestrictionApply elemr tmode uvec ruvec rqst =>
    subst h
    have hw := fCeedElemRestrictionApply_inv lib s elemr tmode uvec ruvec rqst err k hs
    exact ⟨hw.1, by simp only [Entry.handleArgs, Option.some.injEq]; rintro ins rfl; exact hw.2⟩
  case fCeedElemRestrictionApplyBlock elemr block tmode uvec ruvec rqst =>
    subst h
    have hw := fCeedElemRestrictionApplyBlock_inv lib s elemr block tmode uvec ruvec rqst err k hs
    exact ⟨hw.1, by simp only [Entry.handleArgs, Option.some.injEq]; rintro ins rfl; exact hw.2⟩
  case fCeedRequestWait rqst =>
    subst h
    exact ⟨fCeedRequestWait_inv lib s rqst err k hs, by simp [Entry.handleArgs]⟩
  case fCeedElemRestrictionDestroy elem =>
    subst h
    exact ⟨fCeedElemRestrictionDestroy_inv lib s elem err k hs, by simp [Entry.handleArgs]⟩
  case fCeedBasisCreateTensorH1Lagrange ceed dim ncomp P Q quadmode basis =>
    subst h
    have hw := fCeedBasisCreateTensorH1Lagrange_inv lib s ceed dim ncomp P Q quadmode basis err
      k hs
    exact ⟨hw.1, by simp only [Entry.handleArgs, Option.some.injEq]; rintro ins rfl; exact hw.2⟩
  case fCeedBasisCreateTensorH1 ceed dim ncomp P1d Q1d interp1d grad1d qref1d qweight1d basis =>
    subst h
    have hw := fCeedBasisCreateTensorH1_inv lib s ceed dim ncomp P1d Q1d interp1d grad1d qref1d
      qweight1d basis err k hs
    exact ⟨hw.1, by simp only [Entry.handleArgs, Option.some.injEq]; rintro ins rfl; exact hw.2⟩
  case fCeedBasisCreateH1 ceed topo ncomp nnodes nqpts interp grad qref qweight basis =>
    subst h
    have hw := fCeedBasisCreateH1_inv lib s ceed topo ncomp nnodes nqpts interp grad qref
      qweight basis err k hs
    exact ⟨hw.1, by simp only [Entry.handleArgs, Option.some.injEq]; rintro ins rfl; exact hw.2⟩
  case fCeedBasisApply basis nelem tmode emode u v =>
    subst h
    exact ⟨fCeedBasisApply_inv lib s basis nelem tmode emode u v err k hs, by simp
      [Entry.handleArgs]⟩
  case fCeedBasisDestroy basis =>
    subst h
    exact ⟨fCeedBasisDestroy_inv lib s basis err k hs, by simp [Entry.handleArgs]⟩
  case fCeedQFunctionContextCreate ceed ctx =>
    subst h
    have hw := fCeedQFunctionContextCreate_inv lib s ceed ctx err k hs
    exact ⟨hw.1, by simp only [Entry.handleArgs, Option.some.injEq]; rintro ins rfl; exact hw.2⟩
  case fCeedQFunctionContextDestroy ctx =>
    subst h
    exact ⟨fCeedQFunctionContextDestroy_inv lib s ctx err k hs, by simp [Entry.handleArgs]⟩
  case fCeedQFunctionCreateInterior ceed vlength f source qf =>
    have hw := fCeedQFunctionCreateInterior_inv lib s ceed vlength f source qf err k ret hs h
    exact ⟨hw.1, by simp only [Entry.handleArgs, Option.some.injEq]; rintro ins rfl; exact hw.2⟩
  case fCeedQFunctionCreateInteriorByName ceed name qf =>
    have hw := fCeedQFunctionCreateInteriorByName_inv lib s ceed name qf err k ret hs h
    exact ⟨hw.1, by simp only [Entry.handleArgs, Option.some.injEq]; rintro ins rfl; exact hw.2⟩
  case fCeedQFunctionCreateIdentity ceed size inmode outmode qf =>
    subst h
    have hw := fCeedQFunctionCreateIdentity_inv lib s ceed size inmode outmode qf err k hs
    exact ⟨hw.1, by simp only [Entry.handleArgs, Option.some.injEq]; rintro ins rfl; exact hw.2⟩
  case fCeedQFunctionAddInput qf fieldname ncomp emode =>
    exact ⟨fCeedQFunctionAddInput_inv lib s qf fieldname ncomp emode err k ret hs h, by simp
      [Entry.handleArgs]⟩
  case fCeedQFunctionAddOutput qf fieldname ncomp emode =>
    exact ⟨fCeedQFunctionAddOutput_inv lib s qf fieldname ncomp emode err k ret hs h, by simp
      [Entry.handleArgs]⟩
  case fCeedQFunctionSetContext qf ctx =>
    subst h
    exact ⟨fCeedQFunctionSetContext_inv lib s qf ctx err k hs, by simp [Entry.handleArgs]⟩
  case fCeedQFunctionApply qf Q u v =>
    subst h
    exact ⟨fCeedQFunctionApply_inv lib s qf Q u v err k hs, by simp [Entry.handleArgs]⟩
  case fCeedQFunctionDestroy qf =>
    subst h
    exact ⟨fCeedQFunctionDestroy_inv lib s qf err k hs, by simp [Entry.handleArgs]⟩
  case fCeedOperatorCreate ceed qf dqf dqfT op =>
    subst h
    have hw := fCeedOperatorCreate_inv lib s ceed qf dqf dqfT op err k hs
    exact ⟨hw.1, by simp only [Entry.handleArgs, Option.some.injEq]; rintro ins rfl; exact hw.2⟩
  case fCeedCompositeOperatorCreate ceed op =>
    subst h
    have hw := fCeedCompositeOperatorCreate_inv lib s ceed op err k hs
    exact ⟨hw.1, by simp only [Entry.handleArgs, Option.some.injEq]; rintro ins rfl; exact hw.2⟩
  case fCeedOperatorSetField op fieldname r b v =>
    exact ⟨fCeedOperatorSetField_inv lib s op fieldname r b v err k ret hs h, by simp
      [Entry.handleArgs]⟩
  case fCeedOperatorLinearAssembleQFunction op assembledvec assembledrstr rqst =>
    subst h
    have hw := fCeedOperatorLinearAssembleQFunction_inv lib s op assembledvec assembledrstr rqst
      err k hs
    exact ⟨hw.1, by simp only [Entry.handleArgs, Option.some.injEq]; rintro ins rfl; exact hw.2⟩
  case fCeedOperatorLinearAssembleDiagonal op assembledvec rqst =>
    subst h
    have hw := fCeedOperatorLinearAssembleDiagonal_inv lib s op assembledvec rqst err k hs
    exact ⟨hw.1, by simp only [Entry.handleArgs, Option.some.injEq]; rintro ins rfl; exact hw.2⟩
  case fCeedOperatorMultigridLevelCreate opFine pMultFine rstrCoarse basisCoarse opCoarse
      opProlong opRestrict =>
    have hw := fCeedOperatorMultigridLevelCreate_inv lib s opFine pMultFine rstrCoarse
      basisCoarse opCoarse opProlong opRestrict err k ret hs h
    exact ⟨hw.1, by simp only [Entry.handleArgs, Option.some.injEq]; rintro ins rfl; exact hw.2⟩
  case fCeedOperatorMultigridLevelCreateTensorH1 opFine pMultFine rstrCoarse basisCoarse
      interpCtoF opCoarse opProlong opRestrict =>
    have hw := fCeedOperatorMultigridLevelCreateTensorH1_inv lib s opFine pMultFine rstrCoarse
      basisCoarse interpCtoF opCoarse opProlong opRestrict err k ret hs h
    exact ⟨hw.1, by simp only [Entry.handleArgs, Option.some.injEq]; rintro ins rfl; exact hw.2⟩
  case fCeedOperatorMultigridLevelCreateH1 opFine pMultFine rstrCoarse basisCoarse interpCtoF
      opCoarse opProlong opRestrict =>
    have hw := fCeedOperatorMultigridLevelCreateH1_inv lib s opFine pMultFine rstrCoarse
      basisCoarse interpCtoF opCoarse opProlong opRestrict err k ret hs h
    exact ⟨hw.1, by simp only [Entry.handleArgs, Option.some.injEq]; rintro ins rfl; exact hw.2⟩
  case fCeedOperatorCreateFDMElementInverse op fdminv rqst =>
    subst h
    have hw := fCeedOperatorCreateFDMElementInverse_inv lib s op fdminv rqst err k hs
    exact ⟨hw.1, by simp only [Entry.handleArgs, Option.some.injEq]; rintro ins rfl; exact hw.2⟩
  case fCeedOperatorApply op ustatevec resvec rqst =>
    subst h
    have hw := fCeedOperatorApply_inv lib s op ustatevec resvec rqst err k hs
    exact ⟨hw.1, by simp only [Entry.handleArgs, Option.some.injEq]; rintro ins rfl; exact hw.2⟩
  case fCeedOperatorApplyAdd op ustatevec resvec rqst =>
    subst h
    have hw := fCeedOperatorApplyAdd_inv lib s op ustatevec resvec rqst err k hs
    exact ⟨hw.1, by simp only [Entry.handleArgs, Option.some.injEq]; rintro ins rfl; exact hw.2⟩
  case fCeedOperatorDestroy op =>
    subst h
    exact ⟨fCeedOperatorDestroy_inv lib s op err k hs, by simp [Entry.handleArgs]⟩
  all_goals
    subst h
    exact ⟨hs.next, by simp [Entry.handleArgs]⟩

/-- After `steps` the counters are bounded as after `k + steps.length` calls. -/
theorem run_inv (steps : List Step) (s s1 : State) (k : Int) (hs : Inv k s)
    (h : run s steps = some s1) : Inv (k + steps.length) s1 := by
  induction steps generalizing s k with
  | nil =>
    simp only [run, Option.some.injEq] at h
    subst h
    simpa using hs
  | cons p rest ih =>
    simp only [run] at h
    split at h
    · cases h
    · next r hr =>
      have h1 := ih r.st (k + 1) (exec_inv _ _ _ _ _ _ hs hr).1 h
      have hl : k + 1 + (rest.length : Int) = k + ((p :: rest).length : Int) := by
        simp only [List.length_cons, Nat.cast_add, Nat.cast_one]
        omega
      rw [hl] at h1
      exact h1

/-- `FIX_STRING` accepts every string of at most 1023 characters. -/
theorem FIX_STRING_some (x : List Nat) (h : x.length ≤ 1023) :
    FIX_STRING x = some (strncpy x ++ [0]) := by
  unfold FIX_STRING
  rw [if_neg (by omega)]

/-- Every call returns when its character arguments have at most 1023
characters and the capacity of the operator table is non-negative. -/
theorem exec_returns (e : Entry) (lib : Oracle) (s : State) (err : Int)
    (hstr : e.stringsOk = true) (hcap : 0 ≤ s.CeedOperator.count_max) :
    ∃ ret, exec e lib s err = some ret := by
  cases e <;> simp only [exec] <;> try exact ⟨_, rfl⟩
  case fCeedInit resource ceed =>
    simp only [Entry.stringsOk, decide_eq_true_eq] at hstr
    unfold fCeedInit
    rw [FIX_STRING_some _ hstr]
    dsimp only
    split_ifs <;> exact ⟨_, rfl⟩
  case fCeedQFunctionCreateInterior ceed vlength f source qf =>
    simp only [Entry.stringsOk, decide_eq_true_eq] at hstr
    unfold fCeedQFunctionCreateInterior
    rw [FIX_STRING_some _ hstr]
    dsimp only
    split_ifs <;> exact ⟨_, rfl⟩
  case fCeedQFunctionCreateInteriorByName ceed name qf =>
    simp only [Entry.stringsOk, decide_eq_true_eq] at hstr
    unfold fCeedQFunctionCreateInteriorByName
    rw [FIX_STRING_some _ hstr]
    dsimp only
    split_ifs <;> exact ⟨_, rfl⟩
  case fCeedQFunctionAddInput qf fieldname ncomp emode =>
    simp only [Entry.stringsOk, decide_eq_true_eq] at hstr
    unfold fCeedQFunctionAddInput
    rw [FIX_STRING_some _ hstr]
    exact ⟨_, rfl⟩
  case fCeedQFunctionAddOutput qf fieldname ncomp emode =>
    simp only [Entry.stringsOk, decide_eq_true_eq] at hstr
    unfold fCeedQFunctionAddOutput
    rw [FIX_STRING_some _ hstr]
    exact ⟨_, rfl⟩
  case fCeedOperatorSetField op fieldname r b v =>
    simp only [Entry.stringsOk, decide_eq_true_eq] at hstr
    unfold fCeedOperatorSetField
    rw [FIX_STRING_some _ hstr]
    exact ⟨_, rfl⟩
  case fCeedOperatorMultigridLevelCreate opFine pMultFine rstrCoarse basisCoarse opCoarse
      opProlong opRestrict =>
    obtain ⟨t1, ht⟩ := registerThree_some s.CeedOperator
      ((lib .CeedOperatorMultigridLevelCreate 0).outObj 0)
      ((lib .CeedOperatorMultigridLevelCreate 0).outObj 1)
      ((lib .CeedOperatorMultigridLevelCreate 0).outObj 2) hcap
    unfold fCeedOperatorMultigridLevelCreate
    dsimp only
    rw [ht]
    split_ifs <;> exact ⟨_, rfl⟩
  case fCeedOperatorMultigridLevelCreateTensorH1 opFine pMultFine rstrCoarse basisCoarse
      interpCtoF opCoarse opProlong opRestrict =>
    obtain ⟨t1, ht⟩ := registerThree_some s.CeedOperator
      ((lib .CeedOperatorMultigridLevelCreateTensorH1 0).outObj 0)
      ((lib .CeedOperatorMultigridLevelCreateTensorH1 0).outObj 1)
      ((lib .CeedOperatorMultigridLevelCreateTensorH1 0).outObj 2) hcap
    unfold fCeedOperatorMultigridLevelCreateTensorH1
    dsimp only
    rw [ht]
    split_ifs <;> exact ⟨_, rfl⟩
  case fCeedOperatorMultigridLevelCreateH1 opFine pMultFine rstrCoarse basisCoarse
      interpCtoF opCoarse opProlong opRestrict =>
    obtain ⟨t1, ht⟩ := registerThree_some s.CeedOperator
      ((lib .CeedOperatorMultigridLevelCreateH1 0).outObj 0)
      ((lib .CeedOperatorMultigridLevelCreateH1 0).outObj 1)
      ((lib .CeedOperatorMultigridLevelCreateH1 0).outObj 2) hcap
    unfold fCeedOperatorMultigridLevelCreateH1
    dsimp only
    rw [ht]
    split_ifs <;> exact ⟨_, rfl⟩

/-! ## C1: sentinels and handles -/

/-- C1. The nine Fortran sentinels are pairwise distinct.  In every state
reached from the initial empty tables by a sequence of entry-point calls
(creates, destroys and all the others, each answered arbitrarily by the
library): the count of every table, which is the handle the next create on
that table returns, is non-negative and is none of the sentinels; every call
whose character arguments have at most 1023 characters returns; every value
that a call leaves in a handle argument is either the value the argument
held on entry or a non-negative value that is none of the sentinels; and
after `N` calls every count is at most `3 N`, every capacity lies in
`[0, 6 N + 4]` and every live count in `[-N, 3 N]`, so that in a sequence of
fewer than `2 ^ 28` calls no counter leaves the range of a 32-bit `int`. -/
theorem sentinels_distinct_handles_nonneg :
    sentinels.Pairwise (fun a b => a ≠ b) ∧
    ∀ (steps : List Step) (s : State), run State.init steps = some s →
      (∀ T : Tbl, 0 ≤ (s.table T).count ∧ (s.table T).count ∉ sentinels) ∧
      (∀ (e : Entry) (lib : Oracle) (err : Int), e.stringsOk = true →
        ∃ ret, exec e lib s err = some ret) ∧
      (∀ (e : Entry) (lib : Oracle) (err : Int) (ret : Ret) (ins : List Int),
        exec e lib s err = some ret → e.handleArgs = some ins →
        List.Forall₂ (fun o i => o = i ∨ (0 ≤ o ∧ o ∉ sentinels)) ret.out ins) ∧
      (∀ T : Tbl, (s.table T).count ≤ 3 * steps.length ∧
        0 ≤ (s.table T).count_max ∧ (s.table T).count_max ≤ 6 * steps.length + 4 ∧
        -(steps.length : Int) ≤ (s.table T).n ∧ (s.table T).n ≤ 3 * steps.length) := by
  refine ⟨by decide, ?_⟩
  intro steps s hrun
  have hs : Inv (0 + steps.length) s := run_inv steps _ s 0 Inv.init hrun
  rw [Int.zero_add] at hs
  have hb : ∀ T : Tbl, (s.table T).Bounded steps.length := by
    intro T
    unfold Inv at hs
    cases T <;> simp only [State.table]
    · exact hs.1
    · exact hs.2.1
    · exact hs.2.2.1
    · exact hs.2.2.2.1
    · exact hs.2.2.2.2.1
    · exact hs.2.2.2.2.2.1
    · exact hs.2.2.2.2.2.2.1
    · exact hs.2.2.2.2.2.2.2
  refine ⟨?_, ?_, ?_, ?_⟩
  · intro T
    have key : 0 ≤ (s.table T).count := (hb T).1
    rcases Fresh.of_nonneg 0 key with h | h
    · exact ⟨key, by rw [h]; decide⟩
    · exact h
  · intro e lib err hstr
    exact exec_returns e lib s err hstr (hb .CeedOperator).2.2.1
  · intro e lib err ret ins hex hin
    exact (exec_inv e lib s err _ ret hs hex).2 ins hin
  · intro T
    have h := hb T
    unfold Table.Bounded at h
    omega

/-- C1 at a concrete run: after `demoSteps` (a context, a QFunction, an
operator, two vectors, then the destruction of vector 0) the vector count is
2, a valid handle; a third create returns, and the handle it returns is 2. -/
theorem sentinels_distinct_handles_nonneg_witness :
    run State.init demoSteps = some demoState ∧
    (0 ≤ (demoState.table .CeedVector).count ∧
      (demoState.table .CeedVector).count ∉ sentinels) ∧
    (∃ ret, exec (.fCeedVectorCreate 0 5 (-3)) libOk demoState 0 = some ret) ∧
    List.Forall₂ (fun o i => o = i ∨ (0 ≤ o ∧ o ∉ sentinels))
      (fCeedVectorCreate libOk demoState 0 5 (-3) 0).out [-3] ∧
    (fCeedVectorCreate libOk demoState 0 5 (-3) 0).out = [2] :=
  ⟨by decide,
   (sentinels_distinct_handles_nonneg.2 demoSteps demoState (by decide)).1 .CeedVector,
   (sentinels_distinct_handles_nonneg.2 demoSteps demoState (by decide)).2.1
     (.fCeedVectorCreate 0 5 (-3)) libOk 0 rfl,
   (sentinels_distinct_handles_nonneg.2 demoSteps demoState (by decide)).2.2.1
     (.fCeedVectorCreate 0 5 (-3)) libOk 0 _ [-3] rfl rfl,
   by decide⟩

/-! ## C2: requests are produced on demand only -/

theorem createRequest_eq (rqst : Int) :
    createRequest rqst = true ↔
      (rqst ≠ FORTRAN_REQUEST_IMMEDIATE ∧ rqst ≠ FORTRAN_REQUEST_ORDERED) := by
  simp [createRequest]

/-- C2. For each of the seven wrappers that take a request argument
(`fCeedElemRestrictionApply`, `fCeedElemRestrictionApplyBlock`,
`fCeedOperatorLinearAssembleQFunction`, `fCeedOperatorLinearAssembleDiagonal`,
`fCeedOperatorCreateFDMElementInverse`, `fCeedOperatorApply`,
`fCeedOperatorApplyAdd`) and every input: a request is produced if and only if
the caller passed a value other than -1 and -2 and the underlying call
returned 0; then `*rqst` becomes the previous `CeedRequest_count` and
`CeedRequest_count` and `CeedRequest_n` grow by one.  In every other case
`*rqst`, `CeedRequest_count` and `CeedRequest_n` are unchanged, and for -1 and
-2 the library receives `CEED_REQUEST_IMMEDIATE` and `CEED_REQUEST_ORDERED`.
The eighth wrapper with a request argument, `fCeedOperatorApplyJacobian`, has
no underlying call: it calls nothing, writes no argument and leaves every
table, the request table included, as it was. -/
theorem request_only_on_demand (lib : Oracle) (s : State) (rqst err : Int) :
    (∀ elemr tmode uvec ruvec,
      RequestContract s rqst (lib .CeedElemRestrictionApply 0).ierr
        (fCeedElemRestrictionApply lib s elemr tmode uvec ruvec rqst err)) ∧
    (∀ elemr block tmode uvec ruvec,
      RequestContract s rqst (lib .CeedElemRestrictionApplyBlock 0).ierr
        (fCeedElemRestrictionApplyBlock lib s elemr block tmode uvec ruvec rqst err)) ∧
    (∀ op assembledvec assembledrstr,
      RequestContract s rqst (lib .CeedOperatorLinearAssembleQFunction 0).ierr
        (fCeedOperatorLinearAssembleQFunction lib s op assembledvec assembledrstr rqst err)) ∧
    (∀ op assembledvec,
      RequestContract s rqst (lib .CeedOperatorLinearAssembleDiagonal 0).ierr
        (fCeedOperatorLinearAssembleDiagonal lib s op assembledvec rqst err)) ∧
    (∀ op fdminv,
      RequestContract s rqst (lib .CeedOperatorCreateFDMElementInverse 0).ierr
        (fCeedOperatorCreateFDMElementInverse lib s op fdminv rqst err)) ∧
    (∀ op ustatevec resvec,
      RequestContract s rqst (lib .CeedOperatorApply 0).ierr
        (fCeedOperatorApply lib s op ustatevec resvec rqst err)) ∧
    (∀ op ustatevec resvec,
      RequestContract s rqst (lib .CeedOperatorApplyAdd 0).ierr
        (fCeedOperatorApplyAdd lib s op ustatevec resvec rqst err)) ∧
    (∀ op qdatavec ustatevec dustatevec dresvec,
      (fCeedOperatorApplyJacobian lib s op qdatavec ustatevec dustatevec dresvec rqst err).st
        = s ∧
      (fCeedOperatorApplyJacobian lib s op qdatavec ustatevec dustatevec dresvec rqst err).out
        = [] ∧
      (fCeedOperatorApplyJacobian lib s op qdatavec ustatevec dustatevec dresvec rqst err).calls
        = []) := by
  have hc := createRequest_eq rqst
  refine ⟨?_, ?_, ?_, ?_, ?_, ?_, ?_, fun _ _ _ _ _ => ⟨rfl, rfl, rfl⟩⟩ <;> intros <;>
    unfold RequestContract
  · unfold fCeedElemRestrictionApply
    by_cases h4 : (lib .CeedElemRestrictionApply 0).ierr = 0
    all_goals
      rcases eq_or_ne rqst FORTRAN_REQUEST_IMMEDIATE with h1 | h1
      · subst h1
        simp [h4, createRequest, rqst_, FORTRAN_REQUEST_IMMEDIATE, FORTRAN_REQUEST_ORDERED]
      rcases eq_or_ne rqst FORTRAN_REQUEST_ORDERED with h2 | h2
      · subst h2
        simp [h4, createRequest, rqst_, FORTRAN_REQUEST_IMMEDIATE, FORTRAN_REQUEST_ORDERED]
      have h3 : createRequest rqst = true := hc.2 ⟨h1, h2⟩
      simp [h1, h2, h3, h4]
  · unfold fCeedElemRestrictionApplyBlock
    by_cases h4 : (lib .CeedElemRestrictionApplyBlock 0).ierr = 0
    all_goals
      rcases eq_or_ne rqst FORTRAN_REQUEST_IMMEDIATE with h1 | h1
      · subst h1
        simp [h4, createRequest, rqst_, FORTRAN_REQUEST_IMMEDIATE, FORTRAN_REQUEST_ORDERED]
      rcases eq_or_ne rqst FORTRAN_REQUEST_ORDERED with h2 | h2
      · subst h2
        simp [h4, createRequest, rqst_, FORTRAN_REQUEST_IMMEDIATE, FORTRAN_REQUEST_ORDERED]
      have h3 : createRequest rqst = true := hc.2 ⟨h1, h2⟩
      simp [h1, h2, h3, h4]
  · unfold fCeedOperatorLinearAssembleQFunction
    by_cases h4 : (lib .CeedOperatorLinearAssembleQFunction 0).ierr = 0
    all_goals
      rcases eq_or_ne rqst FORTRAN_REQUEST_IMMEDIATE with h1 | h1
      · subst h1
        simp [h4, createRequest, rqst_, FORTRAN_REQUEST_IMMEDIATE, FORTRAN_REQUEST_ORDERED]
      rcases eq_or_ne rqst FORTRAN_REQUEST_ORDERED with h2 | h2
      · subst h2
        simp [h4, createRequest, rqst_, FORTRAN_REQUEST_IMMEDIATE, FORTRAN_REQUEST_ORDERED]
      have h3 : createRequest rqst = true := hc.2 ⟨h1, h2⟩
      simp [h1, h2, h3, h4]
  · unfold fCeedOperatorLinearAssembleDiagonal
    by_cases h4 : (lib .CeedOperatorLinearAssembleDiagonal 0).ierr = 0
    all_goals
      rcases eq_or_ne rqst FORTRAN_REQUEST_IMMEDIATE with h1 | h1
      · subst h1
        simp [h4, createRequest, rqst_, FORTRAN_REQUEST_IMMEDIATE, FORTRAN_REQUEST_ORDERED]
      rcases eq_or_ne rqst FORTRAN_REQUEST_ORDERED with h2 | h2
      · subst h2
        simp [h4, createRequest, rqst_, FORTRAN_REQUEST_IMMEDIATE, FORTRAN_REQUEST_ORDERED]
      have h3 : createRequest rqst = true := hc.2 ⟨h1, h2⟩
      simp [h1, h2, h3, h4]
  · unfold fCeedOperatorCreateFDMElementInverse
    by_cases h4 : (lib .CeedOperatorCreateFDMElementInverse 0).ierr = 0
    all_goals
      rcases eq_or_ne rqst FORTRAN_REQUEST_IMMEDIATE with h1 | h1
      · subst h1
        simp [h4, createRequest, rqst_, FORTRAN_REQUEST_IMMEDIATE, FORTRAN_REQUEST_ORDERED]
      rcases eq_or_ne rqst FORTRAN_REQUEST_ORDERED with h2 | h2
      · subst h2
        simp [h4, createRequest, rqst_, FORTRAN_REQUEST_IMMEDIATE, FORTRAN_REQUEST_ORDERED]
      have h3 : createRequest rqst = true := hc.2 ⟨h1, h2⟩
      simp [h1, h2, h3, h4]
  · unfold fCeedOperatorApply
    by_cases h4 : (lib .CeedOperatorApply 0).ierr = 0
    all_goals
      rcases eq_or_ne rqst FORTRAN_REQUEST_IMMEDIATE with h1 | h1
      · subst h1
        simp [h4, createRequest, rqst_, FORTRAN_REQUEST_IMMEDIATE, FORTRAN_REQUEST_ORDERED]
      rcases eq_or_ne rqst FORTRAN_REQUEST_ORDERED with h2 | h2
      · subst h2
        simp [h4, createRequest, rqst_, FORTRAN_REQUEST_IMMEDIATE, FORTRAN_REQUEST_ORDERED]
      have h3 : createRequest rqst = true := hc.2 ⟨h1, h2⟩
      simp [h1, h2, h3, h4]
  · unfold fCeedOperatorApplyAdd
    by_cases h4 : (lib .CeedOperatorApplyAdd 0).ierr = 0
    all_goals
      rcases eq_or_ne rqst FORTRAN_REQUEST_IMMEDIATE with h1 | h1
      · subst h1
        simp [h4, createRequest, rqst_, FORTRAN_REQUEST_IMMEDIATE, FORTRAN_REQUEST_ORDERED]
      rcases eq_or_ne rqst FORTRAN_REQUEST_ORDERED with h2 | h2
      · subst h2
        simp [h4, createRequest, rqst_, FORTRAN_REQUEST_IMMEDIATE, FORTRAN_REQUEST_ORDERED]
      have h3 : createRequest rqst = true := hc.2 ⟨h1, h2⟩
      simp [h1, h2, h3, h4]

/-! ## C3: waiting on a request -/

/-- C3, counterexample.  After `twoApplies` two requests are live
(`CeedRequest_n = 2`, `CeedRequest_count = 2`).  A first `fCeedRequestWait`
entered with `*err = 0` leaves `CeedRequest_n = 1` and `*err = 0`; a second one,
again entered with `*err = 0`, does not leave the table as the first left it:
it frees the table and resets `CeedRequest_n`, `CeedRequest_count` and
`CeedRequest_count_max` to 0. -/
theorem requestWait_twice_changes_table :
    run State.init setup = some ready ∧
    (run State.init twoApplies).map (fun s => s.CeedRequest) =
      some { dict := [Obj.ref 7, Obj.ref 7], count := 2, n := 2, count_max := 2 } ∧
    (run State.init (twoApplies ++ [waitStep])).map (fun s => s.CeedRequest) =
      some { dict := [Obj.ref 7, Obj.ref 7], count := 2, n := 1, count_max := 2 } ∧
    (fCeedRequestWait libOk ready 0 0).err = 0 ∧
    (run State.init (twoApplies ++ [waitStep, waitStep])).map (fun s => s.CeedRequest) =
      some { dict := [], count := 0, n := 0, count_max := 0 } := by
  decide

/-- C3, amended.  `fCeedRequestWait` never writes `*err` or `*rqst` and calls
nothing, so a second wait reports the same outcome as the first.  Each call
entered with `*err = 0` lowers `CeedRequest_n` by one and, when that makes it
0, frees the table and resets `CeedRequest_count` and `CeedRequest_count_max`
to 0; otherwise the count, the capacity and the table are unchanged, and a
call entered with `*err` nonzero changes nothing.  Two waits entered with
`*err = 0` lower `CeedRequest_n` by two. -/
theorem requestWait_effect (lib : Oracle) (s : State) (rqst err : Int) :
    (fCeedRequestWait lib s rqst err).err = err ∧
    (fCeedRequestWait lib s rqst err).out = [] ∧
    (fCeedRequestWait lib s rqst err).calls = [] ∧
    (fCeedRequestWait lib s rqst err).st =
      (if err = 0 then
        { s with CeedRequest :=
            if s.CeedRequest.n - 1 = 0 then
              { dict := [], count := 0, n := s.CeedRequest.n - 1, count_max := 0 }
            else { s.CeedRequest with n := s.CeedRequest.n - 1 } }
      else s) ∧
    (fCeedRequestWait lib (fCeedRequestWait lib s rqst 0).st rqst 0).st.CeedRequest.n =
      s.CeedRequest.n - 2 := by
  refine ⟨?_, ?_, ?_, ?_, ?_⟩
  · unfold fCeedRequestWait; split <;> rfl
  · unfold fCeedRequestWait; split <;> rfl
  · unfold fCeedRequestWait; split <;> rfl
  · unfold fCeedRequestWait Table.release CeedFree
    split
    · dsimp only
      try (split <;> rfl)
    · rfl
  · simp only [fCeedRequestWait, Table.release, if_true]
    split_ifs <;> simp <;> omega

/-! ## C4: the error argument -/

/-- C4, counterexample.  `fCeedDestroy` called with `FORTRAN_NULL` returns
with `*err = 0` when entered with 0 and with `*err = 7` when entered with 7;
`fCeedRequestWait` and `fCeedOperatorApplyJacobian` entered with `*err = 7`
return with `*err = 7`: the value on return is the value on entry. -/
theorem err_depends_on_entry_value :
    (exec (.fCeedDestroy FORTRAN_NULL) libOk State.init 0).map (fun r => r.err) = some 0 ∧
    (exec (.fCeedDestroy FORTRAN_NULL) libOk State.init 7).map (fun r => r.err) = some 7 ∧
    (exec (.fCeedRequestWait 0) libOk ready 7).map (fun r => r.err) = some 7 ∧
    (exec (.fCeedOperatorApplyJacobian 0 0 0 1 1 0) libOk ready 7).map (fun r => r.err)
      = some 7 := by
  decide

/-- Every call that returns either leaves `*err` untouched (the calls singled
out by `Entry.keepsErr`) or assigns it the return code of the last library call
it made, and then its whole result is the same whatever `*err` held on entry. -/
theorem exec_err (e : Entry) (lib : Oracle) (s : State) (err : Int) (ret : Ret)
    (h : exec e lib s err = some ret) :
    (e.keepsErr = true → ret.err = err) ∧
    (e.keepsErr = false →
      (∃ c, ret.calls.getLast? = some c ∧ ∃ k, ret.err = (lib c.fn k).ierr) ∧
      ∀ err1, exec e lib s err1 = some ret) := by
  cases e <;> simp only [exec, Option.some.injEq] at h
  case fCeedInit resource ceed =>
    refine ⟨fun hk => by simp [Entry.keepsErr] at hk, fun _ => ⟨?_, fun _ => h⟩⟩
    unfold fCeedInit at h
    try dsimp only at h
    repeat' split at h
    all_goals simp only [Option.some.injEq, reduceCtorEq] at h
    all_goals
      subst h
      exact ⟨_, rfl, _, rfl⟩
  case fCeedDestroy ceed =>
    subst h
    by_cases hc : ceed = FORTRAN_NULL
    · exact ⟨fun _ => by simp [fCeedDestroy, hc], fun hk => by simp [Entry.keepsErr, hc] at hk⟩
    · refine ⟨fun hk => by simp [Entry.keepsErr, hc] at hk, fun _ => ⟨?_, fun _ => ?_⟩⟩
      · unfold fCeedDestroy
        simp only [hc, if_false]
        split_ifs <;> exact ⟨_, rfl, _, rfl⟩
      · simp [exec, fCeedDestroy, hc]
  case fCeedVectorCreate ceed length vec =>
    subst h
    refine ⟨fun hk => by simp [Entry.keepsErr] at hk, fun _ => ⟨?_, fun _ => rfl⟩⟩
    unfold fCeedVectorCreate
    try dsimp only
    split_ifs <;> exact ⟨_, rfl, _, rfl⟩
  case fCeedVectorDestroy vec =>
    subst h
    by_cases hc : vec = FORTRAN_NULL
    · exact ⟨fun _ => by simp [fCeedVectorDestroy, hc], fun hk => by simp [Entry.keepsErr, hc] at hk⟩
    · refine ⟨fun hk => by simp [Entry.keepsErr, hc] at hk, fun _ => ⟨?_, fun _ => ?_⟩⟩
      · unfold fCeedVectorDestroy
        simp only [hc, if_false]
        split_ifs <;> exact ⟨_, rfl, _, rfl⟩
      · simp [exec, fCeedVectorDestroy, hc]
  case fCeedElemRestrictionCreate ceed nelements esize ncomp compstride lsize memtype copymode offsets elemrestriction =>
    subst h
    refine ⟨fun hk => by simp [Entry.keepsErr] at hk, fun _ => ⟨?_, fun _ => rfl⟩⟩
    unfold fCeedElemRestrictionCreate
    try dsimp only
    split_ifs <;> exact ⟨_, rfl, _, rfl⟩
  case fCeedElemRestrictionCreateStrided ceed nelements esize ncomp lsize strides strides_0 elemrestriction =>
    subst h
    refine ⟨fun hk => by simp [Entry.keepsErr] at hk, fun _ => ⟨?_, fun _ => rfl⟩⟩
    unfold fCeedElemRestrictionCreateStrided
    try dsimp only
    split_ifs <;> exact ⟨_, rfl, _, rfl⟩
  case fCeedElemRestrictionCreateBlocked ceed nelements esize blocksize ncomp compstride lsize mtype cmode blkindices elemrestriction =>
    subst h
    refine ⟨fun hk => by simp [Entry.keepsErr] at hk, fun _ => ⟨?_, fun _ => rfl⟩⟩
    unfold fCeedElemRestrictionCreateBlocked
    try dsimp only
    split_ifs <;> exact ⟨_, rfl, _, rfl⟩
  case fCeedElemRestrictionCreateBlockedStrided ceed nelements esize blksize ncomp lsize strides elemrestriction =>
    subst h
    refine ⟨fun hk => by simp [Entry.keepsErr] at hk, fun _ => ⟨?_, fun _ => rfl⟩⟩
    unfold fCeedElemRestrictionCreateBlockedStrided
    try dsimp only
    split_ifs <;> exact ⟨_, rfl, _, rfl⟩
  case fCeedElemRestrictionApply elemr tmode uvec ruvec rqst =>
    subst h
    refine ⟨fun hk => by simp [Entry.keepsErr] at hk, fun _ => ⟨?_, fun _ => rfl⟩⟩
    unfold fCeedElemRestrictionApply
    try dsimp only
    split_ifs <;> exact ⟨_, rfl, _, rfl⟩
  case fCeedElemRestrictionApplyBlock elemr block tmode uvec ruvec rqst =>
    subst h
    refine ⟨fun hk => by simp [Entry.keepsErr] at hk, fun _ => ⟨?_, fun _ => rfl⟩⟩
    unfold fCeedElemRestrictionApplyBlock
    try dsimp only
    split_ifs <;> exact ⟨_, rfl, _, rfl⟩
  case fCeedRequestWait rqst =>
    subst h
    exact ⟨fun _ => by unfold fCeedRequestWait; (try split) <;> rfl, fun hk => by simp [Entry.keepsErr] at hk⟩
  case fCeedElemRestrictionDestroy elem =>
    subst h
    by_cases hc : elem = FORTRAN_NULL
    · exact ⟨fun _ => by simp [fCeedElemRestrictionDestroy, hc], fun hk => by simp [Entry.keepsErr, hc] at hk⟩
    · refine ⟨fun hk => by simp [Entry.keepsErr, hc] at hk, fun _ => ⟨?_, fun _ => ?_⟩⟩
      · unfold fCeedElemRestrictionDestroy
        simp only [hc, if_false]
        split_ifs <;> exact ⟨_, rfl, _, rfl⟩
      · simp [exec, fCeedElemRestrictionDestroy, hc]
  case fCeedBasisCreateTensorH1Lagrange ceed dim ncomp P Q quadmode basis =>
    subst h
    refine ⟨fun hk => by simp [Entry.keepsErr] at hk, fun _ => ⟨?_, fun _ => rfl⟩⟩
    unfold fCeedBasisCreateTensorH1Lagrange
    try dsimp only
    split_ifs <;> exact ⟨_, rfl, _, rfl⟩
  case fCeedBasisCreateTensorH1 ceed dim ncomp P1d Q1d interp1d grad1d qref1d qweight1d basis =>
    subst h
    refine ⟨fun hk => by simp [Entry.keepsErr] at hk, fun _ => ⟨?_, fun _ => rfl⟩⟩
    unfold fCeedBasisCreateTensorH1
    try dsimp only
    split_ifs <;> exact ⟨_, rfl, _, rfl⟩
  case fCeedBasisCreateH1 ceed topo ncomp nnodes nqpts interp grad qref qweight basis =>
    subst h
    refine ⟨fun hk => by simp [Entry.keepsErr] at hk, fun _ => ⟨?_, fun _ => rfl⟩⟩
    unfold fCeedBasisCreateH1
    try dsimp only
    split_ifs <;> exact ⟨_, rfl, _, rfl⟩
  case fCeedBasisApply basis nelem tmode emode u v =>
    subst h
    refine ⟨fun hk => by simp [Entry.keepsErr] at hk, fun _ => ⟨?_, fun _ => rfl⟩⟩
    unfold fCeedBasisApply
    try dsimp only
    split_ifs <;> exact ⟨_, rfl, _, rfl⟩
  case fCeedBasisDestroy basis =>
    subst h
    by_cases hc : basis = FORTRAN_NULL
    · exact ⟨fun _ => by simp [fCeedBasisDestroy, hc], fun hk => by simp [Entry.keepsErr, hc] at hk⟩
    · refine ⟨fun hk => by simp [Entry.keepsErr, hc] at hk, fun _ => ⟨?_, fun _ => ?_⟩⟩
      · unfold fCeedBasisDestroy
        simp only [hc, if_false]
        split_ifs <;> exact ⟨_, rfl, _, rfl⟩
      · simp [exec, fCeedBasisDestroy, hc]
  case fCeedQFunctionContextCreate ceed ctx =>
    subst h
    refine ⟨fun hk => by simp [Entry.keepsErr] at hk, fun _ => ⟨?_, fun _ => rfl⟩⟩
    unfold fCeedQFunctionContextCreate
    try dsimp only
    split_ifs <;> exact ⟨_, rfl, _, rfl⟩
  case fCeedQFunctionContextDestroy ctx =>
    subst h
    by_cases hc : ctx = FORTRAN_NULL
    · exact ⟨fun _ => by simp [fCeedQFunctionContextDestroy, hc], fun hk => by simp [Entry.keepsErr, hc] at hk⟩
    · refine ⟨fun hk => by simp [Entry.keepsErr, hc] at hk, fun _ => ⟨?_, fun _ => ?_⟩⟩
      · unfold fCeedQFunctionContextDestroy
        simp only [hc, if_false]
        split_ifs <;> exact ⟨_, rfl, _, rfl⟩
      · simp [exec, fCeedQFunctionContextDestroy, hc]
  case fCeedQFunctionCreateInterior ceed vlength f source qf =>
    refine ⟨fun hk => by simp [Entry.keepsErr] at hk, fun _ => ⟨?_, fun _ => h⟩⟩
    unfold fCeedQFunctionCreateInterior at h
    try dsimp only at h
    repeat' split at h
    all_goals simp only [Option.some.injEq, reduceCtorEq] at h
    all_goals
      subst h
      exact ⟨_, rfl, _, rfl⟩
  case fCeedQFunctionCreateInteriorByName ceed name qf =>
    refine ⟨fun hk => by simp [Entry.keepsErr] at hk, fun _ => ⟨?_, fun _ => h⟩⟩
    unfold fCeedQFunctionCreateInteriorByName at h
    try dsimp only at h
    repeat' split at h
    all_goals simp only [Option.some.injEq, reduceCtorEq] at h
    all_goals
      subst h
      exact ⟨_, rfl, _, rfl⟩
  case fCeedQFunctionCreateIdentity ceed size inmode outmode qf =>
    subst h
    refine ⟨fun hk => by simp [Entry.keepsErr] at hk, fun _ => ⟨?_, fun _ => rfl⟩⟩
    unfold fCeedQFunctionCreateIdentity
    try dsimp only
    split_ifs <;> exact ⟨_, rfl, _, rfl⟩
  case fCeedQFunctionAddInput qf fieldname ncomp emode =>
    refine ⟨fun hk => by simp [Entry.keepsErr] at hk, fun _ => ⟨?_, fun _ => h⟩⟩
    unfold fCeedQFunctionAddInput at h
    try dsimp only at h
    repeat' split at h
    all_goals simp only [Option.some.injEq, reduceCtorEq] at h
    all_goals
      subst h
      exact ⟨_, rfl, _, rfl⟩
  case fCeedQFunctionAddOutput qf fieldname ncomp emode =>
    refine ⟨fun hk => by simp [Entry.keepsErr] at hk, fun _ => ⟨?_, fun _ => h⟩⟩
    unfold fCeedQFunctionAddOutput at h
    try dsimp only at h
    repeat' split at h
    all_goals simp only [Option.some.injEq, reduceCtorEq] at h
    all_goals
      subst h
      exact ⟨_, rfl, _, rfl⟩
  case fCeedQFunctionSetContext qf ctx =>
    subst h
    refine ⟨fun hk => by simp [Entry.keepsErr] at hk, fun _ => ⟨?_, fun _ => rfl⟩⟩
    unfold fCeedQFunctionSetContext
    try dsimp only
    split_ifs <;> exact ⟨_, rfl, _, rfl⟩
  case fCeedQFunctionApply qf Q u v =>
    subst h
    refine ⟨fun hk => by simp [Entry.keepsErr] at hk, fun _ => ⟨?_, fun _ => rfl⟩⟩
    unfold fCeedQFunctionApply
    try dsimp only
    split_ifs <;> exact ⟨_, rfl, _, rfl⟩
  case fCeedQFunctionDestroy qf =>
    subst h
    by_cases hc : qf = FORTRAN_NULL
    · exact ⟨fun _ => by simp [fCeedQFunctionDestroy, hc], fun hk => by simp [Entry.keepsErr, hc] at hk⟩
    · refine ⟨fun hk => by simp [Entry.keepsErr, hc] at hk, fun _ => ⟨?_, fun _ => ?_⟩⟩
      · unfold fCeedQFunctionDestroy
        simp only [hc, if_false]
        split_ifs <;> exact ⟨_, rfl, _, rfl⟩
      · simp [exec, fCeedQFunctionDestroy, hc]
  case fCeedOperatorCreate ceed qf dqf dqfT op =>
    subst h
    refine ⟨fun hk => by simp [Entry.keepsErr] at hk, fun _ => ⟨?_, fun _ => rfl⟩⟩
    unfold fCeedOperatorCreate
    try dsimp only
    split_ifs <;> exact ⟨_, rfl, _, rfl⟩
  case fCeedCompositeOperatorCreate ceed op =>
    subst h
    refine ⟨fun hk => by simp [Entry.keepsErr] at hk, fun _ => ⟨?_, fun _ => rfl⟩⟩
    unfold fCeedCompositeOperatorCreate
    try dsimp only
    split_ifs <;> exact ⟨_, rfl, _, rfl⟩
  case fCeedOperatorSetField op fieldname r b v =>
    refine ⟨fun hk => by simp [Entry.keepsErr] at hk, fun _ => ⟨?_, fun _ => h⟩⟩
    unfold fCeedOperatorSetField at h
    try dsimp only at h
    repeat' split at h
    all_goals simp only [Option.some.injEq, reduceCtorEq] at h
    all_goals
      subst h
      exact ⟨_, rfl, _, rfl⟩
  case fCeedOperatorLinearAssembleQFunction op assembledvec assembledrstr rqst =>
    subst h
    refine ⟨fun hk => by simp [Entry.keepsErr] at hk, fun _ => ⟨?_, fun _ => rfl⟩⟩
    unfold fCeedOperatorLinearAssembleQFunction
    try dsimp only
    split_ifs <;> exact ⟨_, rfl, _, rfl⟩
  case fCeedOperatorLinearAssembleDiagonal op assembledvec rqst =>
    subst h
    refine ⟨fun hk => by simp [Entry.keepsErr] at hk, fun _ => ⟨?_, fun _ => rfl⟩⟩
    unfold fCeedOperatorLinearAssembleDiagonal
    try dsimp only
    split_ifs <;> exact ⟨_, rfl, _, rfl⟩
  case fCeedOperatorMultigridLevelCreate opFine pMultFine rstrCoarse basisCoarse opCoarse opProlong opRestrict =>
    refine ⟨fun hk => by simp [Entry.keepsErr] at hk, fun _ => ⟨?_, fun _ => h⟩⟩
    unfold fCeedOperatorMultigridLevelCreate at h
    dsimp only at h
    split at h
    · simp only [Option.some.injEq] at h
      subst h
      exact ⟨_, rfl, _, rfl⟩
    · simp only [Option.map_eq_some'] at h
      obtain ⟨t, _, rfl⟩ := h
      exact ⟨_, rfl, _, rfl⟩
  case fCeedOperatorMultigridLevelCreateTensorH1 opFine pMultFine rstrCoarse basisCoarse interpCtoF opCoarse opProlong opRestrict =>
    refine ⟨fun hk => by simp [Entry.keepsErr] at hk, fun _ => ⟨?_, fun _ => h⟩⟩
    unfold fCeedOperatorMultigridLevelCreateTensorH1 at h
    dsimp only at h
    split at h
    · simp only [Option.some.injEq] at h
      subst h
      exact ⟨_, rfl, _, rfl⟩
    · simp only [Option.map_eq_some'] at h
      obtain ⟨t, _, rfl⟩ := h
      exact ⟨_, rfl, _, rfl⟩
  case fCeedOperatorMultigridLevelCreateH1 opFine pMultFine rstrCoarse basisCoarse interpCtoF opCoarse opProlong opRestrict =>
    refine ⟨fun hk => by simp [Entry.keepsErr] at hk, fun _ => ⟨?_, fun _ => h⟩⟩
    unfold fCeedOperatorMultigridLevelCreateH1 at h
    dsimp only at h
    split at h
    · simp only [Option.some.injEq] at h
      subst h
      exact ⟨_, rfl, _, rfl⟩
    · simp only [Option.map_eq_some'] at h
      obtain ⟨t, _, rfl⟩ := h
      exact ⟨_, rfl, _, rfl⟩
  case fCeedOperatorCreateFDMElementInverse op fdminv rqst =>
    subst h
    refine ⟨fun hk => by simp [Entry.keepsErr] at hk, fun _ => ⟨?_, fun _ => rfl⟩⟩
    unfold fCeedOperatorCreateFDMElementInverse
    try dsimp only
    split_ifs <;> exact ⟨_, rfl, _, rfl⟩
  case fCeedOperatorApply op ustatevec resvec rqst =>
    subst h
    refine ⟨fun hk => by simp [Entry.keepsErr] at hk, fun _ => ⟨?_, fun _ => rfl⟩⟩
    unfold fCeedOperatorApply
    try dsimp only
    split_ifs <;> exact ⟨_, rfl, _, rfl⟩
  case fCeedOperatorApplyAdd op ustatevec resvec rqst =>
    subst h
    refine ⟨fun hk => by simp [Entry.keepsErr] at hk, fun _ => ⟨?_, fun _ => rfl⟩⟩
    unfold fCeedOperatorApplyAdd
    try dsimp only
    split_ifs <;> exact ⟨_, rfl, _, rfl⟩
  case fCeedOperatorApplyJacobian op qdatavec ustatevec dustatevec dresvec rqst =>
    subst h
    exact ⟨fun _ => by unfold fCeedOperatorApplyJacobian; (try split) <;> rfl, fun hk => by simp [Entry.keepsErr] at hk⟩
  case fCeedOperatorDestroy op =>
    subst h
    by_cases hc : op = FORTRAN_NULL
    · exact ⟨fun _ => by simp [fCeedOperatorDestroy, hc], fun hk => by simp [Entry.keepsErr, hc] at hk⟩
    · refine ⟨fun hk => by simp [Entry.keepsErr, hc] at hk, fun _ => ⟨?_, fun _ => ?_⟩⟩
      · unfold fCeedOperatorDestroy
        simp only [hc, if_false]
        split_ifs <;> exact ⟨_, rfl, _, rfl⟩
      · simp [exec, fCeedOperatorDestroy, hc]
  all_goals
    subst h
    exact ⟨fun hk => by simp [Entry.keepsErr] at hk, fun _ => ⟨⟨_, rfl, _, rfl⟩, fun _ => rfl⟩⟩

/-- C4, amended.  Every entry point call returns when its character arguments
have at most 1023 characters and the capacity of the operator table is
non-negative (as it is in every reachable state).  For every call that
returns: a destroy wrapper called with `FORTRAN_NULL`, `fCeedRequestWait` and
`fCeedOperatorApplyJacobian` leave `*err` as it was on entry; every other
call assigns `*err` (it is the return code, 0 on success and nonzero on
failure, of one of the library calls it made), and its whole result,
`*err` included, is the same for every value that `*err` holds on entry. -/
theorem err_assigned_by_call (e : Entry) (lib : Oracle) (s : State) (err : Int) :
    (e.stringsOk = true → 0 ≤ s.CeedOperator.count_max →
      ∃ ret, exec e lib s err = some ret) ∧
    ∀ ret, exec e lib s err = some ret →
      (e.keepsErr = true → ret.err = err) ∧
      (e.keepsErr = false →
        (∃ c ∈ ret.calls, ∃ k, ret.err = (lib c.fn k).ierr) ∧
        ∀ err1, exec e lib s err1 = some ret) := by
  refine ⟨exec_returns e lib s err, fun ret h => ?_⟩
  have hx := exec_err e lib s err ret h
  refine ⟨hx.1, fun hk => ?_⟩
  obtain ⟨⟨c, hc, k, hk1⟩, hind⟩ := hx.2 hk
  exact ⟨⟨c, List.mem_of_mem_getLast? hc, k, hk1⟩, hind⟩

/-- C4, amended, at concrete calls in the state `ready`: `fCeedVectorCreate`
entered with `*err = 7` returns and assigns `*err`; `fCeedDestroy` called with
`FORTRAN_NULL` and `*err = 7` returns with `*err = 7`. -/
theorem err_assigned_by_call_witness :
    (∃ ret, exec (.fCeedVectorCreate 0 5 (-3)) libOk ready 7 = some ret) ∧
    ((∃ c ∈ (fCeedVectorCreate libOk ready 0 5 (-3) 7).calls,
        ∃ k, (fCeedVectorCreate libOk ready 0 5 (-3) 7).err = (libOk c.fn k).ierr) ∧
      ∀ err1, exec (.fCeedVectorCreate 0 5 (-3)) libOk ready err1 =
        some (fCeedVectorCreate libOk ready 0 5 (-3) 7)) ∧
    (fCeedDestroy libOk ready FORTRAN_NULL 7).err = 7 :=
  ⟨(err_assigned_by_call (.fCeedVectorCreate 0 5 (-3)) libOk ready 7).1 rfl (by decide),
   ((err_assigned_by_call (.fCeedVectorCreate 0 5 (-3)) libOk ready 7).2 _ rfl).2 rfl,
   ((err_assigned_by_call (.fCeedDestroy FORTRAN_NULL) libOk ready 7).2 _ rfl).1 rfl⟩

/-! ## C5: create wrappers -/

/-- C5. The create wrappers `fCeedInit`, `fCeedVectorCreate`,
`fCeedElemRestrictionCreate` and its strided, blocked and blocked-strided
variants, the three `fCeedBasisCreate*` wrappers, `fCeedQFunctionContextCreate`,
`fCeedOperatorCreate` and `fCeedCompositeOperatorCreate` are atomic on error:
if the underlying create call returns a nonzero code then `*err` is that code
and the handle argument, the count and the live count of the table are
unchanged; if it returns 0 then the handle is the old count and the count and
the live count grow by one.  (`fCeedInit` reaches the create call for every
resource string of at most 1023 characters.) -/
theorem create_wrappers_atomic (lib : Oracle) (s : State) (err : Int) :
    (∀ resource ceed, resource.length ≤ 1023 →
      ∃ ret, fCeedInit lib s resource ceed err = some ret ∧
        AtomicCreate s.Ceed ceed (lib .CeedInit 0).ierr ret ret.st.Ceed) ∧
(∀ ceed length vec,
AtomicCreate s.CeedVector vec (lib .CeedVectorCreate 0).ierr
(fCeedVectorCreate lib s ceed length vec err)
(fCeedVectorCreate lib s ceed length vec err).st.CeedVector) ∧
(∀ ceed nelements esize ncomp compstride lsize memtype copymode offsets elemrestriction,
AtomicCreate s.CeedElemRestriction elemrestriction (lib .CeedElemRestrictionCreate 0).ierr
(fCeedElemRestrictionCreate lib s ceed nelements esize ncomp compstride lsize memtype copymode
          offsets elemrestriction err)
(fCeedElemRestrictionCreate lib s ceed nelements esize ncomp compstride lsize memtype copymode
          offsets elemrestriction err).st.CeedElemRestriction) ∧
(∀ ceed nelements esize ncomp lsize strides strides_0 elemrestriction,
AtomicCreate s.CeedElemRestriction elemrestriction (lib .CeedElemRestrictionCreateStrided
        0).ierr
(fCeedElemRestrictionCreateStrided lib s ceed nelements esize ncomp lsize strides strides_0
          elemrestriction err)
(fCeedElemRestrictionCreateStrided lib s ceed nelements esize ncomp lsize strides strides_0
          elemrestriction err).st.CeedElemRestriction) ∧
(∀ ceed nelements esize blocksize ncomp compstride lsize mtype cmode blkindices elemrestriction,
AtomicCreate s.CeedElemRestriction elemrestriction (lib .CeedElemRestrictionCreateBlocked
        0).ierr
(fCeedElemRestrictionCreateBlocked lib s ceed nelements esize blocksize ncomp compstride lsize
          mtype cmode blkindices elemrestriction err)
(fCeedElemRestrictionCreateBlocked lib s ceed nelements esize blocksize ncomp compstride lsize
          mtype cmode blkindices elemrestriction err).st.CeedElemRestriction) ∧
(∀ ceed nelements esize blksize ncomp lsize strides elemrestriction,
AtomicCreate s.CeedElemRestriction elemrestriction (lib .CeedElemRestrictionCreateBlockedStrided
        0).ierr
(fCeedElemRestrictionCreateBlockedStrided lib s ceed nelements esize blksize ncomp lsize strides
          elemrestriction err)
(fCeedElemRestrictionCreateBlockedStrided lib s ceed nelements esize blksize ncomp lsize strides
          elemrestriction err).st.CeedElemRestriction) ∧
(∀ ceed dim ncomp P Q quadmode basis,
AtomicCreate s.CeedBasis basis (lib .CeedBasisCreateTensorH1Lagrange 0).ierr
(fCeedBasisCreateTensorH1Lagrange lib s ceed dim ncomp P Q quadmode basis err)
(fCeedBasisCreateTensorH1Lagrange lib s ceed dim ncomp P Q quadmode basis err).st.CeedBasis) ∧
(∀ ceed dim ncomp P1d Q1d interp1d grad1d qref1d qweight1d basis,
AtomicCreate s.CeedBasis basis (lib .CeedBasisCreateTensorH1 0).ierr
(fCeedBasisCreateTensorH1 lib s ceed dim ncomp P1d Q1d interp1d grad1d qref1d qweight1d basis
          err)
(fCeedBasisCreateTensorH1 lib s ceed dim ncomp P1d Q1d interp1d grad1d qref1d qweight1d basis
          err).st.CeedBasis) ∧
(∀ ceed topo ncomp nnodes nqpts interp grad qref qweight basis,
AtomicCreate s.CeedBasis basis (lib .CeedBasisCreateH1 0).ierr
(fCeedBasisCreateH1 lib s ceed topo ncomp nnodes nqpts interp grad qref qweight basis err)
(fCeedBasisCreateH1 lib s ceed topo ncomp nnodes nqpts interp grad qref qweight basis
          err).st.CeedBasis) ∧
(∀ ceed ctx,
AtomicCreate s.CeedQFunctionContext ctx (lib .CeedQFunctionContextCreate 0).ierr
(fCeedQFunctionContextCreate lib s ceed ctx err)
(fCeedQFunctionContextCreate lib s ceed ctx err).st.CeedQFunctionContext) ∧
(∀ ceed qf dqf dqfT op,
AtomicCreate s.CeedOperator op (lib .CeedOperatorCreate 0).ierr
(fCeedOperatorCreate lib s ceed qf dqf dqfT op err)
(fCeedOperatorCreate lib s ceed qf dqf dqfT op err).st.CeedOperator) ∧
(∀ ceed op,
AtomicCreate s.CeedOperator op (lib .CeedCompositeOperatorCreate 0).ierr
(fCeedCompositeOperatorCreate lib s ceed op err)
(fCeedCompositeOperatorCreate lib s ceed op err).st.CeedOperator) := by
  refine ⟨?_, ?_, ?_, ?_, ?_, ?_, ?_, ?_, ?_, ?_, ?_, ?_⟩
  · intro resource ceed hlen
    have hfix : FIX_STRING resource = some (strncpy resource ++ [0]) := by
      unfold FIX_STRING
      rw [if_neg (by omega)]
    unfold fCeedInit AtomicCreate
    rw [hfix]
    by_cases h : (lib .CeedInit 0).ierr = 0 <;> simp [h]
  · intros
    unfold AtomicCreate fCeedVectorCreate
    by_cases h : (lib .CeedVectorCreate 0).ierr = 0 <;> simp [h]
  · intros
    unfold AtomicCreate fCeedElemRestrictionCreate
    by_cases h : (lib .CeedElemRestrictionCreate 0).ierr = 0 <;> simp [h]
  · intros
    unfold AtomicCreate fCeedElemRestrictionCreateStrided
    by_cases h : (lib .CeedElemRestrictionCreateStrided 0).ierr = 0 <;> simp [h]
  · intros
    unfold AtomicCreate fCeedElemRestrictionCreateBlocked
    by_cases h : (lib .CeedElemRestrictionCreateBlocked 0).ierr = 0 <;> simp [h]
  · intros
    unfold AtomicCreate fCeedElemRestrictionCreateBlockedStrided
    by_cases h : (lib .CeedElemRestrictionCreateBlockedStrided 0).ierr = 0 <;> simp [h]
  · intros
    unfold AtomicCreate fCeedBasisCreateTensorH1Lagrange
    by_cases h : (lib .CeedBasisCreateTensorH1Lagrange 0).ierr = 0 <;> simp [h]
  · intros
    unfold AtomicCreate fCeedBasisCreateTensorH1
    by_cases h : (lib .CeedBasisCreateTensorH1 0).ierr = 0 <;> simp [h]
  · intros
    unfold AtomicCreate fCeedBasisCreateH1
    by_cases h : (lib .CeedBasisCreateH1 0).ierr = 0 <;> simp [h]
  · intros
    unfold AtomicCreate fCeedQFunctionContextCreate
    by_cases h : (lib .CeedQFunctionContextCreate 0).ierr = 0 <;> simp [h]
  · intros
    unfold AtomicCreate fCeedOperatorCreate
    by_cases h : (lib .CeedOperatorCreate 0).ierr = 0 <;> simp [h]
  · intros
    unfold AtomicCreate fCeedCompositeOperatorCreate
    by_cases h : (lib .CeedCompositeOperatorCreate 0).ierr = 0 <;> simp [h]

/-- C5 at concrete inputs: `fCeedInit` on the resource string "/cpu" against
a library that succeeds, and against one that fails with code 5. -/
theorem create_wrappers_atomic_witness :
    (∃ ret, fCeedInit libOk State.init [47, 99, 112, 117] (-3) 9 = some ret ∧
      AtomicCreate State.init.Ceed (-3) (libOk .CeedInit 0).ierr ret ret.st.Ceed) ∧
    (∃ ret, fCeedInit libFail ready [47, 99, 112, 117] (-3) 9 = some ret ∧
      AtomicCreate ready.Ceed (-3) (libFail .CeedInit 0).ierr ret ret.st.Ceed) :=
  ⟨(create_wrappers_atomic libOk State.init 9).1 [47, 99, 112, 117] (-3) (by decide),
   (create_wrappers_atomic libFail ready 9).1 [47, 99, 112, 117] (-3) (by decide)⟩

/-! ## C6, C7: `fCeedQFunctionCreateInterior` -/

/-- C6, failing input.  When `CeedQFunctionCreateInterior` returns 1 and the
later steps (`CeedCalloc`, `CeedQFunctionContextCreate`,
`CeedQFunctionContextSetData`, `CeedQFunctionSetContext`,
`CeedQFunctionSetFortranStatus`) return 0, `fCeedQFunctionCreateInterior`
returns with `*err = 0`, the handle argument untouched (-3) and nothing
registered (count and live count stay 1): the failure of the creation is not
reported. -/
theorem createInterior_loses_create_error :
    (libCreateFails .CeedQFunctionCreateInterior 0).ierr = 1 ∧
    (fCeedQFunctionCreateInterior libCreateFails ready 0 1 3 [109, 97, 115, 115] (-3) 9).map
      (fun r => (r.err, r.out, r.st.CeedQFunction.count, r.st.CeedQFunction.n)) =
      some (0, [-3], 1, 1) ∧
    ready.CeedQFunction.count = 1 ∧ ready.CeedQFunction.n = 1 := by
  decide

/-- C7, counterexample.  When `CeedQFunctionCreateInterior` returns 0 and
`CeedCalloc` then returns 1, `fCeedQFunctionCreateInterior` returns with
`*err = 1` although `*qf` was overwritten (it held -3, it holds the handle
1) and `CeedQFunction_count` and `CeedQFunction_n` went from 1 to 2. -/
theorem createInterior_partial_success :
    (libCallocFails .CeedQFunctionCreateInterior 0).ierr = 0 ∧
    (libCallocFails .CeedCalloc 0).ierr = 1 ∧
    (fCeedQFunctionCreateInterior libCallocFails ready 0 1 3 [109, 97, 115, 115] (-3) 9).map
      (fun r => (r.err, r.out, r.st.CeedQFunction.count, r.st.CeedQFunction.n)) =
      some (1, [1], 2, 2) ∧
    ready.CeedQFunction.count = 1 ∧ ready.CeedQFunction.n = 1 := by
  decide

/-- C7, amended.  For every source string of at most 1023 characters
`fCeedQFunctionCreateInterior` returns, and whether the QFunction is
registered depends on the underlying `CeedQFunctionCreateInterior` call alone:
if it returns a nonzero code then `*qf`, `CeedQFunction_count` and
`CeedQFunction_n` are unchanged; if it returns 0 then `*qf` is the old count
and the count and the live count grow by one, also when a later step fails
and `*err` is nonzero on return. -/
theorem createInterior_registers_iff_created (lib : Oracle) (s : State) (ceed vlength : Int)
    (f : Nat) (source : List Nat) (qf err : Int) (hlen : source.length ≤ 1023) :
    ∃ ret, fCeedQFunctionCreateInterior lib s ceed vlength f source qf err = some ret ∧
      if (lib .CeedQFunctionCreateInterior 0).ierr ≠ 0 then
        ret.out = [qf] ∧ ret.st.CeedQFunction.count = s.CeedQFunction.count ∧
        ret.st.CeedQFunction.n = s.CeedQFunction.n
      else
        ret.out = [s.CeedQFunction.count] ∧
        ret.st.CeedQFunction.count = s.CeedQFunction.count + 1 ∧
        ret.st.CeedQFunction.n = s.CeedQFunction.n + 1 := by
  have hfix : FIX_STRING source = some (strncpy source ++ [0]) := by
    unfold FIX_STRING
    rw [if_neg (by omega)]
  unfold fCeedQFunctionCreateInterior
  rw [hfix]
  dsimp only
  by_cases h : (lib .CeedQFunctionCreateInterior 0).ierr = 0
  all_goals
    simp only [h, if_true, if_false, ne_eq, not_true_eq_false, not_false_eq_true]
    split_ifs <;> simp

/-- C7, amended, at the input of the counterexample: creation succeeds,
`CeedCalloc` fails. -/
theorem createInterior_registers_iff_created_witness :
    ∃ ret, fCeedQFunctionCreateInterior libCallocFails ready 0 1 3 [109, 97, 115, 115]
        (-3) 9 = some ret ∧
      if (libCallocFails .CeedQFunctionCreateInterior 0).ierr ≠ 0 then
        ret.out = [-3] ∧ ret.st.CeedQFunction.count = ready.CeedQFunction.count ∧
        ret.st.CeedQFunction.n = ready.CeedQFunction.n
      else
        ret.out = [ready.CeedQFunction.count] ∧
        ret.st.CeedQFunction.count = ready.CeedQFunction.count + 1 ∧
        ret.st.CeedQFunction.n = ready.CeedQFunction.n + 1 :=
  createInterior_registers_iff_created libCallocFails ready 0 1 3 [109, 97, 115, 115]
    (-3) 9 (by decide)

/-! ## C8, C9, C10: the Fortran QFunction stub and the context checkout -/

/-- C8, failing input.  With an inner context attached, `GetData` and
`RestoreData` succeeding and the user callback storing 1 in its error
argument, `CeedQFunctionFortranStub` returns 0: the return code of
`RestoreData` overwrites the callback's code.  Without inner context the same
callback makes the stub return 1. -/
theorem stub_drops_callback_error :
    (libCallbackFails .CeedQFunctionContextGetData 0).ierr = 0 ∧
    afterCallback (libCallbackFails .fctx_f 0) 0 = 1 ∧
    (libCallbackFails .CeedQFunctionContextRestoreData 0).ierr = 0 ∧
    (CeedQFunctionFortranStub libCallbackFails fctxInner 8 uPtrs vPtrs 0).ret = 0 ∧
    (CeedQFunctionFortranStub libCallbackFails fctxBare 8 uPtrs vPtrs 0).ret = 1 := by
  decide

/-- C9. In every call of `CeedQFunctionFortranStub(ctx, nq, u, v)` in which
context access succeeds (no inner context, or `GetData` returns 0) the user
callback is called exactly once, with the context data pointer, the point
count `nq`, the 16 input arrays `u[0], ..., u[15]` in index order, the 16
output arrays `v[0], ..., v[15]` in index order and the address of the error
code; the number of inputs equals the number of outputs, 16, which is
`CEED_SYCL_NUMBER_FIELDS`. -/
theorem stub_calls_callback_once (lib : Oracle) (fctx : CeedFortranContext) (nq : Int)
    (u v : Nat → Int) (ierr0 : Int)
    (hacc : fctx.innerctx = Obj.NULL ∨ (lib .CeedQFunctionContextGetData 0).ierr = 0) :
    (CeedQFunctionFortranStub lib fctx nq u v ierr0).calls.filter
        (fun c => c.fn = Ext.fctx_f) =
      [⟨Ext.fctx_f,
        [Arg.fn fctx.f,
         Arg.addr (if fctx.innerctx = Obj.NULL then 0
                   else (lib .CeedQFunctionContextGetData 0).outInt 0),
         Arg.int nq] ++
        (List.range CEED_SYCL_NUMBER_FIELDS).map (fun i => Arg.addr (u i)) ++
        (List.range CEED_SYCL_NUMBER_FIELDS).map (fun i => Arg.addr (v i)) ++
        [Arg.loc]⟩] ∧
    CEED_SYCL_NUMBER_FIELDS = 16 := by
  refine ⟨?_, rfl⟩
  unfold CeedQFunctionFortranStub
  by_cases hn : fctx.innerctx = Obj.NULL
  · simp only [hn, ne_eq, not_true_eq_false, if_false, if_true]
    rfl
  · have hg : (lib .CeedQFunctionContextGetData 0).ierr = 0 := hacc.resolve_left hn
    simp only [hn, hg, ne_eq, not_true_eq_false, not_false_eq_true, if_false, if_true]
    split_ifs <;> rfl

/-- C9 at a concrete batch of 8 points with an inner context attached. -/
theorem stub_calls_callback_once_witness :
    (CeedQFunctionFortranStub libCallbackFails fctxInner 8 uPtrs vPtrs 0).calls.filter
        (fun c => c.fn = Ext.fctx_f) =
      [⟨Ext.fctx_f,
        [Arg.fn fctxInner.f,
         Arg.addr (if fctxInner.innerctx = Obj.NULL then 0
                   else (libCallbackFails .CeedQFunctionContextGetData 0).outInt 0),
         Arg.int 8] ++
        (List.range CEED_SYCL_NUMBER_FIELDS).map (fun i => Arg.addr (uPtrs i)) ++
        (List.range CEED_SYCL_NUMBER_FIELDS).map (fun i => Arg.addr (vPtrs i)) ++
        [Arg.loc]⟩] ∧
    CEED_SYCL_NUMBER_FIELDS = 16 :=
  stub_calls_callback_once libCallbackFails fctxInner 8 uPtrs vPtrs 0 (Or.inr (by decide))

/-- C10. On every path of `CeedQFunctionFortranStub` and of
`fCeedQFunctionSetContext`, whatever the library answers: every
`CeedQFunctionContextRestoreData` is made on a context that a preceding
successful `CeedQFunctionContextGetData` checked out and that was not yet
restored, and no context is checked out when the function returns
(`checkout ... = some []`).  The accesses are exactly: none when there is no
context to access; the single failed `GetData`; or a successful `GetData`
followed by one `RestoreData` on the same context. -/
theorem context_checkout_discipline (lib : Oracle) :
    (∀ (fctx : CeedFortranContext) (nq : Int) (u v : Nat → Int) (ierr0 : Int),
      checkout (decide ((lib .CeedQFunctionContextGetData 0).ierr = 0))
        (CeedQFunctionFortranStub lib fctx nq u v ierr0).calls [] = some [] ∧
      accesses (CeedQFunctionFortranStub lib fctx nq u v ierr0).calls =
        if fctx.innerctx = Obj.NULL then []
        else if (lib .CeedQFunctionContextGetData 0).ierr ≠ 0 then
          [⟨.CeedQFunctionContextGetData,
            [.obj fctx.innerctx, .obj (.const .CEED_MEM_HOST), .loc]⟩]
        else
          [⟨.CeedQFunctionContextGetData,
            [.obj fctx.innerctx, .obj (.const .CEED_MEM_HOST), .loc]⟩,
           ⟨.CeedQFunctionContextRestoreData, [.obj fctx.innerctx, .loc]⟩]) ∧
    (∀ (s : State) (qf ctx err : Int),
      checkout (decide ((lib .CeedQFunctionContextGetData 0).ierr = 0))
        (fCeedQFunctionSetContext lib s qf ctx err).calls [] = some [] ∧
      accesses (fCeedQFunctionSetContext lib s qf ctx err).calls =
        if (lib .CeedQFunctionGetContext 0).ierr ≠ 0 then []
        else if (lib .CeedQFunctionContextGetData 0).ierr ≠ 0 then
          [⟨.CeedQFunctionContextGetData,
            [.obj ((lib .CeedQFunctionGetContext 0).outObj 0), .obj (.const .CEED_MEM_HOST),
             .loc]⟩]
        else
          [⟨.CeedQFunctionContextGetData,
            [.obj ((lib .CeedQFunctionGetContext 0).outObj 0), .obj (.const .CEED_MEM_HOST),
             .loc]⟩,
           ⟨.CeedQFunctionContextRestoreData,
            [.obj ((lib .CeedQFunctionGetContext 0).outObj 0), .loc]⟩]) := by
  refine ⟨?_, ?_⟩
  · intro fctx nq u v ierr0
    unfold CeedQFunctionFortranStub
    by_cases hn : fctx.innerctx = Obj.NULL
    · simp [hn, checkout, accesses, callback]
    · by_cases hg : (lib .CeedQFunctionContextGetData 0).ierr = 0
      · simp [hn, hg, checkout, accesses, callback]
      · simp [hn, hg, checkout, accesses, callback]
  · intro s qf ctx err
    unfold fCeedQFunctionSetContext
    by_cases h1 : (lib .CeedQFunctionGetContext 0).ierr = 0
    · by_cases hg : (lib .CeedQFunctionContextGetData 0).ierr = 0
      · simp [h1, hg, checkout, accesses]
      · simp [h1, hg, checkout, accesses]
    · simp [h1, checkout, accesses]

/-! ## C11: the offset convention of the vector arrays -/

/-- C11. Addresses and offsets are counted in `CeedScalar` elements.
`fCeedVectorSetArray` hands the address `array + offset_in` to the library.
`fCeedVectorTakeArray`, `fCeedVectorGetArray` and `fCeedVectorGetArrayRead`
return `*offset = b - array` for the pointer `b` that the library hands back,
so `array + *offset = b`; and if `b` is the pointer that was set, `*offset` is
`offset_in`, for every `array` and every `offset_in`. -/
theorem offset_round_trip (lib : Oracle) (s : State)
    (vec memtype copymode array offset_in offset err : Int) :
    (fCeedVectorSetArray lib s vec memtype copymode array offset_in err).calls =
      [⟨.CeedVectorSetArray, [.obj (s.CeedVector.get vec), .int memtype, .int copymode,
        .addr (array + offset_in)]⟩] ∧
    ((fCeedVectorTakeArray lib s vec memtype array offset err).out =
        [(lib .CeedVectorTakeArray 0).outInt 0 - array] ∧
      array + ((lib .CeedVectorTakeArray 0).outInt 0 - array) =
        (lib .CeedVectorTakeArray 0).outInt 0 ∧
      ((lib .CeedVectorTakeArray 0).outInt 0 = array + offset_in →
        (fCeedVectorTakeArray lib s vec memtype array offset err).out = [offset_in])) ∧
    ((fCeedVectorGetArray lib s vec memtype array offset err).out =
        [(lib .CeedVectorGetArray 0).outInt 0 - array] ∧
      array + ((lib .CeedVectorGetArray 0).outInt 0 - array) =
        (lib .CeedVectorGetArray 0).outInt 0 ∧
      ((lib .CeedVectorGetArray 0).outInt 0 = array + offset_in →
        (fCeedVectorGetArray lib s vec memtype array offset err).out = [offset_in])) ∧
    ((fCeedVectorGetArrayRead lib s vec memtype array offset err).out =
        [(lib .CeedVectorGetArrayRead 0).outInt 0 - array] ∧
      array + ((lib .CeedVectorGetArrayRead 0).outInt 0 - array) =
        (lib .CeedVectorGetArrayRead 0).outInt 0 ∧
      ((lib .CeedVectorGetArrayRead 0).outInt 0 = array + offset_in →
        (fCeedVectorGetArrayRead lib s vec memtype array offset err).out = [offset_in])) := by
  refine ⟨rfl, ⟨rfl, by omega, fun h => ?_⟩, ⟨rfl, by omega, fun h => ?_⟩,
    ⟨rfl, by omega, fun h => ?_⟩⟩
  · simp only [fCeedVectorTakeArray, h, List.cons.injEq, and_true]
    omega
  · simp only [fCeedVectorGetArray, h, List.cons.injEq, and_true]
    omega
  · simp only [fCeedVectorGetArrayRead, h, List.cons.injEq, and_true]
    omega

/-! ## C12: the translation of `fCeedOperatorSetField` -/

/-- C12. For a field name of at most 1023 characters `fCeedOperatorSetField`
makes one call, `CeedOperatorSetField(op_, fieldname_c, r_, b_, v_)`, whose
return code is `*err`; it changes no table and writes no other argument.
`op_` is `CeedOperator_dict[*op]`, `fieldname_c` is the NUL-terminated name,
and each of `r_`, `b_`, `v_` depends on its own handle only: `FORTRAN_NULL`
gives `NULL`; `FORTRAN_ELEMRESTRICTION_NONE`, `FORTRAN_BASIS_COLLOCATED`,
`FORTRAN_VECTOR_ACTIVE` and `FORTRAN_VECTOR_NONE` give the constants of the
same name; every other value gives the slot of that index in the table of the
restrictions, bases or vectors. -/
theorem setField_translation (lib : Oracle) (s : State) (op : Int) (fieldname : List Nat)
    (r b v err : Int) (hlen : fieldname.length ≤ 1023) :
    ∃ r_ b_ v_,
      fCeedOperatorSetField lib s op fieldname r b v err =
        some { st := s, err := (lib .CeedOperatorSetField 0).ierr, out := [],
               calls := [⟨.CeedOperatorSetField, [.obj (s.CeedOperator.get op),
                 .str (strncpy fieldname ++ [0]), .obj r_, .obj b_, .obj v_]⟩] } ∧
      (r = FORTRAN_NULL → r_ = .NULL) ∧
      (r = FORTRAN_ELEMRESTRICTION_NONE → r_ = .const .CEED_ELEMRESTRICTION_NONE) ∧
      (r ≠ FORTRAN_NULL → r ≠ FORTRAN_ELEMRESTRICTION_NONE →
        r_ = s.CeedElemRestriction.get r) ∧
      (b = FORTRAN_NULL → b_ = .NULL) ∧
      (b = FORTRAN_BASIS_COLLOCATED → b_ = .const .CEED_BASIS_COLLOCATED) ∧
      (b ≠ FORTRAN_NULL → b ≠ FORTRAN_BASIS_COLLOCATED → b_ = s.CeedBasis.get b) ∧
      (v = FORTRAN_NULL → v_ = .NULL) ∧
      (v = FORTRAN_VECTOR_ACTIVE → v_ = .const .CEED_VECTOR_ACTIVE) ∧
      (v = FORTRAN_VECTOR_NONE → v_ = .const .CEED_VECTOR_NONE) ∧
      (v ≠ FORTRAN_NULL → v ≠ FORTRAN_VECTOR_ACTIVE → v ≠ FORTRAN_VECTOR_NONE →
        v_ = s.CeedVector.get v) := by
  have hfix : FIX_STRING fieldname = some (strncpy fieldname ++ [0]) := by
    unfold FIX_STRING
    rw [if_neg (by omega)]
  refine ⟨if r = FORTRAN_NULL then .NULL
      else if r = FORTRAN_ELEMRESTRICTION_NONE then .const .CEED_ELEMRESTRICTION_NONE
      else s.CeedElemRestriction.get r,
    if b = FORTRAN_NULL then .NULL
      else if b = FORTRAN_BASIS_COLLOCATED then .const .CEED_BASIS_COLLOCATED
      else s.CeedBasis.get b,
    if v = FORTRAN_NULL then .NULL
      else if v = FORTRAN_VECTOR_ACTIVE then .const .CEED_VECTOR_ACTIVE
      else if v = FORTRAN_VECTOR_NONE then .const .CEED_VECTOR_NONE
      else s.CeedVector.get v, ?_, ?_⟩
  · unfold fCeedOperatorSetField
    rw [hfix]
    rfl
  · refine ⟨?_, ?_, ?_, ?_, ?_, ?_, ?_, ?_, ?_, ?_⟩
    · intro h
      simp [h]
    · intro h
      simp [h, FORTRAN_ELEMRESTRICTION_NONE, FORTRAN_NULL]
    · intro h1 h2
      simp [h1, h2]
    · intro h
      simp [h]
    · intro h
      simp [h, FORTRAN_BASIS_COLLOCATED, FORTRAN_NULL]
    · intro h1 h2
      simp [h1, h2]
    · intro h
      simp [h]
    · intro h
      simp [h, FORTRAN_VECTOR_ACTIVE, FORTRAN_NULL]
    · intro h
      simp [h, FORTRAN_VECTOR_ACTIVE, FORTRAN_VECTOR_NONE, FORTRAN_NULL]
    · intro h1 h2 h3
      simp [h1, h2, h3]

/-- C12 at a concrete call: in the state `ready`, the field "u" (one
character, 117) is set on operator 0 with no restriction, a collocated basis
and the active vector. -/
theorem setField_translation_witness :
    ([117] : List Nat).length ≤ 1023 ∧
    ∃ r_ b_ v_,
      fCeedOperatorSetField libOk ready 0 [117] FORTRAN_ELEMRESTRICTION_NONE
          FORTRAN_BASIS_COLLOCATED FORTRAN_VECTOR_ACTIVE 0 =
        some { st := ready, err := (libOk .CeedOperatorSetField 0).ierr, out := [],
               calls := [⟨.CeedOperatorSetField, [.obj (ready.CeedOperator.get 0),
                 .str (strncpy [117] ++ [0]), .obj r_, .obj b_, .obj v_]⟩] } ∧
      (FORTRAN_ELEMRESTRICTION_NONE = FORTRAN_NULL → r_ = .NULL) ∧
      (FORTRAN_ELEMRESTRICTION_NONE = FORTRAN_ELEMRESTRICTION_NONE →
        r_ = .const .CEED_ELEMRESTRICTION_NONE) ∧
      (FORTRAN_ELEMRESTRICTION_NONE ≠ FORTRAN_NULL →
        FORTRAN_ELEMRESTRICTION_NONE ≠ FORTRAN_ELEMRESTRICTION_NONE →
        r_ = ready.CeedElemRestriction.get FORTRAN_ELEMRESTRICTION_NONE) ∧
      (FORTRAN_BASIS_COLLOCATED = FORTRAN_NULL → b_ = .NULL) ∧
      (FORTRAN_BASIS_COLLOCATED = FORTRAN_BASIS_COLLOCATED →
        b_ = .const .CEED_BASIS_COLLOCATED) ∧
      (FORTRAN_BASIS_COLLOCATED ≠ FORTRAN_NULL →
        FORTRAN_BASIS_COLLOCATED ≠ FORTRAN_BASIS_COLLOCATED →
        b_ = ready.CeedBasis.get FORTRAN_BASIS_COLLOCATED) ∧
      (FORTRAN_VECTOR_ACTIVE = FORTRAN_NULL → v_ = .NULL) ∧
      (FORTRAN_VECTOR_ACTIVE = FORTRAN_VECTOR_ACTIVE → v_ = .const .CEED_VECTOR_ACTIVE) ∧
      (FORTRAN_VECTOR_ACTIVE = FORTRAN_VECTOR_NONE → v_ = .const .CEED_VECTOR_NONE) ∧
      (FORTRAN_VECTOR_ACTIVE ≠ FORTRAN_NULL →
        FORTRAN_VECTOR_ACTIVE ≠ FORTRAN_VECTOR_ACTIVE →
        FORTRAN_VECTOR_ACTIVE ≠ FORTRAN_VECTOR_NONE →
        v_ = ready.CeedVector.get FORTRAN_VECTOR_ACTIVE) :=
  ⟨by decide,
   setField_translation libOk ready 0 [117] FORTRAN_ELEMRESTRICTION_NONE
     FORTRAN_BASIS_COLLOCATED FORTRAN_VECTOR_ACTIVE 0 (by decide)⟩

/-! ## C13: the Jacobian stub -/

/-- C13. `fCeedOperatorApplyJacobian` is a stub: for every state, every
library and every input it makes no call, leaves all tables as they were,
writes none of its arguments (the handles and the request included) and
leaves `*err` at the value it had on entry. -/
theorem applyJacobian_is_stub (lib : Oracle) (s : State)
    (op qdatavec ustatevec dustatevec dresvec rqst err : Int) :
    exec (.fCeedOperatorApplyJacobian op qdatavec ustatevec dustatevec dresvec rqst) lib s err
      = some { st := s, err := err, out := [], calls := [] } ∧
    fCeedOperatorApplyJacobian lib s op qdatavec ustatevec dustatevec dresvec rqst err
      = { st := s, err := err, out := [], calls := [] } :=
  ⟨rfl, rfl⟩

/-! ## C14: `FIX_STRING` on a string without NUL -/

theorem strncpy_length (src : List Nat) : (strncpy src).length = src.length := by
  unfold strncpy
  have h := (List.takeWhile_prefix (fun c => c != 0) : _ <+: src).length_le
  simp only [List.length_append, List.length_replicate]
  omega

theorem strncpy_of_no_nul (src : List Nat) (h : ∀ c ∈ src, c ≠ 0) : strncpy src = src := by
  unfold strncpy
  have hw : src.takeWhile (fun c => c != 0) = src := by
    rw [List.takeWhile_eq_self_iff]
    intro c hc
    simpa using h c hc
  simp [hw]

/-- C14. For a Fortran string of at most 1023 characters without NUL,
`FIX_STRING` raises no error and writes `stringname_c[i] = stringname[i]` for
each `i < len`, in order, then `stringname_c[len] = 0`, and nothing else: the
buffer holds the characters of the string followed by one NUL.  That buffer
is the name that `fCeedQFunctionAddInput`, `fCeedQFunctionAddOutput` and
`fCeedOperatorSetField` hand to the library. -/
theorem fix_string_exact (stringname : List Nat) (hlen : stringname.length ≤ 1023)
    (hnul : ∀ c ∈ stringname, c ≠ 0) :
    FIX_STRING stringname = some (stringname ++ [0]) ∧
    (∀ onError, FIX_STRING.trace onError stringname =
      { raised := [], writes := stringname.enum ++ [(stringname.length, 0)] }) ∧
    (∀ i, i < stringname.length → (stringname ++ [0])[i]? = stringname[i]?) ∧
    (stringname ++ [0])[stringname.length]? = some 0 ∧
    (stringname ++ [0]).length = stringname.length + 1 ∧
    (∀ lib s qf ncomp emode err,
      fCeedQFunctionAddInput lib s qf stringname ncomp emode err =
        some { st := s, err := (lib .CeedQFunctionAddInput 0).ierr, out := [],
               calls := [⟨.CeedQFunctionAddInput, [.obj (s.CeedQFunction.get qf),
                 .str (stringname ++ [0]), .int ncomp, .int emode]⟩] }) ∧
    (∀ lib s qf ncomp emode err,
      fCeedQFunctionAddOutput lib s qf stringname ncomp emode err =
        some { st := s, err := (lib .CeedQFunctionAddOutput 0).ierr, out := [],
               calls := [⟨.CeedQFunctionAddOutput, [.obj (s.CeedQFunction.get qf),
                 .str (stringname ++ [0]), .int ncomp, .int emode]⟩] }) ∧
    (∀ lib s op r b v err,
      (fCeedOperatorSetField lib s op stringname r b v err).map
          (fun x => x.calls.map (fun c => c.args[1]?)) =
        some [some (.str (stringname ++ [0]))]) := by
  have hcopy := strncpy_of_no_nul stringname hnul
  have hfix : FIX_STRING stringname = some (stringname ++ [0]) := by
    unfold FIX_STRING
    rw [if_neg (by omega), hcopy]
  refine ⟨hfix, ?_, ?_, ?_, ?_, ?_, ?_, ?_⟩
  · intro onError
    unfold FIX_STRING.trace
    have h1 : ¬ stringname.length > 1023 := by omega
    simp only [h1, false_and, if_false, hcopy]
  · intro i hi
    exact List.getElem?_append_left hi
  · simp
  · simp
  · intro lib s qf ncomp emode err
    unfold fCeedQFunctionAddInput
    rw [hfix]
    rfl
  · intro lib s qf ncomp emode err
    unfold fCeedQFunctionAddOutput
    rw [hfix]
    rfl
  · intro lib s op r b v err
    unfold fCeedOperatorSetField
    rw [hfix]
    rfl

/-- C14 at the field name "du" (100, 117). -/
theorem fix_string_exact_witness :
    ([100, 117] : List Nat).length ≤ 1023 ∧ (∀ c ∈ ([100, 117] : List Nat), c ≠ 0) ∧
    FIX_STRING [100, 117] = some [100, 117, 0] ∧
    FIX_STRING.trace .returns [100, 117] =
      { raised := [], writes := [(0, 100), (1, 117), (2, 0)] } :=
  ⟨by decide, by decide,
   (fix_string_exact [100, 117] (by decide) (by decide)).1,
   (fix_string_exact [100, 117] (by decide) (by decide)).2.1 .returns⟩

/-! ## Loops over the quadrature points -/

@[simp] theorem store_apply {α : Type} (a : Int → α) (i : Int) (x : α) (j : Int) :
    store a i x j = if j = i then x else a j := rfl

/-- Invariant rule for the loop over the quadrature points: a property that
holds before the loop and is carried from `m` to `m + 1` iterations by the
body run at `i = m < Q` holds, with `m` the number of iterations, at the end. -/
theorem forQ_induct {σ : Type} (Q : Int) (body : Int → σ → σ) (init : σ)
    (P : Nat → σ → Prop) (h0 : P 0 init)
    (hstep : ∀ (m : Nat) (st : σ), (m : Int) < Q → P m st → P (m + 1) (body m st)) :
    P Q.toNat (forQ Q body init) := by
  unfold forQ
  have key : ∀ n : Nat, n ≤ Q.toNat →
      P n ((List.range n).foldl (fun st (i : Nat) => body (i : Int) st) init) := by
    intro n
    induction n with
    | zero => intro _; exact h0
    | succ k ih =>
      intro hk
      rw [List.range_succ, List.foldl_append]
      exact hstep k _ (by omega) (ih (by omega))
  exact key _ (le_refl _)

/-- A loop whose iteration `m` writes only the column `m` of its arrays, with
values that do not depend on the arrays: after the loop the column `i` is
what iteration `i` writes, for `i` in `[0, Q)`, and every other column is
unchanged.  `col st i` is the column `i` of the arrays `st`. -/
theorem forQ_pointwise {σ β : Type} (col : σ → Int → β) (Q : Int) (body : Int → σ → σ)
    (init : σ) (hlocal : ∀ (m : Int) (st : σ) (j : Int), j ≠ m → col (body m st) j = col st j)
    (hindep : ∀ (m : Int) (st st' : σ), col (body m st) m = col (body m st') m) :
    (∀ i : Int, 0 ≤ i → i < Q → col (forQ Q body init) i = col (body i init) i) ∧
    (∀ i : Int, ¬ (0 ≤ i ∧ i < Q) → col (forQ Q body init) i = col init i) := by
  have h := forQ_induct Q body init
    (fun m st =>
      (∀ i : Int, 0 ≤ i → i < m → col st i = col (body i init) i) ∧
      (∀ i : Int, ¬ (0 ≤ i ∧ i < Q) → col st i = col init i))
    ⟨fun i h0 h1 => by omega, fun i _ => rfl⟩
    (by
      intro m st hm ⟨hst, hframe⟩
      refine ⟨?_, ?_⟩
      · intro i h0 h1
        by_cases him : i = m
        · rw [him]
          exact hindep m st init
        · rw [hlocal m st i him]
          exact hst i h0 (by omega)
      · intro i hi
        rw [hlocal m st i (by omega)]
        exact hframe i hi)
  exact ⟨fun i h0 h1 => h.1 i h0 (by omega), h.2⟩

/-! ## C15: `Mass3` -/

/-- The values of `v` after `m` iterations of the loop of `Mass3`. -/
theorem Mass3_loop {α : Type} [Mul α] (Q : Int) (u q_data v : Int → α) :
    let body : Int → (Int → α) → (Int → α) := fun i v =>
      let v := store v (i + 0 * Q) (q_data i * u (i + 0 * Q))
      let v := store v (i + 1 * Q) (q_data i * u (i + 1 * Q))
      store v (i + 2 * Q) (q_data i * u (i + 2 * Q))
    (∀ i : Int, 0 ≤ i → i < Q →
      forQ Q body v i = q_data i * u i ∧
      forQ Q body v (i + Q) = q_data i * u (i + Q) ∧
      forQ Q body v (i + 2 * Q) = q_data i * u (i + 2 * Q)) ∧
    (∀ j : Int, ¬ (0 ≤ j ∧ j < 3 * Q) → forQ Q body v j = v j) := by
  intro body
  have h := forQ_induct Q body v
    (fun m w =>
      (∀ i : Int, 0 ≤ i → i < m →
        w i = q_data i * u i ∧ w (i + Q) = q_data i * u (i + Q) ∧
        w (i + 2 * Q) = q_data i * u (i + 2 * Q)) ∧
      (∀ j : Int, ¬ (0 ≤ j ∧ j < 3 * Q) → w j = v j))
    ⟨fun i h0 h1 => by omega, fun j _ => rfl⟩
    (by
      intro m w hm ⟨hw, hframe⟩
      refine ⟨?_, ?_⟩
      · intro i h0 h1
        simp only [body, store_apply, zero_mul, one_mul, add_zero]
        by_cases him : i = m
        · rw [him]
          have e1 : ¬ ((m : Int) = m + 2 * Q) := by omega
          have e2 : ¬ ((m : Int) = m + Q) := by omega
          have e3 : ¬ ((m : Int) + Q = m + 2 * Q) := by omega
          have e4 : ¬ ((m : Int) + Q = m) := by omega
          have e5 : ¬ ((m : Int) + 2 * Q = m) := by omega
          have e6 : ¬ ((m : Int) + 2 * Q = m + Q) := by omega
          simp only [e1, e2, e3, if_false, if_true, and_self]
        · have hi : i < m := by omega
          obtain ⟨g0, g1, g2⟩ := hw i h0 hi
          have e1 : ¬ (i = (m : Int) + 2 * Q) := by omega
          have e2 : ¬ (i = (m : Int) + Q) := by omega
          have e3 : ¬ (i = (m : Int)) := by omega
          have e4 : ¬ (i + Q = (m : Int) + 2 * Q) := by omega
          have e5 : ¬ (i + Q = (m : Int) + Q) := by omega
          have e6 : ¬ (i + Q = (m : Int)) := by omega
          have e7 : ¬ (i + 2 * Q = (m : Int) + 2 * Q) := by omega
          have e8 : ¬ (i + 2 * Q = (m : Int) + Q) := by omega
          have e9 : ¬ (i + 2 * Q = (m : Int)) := by omega
          simp only [e1, e2, e3, e4, e5, e6, e7, e8, e9, if_false]
          exact ⟨g0, g1, g2⟩
      · intro j hj
        simp only [body, store_apply, zero_mul, one_mul, add_zero]
        have e1 : ¬ (j = (m : Int) + 2 * Q) := by omega
        have e2 : ¬ (j = (m : Int) + Q) := by omega
        have e3 : ¬ (j = (m : Int)) := by omega
        simp only [e1, e2, e3, if_false]
        exact hframe j hj)
  refine ⟨fun i h0 h1 => h.1 i h0 (by omega), h.2⟩

/-- C15. For every `Q` and all arrays, `Mass3` returns 0 and leaves
`v[i + c*Q] = q_data[i] * u[i + c*Q]` for every `i` in `[0, Q)` and `c` in
`{0, 1, 2}`.  It writes only `v = out[0]`, and no index of `v` outside
`[0, 3Q)` (nothing at all for `Q <= 0`); and it reads only `u[0 .. 3Q-1]` and
`q_data[0 .. Q-1]`: the result is the same for any other context and any
other input arrays that agree with `u` and `q_data` there.  The scalar type
is any type with a multiplication. -/
theorem Mass3_pointwise {α γ : Type} [Mul α] (ctx : γ) (Q : Int)
    (in_ out : Nat → Int → α) :
    (∀ i c : Int, 0 ≤ i → i < Q → 0 ≤ c → c ≤ 2 →
      (Mass3 ctx Q in_ out).1 0 (i + c * Q) = in_ 1 i * in_ 0 (i + c * Q)) ∧
    (Mass3 ctx Q in_ out).2 = 0 ∧
    (∀ j : Int, ¬ (0 ≤ j ∧ j < 3 * Q) → (Mass3 ctx Q in_ out).1 0 j = out 0 j) ∧
    (∀ k : Nat, k ≠ 0 → (Mass3 ctx Q in_ out).1 k = out k) ∧
    (∀ (γ' : Type) (ctx' : γ') (in' : Nat → Int → α),
      (∀ j : Int, 0 ≤ j → j < 3 * Q → in' 0 j = in_ 0 j) →
      (∀ j : Int, 0 ≤ j → j < Q → in' 1 j = in_ 1 j) →
      Mass3 ctx' Q in' out = Mass3 ctx Q in_ out) := by
  have hloop := Mass3_loop Q (in_ 0) (in_ 1) (out 0)
  have hval : ∀ i c : Int, 0 ≤ i → i < Q → 0 ≤ c → c ≤ 2 →
      (Mass3 ctx Q in_ out).1 0 (i + c * Q) = in_ 1 i * in_ 0 (i + c * Q) := by
    intro i c h0 h1 hc0 hc2
    obtain ⟨g0, g1, g2⟩ := hloop.1 i h0 h1
    simp only [Mass3, if_true]
    interval_cases c
    · simpa using g0
    · simpa using g1
    · exact g2
  have hframe : ∀ j : Int, ¬ (0 ≤ j ∧ j < 3 * Q) → (Mass3 ctx Q in_ out).1 0 j = out 0 j := by
    intro j hj
    simp only [Mass3, if_true]
    exact hloop.2 j hj
  refine ⟨hval, rfl, hframe, ?_, ?_⟩
  · intro k hk
    simp only [Mass3, hk, if_false]
  · intro γ' ctx' in' hu hq
    have hloop' := Mass3_loop Q (in' 0) (in' 1) (out 0)
    have hcore : (Mass3 ctx' Q in' out).1 0 = (Mass3 ctx Q in_ out).1 0 := by
      funext j
      simp only [Mass3, if_true]
      by_cases hj : 0 ≤ j ∧ j < 3 * Q
      · obtain ⟨hj0, hj3⟩ := hj
        by_cases c0 : j < Q
        · rw [(hloop'.1 j hj0 c0).1, (hloop.1 j hj0 c0).1, hu j hj0 hj3, hq j hj0 c0]
        · by_cases c1 : j < 2 * Q
          · have e : j = (j - Q) + Q := by omega
            rw [e, (hloop'.1 (j - Q) (by omega) (by omega)).2.1,
              (hloop.1 (j - Q) (by omega) (by omega)).2.1, ← e, hu j hj0 hj3,
              hq (j - Q) (by omega) (by omega)]
          · have e : j = (j - 2 * Q) + 2 * Q := by omega
            rw [e, (hloop'.1 (j - 2 * Q) (by omega) (by omega)).2.2,
              (hloop.1 (j - 2 * Q) (by omega) (by omega)).2.2, ← e, hu j hj0 hj3,
              hq (j - 2 * Q) (by omega) (by omega)]
      · rw [hloop'.2 j hj, hloop.2 j hj]
    have hall : (Mass3 ctx' Q in' out).1 = (Mass3 ctx Q in_ out).1 := by
      funext k
      by_cases hk : k = 0
      · subst hk
        exact hcore
      · simp only [Mass3, hk, if_false]
    exact Prod.ext hall rfl

/-! ## C16: the integrands stored by `SetupMixedLinear3D` -/

theorem Trace3_eq_trace {α : Type} [Field α] (A : Fin 3 → Fin 3 → α) :
    Trace3 A = Matrix.trace (Matrix.of A) := by
  simp [Trace3, Matrix.trace, Fin.sum_univ_three, add_assoc]

theorem AlphaMatMatMult3_one {α : Type} [Field α] (A B : Fin 3 → Fin 3 → α) :
    AlphaMatMatMult3 1 A B = (Matrix.of A * Matrix.of B : Matrix (Fin 3) (Fin 3) α) := by
  funext j k
  simp [AlphaMatMatMult3, Matrix.mul_apply, Fin.sum_univ_three, add_assoc]

/-- After `SetupMixedLinear3D`, the column `i` of `dvdX` and of `q[0]` holds
what the body of the loop computes at `i`, for `i` in `[0, Q)`; the other
columns of `dvdX` and `q[0]` are unchanged. -/
theorem SetupMixedLinear3D_loop {α : Type} [Field α]
    (unpack : (Fin 9 → α) → Fin 3 → Fin 3 → α) (ctx : LINEARContext_ α) (Q : Int)
    (ug : Fin 3 → Fin 3 → Int → α) (q_data p : Nat → Int → α)
    (dvdX : Fin 3 → Fin 3 → Int → α) (q : Nat → Int → α) :
    let dXdx : Int → Fin 3 → Fin 3 → α := fun i => unpack (fun j => q_data (j.val + 1) i)
    let grad_u : Int → Fin 3 → Fin 3 → α := fun i =>
      AlphaMatMatMult3 1 (dXdx i) (fun a b => ug a b i)
    let sigma : Int → Fin 3 → Fin 3 → α := fun i =>
      SetupMixedLinear3D.sigma (p 0 i) (ctx.E / (2 * (1 + ctx.nu)))
        (SetupMixedLinear3D.ed (SetupMixedLinear3D.e (grad_u i))
          (Trace3 (SetupMixedLinear3D.e (grad_u i))))
    (∀ i : Int, 0 ≤ i → i < Q →
      (∀ a b, (SetupMixedLinear3D unpack ctx Q ug q_data p dvdX q).1 a b i =
        q_data 0 i * (dXdx i 0 a * sigma i 0 b + dXdx i 1 a * sigma i 1 b +
          dXdx i 2 a * sigma i 2 b)) ∧
      (SetupMixedLinear3D unpack ctx Q ug q_data p dvdX q).2.1 0 i =
        (Trace3 (grad_u i) - p 0 i / (ctx.E / (3 * (1 - 2 * ctx.nu)))) * q_data 0 i) ∧
    (∀ i : Int, ¬ (0 ≤ i ∧ i < Q) →
      (∀ a b, (SetupMixedLinear3D unpack ctx Q ug q_data p dvdX q).1 a b i = dvdX a b i) ∧
      (SetupMixedLinear3D unpack ctx Q ug q_data p dvdX q).2.1 0 i = q 0 i) := by
  intro dXdx grad_u sigma
  have hdudX : ∀ i : Int, (![![ug 0 0 i, ug 0 1 i, ug 0 2 i], ![ug 1 0 i, ug 1 1 i, ug 1 2 i],
      ![ug 2 0 i, ug 2 1 i, ug 2 2 i]] : Fin 3 → Fin 3 → α) = fun a b => ug a b i := by
    intro i
    funext a b
    fin_cases a <;> fin_cases b <;> rfl
  let body : Int → (Fin 3 → Fin 3 → Int → α) × (Nat → Int → α) →
      (Fin 3 → Fin 3 → Int → α) × (Nat → Int → α) := fun i st =>
    (AlphaMatTransposeMatMultAtQuadrature3 Q i (q_data 0 i) (dXdx i) (sigma i) st.1,
     storeRow st.2 0 i
       ((Trace3 (grad_u i) - p 0 i / (ctx.E / (3 * (1 - 2 * ctx.nu)))) * q_data 0 i))
  have hbody : SetupMixedLinear3D unpack ctx Q ug q_data p dvdX q =
      ((forQ Q body (dvdX, q)).1, (forQ Q body (dvdX, q)).2, 0) := by
    unfold SetupMixedLinear3D
    simp only [hdudX]
  have h := forQ_pointwise
    (fun (st : (Fin 3 → Fin 3 → Int → α) × (Nat → Int → α)) (i : Int) =>
      ((fun a b => st.1 a b i : Fin 3 → Fin 3 → α), st.2 0 i))
    Q body (dvdX, q)
    (by
      intro m st j hj
      simp only [body, AlphaMatTransposeMatMultAtQuadrature3, storeRow, store_apply, hj,
        if_false, if_true])
    (by
      intro m st st'
      simp only [body, AlphaMatTransposeMatMultAtQuadrature3, storeRow, store_apply,
        if_true])
  rw [hbody]
  refine ⟨?_, ?_⟩
  · intro i h0 h1
    have hi := h.1 i h0 h1
    simp only [Prod.mk.injEq] at hi
    refine ⟨?_, ?_⟩
    · intro a b
      have hab := congrFun (congrFun hi.1 a) b
      simp only [hab, body, AlphaMatTransposeMatMultAtQuadrature3, store_apply, if_true]
    · simp only [hi.2, body, storeRow, store_apply, if_true]
  · intro i hi
    have hfr := h.2 i hi
    simp only [Prod.mk.injEq] at hfr
    exact ⟨fun a b => congrFun (congrFun hfr.1 a) b, hfr.2⟩

/-- C16. In exact real arithmetic, for every `Q`, all arrays, every way of
unpacking nine numbers into a 3x3 matrix and every quadrature point `i` in
`[0, Q)`, after `SetupMixedLinear3D`:
`q[0][i] = (div_u - p[0][i] / kappa) * q_data[0][i]` with
`kappa = E / (3 (1 - 2 nu))` and `div_u` the trace of `grad_u = dXdx * dudX`,
where `dudX[a][b] = ug[a][b][i]` and `dXdx` is the matrix unpacked from
`q_data[1..9][i]`; and `dvdX[.][.][i]` holds `q_data[0][i] * dXdx^T * sigma`,
where `sigma` is the stress computed from `grad_u`, `p[0][i]` and
`mu = E / (2 (1 + nu))`.  The function returns 0. -/
theorem SetupMixedLinear3D_integrands (unpack : (Fin 9 → ℝ) → Fin 3 → Fin 3 → ℝ)
    (ctx : LINEARContext_ ℝ) (Q : Int) (ug : Fin 3 → Fin 3 → Int → ℝ)
    (q_data p : Nat → Int → ℝ) (dvdX : Fin 3 → Fin 3 → Int → ℝ) (q : Nat → Int → ℝ) :
    (SetupMixedLinear3D unpack ctx Q ug q_data p dvdX q).2.2 = 0 ∧
    ∀ i : Int, 0 ≤ i → i < Q →
      ∀ (dXdx dudX grad_u sigma : Matrix (Fin 3) (Fin 3) ℝ),
        dXdx = Matrix.of (unpack (fun j => q_data (j.val + 1) i)) →
        dudX = Matrix.of (fun a b => ug a b i) →
        grad_u = dXdx * dudX →
        sigma = Matrix.of (SetupMixedLinear3D.sigma (p 0 i) (ctx.E / (2 * (1 + ctx.nu)))
          (SetupMixedLinear3D.ed (SetupMixedLinear3D.e grad_u)
            (Trace3 (SetupMixedLinear3D.e grad_u)))) →
        (SetupMixedLinear3D unpack ctx Q ug q_data p dvdX q).2.1 0 i =
          (Matrix.trace grad_u - p 0 i / (ctx.E / (3 * (1 - 2 * ctx.nu)))) * q_data 0 i ∧
        Matrix.of (fun a b => (SetupMixedLinear3D unpack ctx Q ug q_data p dvdX q).1 a b i) =
          q_data 0 i • (dXdx.transpose * sigma) := by
  refine ⟨rfl, ?_⟩
  intro i h0 h1 dXdx dudX grad_u sigma hX hU hG hS
  obtain ⟨hd, hq⟩ := (SetupMixedLinear3D_loop unpack ctx Q ug q_data p dvdX q).1 i h0 h1
  have hgrad : AlphaMatMatMult3 1 (unpack (fun j => q_data (j.val + 1) i))
      (fun a b => ug a b i) = grad_u := by
    rw [AlphaMatMatMult3_one, hG, hX, hU]
  beta_reduce at hd hq
  rw [hgrad] at hd hq
  refine ⟨?_, ?_⟩
  · rw [hq, Trace3_eq_trace]
    rfl
  · ext a b
    rw [Matrix.of_apply, hd a b, Matrix.smul_apply, Matrix.mul_apply, Fin.sum_univ_three,
      hS, hX]
    simp only [Matrix.transpose_apply, Matrix.of_apply, smul_eq_mul]

/-! ## C17: the handles of a multigrid level -/

theorem CeedRealloc_length (m : Int) (dict : List Obj) :
    (CeedRealloc m dict).length = m.toNat := by
  unfold CeedRealloc
  simp only [List.length_take, List.length_append, List.length_replicate]
  omega

/-- The table statements of a multigrid wrapper, on a table with non-negative
count and capacity: the loop ends, and the three operators are found in the
slots `count`, `count + 1`, `count + 2`. -/
theorem registerThree_spec (t : Table) (a b c : Obj) (hc : 0 ≤ t.count)
    (hm : 0 ≤ t.count_max) :
    ∃ t1, registerThree t a b c = some t1 ∧ t1.get t.count = a ∧
      t1.get (t.count + 1) = b ∧ t1.get (t.count + 2) = c ∧
      t1.count = t.count + 3 ∧ t1.n = t.n + 3 := by
  obtain ⟨m, hgrow, hlt, _⟩ := growLoop_spec ((t.count + 4 - t.count_max).toNat + 1) t.count
    t.count_max hm (by omega)
  have h1 : (0 : Int) ≤ t.count + 1 := by omega
  have h2 : (0 : Int) ≤ t.count + 1 + 1 := by omega
  have h3 : (0 : Int) ≤ t.count + 2 := by omega
  have e1 : (t.count + 1).toNat = t.count.toNat + 1 := by omega
  have e2 : (t.count + 1 + 1).toNat = t.count.toNat + 2 := by omega
  have e3 : (t.count + 2).toNat = t.count.toNat + 2 := by omega
  have hl : t.count.toNat + 2 < (CeedRealloc m t.dict).length := by
    rw [CeedRealloc_length]
    omega
  unfold registerThree
  rw [hgrow]
  refine ⟨_, rfl, ?_, ?_, ?_, ?_, ?_⟩
  · simp only [Table.put, Table.get, hc, h1, h2, if_true, e1, e2]
    simp only [List.getD_eq_getElem?_getD, List.getElem?_set, List.length_set]
    have : t.count.toNat < (CeedRealloc m t.dict).length := by omega
    simp [this]
  · simp only [Table.put, Table.get, hc, h1, h2, if_true, e1, e2]
    simp only [List.getD_eq_getElem?_getD, List.getElem?_set, List.length_set]
    have : t.count.toNat + 1 < (CeedRealloc m t.dict).length := by omega
    simp [this]
  · simp only [Table.put, Table.get, hc, h1, h2, h3, if_true, e1, e2, e3]
    simp only [List.getD_eq_getElem?_getD, List.getElem?_set, List.length_set]
    simp [hl]
  · simp only [Table.put_count]
    omega
  · simp only [Table.put_n]

theorem threeHandles_of_registerThree (s : State) (r : Resp) (h : List Int) (c : Call)
    (hc : 0 ≤ s.CeedOperator.count) (hm : 0 ≤ s.CeedOperator.count_max) :
    ThreeHandles s r h
      (if r.ierr ≠ 0 then some { st := s, err := r.ierr, out := h, calls := [c] }
       else (registerThree s.CeedOperator (r.outObj 0) (r.outObj 1) (r.outObj 2)).map
         (fun t => { st := { s with CeedOperator := t }, err := r.ierr,
                     out := [s.CeedOperator.count, s.CeedOperator.count + 1,
                       s.CeedOperator.count + 2], calls := [c] })) := by
  unfold ThreeHandles
  by_cases he : r.ierr = 0
  · obtain ⟨t1, ht, g0, g1, g2, hcount, hn⟩ :=
      registerThree_spec s.CeedOperator (r.outObj 0) (r.outObj 1) (r.outObj 2) hc hm
    simp only [he, ne_eq, not_true_eq_false, if_false, if_true, ht, Option.map_some']
    exact ⟨_, rfl, rfl, rfl, g0, g1, g2, hcount, hn⟩
  · simp only [he, ne_eq, not_false_eq_true, if_true, if_false]
    exact ⟨_, rfl, rfl, rfl, rfl⟩

/-- C17. In every state reached from the empty tables by a sequence of calls,
the operator count `c` is non-negative and each of
`fCeedOperatorMultigridLevelCreate`, `fCeedOperatorMultigridLevelCreateTensorH1`
and `fCeedOperatorMultigridLevelCreateH1` returns.  If the underlying call
returned 0, then `*opCoarse = c`, `*opProlong = c + 1`, `*opRestrict = c + 2`,
the slots `c`, `c + 1`, `c + 2` hold the coarse, prolongation and restriction
operators in that order, the count is `c + 3` and the live count has grown
by 3.  If it returned nonzero, `*err` is that code and the three handles and
every table (count, capacity and live count included) are unchanged. -/
theorem multigrid_three_handles (steps : List Step) (s : State)
    (hrun : run State.init steps = some s) (lib : Oracle)
    (opFine pMultFine rstrCoarse basisCoarse interpCtoF opCoarse opProlong opRestrict
      err : Int) :
    0 ≤ s.CeedOperator.count ∧
    ThreeHandles s (lib .CeedOperatorMultigridLevelCreate 0) [opCoarse, opProlong, opRestrict]
      (fCeedOperatorMultigridLevelCreate lib s opFine pMultFine rstrCoarse basisCoarse
        opCoarse opProlong opRestrict err) ∧
    ThreeHandles s (lib .CeedOperatorMultigridLevelCreateTensorH1 0)
      [opCoarse, opProlong, opRestrict]
      (fCeedOperatorMultigridLevelCreateTensorH1 lib s opFine pMultFine rstrCoarse
        basisCoarse interpCtoF opCoarse opProlong opRestrict err) ∧
    ThreeHandles s (lib .CeedOperatorMultigridLevelCreateH1 0)
      [opCoarse, opProlong, opRestrict]
      (fCeedOperatorMultigridLevelCreateH1 lib s opFine pMultFine rstrCoarse basisCoarse
        interpCtoF opCoarse opProlong opRestrict err) := by
  have hs : Inv (0 + steps.length) s := run_inv steps _ s 0 Inv.init hrun
  have hb : s.CeedOperator.Bounded (0 + steps.length) := hs.2.2.2.2.2.2.2
  have hc : 0 ≤ s.CeedOperator.count := hb.1
  have hm : 0 ≤ s.CeedOperator.count_max := hb.2.2.1
  exact ⟨hc, threeHandles_of_registerThree s _ _ _ hc hm,
    threeHandles_of_registerThree s _ _ _ hc hm, threeHandles_of_registerThree s _ _ _ hc hm⟩

/-- C17 at a concrete call: after `coarseSetup` one operator exists, and a
multigrid level built from operator 0, vector 0, restriction 0 and basis 0
returns the handles 1, 2, 3. -/
theorem multigrid_three_handles_witness :
    run State.init coarseSetup = some coarseState ∧
    ThreeHandles coarseState (libOk .CeedOperatorMultigridLevelCreate 0) [-3, -3, -3]
      (fCeedOperatorMultigridLevelCreate libOk coarseState 0 0 0 0 (-3) (-3) (-3) 0) ∧
    (fCeedOperatorMultigridLevelCreate libOk coarseState 0 0 0 0 (-3) (-3) (-3) 0).map
      (fun x => x.out) = some [1, 2, 3] :=
  ⟨by decide,
   (multigrid_three_handles coarseSetup coarseState (by decide) libOk 0 0 0 0 0 (-3) (-3)
     (-3) 0).2.1,
   by decide⟩

/-! ## C18: the bounds of the buffer of `FIX_STRING` -/

theorem FIX_STRING.trace_writes_of_returns (stringname : List Nat) :
    (FIX_STRING.trace .returns stringname).writes =
      (strncpy stringname).enum ++ [(stringname.length, 0)] := by
  unfold FIX_STRING.trace
  simp

theorem FIX_STRING.trace_raised (onError : CeedErrorOutcome) (stringname : List Nat) :
    (FIX_STRING.trace onError stringname).raised =
      if stringname.length > 1023 then [1] else [] := by
  unfold FIX_STRING.trace
  dsimp only
  split_ifs <;> rfl

theorem FIX_STRING.trace_writes (onError : CeedErrorOutcome) (stringname : List Nat) :
    (FIX_STRING.trace onError stringname).writes =
      if stringname.length > 1023 ∧ onError = .aborts then []
      else (strncpy stringname).enum ++ [(stringname.length, 0)] := by
  unfold FIX_STRING.trace
  dsimp only
  split_ifs <;> rfl

/-- Every write of `FIX_STRING` lands in `stringname_c[0 .. 1023]` when the
string has at most 1023 characters, and also when `CeedError` ends the
program. -/
theorem FIX_STRING.trace_in_bounds (onError : CeedErrorOutcome) (stringname : List Nat)
    (h : stringname.length ≤ 1023 ∨ onError = .aborts) :
    ∀ w ∈ (FIX_STRING.trace onError stringname).writes, w.1 ≤ 1023 := by
  intro w hw
  rw [FIX_STRING.trace_writes] at hw
  by_cases h1 : stringname.length > 1023 ∧ onError = .aborts
  · rw [if_pos h1] at hw
    simp at hw
  · rw [if_neg h1] at hw
    have hlen : stringname.length ≤ 1023 := by
      rcases h with h | h
      · exact h
      · by_contra hn
        exact h1 ⟨by omega, h⟩
    rw [List.mem_append] at hw
    rcases hw with hw | hw
    · obtain ⟨i, x⟩ := w
      have hi := List.fst_lt_of_mem_enum hw
      rw [strncpy_length] at hi
      show i ≤ 1023
      omega
    · simp only [List.mem_singleton] at hw
      subst hw
      exact hlen

/-- C18 at the failing input: for the string `longName` of 1024 characters,
when `CeedError` comes back to the macro (as a C function does unless it ends
the program), the error of code 1 is raised and the string is copied all the
same, and the terminator is written at index 1024, outside
`stringname_c[0 .. 1023]`.  When `CeedError` ends the program nothing is
written. -/
theorem fix_string_overruns_buffer :
    longName.length = 1024 ∧
    (FIX_STRING.trace .returns longName).raised = [1] ∧
    (FIX_STRING.trace .returns longName).writes.length = 1025 ∧
    (1024, 0) ∈ (FIX_STRING.trace .returns longName).writes ∧
    ¬ (1024 ≤ 1023) ∧
    (FIX_STRING.trace .aborts longName).writes = [] := by
  have hlen : longName.length = 1024 := List.length_replicate _ _
  refine ⟨hlen, ?_, ?_, ?_, by decide, ?_⟩
  · rw [FIX_STRING.trace_raised, hlen]
    rfl
  · rw [FIX_STRING.trace_writes_of_returns, List.length_append, List.enum_length,
      strncpy_length, hlen]
    rfl
  · rw [FIX_STRING.trace_writes_of_returns, hlen]
    exact List.mem_append_right _ (List.mem_singleton.2 rfl)
  · unfold FIX_STRING.trace
    rw [hlen]
    rfl

/-! ## C19: `SetupMassRhs3` -/

/-- The arrays `true_soln` and `rhs` after the loop of `SetupMassRhs3`, with
the products in the order in which the code forms them. -/
theorem SetupMassRhs3_loop {α γ : Type} [Field α] (sqrt : α → α) (ctx : γ) (Q : Int)
    (in_ out : Nat → Int → α) (i : Int) (h0 : 0 ≤ i) (h1 : i < Q) :
    let S := sqrt (in_ 0 i * in_ 0 i + in_ 0 (i + Q) * in_ 0 (i + Q) +
      in_ 0 (i + 2 * Q) * in_ 0 (i + 2 * Q))
    (SetupMassRhs3 sqrt ctx Q in_ out).1 0 i = S ∧
    (SetupMassRhs3 sqrt ctx Q in_ out).1 0 (i + Q) = 2 * S ∧
    (SetupMassRhs3 sqrt ctx Q in_ out).1 0 (i + 2 * Q) = 3 * S ∧
    (SetupMassRhs3 sqrt ctx Q in_ out).1 1 i = in_ 1 i * S ∧
    (SetupMassRhs3 sqrt ctx Q in_ out).1 1 (i + Q) = 2 * (in_ 1 i * S) ∧
    (SetupMassRhs3 sqrt ctx Q in_ out).1 1 (i + 2 * Q) = 3 * (in_ 1 i * S) := by
  intro S
  let T : Int → α := fun i => sqrt (in_ 0 i * in_ 0 i + in_ 0 (i + Q) * in_ 0 (i + Q) +
      in_ 0 (i + 2 * Q) * in_ 0 (i + 2 * Q))
  let body : Int → (Int → α) × (Int → α) → (Int → α) × (Int → α) := fun i st =>
    let true_soln := st.1
    let rhs := st.2
    let true_soln := store true_soln (i + 0 * Q)
      (sqrt (in_ 0 i * in_ 0 i + in_ 0 (i + Q) * in_ 0 (i + Q) +
        in_ 0 (i + 2 * Q) * in_ 0 (i + 2 * Q)))
    let true_soln := store true_soln (i + 1 * Q) (2 * true_soln (i + 0 * Q))
    let true_soln := store true_soln (i + 2 * Q) (3 * true_soln (i + 0 * Q))
    let rhs := store rhs (i + 0 * Q) (in_ 1 i * true_soln (i + 0 * Q))
    let rhs := store rhs (i + 1 * Q) (2 * rhs (i + 0 * Q))
    let rhs := store rhs (i + 2 * Q) (3 * rhs (i + 0 * Q))
    (true_soln, rhs)
  have h := forQ_induct Q body (out 0, out 1)
    (fun m (st : (Int → α) × (Int → α)) =>
      ∀ i : Int, 0 ≤ i → i < m →
        st.1 i = T i ∧ st.1 (i + Q) = 2 * T i ∧ st.1 (i + 2 * Q) = 3 * T i ∧
        st.2 i = in_ 1 i * T i ∧ st.2 (i + Q) = 2 * (in_ 1 i * T i) ∧
        st.2 (i + 2 * Q) = 3 * (in_ 1 i * T i))
    (fun i h0 h1 => by omega)
    (by
      intro m st hm hst i h0 h1
      simp only [body, store_apply, zero_mul, one_mul, add_zero]
      have a1 : ¬ ((m : Int) = m + 2 * Q) := by omega
      have a2 : ¬ ((m : Int) = m + Q) := by omega
      have a3 : ¬ ((m : Int) + Q = m + 2 * Q) := by omega
      by_cases him : i = m
      · rw [him]
        simp only [a1, a2, a3, if_false, if_true, T, and_self]
      · have hi : i < m := by omega
        obtain ⟨g0, g1, g2, g3, g4, g5⟩ := hst i h0 hi
        have e1 : ¬ (i = (m : Int) + 2 * Q) := by omega
        have e2 : ¬ (i = (m : Int) + Q) := by omega
        have e3 : ¬ (i = (m : Int)) := by omega
        have e4 : ¬ (i + Q = (m : Int) + 2 * Q) := by omega
        have e5 : ¬ (i + Q = (m : Int) + Q) := by omega
        have e6 : ¬ (i + Q = (m : Int)) := by omega
        have e7 : ¬ (i + 2 * Q = (m : Int) + 2 * Q) := by omega
        have e8 : ¬ (i + 2 * Q = (m : Int) + Q) := by omega
        have e9 : ¬ (i + 2 * Q = (m : Int)) := by omega
        simp only [e1, e2, e3, e4, e5, e6, e7, e8, e9, if_false]
        exact ⟨g0, g1, g2, g3, g4, g5⟩)
  exact h i h0 (by omega)

/-- C19. In exact real arithmetic, with `sqrt` the real square root, for every
`Q`, all arrays and every `i` in `[0, Q)`, after `SetupMassRhs3`:
`true_soln[i] = sqrt(x[i]^2 + x[i+Q]^2 + x[i+2Q]^2)`,
`true_soln[i+Q] = 2 * true_soln[i]`, `true_soln[i+2Q] = 3 * true_soln[i]`, and
`rhs[i + c*Q] = w[i] * true_soln[i + c*Q]` for `c` in `{0, 1, 2}`.  The
function returns 0. -/
theorem SetupMassRhs3_consistent {γ : Type} (ctx : γ) (Q : Int) (in_ out : Nat → Int → ℝ) :
    (∀ i : Int, 0 ≤ i → i < Q →
      (SetupMassRhs3 Real.sqrt ctx Q in_ out).1 0 i =
        Real.sqrt (in_ 0 i ^ 2 + in_ 0 (i + Q) ^ 2 + in_ 0 (i + 2 * Q) ^ 2) ∧
      (SetupMassRhs3 Real.sqrt ctx Q in_ out).1 0 (i + Q) =
        2 * (SetupMassRhs3 Real.sqrt ctx Q in_ out).1 0 i ∧
      (SetupMassRhs3 Real.sqrt ctx Q in_ out).1 0 (i + 2 * Q) =
        3 * (SetupMassRhs3 Real.sqrt ctx Q in_ out).1 0 i ∧
      ∀ c : Int, 0 ≤ c → c ≤ 2 →
        (SetupMassRhs3 Real.sqrt ctx Q in_ out).1 1 (i + c * Q) =
          in_ 1 i * (SetupMassRhs3 Real.sqrt ctx Q in_ out).1 0 (i + c * Q)) ∧
    (SetupMassRhs3 Real.sqrt ctx Q in_ out).2 = 0 := by
  refine ⟨?_, rfl⟩
  intro i h0 h1
  obtain ⟨g0, g1, g2, g3, g4, g5⟩ := SetupMassRhs3_loop Real.sqrt ctx Q in_ out i h0 h1
  refine ⟨?_, ?_, ?_, ?_⟩
  · rw [g0]
    simp only [pow_two]
  · rw [g1, g0]
  · rw [g2, g0]
  · intro c hc0 hc2
    interval_cases c
    · simp only [zero_mul, add_zero]
      rw [g3, g0]
    · simp only [one_mul]
      rw [g4, g1]
      ring
    · rw [g5, g2]
      ring

/-! ## C20: the constitutive law of `SetupMixedLinear3D` -/

/-- C20. In exact real arithmetic, for every displacement gradient `grad_u`,
every pressure `p` and every `mu`: the strain `e` computed by
`SetupMixedLinear3D` is `(grad_u + grad_u^T) / 2` and is symmetric; the
deviatoric strain `ed`, computed from `e` and `e_kk = Trace3(e)`, is
`e - (1/3) trace(e) I` and has trace zero; and the stress `sigma` is
`p I + 2 mu ed`, is symmetric and has trace `3 p`. -/
theorem constitutive_law (grad_u : Fin 3 → Fin 3 → ℝ) (p mu : ℝ) :
    (Matrix.of (SetupMixedLinear3D.e grad_u) =
      (1 / 2 : ℝ) • (Matrix.of grad_u + (Matrix.of grad_u).transpose)) ∧
    (Matrix.of (SetupMixedLinear3D.e grad_u)).IsSymm ∧
    (Matrix.of (SetupMixedLinear3D.ed (SetupMixedLinear3D.e grad_u)
        (Trace3 (SetupMixedLinear3D.e grad_u))) =
      Matrix.of (SetupMixedLinear3D.e grad_u) -
        ((1 / 3 : ℝ) * Matrix.trace (Matrix.of (SetupMixedLinear3D.e grad_u))) •
          (1 : Matrix (Fin 3) (Fin 3) ℝ)) ∧
    Matrix.trace (Matrix.of (SetupMixedLinear3D.ed (SetupMixedLinear3D.e grad_u)
      (Trace3 (SetupMixedLinear3D.e grad_u)))) = 0 ∧
    (Matrix.of (SetupMixedLinear3D.sigma p mu (SetupMixedLinear3D.ed
        (SetupMixedLinear3D.e grad_u) (Trace3 (SetupMixedLinear3D.e grad_u)))) =
      p • (1 : Matrix (Fin 3) (Fin 3) ℝ) +
        (2 * mu) • Matrix.of (SetupMixedLinear3D.ed (SetupMixedLinear3D.e grad_u)
          (Trace3 (SetupMixedLinear3D.e grad_u)))) ∧
    (Matrix.of (SetupMixedLinear3D.sigma p mu (SetupMixedLinear3D.ed
      (SetupMixedLinear3D.e grad_u) (Trace3 (SetupMixedLinear3D.e grad_u))))).IsSymm ∧
    Matrix.trace (Matrix.of (SetupMixedLinear3D.sigma p mu (SetupMixedLinear3D.ed
      (SetupMixedLinear3D.e grad_u) (Trace3 (SetupMixedLinear3D.e grad_u))))) = 3 * p := by
  have he : ∀ a b, SetupMixedLinear3D.e grad_u a b = SetupMixedLinear3D.e grad_u b a := by
    intro a b
    fin_cases a <;> fin_cases b <;> simp [SetupMixedLinear3D.e] <;> ring1
  refine ⟨?_, ?_, ?_, ?_, ?_, ?_, ?_⟩
  · ext a b
    fin_cases a <;> fin_cases b <;>
      simp [SetupMixedLinear3D.e, Matrix.transpose_apply] <;> ring1
  · ext a b
    exact he b a
  · rw [← Trace3_eq_trace]
    ext a b
    fin_cases a <;> fin_cases b <;>
      simp [SetupMixedLinear3D.ed, Matrix.one_apply]
  · rw [← Trace3_eq_trace]
    simp only [Trace3, SetupMixedLinear3D.ed]
    simp
    ring1
  · ext a b
    fin_cases a <;> fin_cases b <;>
      simp [SetupMixedLinear3D.sigma, Matrix.one_apply]
  · ext a b
    fin_cases a <;> fin_cases b <;>
      simp [SetupMixedLinear3D.sigma, SetupMixedLinear3D.ed, he 1 0, he 2 0, he 2 1]
  · rw [← Trace3_eq_trace]
    simp only [Trace3, SetupMixedLinear3D.sigma, SetupMixedLinear3D.ed]
    simp
    ring1

/-! ## C21, C22, C23: `SetupMixedLinearRhs3D` -/

@[simp] theorem storeRow_apply {α : Type} (a : Nat → Int → α) (r : Nat) (i : Int) (x : α)
    (k : Nat) (j : Int) :
    storeRow a r i x k j = if k = r ∧ j = i then x else a k j := by
  unfold storeRow
  by_cases hk : k = r
  · by_cases hj : j = i
    · simp [hk, hj]
    · simp [hk, hj]
  · simp [hk]

/-- The column `i` of the arrays written by `SetupMixedLinearRhs3D`, for `i`
in `[0, Q)`, in terms of the point `(x, y, z)` read from `coords`. -/
theorem SetupMixedLinearRhs3D_loop {α : Type} [Field α] (sin cos : α → α) (PI_DOUBLE : α)
    (ctx : LINEARContext_ α) (Q : Int) (coords : Int → α) (q_data : Nat → Int → α)
    (true_soln rhs_u rhs_p : Nat → Int → α) (i : Int) (h0 : 0 ≤ i) (h1 : i < Q) :
    let mu := ctx.E / (2 * (1 + ctx.nu))
    let kappa := ctx.E / (3 * (1 - 2 * ctx.nu))
    let x := coords i
    let y := coords (i + Q)
    let z := coords (i + 2 * Q)
    let sx := sin (PI_DOUBLE * x)
    let sy := sin (PI_DOUBLE * y)
    let sz := sin (PI_DOUBLE * z)
    let cx := cos (PI_DOUBLE * x)
    let cy := cos (PI_DOUBLE * y)
    let cz := cos (PI_DOUBLE * z)
    let u1 := sx * sy * sz
    let ret := SetupMixedLinearRhs3D sin cos PI_DOUBLE ctx Q coords q_data true_soln rhs_u rhs_p
    ret.1 0 i = u1 ∧ ret.1 1 i = 2 * u1 ∧ ret.1 2 i = 3 * u1 ∧
    ret.1 3 i = kappa * (PI_DOUBLE * cx * sy * sz + 2 * PI_DOUBLE * sx * cy * sz +
      3 * PI_DOUBLE * sx * sy * cz) ∧
    ret.2.1 0 i = q_data 0 i *
      ((-mu) * ((-PI_DOUBLE) * PI_DOUBLE * u1 + (-PI_DOUBLE) * PI_DOUBLE * u1 +
          (-PI_DOUBLE) * PI_DOUBLE * u1) -
        ((1 / 3) * mu + kappa) * ((-PI_DOUBLE) * PI_DOUBLE * u1 +
          2 * PI_DOUBLE * PI_DOUBLE * cx * cy * sz + 3 * PI_DOUBLE * PI_DOUBLE * cx * sy * cz)) ∧
    ret.2.1 1 i = q_data 0 i *
      ((-mu) * ((-2) * PI_DOUBLE * PI_DOUBLE * u1 + (-2) * PI_DOUBLE * PI_DOUBLE * u1 +
          (-2) * PI_DOUBLE * PI_DOUBLE * u1) -
        ((1 / 3) * mu + kappa) * (PI_DOUBLE * PI_DOUBLE * cx * cy * sz +
          (-2) * PI_DOUBLE * PI_DOUBLE * u1 + 3 * PI_DOUBLE * PI_DOUBLE * sx * cy * cz)) ∧
    ret.2.1 2 i = q_data 0 i *
      ((-mu) * ((-3) * PI_DOUBLE * PI_DOUBLE * u1 + (-3) * PI_DOUBLE * PI_DOUBLE * u1 +
          (-3) * PI_DOUBLE * PI_DOUBLE * u1) -
        ((1 / 3) * mu + kappa) * (PI_DOUBLE * PI_DOUBLE * cx * sy * cz +
          2 * PI_DOUBLE * PI_DOUBLE * sx * cy * cz + (-3) * PI_DOUBLE * PI_DOUBLE * u1)) ∧
    ret.2.2.1 0 i = 0 ∧ ret.2.2.2 = 0 := by
  intro mu kappa x y z sx sy sz cx cy cz u1 ret
  have h := (forQ_pointwise
    (fun (st : (Nat → Int → α) × (Nat → Int → α) × (Nat → Int → α)) (j : Int) =>
      (st.1 0 j, st.1 1 j, st.1 2 j, st.1 3 j, st.2.1 0 j, st.2.1 1 j, st.2.1 2 j, st.2.2 0 j))
    Q (SetupMixedLinearRhs3D.loop sin cos PI_DOUBLE mu kappa Q coords q_data)
    (true_soln, rhs_u, rhs_p)
    (by
      intro m st j hj
      simp [SetupMixedLinearRhs3D.loop, storeRow_apply, hj])
    (by
      intro m st st'
      simp [SetupMixedLinearRhs3D.loop, storeRow_apply])).1 i h0 h1
  simp only [Prod.mk.injEq] at h
  obtain ⟨g0, g1, g2, g3, g4, g5, g6, g7⟩ := h
  simp only [ret, SetupMixedLinearRhs3D]
  refine ⟨?_, ?_, ?_, ?_, ?_, ?_, ?_, ?_, trivial⟩
  · rw [g0]; simp [SetupMixedLinearRhs3D.loop, storeRow_apply, u1, sx, sy, sz, x, y, z]
  · rw [g1]; simp [SetupMixedLinearRhs3D.loop, storeRow_apply, u1, sx, sy, sz, x, y, z]
  · rw [g2]; simp [SetupMixedLinearRhs3D.loop, storeRow_apply, u1, sx, sy, sz, x, y, z]
  · rw [g3]; simp [SetupMixedLinearRhs3D.loop, storeRow_apply, u1, sx, sy, sz, cx, cy, cz, x, y, z, kappa]
  · rw [g4]; simp [SetupMixedLinearRhs3D.loop, storeRow_apply, u1, sx, sy, sz, cx, cy, cz, x, y, z, kappa, mu]
  · rw [g5]; simp [SetupMixedLinearRhs3D.loop, storeRow_apply, u1, sx, sy, sz, cx, cy, cz, x, y, z, kappa, mu]
  · rw [g6]; simp [SetupMixedLinearRhs3D.loop, storeRow_apply, u1, sx, sy, sz, cx, cy, cz, x, y, z, kappa, mu]
  · rw [g7]; simp [SetupMixedLinearRhs3D.loop, storeRow_apply]

/-- The derivative of `A sin(pi t) + B cos(pi t)`. -/
theorem deriv_trig (f : ℝ → ℝ) (A B : ℝ)
    (hf : ∀ t, f t = A * Real.sin (Real.pi * t) + B * Real.cos (Real.pi * t)) (x : ℝ) :
    deriv f x = A * Real.pi * Real.cos (Real.pi * x) - B * Real.pi * Real.sin (Real.pi * x) := by
  have hlin : HasDerivAt (fun t : ℝ => Real.pi * t) Real.pi x := by
    simpa using (hasDerivAt_id x).const_mul Real.pi
  have hs := ((Real.hasDerivAt_sin (Real.pi * x)).comp x hlin).const_mul A
  have hc := ((Real.hasDerivAt_cos (Real.pi * x)).comp x hlin).const_mul B
  have hsum := hs.add hc
  have hfun : f = fun t => A * (Real.sin ∘ fun t => Real.pi * t) t +
      B * (Real.cos ∘ fun t => Real.pi * t) t := by
    funext t
    simp [hf t]
  rw [hfun, hsum.deriv]
  ring

/-- The first partial derivatives of `k s`, with `s = sin(pi x) sin(pi y) sin(pi z)`. -/
theorem sinProduct_partials (u : ℝ → ℝ → ℝ → ℝ) (k : ℝ)
    (hu : ∀ x y z, u x y z = k * sinProduct Real.sin Real.pi x y z) (x y z : ℝ) :
    deriv (fun t => u t y z) x =
      k * Real.pi * Real.cos (Real.pi * x) * Real.sin (Real.pi * y) * Real.sin (Real.pi * z) ∧
    deriv (fun t => u x t z) y =
      k * Real.pi * Real.sin (Real.pi * x) * Real.cos (Real.pi * y) * Real.sin (Real.pi * z) ∧
    deriv (fun t => u x y t) z =
      k * Real.pi * Real.sin (Real.pi * x) * Real.sin (Real.pi * y) * Real.cos (Real.pi * z) := by
  refine ⟨?_, ?_, ?_⟩
  · rw [deriv_trig (fun t => u t y z) (k * Real.sin (Real.pi * y) * Real.sin (Real.pi * z)) 0
      (fun t => by simp only [hu, sinProduct]; ring)]
    ring
  · rw [deriv_trig (fun t => u x t z) (k * Real.sin (Real.pi * x) * Real.sin (Real.pi * z)) 0
      (fun t => by simp only [hu, sinProduct]; ring)]
    ring
  · rw [deriv_trig (fun t => u x y t) (k * Real.sin (Real.pi * x) * Real.sin (Real.pi * y)) 0
      (fun t => by simp only [hu, sinProduct]; ring)]
    ring

/-- The Laplacian of `k s` is `-3 k pi^2 s`. -/
theorem sinProduct_laplacian (u l : ℝ → ℝ → ℝ → ℝ) (k : ℝ)
    (hu : ∀ x y z, u x y z = k * sinProduct Real.sin Real.pi x y z) (hl : IsLaplacian u l)
    (x y z : ℝ) :
    l x y z = -(3 * k * Real.pi * Real.pi * sinProduct Real.sin Real.pi x y z) := by
  rw [hl x y z]
  have hx : (fun t => deriv (fun r => u r y z) t) = fun t =>
      k * Real.pi * Real.cos (Real.pi * t) * Real.sin (Real.pi * y) * Real.sin (Real.pi * z) :=
    funext fun t => (sinProduct_partials u k hu t y z).1
  have hy : (fun t => deriv (fun r => u x r z) t) = fun t =>
      k * Real.pi * Real.sin (Real.pi * x) * Real.cos (Real.pi * t) * Real.sin (Real.pi * z) :=
    funext fun t => (sinProduct_partials u k hu x t z).2.1
  have hz : (fun t => deriv (fun r => u x y r) t) = fun t =>
      k * Real.pi * Real.sin (Real.pi * x) * Real.sin (Real.pi * y) * Real.cos (Real.pi * t) :=
    funext fun t => (sinProduct_partials u k hu x y t).2.2
  rw [hx, hy, hz,
    deriv_trig _ 0 (k * Real.pi * Real.sin (Real.pi * y) * Real.sin (Real.pi * z))
      (fun t => by ring),
    deriv_trig _ 0 (k * Real.pi * Real.sin (Real.pi * x) * Real.sin (Real.pi * z))
      (fun t => by ring),
    deriv_trig _ 0 (k * Real.pi * Real.sin (Real.pi * x) * Real.sin (Real.pi * y))
      (fun t => by ring)]
  simp only [sinProduct]
  ring

/-- The divergence of `u = (s, 2 s, 3 s)`. -/
theorem sinProduct_divergence (u1 u2 u3 d : ℝ → ℝ → ℝ → ℝ)
    (hu1 : ∀ x y z, u1 x y z = sinProduct Real.sin Real.pi x y z)
    (hu2 : ∀ x y z, u2 x y z = 2 * sinProduct Real.sin Real.pi x y z)
    (hu3 : ∀ x y z, u3 x y z = 3 * sinProduct Real.sin Real.pi x y z)
    (hd : IsDivergence u1 u2 u3 d) (x y z : ℝ) :
    d x y z =
      Real.pi * Real.cos (Real.pi * x) * Real.sin (Real.pi * y) * Real.sin (Real.pi * z) +
      2 * Real.pi * Real.sin (Real.pi * x) * Real.cos (Real.pi * y) * Real.sin (Real.pi * z) +
      3 * Real.pi * Real.sin (Real.pi * x) * Real.sin (Real.pi * y) * Real.cos (Real.pi * z) := by
  rw [hd x y z, (sinProduct_partials u1 1 (fun a b c => by rw [hu1, one_mul]) x y z).1,
    (sinProduct_partials u2 2 hu2 x y z).2.1, (sinProduct_partials u3 3 hu3 x y z).2.2]
  ring

/-- The gradient of the divergence of `u = (s, 2 s, 3 s)`. -/
theorem sinProduct_grad_div (u1 u2 u3 d : ℝ → ℝ → ℝ → ℝ)
    (hu1 : ∀ x y z, u1 x y z = sinProduct Real.sin Real.pi x y z)
    (hu2 : ∀ x y z, u2 x y z = 2 * sinProduct Real.sin Real.pi x y z)
    (hu3 : ∀ x y z, u3 x y z = 3 * sinProduct Real.sin Real.pi x y z)
    (hd : IsDivergence u1 u2 u3 d) (x y z : ℝ) :
    deriv (fun t => d t y z) x =
      -(Real.pi * Real.pi * sinProduct Real.sin Real.pi x y z) +
      2 * Real.pi * Real.pi * Real.cos (Real.pi * x) * Real.cos (Real.pi * y) *
        Real.sin (Real.pi * z) +
      3 * Real.pi * Real.pi * Real.cos (Real.pi * x) * Real.sin (Real.pi * y) *
        Real.cos (Real.pi * z) ∧
    deriv (fun t => d x t z) y =
      Real.pi * Real.pi * Real.cos (Real.pi * x) * Real.cos (Real.pi * y) *
        Real.sin (Real.pi * z) +
      -(2 * Real.pi * Real.pi * sinProduct Real.sin Real.pi x y z) +
      3 * Real.pi * Real.pi * Real.sin (Real.pi * x) * Real.cos (Real.pi * y) *
        Real.cos (Real.pi * z) ∧
    deriv (fun t => d x y t) z =
      Real.pi * Real.pi * Real.cos (Real.pi * x) * Real.sin (Real.pi * y) *
        Real.cos (Real.pi * z) +
      2 * Real.pi * Real.pi * Real.sin (Real.pi * x) * Real.cos (Real.pi * y) *
        Real.cos (Real.pi * z) +
      -(3 * Real.pi * Real.pi * sinProduct Real.sin Real.pi x y z) := by
  have hdv := sinProduct_divergence u1 u2 u3 d hu1 hu2 hu3 hd
  refine ⟨?_, ?_, ?_⟩
  · rw [deriv_trig (fun t => d t y z)
      (2 * Real.pi * Real.cos (Real.pi * y) * Real.sin (Real.pi * z) +
        3 * Real.pi * Real.sin (Real.pi * y) * Real.cos (Real.pi * z))
      (Real.pi * Real.sin (Real.pi * y) * Real.sin (Real.pi * z))
      (fun t => by simp only [hdv]; ring)]
    simp only [sinProduct]
    ring
  · rw [deriv_trig (fun t => d x t z)
      (Real.pi * Real.cos (Real.pi * x) * Real.sin (Real.pi * z) +
        3 * Real.pi * Real.sin (Real.pi * x) * Real.cos (Real.pi * z))
      (2 * Real.pi * Real.sin (Real.pi * x) * Real.sin (Real.pi * z))
      (fun t => by simp only [hdv]; ring)]
    simp only [sinProduct]
    ring
  · rw [deriv_trig (fun t => d x y t)
      (Real.pi * Real.cos (Real.pi * x) * Real.sin (Real.pi * y) +
        2 * Real.pi * Real.sin (Real.pi * x) * Real.cos (Real.pi * y))
      (3 * Real.pi * Real.sin (Real.pi * x) * Real.sin (Real.pi * y))
      (fun t => by simp only [hdv]; ring)]
    simp only [sinProduct]
    ring

/-- C21. In real arithmetic with `PI_DOUBLE = pi`, for every context, every
`Q`, all arrays and every point `i` in `[0, Q)`, with
`(x, y, z) = (coords[i], coords[i+Q], coords[i+2Q])`,
`s = sin(pi x) sin(pi y) sin(pi z)` and `u = (s, 2 s, 3 s)`: the displacement
written is `true_soln[0..2][i] = u(x, y, z)`, the pressure written is
`true_soln[3][i] = kappa * div(u)(x, y, z)`, so that
`div(u) - true_soln[3][i] / kappa = 0` whenever `kappa` is not 0, and
`rhs_p[0][i] = 0`.  The function returns 0. -/
theorem manufactured_solution_divergence (ctx : LINEARContext_ ℝ) (Q : Int) (coords : Int → ℝ)
    (q_data true_soln rhs_u rhs_p : Nat → Int → ℝ) :
    (SetupMixedLinearRhs3D Real.sin Real.cos Real.pi ctx Q coords q_data true_soln rhs_u
      rhs_p).2.2.2 = 0 ∧
    ∀ i : Int, 0 ≤ i → i < Q →
      ∀ u1 u2 u3 d : ℝ → ℝ → ℝ → ℝ,
        (∀ x y z, u1 x y z = sinProduct Real.sin Real.pi x y z) →
        (∀ x y z, u2 x y z = 2 * sinProduct Real.sin Real.pi x y z) →
        (∀ x y z, u3 x y z = 3 * sinProduct Real.sin Real.pi x y z) →
        IsDivergence u1 u2 u3 d →
        (SetupMixedLinearRhs3D Real.sin Real.cos Real.pi ctx Q coords q_data true_soln rhs_u
          rhs_p).1 0 i = u1 (coords i) (coords (i + Q)) (coords (i + 2 * Q)) ∧
        (SetupMixedLinearRhs3D Real.sin Real.cos Real.pi ctx Q coords q_data true_soln rhs_u
          rhs_p).1 1 i = u2 (coords i) (coords (i + Q)) (coords (i + 2 * Q)) ∧
        (SetupMixedLinearRhs3D Real.sin Real.cos Real.pi ctx Q coords q_data true_soln rhs_u
          rhs_p).1 2 i = u3 (coords i) (coords (i + Q)) (coords (i + 2 * Q)) ∧
        (SetupMixedLinearRhs3D Real.sin Real.cos Real.pi ctx Q coords q_data true_soln rhs_u
          rhs_p).1 3 i = ctx.E / (3 * (1 - 2 * ctx.nu)) *
            d (coords i) (coords (i + Q)) (coords (i + 2 * Q)) ∧
        (ctx.E / (3 * (1 - 2 * ctx.nu)) ≠ 0 →
          d (coords i) (coords (i + Q)) (coords (i + 2 * Q)) -
            (SetupMixedLinearRhs3D Real.sin Real.cos Real.pi ctx Q coords q_data true_soln
              rhs_u rhs_p).1 3 i / (ctx.E / (3 * (1 - 2 * ctx.nu))) = 0) ∧
        (SetupMixedLinearRhs3D Real.sin Real.cos Real.pi ctx Q coords q_data true_soln rhs_u
          rhs_p).2.2.1 0 i = 0 := by
  refine ⟨rfl, ?_⟩
  intro i h0 h1 u1 u2 u3 d hu1 hu2 hu3 hd
  obtain ⟨g0, g1, g2, g3, _, _, _, g7, _⟩ := SetupMixedLinearRhs3D_loop Real.sin Real.cos
    Real.pi ctx Q coords q_data true_soln rhs_u rhs_p i h0 h1
  have hdv := sinProduct_divergence u1 u2 u3 d hu1 hu2 hu3 hd (coords i) (coords (i + Q))
    (coords (i + 2 * Q))
  have h3 : (SetupMixedLinearRhs3D Real.sin Real.cos Real.pi ctx Q coords q_data true_soln
      rhs_u rhs_p).1 3 i = ctx.E / (3 * (1 - 2 * ctx.nu)) *
        d (coords i) (coords (i + Q)) (coords (i + 2 * Q)) := by
    rw [g3, hdv]
  refine ⟨?_, ?_, ?_, h3, ?_, g7⟩
  · rw [g0, hu1]
    rfl
  · rw [g1, hu2]
    rfl
  · rw [g2, hu3]
    rfl
  · intro hk
    rw [h3, mul_div_cancel_left₀ _ hk, sub_self]

/-- C22. In real arithmetic with `PI_DOUBLE = pi`, for every `E` and `nu`,
every `Q`, all arrays and every point `i` in `[0, Q)`, with `(x, y, z)` read
from `coords`, `u = (s, 2 s, 3 s)`, `mu = E / (2 (1 + nu))` and
`kappa = E / (3 (1 - 2 nu))`: `rhs_u[c][i] = q_data[0][i] * f_(c+1)` for values
`f1`, `f2`, `f3` that satisfy
`mu * Laplacian(u_c) + (mu/3 + kappa) * d/dx_c (div u) + f_c = 0` at
`(x, y, z)` for `c = 1, 2, 3`, with the true partial derivatives of `u`. -/
theorem forcing_satisfies_momentum (ctx : LINEARContext_ ℝ) (Q : Int) (coords : Int → ℝ)
    (q_data true_soln rhs_u rhs_p : Nat → Int → ℝ) :
    (SetupMixedLinearRhs3D Real.sin Real.cos Real.pi ctx Q coords q_data true_soln rhs_u
      rhs_p).2.2.2 = 0 ∧
    ∀ i : Int, 0 ≤ i → i < Q →
      ∀ u1 u2 u3 d l1 l2 l3 : ℝ → ℝ → ℝ → ℝ,
        (∀ x y z, u1 x y z = sinProduct Real.sin Real.pi x y z) →
        (∀ x y z, u2 x y z = 2 * sinProduct Real.sin Real.pi x y z) →
        (∀ x y z, u3 x y z = 3 * sinProduct Real.sin Real.pi x y z) →
        IsDivergence u1 u2 u3 d → IsLaplacian u1 l1 → IsLaplacian u2 l2 → IsLaplacian u3 l3 →
        ∃ f1 f2 f3 : ℝ,
          (SetupMixedLinearRhs3D Real.sin Real.cos Real.pi ctx Q coords q_data true_soln rhs_u
            rhs_p).2.1 0 i = q_data 0 i * f1 ∧
          (SetupMixedLinearRhs3D Real.sin Real.cos Real.pi ctx Q coords q_data true_soln rhs_u
            rhs_p).2.1 1 i = q_data 0 i * f2 ∧
          (SetupMixedLinearRhs3D Real.sin Real.cos Real.pi ctx Q coords q_data true_soln rhs_u
            rhs_p).2.1 2 i = q_data 0 i * f3 ∧
          ctx.E / (2 * (1 + ctx.nu)) * l1 (coords i) (coords (i + Q)) (coords (i + 2 * Q)) +
            (ctx.E / (2 * (1 + ctx.nu)) / 3 + ctx.E / (3 * (1 - 2 * ctx.nu))) *
              deriv (fun t => d t (coords (i + Q)) (coords (i + 2 * Q))) (coords i) +
            f1 = 0 ∧
          ctx.E / (2 * (1 + ctx.nu)) * l2 (coords i) (coords (i + Q)) (coords (i + 2 * Q)) +
            (ctx.E / (2 * (1 + ctx.nu)) / 3 + ctx.E / (3 * (1 - 2 * ctx.nu))) *
              deriv (fun t => d (coords i) t (coords (i + 2 * Q))) (coords (i + Q)) +
            f2 = 0 ∧
          ctx.E / (2 * (1 + ctx.nu)) * l3 (coords i) (coords (i + Q)) (coords (i + 2 * Q)) +
            (ctx.E / (2 * (1 + ctx.nu)) / 3 + ctx.E / (3 * (1 - 2 * ctx.nu))) *
              deriv (fun t => d (coords i) (coords (i + Q)) t) (coords (i + 2 * Q)) +
            f3 = 0 := by
  refine ⟨rfl, ?_⟩
  intro i h0 h1 u1 u2 u3 d l1 l2 l3 hu1 hu2 hu3 hd hl1 hl2 hl3
  obtain ⟨_, _, _, _, g4, g5, g6, _, _⟩ := SetupMixedLinearRhs3D_loop Real.sin Real.cos
    Real.pi ctx Q coords q_data true_soln rhs_u rhs_p i h0 h1
  obtain ⟨gx, gy, gz⟩ := sinProduct_grad_div u1 u2 u3 d hu1 hu2 hu3 hd (coords i)
    (coords (i + Q)) (coords (i + 2 * Q))
  have e1 := sinProduct_laplacian u1 l1 1 (fun a b c => by rw [hu1, one_mul]) hl1 (coords i)
    (coords (i + Q)) (coords (i + 2 * Q))
  have e2 := sinProduct_laplacian u2 l2 2 hu2 hl2 (coords i) (coords (i + Q))
    (coords (i + 2 * Q))
  have e3 := sinProduct_laplacian u3 l3 3 hu3 hl3 (coords i) (coords (i + Q))
    (coords (i + 2 * Q))
  refine ⟨_, _, _, g4, g5, g6, ?_, ?_, ?_⟩
  · rw [e1, gx]
    simp only [sinProduct]
    ring
  · rw [e2, gy]
    simp only [sinProduct]
    ring
  · rw [e3, gz]
    simp only [sinProduct]
    ring

/-- C23, counterexample.  The point `(0, 1/2, 1/2)` lies on the face `x = 0` of
the unit cube.  For `E = 1`, `nu = 0` (`kappa = 1/3`) and `Q = 1` the pressure
written there is `true_soln[3][0] = pi / 3`, which is not 0. -/
theorem pressure_nonzero_on_face :
    OnBoundary (faceCoords 0) (faceCoords (0 + 1)) (faceCoords (0 + 2 * 1)) ∧
    (SetupMixedLinearRhs3D Real.sin Real.cos Real.pi unitContext 1 faceCoords
      (fun _ _ => 1) (fun _ _ => 0) (fun _ _ => 0) (fun _ _ => 0)).1 3 0 = Real.pi / 3 ∧
    Real.pi / 3 ≠ 0 := by
  refine ⟨Or.inl (by simp [faceCoords]), ?_, ?_⟩
  · have h := (SetupMixedLinearRhs3D_loop Real.sin Real.cos Real.pi unitContext 1 faceCoords
      (fun _ _ => 1) (fun _ _ => 0) (fun _ _ => 0) (fun _ _ => 0) 0 (le_refl 0)
      (by decide)).2.2.2.1
    have f0 : (faceCoords 0 : ℝ) = 0 := by simp [faceCoords]
    have f1 : (faceCoords (0 + 1) : ℝ) = 1 / 2 := by simp [faceCoords]
    have f2 : (faceCoords (0 + 2 * 1) : ℝ) = 1 / 2 := by simp [faceCoords]
    have e : Real.pi * (1 / 2) = Real.pi / 2 := by ring
    rw [h, f0, f1, f2, e, mul_zero, Real.sin_zero, Real.cos_zero, Real.sin_pi_div_two]
    simp only [unitContext]
    norm_num
    ring
  · exact div_ne_zero Real.pi_ne_zero (by norm_num)

/-- C23 as amended.  In real arithmetic with `PI_DOUBLE = pi`, for every
context, every `Q`, all arrays and every point `i` in `[0, Q)` with
`(x, y, z)` read from `coords`: if the point lies on the boundary of the unit
cube (one of `x`, `y`, `z` is 0 or 1), the three displacement components
`true_soln[0..2][i]` written are 0; if two of `x`, `y`, `z` are 0 or 1, the
pressure `true_soln[3][i]` written is 0 as well. -/
theorem displacement_vanishes_on_boundary (ctx : LINEARContext_ ℝ) (Q : Int)
    (coords : Int → ℝ) (q_data true_soln rhs_u rhs_p : Nat → Int → ℝ) :
    (SetupMixedLinearRhs3D Real.sin Real.cos Real.pi ctx Q coords q_data true_soln rhs_u
      rhs_p).2.2.2 = 0 ∧
    ∀ i : Int, 0 ≤ i → i < Q →
      (OnBoundary (coords i) (coords (i + Q)) (coords (i + 2 * Q)) →
        (SetupMixedLinearRhs3D Real.sin Real.cos Real.pi ctx Q coords q_data true_soln rhs_u
          rhs_p).1 0 i = 0 ∧
        (SetupMixedLinearRhs3D Real.sin Real.cos Real.pi ctx Q coords q_data true_soln rhs_u
          rhs_p).1 1 i = 0 ∧
        (SetupMixedLinearRhs3D Real.sin Real.cos Real.pi ctx Q coords q_data true_soln rhs_u
          rhs_p).1 2 i = 0) ∧
      (OnEdge (coords i) (coords (i + Q)) (coords (i + 2 * Q)) →
        (SetupMixedLinearRhs3D Real.sin Real.cos Real.pi ctx Q coords q_data true_soln rhs_u
          rhs_p).1 3 i = 0) := by
  refine ⟨rfl, ?_⟩
  intro i h0 h1
  obtain ⟨g0, g1, g2, g3, _⟩ := SetupMixedLinearRhs3D_loop Real.sin Real.cos
    Real.pi ctx Q coords q_data true_soln rhs_u rhs_p i h0 h1
  have hz : ∀ t : ℝ, t = 0 ∨ t = 1 → Real.sin (Real.pi * t) = 0 := by
    intro t ht
    rcases ht with rfl | rfl
    · simp
    · simp
  refine ⟨?_, ?_⟩
  · intro hb
    have hs : Real.sin (Real.pi * coords i) * Real.sin (Real.pi * coords (i + Q)) *
        Real.sin (Real.pi * coords (i + 2 * Q)) = 0 := by
      rcases hb with h | h | h | h | h | h
      · rw [hz _ (Or.inl h)]; ring
      · rw [hz _ (Or.inr h)]; ring
      · rw [hz _ (Or.inl h)]; ring
      · rw [hz _ (Or.inr h)]; ring
      · rw [hz _ (Or.inl h)]; ring
      · rw [hz _ (Or.inr h)]; ring
    rw [g0, g1, g2, hs]
    simp
  · intro he
    rw [g3]
    rcases he with ⟨hx, hy⟩ | ⟨hx, hy⟩ | ⟨hx, hy⟩
    · rw [hz _ hx, hz _ hy]; ring
    · rw [hz _ hx, hz _ hy]; ring
    · rw [hz _ hx, hz _ hy]; ring

/-! ## Live handles -/

@[simp] theorem issued_self (c : Int) : issued c c = [] := by
  simp [issued]

theorem issued_succ (c : Int) : issued c (c + 1) = [c] := by
  have h : (c + 1 - c).toNat = 1 := by omega
  simp [issued, h, List.range_succ]

theorem issued_three (c : Int) : issued c (c + 3) = [c, c + 1, c + 2] := by
  have h : (c + 3 - c).toNat = 3 := by omega
  simp [issued, h, List.range_succ]

theorem mem_issued {c0 c1 h : Int} (hm : h ∈ issued c0 c1) : c0 ≤ h ∧ h < c1 := by
  unfold issued at hm
  rw [List.mem_map] at hm
  obtain ⟨k, hk, rfl⟩ := hm
  rw [List.mem_range] at hk
  omega

theorem Table.good_same {t : Table} {l : List Int} (h : t.Good l) :
    t.Good (l ++ issued t.count t.count) := by
  simpa using h

theorem Table.good_put {t : Table} {l : List Int} (h : t.Good l) (i : Int) (o : Obj) :
    (t.put i o).Good l := by
  unfold Table.put
  split
  · unfold Table.Good at *
    simpa using h
  · exact h

theorem Table.good_libStore {t : Table} {l : List Int} (h : t.Good l) (i : Int)
    (o : Option Obj) : (t.libStore i o).Good l := by
  cases o
  · exact h
  · exact Table.good_put h i _

/-- The growth block keeps the table consistent and leaves room for one more
entry: afterwards `count < count_max`. -/
theorem Table.good_grow {t : Table} {l : List Int} (h : t.Good l) :
    t.grow.Good l ∧ t.grow.count < t.grow.count_max := by
  unfold Table.grow
  split
  · next heq =>
    unfold Table.Good at *
    dsimp only
    have h0 : 0 ≤ t.count_max := by omega
    have hd : 0 ≤ t.count_max.tdiv 2 := tdiv_two_nonneg h0
    refine ⟨⟨h.1, h.2.1, by omega, ?_, h.2.2.2.2.1, h.2.2.2.2.2.1, h.2.2.2.2.2.2⟩, by omega⟩
    exact CeedRealloc_length _ _
  · next hne =>
    exact ⟨h, by
      unfold Table.Good at h
      omega⟩

theorem Table.good_issue {t : Table} {l : List Int} (h : t.Good l)
    (hlt : t.count < t.count_max) : t.issue.Good (l ++ [t.count]) := by
  unfold Table.Good Table.issue at *
  dsimp only
  obtain ⟨h1, h2, h3, h4, h5, h6, h7⟩ := h
  refine ⟨by omega, by omega, by omega, h4, ?_, ?_, ?_⟩
  · rw [List.nodup_append]
    refine ⟨h5, List.nodup_singleton _, ?_⟩
    intro a ha hb
    rw [List.mem_singleton] at hb
    have := (h6 a ha).2
    omega
  · intro a ha
    rw [List.mem_append, List.mem_singleton] at ha
    rcases ha with ha | ha
    · have := h6 a ha
      omega
    · omega
  · simp only [List.length_append, List.length_singleton, Nat.cast_add, Nat.cast_one]
    omega

/-- A successful create: the table after the growth block, the store of the
library and `*h = count++; n++`. -/
theorem Table.good_create {t : Table} {l : List Int} (h : t.Good l) (i : Int)
    (o : Option Obj) :
    ((t.grow.libStore i o).issue).Good
      (l ++ issued t.count ((t.grow.libStore i o).issue).count) := by
  have hg := Table.good_grow h
  have hi := Table.good_issue (Table.good_libStore hg.1 i o) (by
    simp only [Table.libStore_count, Table.libStore_count_max]
    exact hg.2)
  simp only [Table.issue_count, Table.libStore_count, Table.grow_count, issued_succ] at hi ⊢
  exact hi

/-- A failed create: the table after the growth block and the call. -/
theorem Table.good_fail {t : Table} {l : List Int} (h : t.Good l) (i : Int)
    (o : Option Obj) :
    (t.grow.libStore i o).Good (l ++ issued t.count (t.grow.libStore i o).count) := by
  simp only [Table.libStore_count, Table.grow_count, issued_self, List.append_nil]
  exact Table.good_libStore (Table.good_grow h).1 i o

/-- The three registrations of a multigrid wrapper. -/
theorem Table.good_three {t t1 : Table} {l : List Int} (h : t.Good l)
    (a b c : Obj) (h1 : registerThree t a b c = some t1) :
    t1.Good (l ++ issued t.count t1.count) := by
  obtain ⟨g1, g2, g3, g4, g5, g6, g7⟩ := h
  unfold registerThree at h1
  split at h1
  · simp at h1
  · next m hm =>
    obtain ⟨m', hm', hlt, _⟩ := growLoop_spec ((t.count + 4 - t.count_max).toNat + 1) t.count
      t.count_max (by omega) (by omega)
    rw [hm] at hm'
    simp only [Option.some.injEq] at hm'
    subst hm'
    simp only [Option.some.injEq] at h1
    subst h1
    have hp : ∀ (u : Table) (i : Int) (o : Obj), (u.put i o).dict.length = u.dict.length := by
      intro u i o
      unfold Table.put
      split <;> simp
    simp only [Table.put_count]
    have e : t.count + 1 + 1 + 1 = t.count + 3 := by omega
    rw [e, issued_three]
    unfold Table.Good
    simp only [Table.put_count, Table.put_count_max, Table.put_n, hp]
    refine ⟨by omega, by omega, by omega, CeedRealloc_length _ _, ?_, ?_, ?_⟩
    · rw [List.nodup_append]
      refine ⟨g5, by simp, ?_⟩
      intro x hx hb
      have := (g6 x hx).2
      simp only [List.mem_cons, List.mem_singleton, List.not_mem_nil, or_false] at hb
      omega
    · intro x hx
      rw [List.mem_append] at hx
      rcases hx with hx | hx
      · have := g6 x hx
        omega
      · simp only [List.mem_cons, List.mem_singleton, List.not_mem_nil, or_false] at hx
        omega
    · simp only [List.length_append, List.length_cons, List.length_nil, Nat.cast_add]
      push_cast
      omega

/-- The end of a successful destroy of a live handle, with the reset of the
table: no live handle is left. -/
theorem Table.good_reset {t : Table} {l : List Int} (h : t.Good l) (x : Int) (hx : x ∈ l)
    (hz : t.n - 1 = 0) (d : List Obj) :
    ({ dict := CeedFree d, count := 0, n := t.n - 1, count_max := 0 } : Table).Good
      (l.erase x) := by
  obtain ⟨g1, g2, g3, g4, g5, g6, g7⟩ := h
  have hl : l.length = 1 := by omega
  have he : l.erase x = [] := by
    apply List.eq_nil_of_length_eq_zero
    rw [List.length_erase_of_mem hx, hl]
  rw [he]
  unfold Table.Good
  dsimp only
  refine ⟨by omega, by omega, le_refl _, by simp [CeedFree], List.nodup_nil, ?_, by simpa using hz⟩
  intro a ha
  simp at ha

/-- The end of a successful destroy of a live handle, without the reset. -/
theorem Table.good_dec {t : Table} {l : List Int} (h : t.Good l) (x : Int) (hx : x ∈ l)
    (hz : ¬ t.n - 1 = 0) :
    ({ t with n := t.n - 1 } : Table).Good (l.erase x) := by
  obtain ⟨g1, g2, g3, g4, g5, g6, g7⟩ := h
  unfold Table.Good
  dsimp only
  have hlen := List.length_erase_of_mem hx
  have hpos : 0 < l.length := List.length_pos_of_mem hx
  refine ⟨by omega, by omega, g3, g4, g5.erase x, ?_, ?_⟩
  · intro a ha
    exact g6 a (List.mem_of_mem_erase ha)
  · rw [hlen]
    omega

theorem Table.good_release {t : Table} {l : List Int} (h : t.Good l) (x : Int) (hx : x ∈ l) :
    t.release.Good (l.erase x) := by
  unfold Table.release
  dsimp only
  split
  · next hz => exact Table.good_reset h x hx hz _
  · next hz => exact Table.good_dec h x hx hz

theorem fCeedInit_live (lib : Oracle) (s : State) (resource : List Nat) (ceed err : Int)
    (live : Live) (ret : Ret) (hs : LiveInv s live)
    (h : fCeedInit lib s resource ceed err = some ret) :
    LiveInv ret.st (fun T => live T ++ issued (s.table T).count (ret.st.table T).count) := by
  have hl1 := hs .Ceed (by decide)
  have hl2 := hs .CeedVector (by decide)
  have hl3 := hs .CeedElemRestriction (by decide)
  have hl5 := hs .CeedBasis (by decide)
  have hl6 := hs .CeedQFunctionContext (by decide)
  have hl7 := hs .CeedQFunction (by decide)
  have hl8 := hs .CeedOperator (by decide)
  simp only [State.table] at hl1 hl2 hl3 hl5 hl6 hl7 hl8
  unfold fCeedInit at h
  try unfold forward at h
  try dsimp only at h
  repeat' split at h
  all_goals simp only [Option.some.injEq, reduceCtorEq] at h
  all_goals
    subst h
    intro T hT
    cases T <;> simp only [State.table] <;> (try dsimp only) <;> (try split_ifs)
  all_goals
    first
      | exact absurd rfl hT
      | with_reducible (first
          | (apply Table.good_same; assumption)
          | (apply Table.good_create; assumption)
          | (apply Table.good_fail; assumption))

theorem fCeedDestroy_live (lib : Oracle) (s : State) (ceed err : Int) (live : Live)
    (hs : LiveInv s live)
    (hv : ceed ∈ live .Ceed) :
    LiveInv (fCeedDestroy lib s ceed err).st
      (if (fCeedDestroy lib s ceed err).out = [FORTRAN_NULL] then
        fun U => if U = .Ceed then (live .Ceed).erase ceed else live U
       else live) := by
  have hg := hs .Ceed (by decide)
  simp only [State.table] at hg
  have hne : ceed ≠ FORTRAN_NULL := by
    have := (hg.2.2.2.2.2.1 ceed hv).1
    unfold FORTRAN_NULL
    omega
  unfold fCeedDestroy
  rw [if_neg hne]
  dsimp only
  by_cases hc : (lib .CeedDestroy 0).ierr = 0
  · simp only [hc, if_true]
    intro T hT
    by_cases hT2 : T = .Ceed
    · subst hT2
      simp only [State.table, if_true]
      exact Table.good_release (Table.good_libStore hg _ _) ceed hv
    · simp only [hT2, if_false]
      have := hs T hT
      cases T <;> first | exact absurd rfl hT2 | exact this
  · have hout : ¬ ([ceed] = [FORTRAN_NULL]) := by simpa using hne
    simp only [hc, if_false, hout]
    intro T hT
    by_cases hT2 : T = .Ceed
    · subst hT2
      exact Table.good_libStore hg _ _
    · have := hs T hT
      cases T <;> first | exact absurd rfl hT2 | exact this

theorem fCeedVectorCreate_live (lib : Oracle) (s : State) (ceed length vec err : Int)
    (live : Live) (hs : LiveInv s live) :
    LiveInv (fCeedVectorCreate lib s ceed length vec err).st
      (fun T => live T ++ issued (s.table T).count
        ((fCeedVectorCreate lib s ceed length vec err).st.table T).count) := by
  have hl1 := hs .Ceed (by decide)
  have hl2 := hs .CeedVector (by decide)
  have hl3 := hs .CeedElemRestriction (by decide)
  have hl5 := hs .CeedBasis (by decide)
  have hl6 := hs .CeedQFunctionContext (by decide)
  have hl7 := hs .CeedQFunction (by decide)
  have hl8 := hs .CeedOperator (by decide)
  simp only [State.table] at hl1 hl2 hl3 hl5 hl6 hl7 hl8
  intro T hT
  cases T <;> simp only [State.table]
  all_goals
    unfold fCeedVectorCreate
    try unfold forward
    try dsimp only
    try split_ifs
  all_goals
    first
      | exact absurd rfl hT
      | with_reducible (first
          | (apply Table.good_same; assumption)
          | (apply Table.good_create; assumption)
          | (apply Table.good_fail; assumption))

theorem fCeedVectorDestroy_live (lib : Oracle) (s : State) (vec err : Int) (live : Live)
    (hs : LiveInv s live)
    (hv : vec ∈ live .CeedVector) :
    LiveInv (fCeedVectorDestroy lib s vec err).st
      (if (fCeedVectorDestroy lib s vec err).out = [FORTRAN_NULL] then
        fun U => if U = .CeedVector then (live .CeedVector).erase vec else live U
       else live) := by
  have hg := hs .CeedVector (by decide)
  simp only [State.table] at hg
  have hne : vec ≠ FORTRAN_NULL := by
    have := (hg.2.2.2.2.2.1 vec hv).1
    unfold FORTRAN_NULL
    omega
  unfold fCeedVectorDestroy
  rw [if_neg hne]
  dsimp only
  by_cases hc : (lib .CeedVectorDestroy 0).ierr = 0
  · simp only [hc, if_true]
    intro T hT
    by_cases hT2 : T = .CeedVector
    · subst hT2
      simp only [State.table, if_true]
      exact Table.good_release (Table.good_libStore hg _ _) vec hv
    · simp only [hT2, if_false]
      have := hs T hT
      cases T <;> first | exact absurd rfl hT2 | exact this
  · have hout : ¬ ([vec] = [FORTRAN_NULL]) := by simpa using hne
    simp only [hc, if_false, hout]
    intro T hT
    by_cases hT2 : T = .CeedVector
    · subst hT2
      exact Table.good_libStore hg _ _
    · have := hs T hT
      cases T <;> first | exact absurd rfl hT2 | exact this

theorem fCeedElemRestrictionCreate_live (lib : Oracle) (s : State)
    (ceed nelements esize ncomp compstride lsize memtype copymode offsets elemrestriction err :
      Int) (live : Live) (hs : LiveInv s live) :
    LiveInv (fCeedElemRestrictionCreate lib s ceed nelements esize ncomp compstride lsize
      memtype copymode offsets elemrestriction err).st
      (fun T => live T ++ issued (s.table T).count
        ((fCeedElemRestrictionCreate lib s ceed nelements esize ncomp compstride lsize memtype
          copymode offsets elemrestriction err).st.table T).count) := by
  have hl1 := hs .Ceed (by decide)
  have hl2 := hs .CeedVector (by decide)
  have hl3 := hs .CeedElemRestriction (by decide)
  have hl5 := hs .CeedBasis (by decide)
  have hl6 := hs .CeedQFunctionContext (by decide)
  have hl7 := hs .CeedQFunction (by decide)
  have hl8 := hs .CeedOperator (by decide)
  simp only [State.table] at hl1 hl2 hl3 hl5 hl6 hl7 hl8
  intro T hT
  cases T <;> simp only [State.table]
  all_goals
    unfold fCeedElemRestrictionCreate
    try unfold forward
    try dsimp only
    try split_ifs
  all_goals
    first
      | exact absurd rfl hT
      | with_reducible (first
          | (apply Table.good_same; assumption)
          | (apply Table.good_create; assumption)
          | (apply Table.good_fail; assumption))

theorem fCeedElemRestrictionCreateStrided_live (lib : Oracle) (s : State)
    (ceed nelements esize ncomp lsize strides strides_0 elemrestriction err : Int) (live : Live)
    (hs : LiveInv s live) :
    LiveInv (fCeedElemRestrictionCreateStrided lib s ceed nelements esize ncomp lsize strides
      strides_0 elemrestriction err).st
      (fun T => live T ++ issued (s.table T).count
        ((fCeedElemRestrictionCreateStrided lib s ceed nelements esize ncomp lsize strides
          strides_0 elemrestriction err).st.table T).count) := by
  have hl1 := hs .Ceed (by decide)
  have hl2 := hs .CeedVector (by decide)
  have hl3 := hs .CeedElemRestriction (by decide)
  have hl5 := hs .CeedBasis (by decide)
  have hl6 := hs .CeedQFunctionContext (by decide)
  have hl7 := hs .CeedQFunction (by decide)
  have hl8 := hs .CeedOperator (by decide)
  simp only [State.table] at hl1 hl2 hl3 hl5 hl6 hl7 hl8
  intro T hT
  cases T <;> simp only [State.table]
  all_goals
    unfold fCeedElemRestrictionCreateStrided
    try unfold forward
    try dsimp only
    try split_ifs
  all_goals
    first
      | exact absurd rfl hT
      | with_reducible (first
          | (apply Table.good_same; assumption)
          | (apply Table.good_create; assumption)
          | (apply Table.good_fail; assumption))

theorem fCeedElemRestrictionCreateBlocked_live (lib : Oracle) (s : State)
    (ceed nelements esize blocksize ncomp compstride lsize mtype cmode blkindices
      elemrestriction err : Int) (live : Live) (hs : LiveInv s live) :
    LiveInv (fCeedElemRestrictionCreateBlocked lib s ceed nelements esize blocksize ncomp
      compstride lsize mtype cmode blkindices elemrestriction err).st
      (fun T => live T ++ issued (s.table T).count
        ((fCeedElemRestrictionCreateBlocked lib s ceed nelements esize blocksize ncomp
          compstride lsize mtype cmode blkindices elemrestriction err).st.table T).count) := by
  have hl1 := hs .Ceed (by decide)
  have hl2 := hs .CeedVector (by decide)
  have hl3 := hs .CeedElemRestriction (by decide)
  have hl5 := hs .CeedBasis (by decide)
  have hl6 := hs .CeedQFunctionContext (by decide)
  have hl7 := hs .CeedQFunction (by decide)
  have hl8 := hs .CeedOperator (by decide)
  simp only [State.table] at hl1 hl2 hl3 hl5 hl6 hl7 hl8
  intro T hT
  cases T <;> simp only [State.table]
  all_goals
    unfold fCeedElemRestrictionCreateBlocked
    try unfold forward
    try dsimp only
    try split_ifs
  all_goals
    first
      | exact absurd rfl hT
      | with_reducible (first
          | (apply Table.good_same; assumption)
          | (apply Table.good_create; assumption)
          | (apply Table.good_fail; assumption))

theorem fCeedElemRestrictionCreateBlockedStrided_live (lib : Oracle) (s : State)
    (ceed nelements esize blksize ncomp lsize strides elemrestriction err : Int) (live : Live)
    (hs : LiveInv s live) :
    LiveInv (fCeedElemRestrictionCreateBlockedStrided lib s ceed nelements esize blksize ncomp
      lsize strides elemrestriction err).st
      (fun T => live T ++ issued (s.table T).count
        ((fCeedElemRestrictionCreateBlockedStrided lib s ceed nelements esize blksize ncomp
          lsize strides elemrestriction err).st.table T).count) := by
  have hl1 := hs .Ceed (by decide)
  have hl2 := hs .CeedVector (by decide)
  have hl3 := hs .CeedElemRestriction (by decide)
  have hl5 := hs .CeedBasis (by decide)
  have hl6 := hs .CeedQFunctionContext (by decide)
  have hl7 := hs .CeedQFunction (by decide)
  have hl8 := hs .CeedOperator (by decide)
  simp only [State.table] at hl1 hl2 hl3 hl5 hl6 hl7 hl8
  intro T hT
  cases T <;> simp only [State.table]
  all_goals
    unfold fCeedElemRestrictionCreateBlockedStrided
    try unfold forward
    try dsimp only
    try split_ifs
  all_goals
    first
      | exact absurd rfl hT
      | with_reducible (first
          | (apply Table.good_same; assumption)
          | (apply Table.good_create; assumption)
          | (apply Table.good_fail; assumption))

theorem fCeedElemRestrictionApply_live (lib : Oracle) (s : State)
    (elemr tmode uvec ruvec rqst err : Int) (live : Live) (hs : LiveInv s live) :
    LiveInv (fCeedElemRestrictionApply lib s elemr tmode uvec ruvec rqst err).st
      (fun T => live T ++ issued (s.table T).count
        ((fCeedElemRestrictionApply lib s elemr tmode uvec ruvec rqst err).st.table T).count) :=
          by
  have hl1 := hs .Ceed (by decide)
  have hl2 := hs .CeedVector (by decide)
  have hl3 := hs .CeedElemRestriction (by decide)
  have hl5 := hs .CeedBasis (by decide)
  have hl6 := hs .CeedQFunctionContext (by decide)
  have hl7 := hs .CeedQFunction (by decide)
  have hl8 := hs .CeedOperator (by decide)
  simp only [State.table] at hl1 hl2 hl3 hl5 hl6 hl7 hl8
  intro T hT
  cases T <;> simp only [State.table]
  all_goals
    unfold fCeedElemRestrictionApply
    try unfold forward
    try dsimp only
    try split_ifs
  all_goals
    first
      | exact absurd rfl hT
      | with_reducible (first
          | (apply Table.good_same; assumption)
          | (apply Table.good_create; assumption)
          | (apply Table.good_fail; assumption))

theorem fCeedElemRestrictionApplyBlock_live (lib : Oracle) (s : State)
    (elemr block tmode uvec ruvec rqst err : Int) (live : Live) (hs : LiveInv s live) :
    LiveInv (fCeedElemRestrictionApplyBlock lib s elemr block tmode uvec ruvec rqst err).st
      (fun T => live T ++ issued (s.table T).count
        ((fCeedElemRestrictionApplyBlock lib s elemr block tmode uvec ruvec rqst err).st.table
          T).count) := by
  have hl1 := hs .Ceed (by decide)
  have hl2 := hs .CeedVector (by decide)
  have hl3 := hs .CeedElemRestriction (by decide)
  have hl5 := hs .CeedBasis (by decide)
  have hl6 := hs .CeedQFunctionContext (by decide)
  have hl7 := hs .CeedQFunction (by decide)
  have hl8 := hs .CeedOperator (by decide)
  simp only [State.table] at hl1 hl2 hl3 hl5 hl6 hl7 hl8
  intro T hT
  cases T <;> simp only [State.table]
  all_goals
    unfold fCeedElemRestrictionApplyBlock
    try unfold forward
    try dsimp only
    try split_ifs
  all_goals
    first
      | exact absurd rfl hT
      | with_reducible (first
          | (apply Table.good_same; assumption)
          | (apply Table.good_create; assumption)
          | (apply Table.good_fail; assumption))

theorem fCeedRequestWait_live (lib : Oracle) (s : State) (rqst err : Int) (live : Live)
    (hs : LiveInv s live) :
    LiveInv (fCeedRequestWait lib s rqst err).st
      (fun T => live T ++ issued (s.table T).count
        ((fCeedRequestWait lib s rqst err).st.table T).count) := by
  have hl1 := hs .Ceed (by decide)
  have hl2 := hs .CeedVector (by decide)
  have hl3 := hs .CeedElemRestriction (by decide)
  have hl5 := hs .CeedBasis (by decide)
  have hl6 := hs .CeedQFunctionContext (by decide)
  have hl7 := hs .CeedQFunction (by decide)
  have hl8 := hs .CeedOperator (by decide)
  simp only [State.table] at hl1 hl2 hl3 hl5 hl6 hl7 hl8
  intro T hT
  cases T <;> simp only [State.table]
  all_goals
    unfold fCeedRequestWait
    try unfold forward
    try dsimp only
    try split_ifs
  all_goals
    first
      | exact absurd rfl hT
      | with_reducible (first
          | (apply Table.good_same; assumption)
          | (apply Table.good_create; assumption)
          | (apply Table.good_fail; assumption))

theorem fCeedElemRestrictionDestroy_live (lib : Oracle) (s : State) (elem err : Int)
    (live : Live) (hs : LiveInv s live)
    (hv : elem ∈ live .CeedElemRestriction) :
    LiveInv (fCeedElemRestrictionDestroy lib s elem err).st
      (if (fCeedElemRestrictionDestroy lib s elem err).out = [FORTRAN_NULL] then
        fun U => if U = .CeedElemRestriction then (live .CeedElemRestriction).erase elem else
          live U
       else live) := by
  have hg := hs .CeedElemRestriction (by decide)
  simp only [State.table] at hg
  have hne : elem ≠ FORTRAN_NULL := by
    have := (hg.2.2.2.2.2.1 elem hv).1
    unfold FORTRAN_NULL
    omega
  unfold fCeedElemRestrictionDestroy
  rw [if_neg hne]
  dsimp only
  by_cases hc : (lib .CeedElemRestrictionDestroy 0).ierr = 0
  · simp only [hc, if_true]
    intro T hT
    by_cases hT2 : T = .CeedElemRestriction
    · subst hT2
      simp only [State.table, if_true]
      exact Table.good_release (Table.good_libStore hg _ _) elem hv
    · simp only [hT2, if_false]
      have := hs T hT
      cases T <;> first | exact absurd rfl hT2 | exact this
  · have hout : ¬ ([elem] = [FORTRAN_NULL]) := by simpa using hne
    simp only [hc, if_false, hout]
    intro T hT
    by_cases hT2 : T = .CeedElemRestriction
    · subst hT2
      exact Table.good_libStore hg _ _
    · have := hs T hT
      cases T <;> first | exact absurd rfl hT2 | exact this

theorem fCeedBasisCreateTensorH1Lagrange_live (lib : Oracle) (s : State)
    (ceed dim ncomp P Q quadmode basis err : Int) (live : Live) (hs : LiveInv s live) :
    LiveInv (fCeedBasisCreateTensorH1Lagrange lib s ceed dim ncomp P Q quadmode basis err).st
      (fun T => live T ++ issued (s.table T).count
        ((fCeedBasisCreateTensorH1Lagrange lib s ceed dim ncomp P Q quadmode basis err).st.table
          T).count) := by
  have hl1 := hs .Ceed (by decide)
  have hl2 := hs .CeedVector (by decide)
  have hl3 := hs .CeedElemRestriction (by decide)
  have hl5 := hs .CeedBasis (by decide)
  have hl6 := hs .CeedQFunctionContext (by decide)
  have hl7 := hs .CeedQFunction (by decide)
  have hl8 := hs .CeedOperator (by decide)
  simp only [State.table] at hl1 hl2 hl3 hl5 hl6 hl7 hl8
  intro T hT
  cases T <;> simp only [State.table]
  all_goals
    unfold fCeedBasisCreateTensorH1Lagrange
    try unfold forward
    try dsimp only
    try split_ifs
  all_goals
    first
      | exact absurd rfl hT
      | with_reducible (first
          | (apply Table.good_same; assumption)
          | (apply Table.good_create; assumption)
          | (apply Table.good_fail; assumption))

theorem fCeedBasisCreateTensorH1_live (lib : Oracle) (s : State)
    (ceed dim ncomp P1d Q1d interp1d grad1d qref1d qweight1d basis err : Int) (live : Live)
    (hs : LiveInv s live) :
    LiveInv (fCeedBasisCreateTensorH1 lib s ceed dim ncomp P1d Q1d interp1d grad1d qref1d
      qweight1d basis err).st
      (fun T => live T ++ issued (s.table T).count
        ((fCeedBasisCreateTensorH1 lib s ceed dim ncomp P1d Q1d interp1d grad1d qref1d qweight1d
          basis err).st.table T).count) := by
  have hl1 := hs .Ceed (by decide)
  have hl2 := hs .CeedVector (by decide)
  have hl3 := hs .CeedElemRestriction (by decide)
  have hl5 := hs .CeedBasis (by decide)
  have hl6 := hs .CeedQFunctionContext (by decide)
  have hl7 := hs .CeedQFunction (by decide)
  have hl8 := hs .CeedOperator (by decide)
  simp only [State.table] at hl1 hl2 hl3 hl5 hl6 hl7 hl8
  intro T hT
  cases T <;> simp only [State.table]
  all_goals
    unfold fCeedBasisCreateTensorH1
    try unfold forward
    try dsimp only
    try split_ifs
  all_goals
    first
      | exact absurd rfl hT
      | with_reducible (first
          | (apply Table.good_same; assumption)
          | (apply Table.good_create; assumption)
          | (apply Table.good_fail; assumption))

theorem fCeedBasisCreateH1_live (lib : Oracle) (s : State)
    (ceed topo ncomp nnodes nqpts interp grad qref qweight basis err : Int) (live : Live)
    (hs : LiveInv s live) :
    LiveInv (fCeedBasisCreateH1 lib s ceed topo ncomp nnodes nqpts interp grad qref qweight
      basis err).st
      (fun T => live T ++ issued (s.table T).count
        ((fCeedBasisCreateH1 lib s ceed topo ncomp nnodes nqpts interp grad qref qweight basis
          err).st.table T).count) := by
  have hl1 := hs .Ceed (by decide)
  have hl2 := hs .CeedVector (by decide)
  have hl3 := hs .CeedElemRestriction (by decide)
  have hl5 := hs .CeedBasis (by decide)
  have hl6 := hs .CeedQFunctionContext (by decide)
  have hl7 := hs .CeedQFunction (by decide)
  have hl8 := hs .CeedOperator (by decide)
  simp only [State.table] at hl1 hl2 hl3 hl5 hl6 hl7 hl8
  intro T hT
  cases T <;> simp only [State.table]
  all_goals
    unfold fCeedBasisCreateH1
    try unfold forward
    try dsimp only
    try split_ifs
  all_goals
    first
      | exact absurd rfl hT
      | with_reducible (first
          | (apply Table.good_same; assumption)
          | (apply Table.good_create; assumption)
          | (apply Table.good_fail; assumption))

theorem fCeedBasisApply_live (lib : Oracle) (s : State) (basis nelem tmode emode u v err : Int)
    (live : Live) (hs : LiveInv s live) :
    LiveInv (fCeedBasisApply lib s basis nelem tmode emode u v err).st
      (fun T => live T ++ issued (s.table T).count
        ((fCeedBasisApply lib s basis nelem tmode emode u v err).st.table T).count) := by
  have hl1 := hs .Ceed (by decide)
  have hl2 := hs .CeedVector (by decide)
  have hl3 := hs .CeedElemRestriction (by decide)
  have hl5 := hs .CeedBasis (by decide)
  have hl6 := hs .CeedQFunctionContext (by decide)
  have hl7 := hs .CeedQFunction (by decide)
  have hl8 := hs .CeedOperator (by decide)
  simp only [State.table] at hl1 hl2 hl3 hl5 hl6 hl7 hl8
  intro T hT
  cases T <;> simp only [State.table]
  all_goals
    unfold fCeedBasisApply
    try unfold forward
    try dsimp only
    try split_ifs
  all_goals
    first
      | exact absurd rfl hT
      | with_reducible (first
          | (apply Table.good_same; assumption)
          | (apply Table.good_create; assumption)
          | (apply Table.good_fail; assumption))

theorem fCeedBasisDestroy_live (lib : Oracle) (s : State) (basis err : Int) (live : Live)
    (hs : LiveInv s live)
    (hv : basis ∈ live .CeedBasis) :
    LiveInv (fCeedBasisDestroy lib s basis err).st
      (if (fCeedBasisDestroy lib s basis err).out = [FORTRAN_NULL] then
        fun U => if U = .CeedBasis then (live .CeedBasis).erase basis else live U
       else live) := by
  have hg := hs .CeedBasis (by decide)
  simp only [State.table] at hg
  have hne : basis ≠ FORTRAN_NULL := by
    have := (hg.2.2.2.2.2.1 basis hv).1
    unfold FORTRAN_NULL
    omega
  unfold fCeedBasisDestroy
  rw [if_neg hne]
  dsimp only
  by_cases hc : (lib .CeedBasisDestroy 0).ierr = 0
  · simp only [hc, if_true]
    intro T hT
    by_cases hT2 : T = .CeedBasis
    · subst hT2
      simp only [State.table, if_true]
      exact Table.good_release (Table.good_libStore hg _ _) basis hv
    · simp only [hT2, if_false]
      have := hs T hT
      cases T <;> first | exact absurd rfl hT2 | exact this
  · have hout : ¬ ([basis] = [FORTRAN_NULL]) := by simpa using hne
    simp only [hc, if_false, hout]
    intro T hT
    by_cases hT2 : T = .CeedBasis
    · subst hT2
      exact Table.good_libStore hg _ _
    · have := hs T hT
      cases T <;> first | exact absurd rfl hT2 | exact this

theorem fCeedQFunctionContextCreate_live (lib : Oracle) (s : State) (ceed ctx err : Int)
    (live : Live) (hs : LiveInv s live) :
    LiveInv (fCeedQFunctionContextCreate lib s ceed ctx err).st
      (fun T => live T ++ issued (s.table T).count
        ((fCeedQFunctionContextCreate lib s ceed ctx err).st.table T).count) := by
  have hl1 := hs .Ceed (by decide)
  have hl2 := hs .CeedVector (by decide)
  have hl3 := hs .CeedElemRestriction (by decide)
  have hl5 := hs .CeedBasis (by decide)
  have hl6 := hs .CeedQFunctionContext (by decide)
  have hl7 := hs .CeedQFunction (by decide)
  have hl8 := hs .CeedOperator (by decide)
  simp only [State.table] at hl1 hl2 hl3 hl5 hl6 hl7 hl8
  intro T hT
  cases T <;> simp only [State.table]
  all_goals
    unfold fCeedQFunctionContextCreate
    try unfold forward
    try dsimp only
    try split_ifs
  all_goals
    first
      | exact absurd rfl hT
      | with_reducible (first
          | (apply Table.good_same; assumption)
          | (apply Table.good_create; assumption)
          | (apply Table.good_fail; assumption))

theorem fCeedQFunctionContextDestroy_live (lib : Oracle) (s : State) (ctx err : Int)
    (live : Live) (hs : LiveInv s live)
    (hv : ctx ∈ live .CeedQFunctionContext) :
    LiveInv (fCeedQFunctionContextDestroy lib s ctx err).st
      (if (fCeedQFunctionContextDestroy lib s ctx err).out = [FORTRAN_NULL] then
        fun U => if U = .CeedQFunctionContext then (live .CeedQFunctionContext).erase ctx else
          live U
       else live) := by
  have hg := hs .CeedQFunctionContext (by decide)
  simp only [State.table] at hg
  have hne : ctx ≠ FORTRAN_NULL := by
    have := (hg.2.2.2.2.2.1 ctx hv).1
    unfold FORTRAN_NULL
    omega
  unfold fCeedQFunctionContextDestroy
  rw [if_neg hne]
  dsimp only
  by_cases hc : (lib .CeedQFunctionContextDestroy 0).ierr = 0
  · simp only [hc, if_true]
    intro T hT
    by_cases hT2 : T = .CeedQFunctionContext
    · subst hT2
      simp only [State.table, if_true]
      exact Table.good_release (Table.good_libStore hg _ _) ctx hv
    · simp only [hT2, if_false]
      have := hs T hT
      cases T <;> first | exact absurd rfl hT2 | exact this
  · have hout : ¬ ([ctx] = [FORTRAN_NULL]) := by simpa using hne
    simp only [hc, if_false, hout]
    intro T hT
    by_cases hT2 : T = .CeedQFunctionContext
    · subst hT2
      exact Table.good_libStore hg _ _
    · have := hs T hT
      cases T <;> first | exact absurd rfl hT2 | exact this

theorem fCeedQFunctionCreateInterior_live (lib : Oracle) (s : State) (ceed vlength : Int)
    (f : Nat) (source : List Nat) (qf err : Int) (live : Live) (ret : Ret) (hs : LiveInv s live)
    (h : fCeedQFunctionCreateInterior lib s ceed vlength f source qf err = some ret) :
    LiveInv ret.st (fun T => live T ++ issued (s.table T).count (ret.st.table T).count) := by
  have hl1 := hs .Ceed (by decide)
  have hl2 := hs .CeedVector (by decide)
  have hl3 := hs .CeedElemRestriction (by decide)
  have hl5 := hs .CeedBasis (by decide)
  have hl6 := hs .CeedQFunctionContext (by decide)
  have hl7 := hs .CeedQFunction (by decide)
  have hl8 := hs .CeedOperator (by decide)
  simp only [State.table] at hl1 hl2 hl3 hl5 hl6 hl7 hl8
  unfold fCeedQFunctionCreateInterior at h
  try unfold forward at h
  try dsimp only at h
  repeat' split at h
  all_goals simp only [Option.some.injEq, reduceCtorEq] at h
  all_goals
    subst h
    intro T hT
    cases T <;> simp only [State.table] <;> (try dsimp only) <;> (try split_ifs)
  all_goals
    first
      | exact absurd rfl hT
      | with_reducible (first
          | (apply Table.good_same; assumption)
          | (apply Table.good_create; assumption)
          | (apply Table.good_fail; assumption))

theorem fCeedQFunctionCreateInteriorByName_live (lib : Oracle) (s : State) (ceed : Int)
    (name : List Nat) (qf err : Int) (live : Live) (ret : Ret) (hs : LiveInv s live)
    (h : fCeedQFunctionCreateInteriorByName lib s ceed name qf err = some ret) :
    LiveInv ret.st (fun T => live T ++ issued (s.table T).count (ret.st.table T).count) := by
  have hl1 := hs .Ceed (by decide)
  have hl2 := hs .CeedVector (by decide)
  have hl3 := hs .CeedElemRestriction (by decide)
  have hl5 := hs .CeedBasis (by decide)
  have hl6 := hs .CeedQFunctionContext (by decide)
  have hl7 := hs .CeedQFunction (by decide)
  have hl8 := hs .CeedOperator (by decide)
  simp only [State.table] at hl1 hl2 hl3 hl5 hl6 hl7 hl8
  unfold fCeedQFunctionCreateInteriorByName at h
  try unfold forward at h
  try dsimp only at h
  repeat' split at h
  all_goals simp only [Option.some.injEq, reduceCtorEq] at h
  all_goals
    subst h
    intro T hT
    cases T <;> simp only [State.table] <;> (try dsimp only) <;> (try split_ifs)
  all_goals
    first
      | exact absurd rfl hT
      | with_reducible (first
          | (apply Table.good_same; assumption)
          | (apply Table.good_create; assumption)
          | (apply Table.good_fail; assumption))

theorem fCeedQFunctionCreateIdentity_live (lib : Oracle) (s : State)
    (ceed size inmode outmode qf err : Int) (live : Live) (hs : LiveInv s live) :
    LiveInv (fCeedQFunctionCreateIdentity lib s ceed size inmode outmode qf err).st
      (fun T => live T ++ issued (s.table T).count
        ((fCeedQFunctionCreateIdentity lib s ceed size inmode outmode qf err).st.table T).count)
          := by
  have hl1 := hs .Ceed (by decide)
  have hl2 := hs .CeedVector (by decide)
  have hl3 := hs .CeedElemRestriction (by decide)
  have hl5 := hs .CeedBasis (by decide)
  have hl6 := hs .CeedQFunctionContext (by decide)
  have hl7 := hs .CeedQFunction (by decide)
  have hl8 := hs .CeedOperator (by decide)
  simp only [State.table] at hl1 hl2 hl3 hl5 hl6 hl7 hl8
  intro T hT
  cases T <;> simp only [State.table]
  all_goals
    unfold fCeedQFunctionCreateIdentity
    try unfold forward
    try dsimp only
    try split_ifs
  all_goals
    first
      | exact absurd rfl hT
      | with_reducible (first
          | (apply Table.good_same; assumption)
          | (apply Table.good_create; assumption)
          | (apply Table.good_fail; assumption))

theorem fCeedQFunctionAddInput_live (lib : Oracle) (s : State) (qf : Int) (fieldname : List Nat)
    (ncomp emode err : Int) (live : Live) (ret : Ret) (hs : LiveInv s live)
    (h : fCeedQFunctionAddInput lib s qf fieldname ncomp emode err = some ret) :
    LiveInv ret.st (fun T => live T ++ issued (s.table T).count (ret.st.table T).count) := by
  have hl1 := hs .Ceed (by decide)
  have hl2 := hs .CeedVector (by decide)
  have hl3 := hs .CeedElemRestriction (by decide)
  have hl5 := hs .CeedBasis (by decide)
  have hl6 := hs .CeedQFunctionContext (by decide)
  have hl7 := hs .CeedQFunction (by decide)
  have hl8 := hs .CeedOperator (by decide)
  simp only [State.table] at hl1 hl2 hl3 hl5 hl6 hl7 hl8
  unfold fCeedQFunctionAddInput at h
  try unfold forward at h
  try dsimp only at h
  repeat' split at h
  all_goals simp only [Option.some.injEq, reduceCtorEq] at h
  all_goals
    subst h
    intro T hT
    cases T <;> simp only [State.table] <;> (try dsimp only) <;> (try split_ifs)
  all_goals
    first
      | exact absurd rfl hT
      | with_reducible (first
          | (apply Table.good_same; assumption)
          | (apply Table.good_create; assumption)
          | (apply Table.good_fail; assumption))

theorem fCeedQFunctionAddOutput_live (lib : Oracle) (s : State) (qf : Int)
    (fieldname : List Nat) (ncomp emode err : Int) (live : Live) (ret : Ret)
    (hs : LiveInv s live)
    (h : fCeedQFunctionAddOutput lib s qf fieldname ncomp emode err = some ret) :
    LiveInv ret.st (fun T => live T ++ issued (s.table T).count (ret.st.table T).count) := by
  have hl1 := hs .Ceed (by decide)
  have hl2 := hs .CeedVector (by decide)
  have hl3 := hs .CeedElemRestriction (by decide)
  have hl5 := hs .CeedBasis (by decide)
  have hl6 := hs .CeedQFunctionContext (by decide)
  have hl7 := hs .CeedQFunction (by decide)
  have hl8 := hs .CeedOperator (by decide)
  simp only [State.table] at hl1 hl2 hl3 hl5 hl6 hl7 hl8
  unfold fCeedQFunctionAddOutput at h
  try unfold forward at h
  try dsimp only at h
  repeat' split at h
  all_goals simp only [Option.some.injEq, reduceCtorEq] at h
  all_goals
    subst h
    intro T hT
    cases T <;> simp only [State.table] <;> (try dsimp only) <;> (try split_ifs)
  all_goals
    first
      | exact absurd rfl hT
      | with_reducible (first
          | (apply Table.good_same; assumption)
          | (apply Table.good_create; assumption)
          | (apply Table.good_fail; assumption))

theorem fCeedQFunctionSetContext_live (lib : Oracle) (s : State) (qf ctx err : Int)
    (live : Live) (hs : LiveInv s live) :
    LiveInv (fCeedQFunctionSetContext lib s qf ctx err).st
      (fun T => live T ++ issued (s.table T).count
        ((fCeedQFunctionSetContext lib s qf ctx err).st.table T).count) := by
  have hl1 := hs .Ceed (by decide)
  have hl2 := hs .CeedVector (by decide)
  have hl3 := hs .CeedElemRestriction (by decide)
  have hl5 := hs .CeedBasis (by decide)
  have hl6 := hs .CeedQFunctionContext (by decide)
  have hl7 := hs .CeedQFunction (by decide)
  have hl8 := hs .CeedOperator (by decide)
  simp only [State.table] at hl1 hl2 hl3 hl5 hl6 hl7 hl8
  intro T hT
  cases T <;> simp only [State.table]
  all_goals
    unfold fCeedQFunctionSetContext
    try unfold forward
    try dsimp only
    try split_ifs
  all_goals
    first
      | exact absurd rfl hT
      | with_reducible (first
          | (apply Table.good_same; assumption)
          | (apply Table.good_create; assumption)
          | (apply Table.good_fail; assumption))

theorem fCeedQFunctionApply_live (lib : Oracle) (s : State) (qf Q : Int) (u v : Nat → Int)
    (err : Int) (live : Live) (hs : LiveInv s live) :
    LiveInv (fCeedQFunctionApply lib s qf Q u v err).st
      (fun T => live T ++ issued (s.table T).count
        ((fCeedQFunctionApply lib s qf Q u v err).st.table T).count) := by
  have hl1 := hs .Ceed (by decide)
  have hl2 := hs .CeedVector (by decide)
  have hl3 := hs .CeedElemRestriction (by decide)
  have hl5 := hs .CeedBasis (by decide)
  have hl6 := hs .CeedQFunctionContext (by decide)
  have hl7 := hs .CeedQFunction (by decide)
  have hl8 := hs .CeedOperator (by decide)
  simp only [State.table] at hl1 hl2 hl3 hl5 hl6 hl7 hl8
  intro T hT
  cases T <;> simp only [State.table]
  all_goals
    unfold fCeedQFunctionApply
    try unfold forward
    try dsimp only
    try split_ifs
  all_goals
    first
      | exact absurd rfl hT
      | with_reducible (first
          | (apply Table.good_same; assumption)
          | (apply Table.good_create; assumption)
          | (apply Table.good_fail; assumption))

theorem fCeedQFunctionDestroy_live (lib : Oracle) (s : State) (qf err : Int) (live : Live)
    (hs : LiveInv s live)
    (hv : qf ∈ live .CeedQFunction) :
    LiveInv (fCeedQFunctionDestroy lib s qf err).st
      (if (fCeedQFunctionDestroy lib s qf err).out = [FORTRAN_NULL] then
        fun U => if U = .CeedQFunction then (live .CeedQFunction).erase qf else live U
       else live) := by
  have hg := hs .CeedQFunction (by decide)
  simp only [State.table] at hg
  have hne : qf ≠ FORTRAN_NULL := by
    have := (hg.2.2.2.2.2.1 qf hv).1
    unfold FORTRAN_NULL
    omega
  unfold fCeedQFunctionDestroy
  rw [if_neg hne]
  dsimp only
  by_cases hc : (lib .CeedQFunctionDestroy 0).ierr = 0
  · have hgl := Table.good_libStore hg qf ((lib .CeedQFunctionDestroy 0).stored 0)
    by_cases hz : (s.CeedQFunction.libStore qf ((lib .CeedQFunctionDestroy 0).stored 0)).n - 1 = 0
    · simp only [hc, hz, if_true]
      intro T hT
      by_cases hT2 : T = .CeedQFunction
      · subst hT2
        simp only [State.table, if_true]
        have hr := Table.good_reset hgl qf hv hz
          (s.CeedQFunction.libStore qf ((lib .CeedQFunctionDestroy 0).stored 0)).dict
        rw [hz] at hr
        exact hr
      · simp only [hT2, if_false]
        have := hs T hT
        cases T <;> first | exact absurd rfl hT2 | exact this
    · simp only [hc, hz, if_true, if_false]
      intro T hT
      by_cases hT2 : T = .CeedQFunction
      · subst hT2
        simp only [State.table, if_true]
        exact Table.good_dec hgl qf hv hz
      · simp only [hT2, if_false]
        have := hs T hT
        cases T <;> first | exact absurd rfl hT2 | exact this
  · have hout : ¬ ([qf] = [FORTRAN_NULL]) := by simpa using hne
    simp only [hc, if_false, hout]
    intro T hT
    by_cases hT2 : T = .CeedQFunction
    · subst hT2
      exact Table.good_libStore hg _ _
    · have := hs T hT
      cases T <;> first | exact absurd rfl hT2 | exact this

theorem fCeedOperatorCreate_live (lib : Oracle) (s : State) (ceed qf dqf dqfT op err : Int)
    (live : Live) (hs : LiveInv s live) :
    LiveInv (fCeedOperatorCreate lib s ceed qf dqf dqfT op err).st
      (fun T => live T ++ issued (s.table T).count
        ((fCeedOperatorCreate lib s ceed qf dqf dqfT op err).st.table T).count) := by
  have hl1 := hs .Ceed (by decide)
  have hl2 := hs .CeedVector (by decide)
  have hl3 := hs .CeedElemRestriction (by decide)
  have hl5 := hs .CeedBasis (by decide)
  have hl6 := hs .CeedQFunctionContext (by decide)
  have hl7 := hs .CeedQFunction (by decide)
  have hl8 := hs .CeedOperator (by decide)
  simp only [State.table] at hl1 hl2 hl3 hl5 hl6 hl7 hl8
  intro T hT
  cases T <;> simp only [State.table]
  all_goals
    unfold fCeedOperatorCreate
    try unfold forward
    try dsimp only
    try split_ifs
  all_goals
    first
      | exact absurd rfl hT
      | with_reducible (first
          | (apply Table.good_same; assumption)
          | (apply Table.good_create; assumption)
          | (apply Table.good_fail; assumption))

theorem fCeedCompositeOperatorCreate_live (lib : Oracle) (s : State) (ceed op err : Int)
    (live : Live) (hs : LiveInv s live) :
    LiveInv (fCeedCompositeOperatorCreate lib s ceed op err).st
      (fun T => live T ++ issued (s.table T).count
        ((fCeedCompositeOperatorCreate lib s ceed op err).st.table T).count) := by
  have hl1 := hs .Ceed (by decide)
  have hl2 := hs .CeedVector (by decide)
  have hl3 := hs .CeedElemRestriction (by decide)
  have hl5 := hs .CeedBasis (by decide)
  have hl6 := hs .CeedQFunctionContext (by decide)
  have hl7 := hs .CeedQFunction (by decide)
  have hl8 := hs .CeedOperator (by decide)
  simp only [State.table] at hl1 hl2 hl3 hl5 hl6 hl7 hl8
  intro T hT
  cases T <;> simp only [State.table]
  all_goals
    unfold fCeedCompositeOperatorCreate
    try unfold forward
    try dsimp only
    try split_ifs
  all_goals
    first
      | exact absurd rfl hT
      | with_reducible (first
          | (apply Table.good_same; assumption)
          | (apply Table.good_create; assumption)
          | (apply Table.good_fail; assumption))

theorem fCeedOperatorSetField_live (lib : Oracle) (s : State) (op : Int) (fieldname : List Nat)
    (r b v err : Int) (live : Live) (ret : Ret) (hs : LiveInv s live)
    (h : fCeedOperatorSetField lib s op fieldname r b v err = some ret) :
    LiveInv ret.st (fun T => live T ++ issued (s.table T).count (ret.st.table T).count) := by
  have hl1 := hs .Ceed (by decide)
  have hl2 := hs .CeedVector (by decide)
  have hl3 := hs .CeedElemRestriction (by decide)
  have hl5 := hs .CeedBasis (by decide)
  have hl6 := hs .CeedQFunctionContext (by decide)
  have hl7 := hs .CeedQFunction (by decide)
  have hl8 := hs .CeedOperator (by decide)
  simp only [State.table] at hl1 hl2 hl3 hl5 hl6 hl7 hl8
  unfold fCeedOperatorSetField at h
  try unfold forward at h
  try dsimp only at h
  repeat' split at h
  all_goals simp only [Option.some.injEq, reduceCtorEq] at h
  all_goals
    subst h
    intro T hT
    cases T <;> simp only [State.table] <;> (try dsimp only) <;> (try split_ifs)
  all_goals
    first
      | exact absurd rfl hT
      | with_reducible (first
          | (apply Table.good_same; assumption)
          | (apply Table.good_create; assumption)
          | (apply Table.good_fail; assumption))

theorem fCeedOperatorLinearAssembleQFunction_live (lib : Oracle) (s : State)
    (op assembledvec assembledrstr rqst err : Int) (live : Live) (hs : LiveInv s live) :
    LiveInv (fCeedOperatorLinearAssembleQFunction lib s op assembledvec assembledrstr rqst
      err).st
      (fun T => live T ++ issued (s.table T).count
        ((fCeedOperatorLinearAssembleQFunction lib s op assembledvec assembledrstr rqst
          err).st.table T).count) := by
  have hl1 := hs .Ceed (by decide)
  have hl2 := hs .CeedVector (by decide)
  have hl3 := hs .CeedElemRestriction (by decide)
  have hl5 := hs .CeedBasis (by decide)
  have hl6 := hs .CeedQFunctionContext (by decide)
  have hl7 := hs .CeedQFunction (by decide)
  have hl8 := hs .CeedOperator (by decide)
  simp only [State.table] at hl1 hl2 hl3 hl5 hl6 hl7 hl8
  intro T hT
  cases T <;> simp only [State.table]
  all_goals
    unfold fCeedOperatorLinearAssembleQFunction
    try unfold forward
    try dsimp only
    try split_ifs
  all_goals
    first
      | exact absurd rfl hT
      | with_reducible (first
          | (apply Table.good_same; assumption)
          | (apply Table.good_create; assumption)
          | (apply Table.good_fail; assumption))

theorem fCeedOperatorLinearAssembleDiagonal_live (lib : Oracle) (s : State)
    (op assembledvec rqst err : Int) (live : Live) (hs : LiveInv s live) :
    LiveInv (fCeedOperatorLinearAssembleDiagonal lib s op assembledvec rqst err).st
      (fun T => live T ++ issued (s.table T).count
        ((fCeedOperatorLinearAssembleDiagonal lib s op assembledvec rqst err).st.table T).count)
          := by
  have hl1 := hs .Ceed (by decide)
  have hl2 := hs .CeedVector (by decide)
  have hl3 := hs .CeedElemRestriction (by decide)
  have hl5 := hs .CeedBasis (by decide)
  have hl6 := hs .CeedQFunctionContext (by decide)
  have hl7 := hs .CeedQFunction (by decide)
  have hl8 := hs .CeedOperator (by decide)
  simp only [State.table] at hl1 hl2 hl3 hl5 hl6 hl7 hl8
  intro T hT
  cases T <;> simp only [State.table]
  all_goals
    unfold fCeedOperatorLinearAssembleDiagonal
    try unfold forward
    try dsimp only
    try split_ifs
  all_goals
    first
      | exact absurd rfl hT
      | with_reducible (first
          | (apply Table.good_same; assumption)
          | (apply Table.good_create; assumption)
          | (apply Table.good_fail; assumption))

theorem fCeedOperatorMultigridLevelCreate_live (lib : Oracle) (s : State)
    (opFine pMultFine rstrCoarse basisCoarse opCoarse opProlong opRestrict err : Int)
    (live : Live) (ret : Ret) (hs : LiveInv s live)
    (h : fCeedOperatorMultigridLevelCreate lib s opFine pMultFine rstrCoarse basisCoarse
      opCoarse opProlong opRestrict err = some ret) :
    LiveInv ret.st (fun T => live T ++ issued (s.table T).count (ret.st.table T).count) := by
  unfold fCeedOperatorMultigridLevelCreate at h
  dsimp only at h
  split at h
  · simp only [Option.some.injEq] at h
    subst h
    intro T hT
    simpa using hs T hT
  · simp only [Option.map_eq_some'] at h
    obtain ⟨t, ht, rfl⟩ := h
    have hg := Table.good_three (hs .CeedOperator (by decide)) _ _ _ ht
    intro T hT
    cases T
    case CeedOperator => exact hg
    all_goals first
      | exact absurd rfl hT
      | simpa [State.table] using hs _ hT

theorem fCeedOperatorMultigridLevelCreateTensorH1_live (lib : Oracle) (s : State)
    (opFine pMultFine rstrCoarse basisCoarse interpCtoF opCoarse opProlong opRestrict err : Int)
    (live : Live) (ret : Ret) (hs : LiveInv s live)
    (h : fCeedOperatorMultigridLevelCreateTensorH1 lib s opFine pMultFine rstrCoarse basisCoarse
      interpCtoF opCoarse opProlong opRestrict err = some ret) :
    LiveInv ret.st (fun T => live T ++ issued (s.table T).count (ret.st.table T).count) := by
  unfold fCeedOperatorMultigridLevelCreateTensorH1 at h
  dsimp only at h
  split at h
  · simp only [Option.some.injEq] at h
    subst h
    intro T hT
    simpa using hs T hT
  · simp only [Option.map_eq_some'] at h
    obtain ⟨t, ht, rfl⟩ := h
    have hg := Table.good_three (hs .CeedOperator (by decide)) _ _ _ ht
    intro T hT
    cases T
    case CeedOperator => exact hg
    all_goals first
      | exact absurd rfl hT
      | simpa [State.table] using hs _ hT

theorem fCeedOperatorMultigridLevelCreateH1_live (lib : Oracle) (s : State)
    (opFine pMultFine rstrCoarse basisCoarse interpCtoF opCoarse opProlong opRestrict err : Int)
    (live : Live) (ret : Ret) (hs : LiveInv s live)
    (h : fCeedOperatorMultigridLevelCreateH1 lib s opFine pMultFine rstrCoarse basisCoarse
      interpCtoF opCoarse opProlong opRestrict err = some ret) :
    LiveInv ret.st (fun T => live T ++ issued (s.table T).count (ret.st.table T).count) := by
  unfold fCeedOperatorMultigridLevelCreateH1 at h
  dsimp only at h
  split at h
  · simp only [Option.some.injEq] at h
    subst h
    intro T hT
    simpa using hs T hT
  · simp only [Option.map_eq_some'] at h
    obtain ⟨t, ht, rfl⟩ := h
    have hg := Table.good_three (hs .CeedOperator (by decide)) _ _ _ ht
    intro T hT
    cases T
    case CeedOperator => exact hg
    all_goals first
      | exact absurd rfl hT
      | simpa [State.table] using hs _ hT

theorem fCeedOperatorCreateFDMElementInverse_live (lib : Oracle) (s : State)
    (op fdminv rqst err : Int) (live : Live) (hs : LiveInv s live) :
    LiveInv (fCeedOperatorCreateFDMElementInverse lib s op fdminv rqst err).st
      (fun T => live T ++ issued (s.table T).count
        ((fCeedOperatorCreateFDMElementInverse lib s op fdminv rqst err).st.table T).count) :=
          by
  have hl1 := hs .Ceed (by decide)
  have hl2 := hs .CeedVector (by decide)
  have hl3 := hs .CeedElemRestriction (by decide)
  have hl5 := hs .CeedBasis (by decide)
  have hl6 := hs .CeedQFunctionContext (by decide)
  have hl7 := hs .CeedQFunction (by decide)
  have hl8 := hs .CeedOperator (by decide)
  simp only [State.table] at hl1 hl2 hl3 hl5 hl6 hl7 hl8
  intro T hT
  cases T <;> simp only [State.table]
  all_goals
    unfold fCeedOperatorCreateFDMElementInverse
    try unfold forward
    try dsimp only
    try split_ifs
  all_goals
    first
      | exact absurd rfl hT
      | with_reducible (first
          | (apply Table.good_same; assumption)
          | (apply Table.good_create; assumption)
          | (apply Table.good_fail; assumption))

theorem fCeedOperatorApply_live (lib : Oracle) (s : State) (op ustatevec resvec rqst err : Int)
    (live : Live) (hs : LiveInv s live) :
    LiveInv (fCeedOperatorApply lib s op ustatevec resvec rqst err).st
      (fun T => live T ++ issued (s.table T).count
        ((fCeedOperatorApply lib s op ustatevec resvec rqst err).st.table T).count) := by
  have hl1 := hs .Ceed (by decide)
  have hl2 := hs .CeedVector (by decide)
  have hl3 := hs .CeedElemRestriction (by decide)
  have hl5 := hs .CeedBasis (by decide)
  have hl6 := hs .CeedQFunctionContext (by decide)
  have hl7 := hs .CeedQFunction (by decide)
  have hl8 := hs .CeedOperator (by decide)
  simp only [State.table] at hl1 hl2 hl3 hl5 hl6 hl7 hl8
  intro T hT
  cases T <;> simp only [State.table]
  all_goals
    unfold fCeedOperatorApply
    try unfold forward
    try dsimp only
    try split_ifs
  all_goals
    first
      | exact absurd rfl hT
      | with_reducible (first
          | (apply Table.good_same; assumption)
          | (apply Table.good_create; assumption)
          | (apply Table.good_fail; assumption))

theorem fCeedOperatorApplyAdd_live (lib : Oracle) (s : State)
    (op ustatevec resvec rqst err : Int) (live : Live) (hs : LiveInv s live) :
    LiveInv (fCeedOperatorApplyAdd lib s op ustatevec resvec rqst err).st
      (fun T => live T ++ issued (s.table T).count
        ((fCeedOperatorApplyAdd lib s op ustatevec resvec rqst err).st.table T).count) := by
  have hl1 := hs .Ceed (by decide)
  have hl2 := hs .CeedVector (by decide)
  have hl3 := hs .CeedElemRestriction (by decide)
  have hl5 := hs .CeedBasis (by decide)
  have hl6 := hs .CeedQFunctionContext (by decide)
  have hl7 := hs .CeedQFunction (by decide)
  have hl8 := hs .CeedOperator (by decide)
  simp only [State.table] at hl1 hl2 hl3 hl5 hl6 hl7 hl8
  intro T hT
  cases T <;> simp only [State.table]
  all_goals
    unfold fCeedOperatorApplyAdd
    try unfold forward
    try dsimp only
    try split_ifs
  all_goals
    first
      | exact absurd rfl hT
      | with_reducible (first
          | (apply Table.good_same; assumption)
          | (apply Table.good_create; assumption)
          | (apply Table.good_fail; assumption))

theorem fCeedOperatorDestroy_live (lib : Oracle) (s : State) (op err : Int) (live : Live)
    (hs : LiveInv s live)
    (hv : op ∈ live .CeedOperator) :
    LiveInv (fCeedOperatorDestroy lib s op err).st
      (if (fCeedOperatorDestroy lib s op err).out = [FORTRAN_NULL] then
        fun U => if U = .CeedOperator then (live .CeedOperator).erase op else live U
       else live) := by
  have hg := hs .CeedOperator (by decide)
  simp only [State.table] at hg
  have hne : op ≠ FORTRAN_NULL := by
    have := (hg.2.2.2.2.2.1 op hv).1
    unfold FORTRAN_NULL
    omega
  unfold fCeedOperatorDestroy
  rw [if_neg hne]
  dsimp only
  by_cases hc : (lib .CeedOperatorDestroy 0).ierr = 0
  · have hgl := Table.good_libStore hg op ((lib .CeedOperatorDestroy 0).stored 0)
    by_cases hz : (s.CeedOperator.libStore op ((lib .CeedOperatorDestroy 0).stored 0)).n - 1 = 0
    · simp only [hc, hz, if_true]
      intro T hT
      by_cases hT2 : T = .CeedOperator
      · subst hT2
        simp only [State.table, if_true]
        have hr := Table.good_reset hgl op hv hz
          (s.CeedOperator.libStore op ((lib .CeedOperatorDestroy 0).stored 0)).dict
        rw [hz] at hr
        exact hr
      · simp only [hT2, if_false]
        have := hs T hT
        cases T <;> first | exact absurd rfl hT2 | exact this
    · simp only [hc, hz, if_true, if_false]
      intro T hT
      by_cases hT2 : T = .CeedOperator
      · subst hT2
        simp only [State.table, if_true]
        exact Table.good_dec hgl op hv hz
      · simp only [hT2, if_false]
        have := hs T hT
        cases T <;> first | exact absurd rfl hT2 | exact this
  · have hout : ¬ ([op] = [FORTRAN_NULL]) := by simpa using hne
    simp only [hc, if_false, hout]
    intro T hT
    by_cases hT2 : T = .CeedOperator
    · subst hT2
      exact Table.good_libStore hg _ _
    · have := hs T hT
      cases T <;> first | exact absurd rfl hT2 | exact this

theorem liveInv_same {s : State} {live : Live} (hs : LiveInv s live) :
    LiveInv s (fun T => live T ++ issued (s.table T).count (s.table T).count) := by
  intro T hT
  simpa using hs T hT

theorem liveInv_init : LiveInv State.init (fun _ => []) := by
  intro T hT
  cases T <;> simp [State.table, State.init, Table.init, Table.Good]

/-- One admitted call keeps every entity table consistent with its live
handles. -/
theorem exec_live (e : Entry) (lib : Oracle) (s : State) (err : Int) (ret : Ret)
    (live live1 : Live) (hs : LiveInv s live) (h : exec e lib s err = some ret)
    (hl : liveAfter e s ret live = some live1) : LiveInv ret.st live1 := by
  cases e <;> simp only [exec, liveAfter, Entry.destroys, Option.some.injEq] at h hl
  case fCeedInit resource ceed =>
    subst hl
    exact fCeedInit_live lib s resource ceed err live ret hs h
  case fCeedDestroy ceed =>
    subst h
    by_cases hv : ceed ∈ live .Ceed
    · rw [if_pos hv] at hl
      simp only [Option.some.injEq] at hl
      subst hl
      exact fCeedDestroy_live lib s ceed err live hs hv
    · rw [if_neg hv] at hl
      cases hl
  case fCeedVectorCreate ceed length vec =>
    subst h
    subst hl
    exact fCeedVectorCreate_live lib s ceed length vec err live hs
  case fCeedVectorDestroy vec =>
    subst h
    by_cases hv : vec ∈ live .CeedVector
    · rw [if_pos hv] at hl
      simp only [Option.some.injEq] at hl
      subst hl
      exact fCeedVectorDestroy_live lib s vec err live hs hv
    · rw [if_neg hv] at hl
      cases hl
  case fCeedElemRestrictionCreate ceed nelements esize ncomp compstride lsize memtype copymode
      offsets elemrestriction =>
    subst h
    subst hl
    exact fCeedElemRestrictionCreate_live lib s ceed nelements esize ncomp compstride lsize
      memtype copymode offsets elemrestriction err live hs
  case fCeedElemRestrictionCreateStrided ceed nelements esize ncomp lsize strides strides_0
      elemrestriction =>
    subst h
    subst hl
    exact fCeedElemRestrictionCreateStrided_live lib s ceed nelements esize ncomp lsize strides
      strides_0 elemrestriction err live hs
  case fCeedElemRestrictionCreateBlocked ceed nelements esize blocksize ncomp compstride lsize
      mtype cmode blkindices elemrestriction =>
    subst h
    subst hl
    exact fCeedElemRestrictionCreateBlocked_live lib s ceed nelements esize blocksize ncomp
      compstride lsize mtype cmode blkindices elemrestriction err live hs
  case fCeedElemRestrictionCreateBlockedStrided ceed nelements esize blksize ncomp lsize strides
      elemrestriction =>
    subst h
    subst hl
    exact fCeedElemRestrictionCreateBlockedStrided_live lib s ceed nelements esize blksize ncomp
      lsize strides elemrestriction err live hs
  case fCeedElemRestrictionApply elemr tmode uvec ruvec rqst =>
    subst h
    subst hl
    exact fCeedElemRestrictionApply_live lib s elemr tmode uvec ruvec rqst err live hs
  case fCeedElemRestrictionApplyBlock elemr block tmode uvec ruvec rqst =>
    subst h
    subst hl
    exact fCeedElemRestrictionApplyBlock_live lib s elemr block tmode uvec ruvec rqst err live hs
  case fCeedRequestWait rqst =>
    subst h
    subst hl
    exact fCeedRequestWait_live lib s rqst err live hs
  case fCeedElemRestrictionDestroy elem =>
    subst h
    by_cases hv : elem ∈ live .CeedElemRestriction
    · rw [if_pos hv] at hl
      simp only [Option.some.injEq] at hl
      subst hl
      exact fCeedElemRestrictionDestroy_live lib s elem err live hs hv
    · rw [if_neg hv] at hl
      cases hl
  case fCeedBasisCreateTensorH1Lagrange ceed dim ncomp P Q quadmode basis =>
    subst h
    subst hl
    exact fCeedBasisCreateTensorH1Lagrange_live lib s ceed dim ncomp P Q quadmode basis err live
      hs
  case fCeedBasisCreateTensorH1 ceed dim ncomp P1d Q1d interp1d grad1d qref1d qweight1d basis =>
    subst h
    subst hl
    exact fCeedBasisCreateTensorH1_live lib s ceed dim ncomp P1d Q1d interp1d grad1d qref1d
      qweight1d basis err live hs
  case fCeedBasisCreateH1 ceed topo ncomp nnodes nqpts interp grad qref qweight basis =>
    subst h
    subst hl
    exact fCeedBasisCreateH1_live lib s ceed topo ncomp nnodes nqpts interp grad qref qweight
      basis err live hs
  case fCeedBasisApply basis nelem tmode emode u v =>
    subst h
    subst hl
    exact fCeedBasisApply_live lib s basis nelem tmode emode u v err live hs
  case fCeedBasisDestroy basis =>
    subst h
    by_cases hv : basis ∈ live .CeedBasis
    · rw [if_pos hv] at hl
      simp only [Option.some.injEq] at hl
      subst hl
      exact fCeedBasisDestroy_live lib s basis err live hs hv
    · rw [if_neg hv] at hl
      cases hl
  case fCeedQFunctionContextCreate ceed ctx =>
    subst h
    subst hl
    exact fCeedQFunctionContextCreate_live lib s ceed ctx err live hs
  case fCeedQFunctionContextDestroy ctx =>
    subst h
    by_cases hv : ctx ∈ live .CeedQFunctionContext
    · rw [if_pos hv] at hl
      simp only [Option.some.injEq] at hl
      subst hl
      exact fCeedQFunctionContextDestroy_live lib s ctx err live hs hv
    · rw [if_neg hv] at hl
      cases hl
  case fCeedQFunctionCreateInterior ceed vlength f source qf =>
    subst hl
    exact fCeedQFunctionCreateInterior_live lib s ceed vlength f source qf err live ret hs h
  case fCeedQFunctionCreateInteriorByName ceed name qf =>
    subst hl
    exact fCeedQFunctionCreateInteriorByName_live lib s ceed name qf err live ret hs h
  case fCeedQFunctionCreateIdentity ceed size inmode outmode qf =>
    subst h
    subst hl
    exact fCeedQFunctionCreateIdentity_live lib s ceed size inmode outmode qf err live hs
  case fCeedQFunctionAddInput qf fieldname ncomp emode =>
    subst hl
    exact fCeedQFunctionAddInput_live lib s qf fieldname ncomp emode err live ret hs h
  case fCeedQFunctionAddOutput qf fieldname ncomp emode =>
    subst hl
    exact fCeedQFunctionAddOutput_live lib s qf fieldname ncomp emode err live ret hs h
  case fCeedQFunctionSetContext qf ctx =>
    subst h
    subst hl
    exact fCeedQFunctionSetContext_live lib s qf ctx err live hs
  case fCeedQFunctionApply qf Q u v =>
    subst h
    subst hl
    exact fCeedQFunctionApply_live lib s qf Q u v err live hs
  case fCeedQFunctionDestroy qf =>
    subst h
    by_cases hv : qf ∈ live .CeedQFunction
    · rw [if_pos hv] at hl
      simp only [Option.some.injEq] at hl
      subst hl
      exact fCeedQFunctionDestroy_live lib s qf err live hs hv
    · rw [if_neg hv] at hl
      cases hl
  case fCeedOperatorCreate ceed qf dqf dqfT op =>
    subst h
    subst hl
    exact fCeedOperatorCreate_live lib s ceed qf dqf dqfT op err live hs
  case fCeedCompositeOperatorCreate ceed op =>
    subst h
    subst hl
    exact fCeedCompositeOperatorCreate_live lib s ceed op err live hs
  case fCeedOperatorSetField op fieldname r b v =>
    subst hl
    exact fCeedOperatorSetField_live lib s op fieldname r b v err live ret hs h
  case fCeedOperatorLinearAssembleQFunction op assembledvec assembledrstr rqst =>
    subst h
    subst hl
    exact fCeedOperatorLinearAssembleQFunction_live lib s op assembledvec assembledrstr rqst err
      live hs
  case fCeedOperatorLinearAssembleDiagonal op assembledvec rqst =>
    subst h
    subst hl
    exact fCeedOperatorLinearAssembleDiagonal_live lib s op assembledvec rqst err live hs
  case fCeedOperatorMultigridLevelCreate opFine pMultFine rstrCoarse basisCoarse opCoarse
      opProlong opRestrict =>
    subst hl
    exact fCeedOperatorMultigridLevelCreate_live lib s opFine pMultFine rstrCoarse basisCoarse
      opCoarse opProlong opRestrict err live ret hs h
  case fCeedOperatorMultigridLevelCreateTensorH1 opFine pMultFine rstrCoarse basisCoarse
      interpCtoF opCoarse opProlong opRestrict =>
    subst hl
    exact fCeedOperatorMultigridLevelCreateTensorH1_live lib s opFine pMultFine rstrCoarse
      basisCoarse interpCtoF opCoarse opProlong opRestrict err live ret hs h
  case fCeedOperatorMultigridLevelCreateH1 opFine pMultFine rstrCoarse basisCoarse interpCtoF
      opCoarse opProlong opRestrict =>
    subst hl
    exact fCeedOperatorMultigridLevelCreateH1_live lib s opFine pMultFine rstrCoarse basisCoarse
      interpCtoF opCoarse opProlong opRestrict err live ret hs h
  case fCeedOperatorCreateFDMElementInverse op fdminv rqst =>
    subst h
    subst hl
    exact fCeedOperatorCreateFDMElementInverse_live lib s op fdminv rqst err live hs
  case fCeedOperatorApply op ustatevec resvec rqst =>
    subst h
    subst hl
    exact fCeedOperatorApply_live lib s op ustatevec resvec rqst err live hs
  case fCeedOperatorApplyAdd op ustatevec resvec rqst =>
    subst h
    subst hl
    exact fCeedOperatorApplyAdd_live lib s op ustatevec resvec rqst err live hs
  case fCeedOperatorDestroy op =>
    subst h
    by_cases hv : op ∈ live .CeedOperator
    · rw [if_pos hv] at hl
      simp only [Option.some.injEq] at hl
      subst hl
      exact fCeedOperatorDestroy_live lib s op err live hs hv
    · rw [if_neg hv] at hl
      cases hl
  all_goals
    subst h
    subst hl
    exact liveInv_same hs

/-- Every entity table is consistent with its live handles after every
admitted sequence of calls. -/
theorem runLive_inv (steps : List Step) (s : State) (live : Live) (p : State × Live)
    (hs : LiveInv s live) (h : runLive s live steps = some p) : LiveInv p.1 p.2 := by
  induction steps generalizing s live with
  | nil =>
    simp only [runLive, Option.some.injEq] at h
    subst h
    exact hs
  | cons q rest ih =>
    simp only [runLive] at h
    split at h
    · cases h
    · next ret hr =>
      split at h
      · cases h
      · next live1 hl1 =>
        exact ih ret.st live1 (exec_live _ _ _ _ _ _ _ hs hr hl1) h

/-! ## C24, C25: the tables and their live handles along a sequence of calls -/

/-- The state component of `runLive` is the state `run` reaches. -/
theorem runLive_state (steps : List Step) (s : State) (live : Live) (p : State × Live)
    (h : runLive s live steps = some p) : run s steps = some p.1 := by
  induction steps generalizing s live with
  | nil =>
    simp only [runLive, Option.some.injEq] at h
    subst h
    rfl
  | cons q rest ih =>
    simp only [runLive] at h
    split at h
    · cases h
    · next ret hr =>
      split at h
      · cases h
      · next live1 hl1 =>
        simp only [run, hr]
        exact ih ret.st live1 h

/-- The growth step of a create wrapper leaves a free slot at index `count`. -/
theorem Table.grow_free {t : Table} {l : List Int} (hg : t.Good l) :
    0 ≤ t.grow.count ∧ t.grow.count < t.grow.count_max ∧
      t.grow.dict.length = t.grow.count_max.toNat := by
  have h := Table.good_grow hg
  obtain ⟨h0, h1, _, h3, _, _, _⟩ := h.1
  exact ⟨by omega, h.2, h3⟩

/-- C24: after every sequence of calls from program start whose destroys are
performed on live handles, every one of the seven entity tables satisfies
`0 <= n <= count <= count_max` and its array has `count_max` slots; the single
growth step of a create wrapper then leaves `count < count_max`, so the slot
index `count` it passes to the library is inside the array; the growth loop of
a multigrid wrapper terminates with `count + 2 < count_max`, so the indices
`count`, `count + 1`, `count + 2` are inside the array; and every handle a
call newly issues is an index inside the table's array after the call. -/
theorem tables_stay_bounded (steps : List Step) (p : State × Live)
    (h : runLive State.init (fun _ => []) steps = some p) :
    (∀ T : Tbl, T ≠ .CeedRequest →
      0 ≤ (p.1.table T).n ∧ (p.1.table T).n ≤ (p.1.table T).count ∧
      (p.1.table T).count ≤ (p.1.table T).count_max ∧
      (p.1.table T).dict.length = (p.1.table T).count_max.toNat ∧
      0 ≤ (p.1.table T).grow.count ∧
      (p.1.table T).grow.count < (p.1.table T).grow.count_max ∧
      (p.1.table T).grow.dict.length = (p.1.table T).grow.count_max.toNat) ∧
    (∀ a b c : Obj, ∃ t1, registerThree p.1.CeedOperator a b c = some t1 ∧
      p.1.CeedOperator.count + 2 < t1.count_max ∧
      t1.dict.length = t1.count_max.toNat ∧
      t1.count = p.1.CeedOperator.count + 3 ∧ t1.n = p.1.CeedOperator.n + 3) ∧
    (∀ (e : Entry) (lib : Oracle) (err : Int) (ret : Ret), e.destroys = none →
      exec e lib p.1 err = some ret → ∀ T : Tbl, T ≠ .CeedRequest →
      ∀ x ∈ issued (p.1.table T).count (ret.st.table T).count,
        0 ≤ x ∧ x < (ret.st.table T).count_max ∧ x.toNat < (ret.st.table T).dict.length) := by
  have hinv := runLive_inv steps State.init (fun _ => []) p liveInv_init h
  refine ⟨fun T hT => ?_, fun a b c => ?_, fun e lib err ret he hr T hT x hx => ?_⟩
  · have hg := hinv T hT
    have hf := Table.grow_free hg
    obtain ⟨h0, h1, h2, h3, _, _, _⟩ := hg
    exact ⟨h0, h1, h2, h3, hf.1, hf.2.1, hf.2.2⟩
  · have hg := hinv .CeedOperator (by decide)
    simp only [State.table] at hg
    have h0 := hg.1
    have h1 := hg.2.1
    have h2 := hg.2.2.1
    obtain ⟨t1, ht, _, _, _, hc, hn⟩ := registerThree_spec p.1.CeedOperator a b c
      (by omega) (by omega)
    have hg1 := Table.good_three hg a b c ht
    obtain ⟨_, _, g2, g3, _, _, _⟩ := hg1
    exact ⟨t1, ht, by omega, g3, hc, hn⟩
  · have hl : liveAfter e p.1 ret p.2 =
        some (fun T => p.2 T ++ issued (p.1.table T).count (ret.st.table T).count) := by
      simp only [liveAfter, he]
    have hg := exec_live e lib p.1 err ret p.2 _ hinv hr hl T hT
    obtain ⟨_, _, g2, g3, _, g5, _⟩ := hg
    have hm := g5 x (List.mem_append_right _ hx)
    refine ⟨hm.1, by omega, ?_⟩
    rw [g3]
    omega

/-- C24 at a concrete run: `demoSteps` is admitted (its destroy is performed
on the live vector 0), and the vector table it leaves satisfies
`0 <= n <= count <= count_max`. -/
theorem tables_stay_bounded_witness :
    ∃ p : State × Live, runLive State.init (fun _ => []) demoSteps = some p ∧
      0 ≤ p.1.CeedVector.n ∧ p.1.CeedVector.n ≤ p.1.CeedVector.count ∧
      p.1.CeedVector.count ≤ p.1.CeedVector.count_max :=
  Exists.elim (Option.isSome_iff_exists.1
      (by decide : (runLive State.init (fun _ => []) demoSteps).isSome = true))
    (fun p hp =>
      ⟨p, hp, ((tables_stay_bounded demoSteps p hp).1 .CeedVector (by decide)).1,
        ((tables_stay_bounded demoSteps p hp).1 .CeedVector (by decide)).2.1,
        ((tables_stay_bounded demoSteps p hp).1 .CeedVector (by decide)).2.2.1⟩)

/-- C25: after every sequence of calls from program start whose destroys are
performed on live handles, in every one of the seven entity tables the live
handles are pairwise distinct and lie in `[0, count)`, `n` is the number of
live handles, and no handle a further call newly issues is a live handle; in
particular the handle a successful `fCeedVectorCreate` returns, and the vector
and restriction handles a successful `fCeedOperatorLinearAssembleQFunction`
returns, differ from every live handle of their tables. -/
theorem live_handle_never_reissued (steps : List Step) (p : State × Live)
    (h : runLive State.init (fun _ => []) steps = some p) :
    (∀ T : Tbl, T ≠ .CeedRequest →
      (p.2 T).Nodup ∧ (∀ x ∈ p.2 T, 0 ≤ x ∧ x < (p.1.table T).count) ∧
      (p.1.table T).n = ((p.2 T).length : Int) ∧
      (∀ (e : Entry) (lib : Oracle) (err : Int) (ret : Ret), e.destroys = none →
        exec e lib p.1 err = some ret →
        (∀ x ∈ issued (p.1.table T).count (ret.st.table T).count, x ∉ p.2 T) ∧
        (p.2 T ++ issued (p.1.table T).count (ret.st.table T).count).Nodup ∧
        (ret.st.table T).n =
          (((p.2 T ++ issued (p.1.table T).count (ret.st.table T).count).length : Nat) :
            Int))) ∧
    (∀ (lib : Oracle) (ceed length vec err : Int), (lib .CeedVectorCreate 0).ierr = 0 →
      ∃ x, (fCeedVectorCreate lib p.1 ceed length vec err).out = [x] ∧
        x ∉ p.2 .CeedVector) ∧
    (∀ (lib : Oracle) (op assembledvec assembledrstr rqst err : Int),
      (lib .CeedOperatorLinearAssembleQFunction 0).ierr = 0 →
      ∃ x y r, (fCeedOperatorLinearAssembleQFunction lib p.1 op assembledvec assembledrstr
          rqst err).out = [x, y, r] ∧
        x ∉ p.2 .CeedVector ∧ y ∉ p.2 .CeedElemRestriction) := by
  have hinv := runLive_inv steps State.init (fun _ => []) p liveInv_init h
  have hv := (hinv .CeedVector (by decide)).2.2.2.2.2.1
  have hr := (hinv .CeedElemRestriction (by decide)).2.2.2.2.2.1
  simp only [State.table] at hv hr
  refine ⟨?_, fun lib ceed length vec err hc => ⟨p.1.CeedVector.count, ?_,
    fun hm => lt_irrefl _ (hv _ hm).2⟩, fun lib op assembledvec assembledrstr rqst err hc =>
    ⟨p.1.CeedVector.count, p.1.CeedElemRestriction.count,
      if createRequest rqst = true then (growRequest rqst p.1.CeedRequest).count else rqst, ?_,
      fun hm => lt_irrefl _ (hv _ hm).2, fun hm => lt_irrefl _ (hr _ hm).2⟩⟩
  rotate_left
  · simp [fCeedVectorCreate, hc]
  · simp [fCeedOperatorLinearAssembleQFunction, hc, storeRequest]
    split_ifs <;> simp
  intro T hT
  obtain ⟨_, _, _, _, g4, g5, g6⟩ := hinv T hT
  refine ⟨g4, g5, g6, fun e lib err ret he hr => ?_⟩
  have hl : liveAfter e p.1 ret p.2 =
      some (fun T => p.2 T ++ issued (p.1.table T).count (ret.st.table T).count) := by
    simp only [liveAfter, he]
  have hg := exec_live e lib p.1 err ret p.2 _ hinv hr hl T hT
  obtain ⟨_, _, _, _, k4, _, k6⟩ := hg
  refine ⟨fun x hx hmem => ?_, k4, k6⟩
  have h1 := (g5 x hmem).2
  have h2 := (mem_issued hx).1
  omega

/-- C25 at a concrete run: after `demoSteps` (vectors 0 and 1 created, vector 0
destroyed) the live vector handles are distinct, below `count`, and `n` counts
them. -/
theorem live_handle_never_reissued_witness :
    ∃ p : State × Live, runLive State.init (fun _ => []) demoSteps = some p ∧
      (p.2 .CeedVector).Nodup ∧
      (∀ x ∈ p.2 .CeedVector, 0 ≤ x ∧ x < p.1.CeedVector.count) ∧
      p.1.CeedVector.n = ((p.2 .CeedVector).length : Int) :=
  Exists.elim (Option.isSome_iff_exists.1
      (by decide : (runLive State.init (fun _ => []) demoSteps).isSome = true))
    (fun p hp =>
      ⟨p, hp, ((live_handle_never_reissued demoSteps p hp).1 .CeedVector (by decide)).1,
        ((live_handle_never_reissued demoSteps p hp).1 .CeedVector (by decide)).2.1,
        ((live_handle_never_reissued demoSteps p hp).1 .CeedVector (by decide)).2.2.1⟩)

end LibCeed
